import Mathlib

/-!
# Registrar request tracking system: authentication core and request pipeline

A shallow embedding of `backend/src/services/authService.js`,
`accessControlService.js` and `dataEntryService.js`.

Conventions of the embedding

* A JavaScript string is a Lean `String`; the string methods used by the
  services are defined on the list of characters (`String.data`).
  `toLowerCase`/`toUpperCase` act on the ASCII letters.
* A value whose JavaScript type is not fixed by the caller (a login
  credential, a session token) is a `JsValue`.  An optional object property is
  an `Option`; `none` stands for a missing, `undefined` or `null` property.
* A plain object used as a dictionary (`rolesPermissions`,
  `ROLE_HIERARCHY`, `DOMAIN_ROLE_RESTRICTIONS`, `statusOrder`) answers a
  bracket lookup with its own property, with a property inherited from
  `Object.prototype`, or with `undefined`: see `Lookup`.
* A `Map` is an association list in insertion order (`mapGet`, `mapSet`,
  `mapDelete`).  Objects stored in a map are mutated in place by the source;
  the embedding writes the updated object back under its key.
* `Date.now()` is an explicit argument in milliseconds.  A timestamp kept by
  the source as an ISO string (`new Date().toISOString()`) is kept as the
  millisecond count it denotes.  `login` is the only operation that suspends
  (the artificial password delay): it takes the clock before (`now`) and after
  (`later`) the delay.  Every other operation reads the clock once.
* `Math.random()` and `crypto.randomBytes` are explicit arguments.
* A JavaScript exception is `Except.error`.
-/

/-! ## JavaScript values and string primitives -/

/-- A JavaScript value, as far as the services distinguish them. -/
inductive JsValue where
  | undefined
  | null
  | bool (b : Bool)
  | number (n : Int)
  | string (s : String)
  | object
deriving DecidableEq, Repr

namespace JsValue

/-- JavaScript truthiness (`!!v`). -/
def truthy : JsValue → Bool
  | undefined => false
  | null => false
  | bool b => b
  | number n => n != 0
  | string s => s != ""
  | object => true

end JsValue

/-- Truthiness of an optional string property: missing and `''` are falsy. -/
def strTruthy : Option String → Bool
  | none => false
  | some s => s != ""

/-- The characters matched by `\s` in a regular expression; `String.prototype.trim`
removes the same set. -/
def isJsSpace (c : Char) : Bool :=
  c.val = 0x09 || c.val = 0x0A || c.val = 0x0B || c.val = 0x0C || c.val = 0x0D ||
  c.val = 0x20 || c.val = 0xA0 || c.val = 0x1680 ||
  (0x2000 ≤ c.val && c.val ≤ 0x200A) ||
  c.val = 0x2028 || c.val = 0x2029 || c.val = 0x202F || c.val = 0x205F ||
  c.val = 0x3000 || c.val = 0xFEFF

/-- Character-level `trim`. -/
def trimChars (l : List Char) : List Char :=
  ((l.dropWhile isJsSpace).reverse.dropWhile isJsSpace).reverse

/-- The method `String.prototype.trim`. -/
def jsTrim (s : String) : String := ⟨trimChars s.data⟩

/-- The method `String.prototype.toLowerCase` (ASCII letters). -/
def jsToLowerCase (s : String) : String := ⟨s.data.map Char.toLower⟩

/-- The method `String.prototype.toUpperCase` (ASCII letters). -/
def jsToUpperCase (s : String) : String := ⟨s.data.map Char.toUpper⟩

/-- Index of the first occurrence of `c` counted from `i`, or `-1`. -/
def indexOfFrom (c : Char) : List Char → Nat → Int
  | [], _ => -1
  | x :: xs, i => if x = c then (i : Int) else indexOfFrom c xs (i + 1)

/-- The call `s.indexOf(c)` for a one-character needle. -/
def jsIndexOf (s : String) (c : Char) : Int := indexOfFrom c s.data 0

/-- The call `s.substring(start)`: a negative start counts as `0`. -/
def jsSubstringFrom (s : String) (start : Int) : String := ⟨s.data.drop start.toNat⟩

/-- The call `s.startsWith(p)`. -/
def jsStartsWith (s p : String) : Bool := p.data.isPrefixOf s.data

/-- The call `s.endsWith(p)`. -/
def jsEndsWith (s p : String) : Bool := p.data.isSuffixOf s.data

/-- Digit of `Number.prototype.toString(36)`. -/
def base36Digit (d : Nat) : Char :=
  if d < 10 then Char.ofNat (48 + d) else Char.ofNat (87 + d)

/-- Digits of `n` in base 36, most significant first, prepended to `acc`. -/
def toBase36Aux : Nat → Nat → List Char → List Char
  | 0, _, acc => acc
  | fuel + 1, n, acc =>
    if n < 36 then base36Digit n :: acc
    else toBase36Aux fuel (n / 36) (base36Digit (n % 36) :: acc)

/-- The call `n.toString(36)` for a non-negative integer. -/
def toBase36 (n : Nat) : String := ⟨toBase36Aux (n + 1) n []⟩

/-- The test of `/^[^\s@]+@[^\s@]+\.[^\s@]+$/` (the e-mail pattern of both
services): a non-empty part free of white space and `@`, one `@`, then a part
free of white space and `@` that has a dot with at least one character on
either side. -/
def emailPatternTest (s : String) : Bool :=
  let plain := fun (c : Char) => !isJsSpace c && c != '@'
  let localPart := s.data.takeWhile plain
  match s.data.dropWhile plain with
  | [] => false
  | c :: rest =>
    c == '@' && !localPart.isEmpty && rest.all plain &&
      ((rest.drop 1).dropLast).contains '.'

deriving instance DecidableEq for Except

/-! ## Plain objects used as dictionaries -/

/-- Result of `table[key]` on an object literal. -/
inductive Lookup (α : Type) where
  | own (v : α)
  | inherited
  | absent
deriving DecidableEq, Repr

/-- Property names every object literal inherits from `Object.prototype`;
each of them holds a truthy value (a function, or the prototype itself). -/
def objectPrototypeKeys : List String :=
  ["constructor", "hasOwnProperty", "isPrototypeOf", "propertyIsEnumerable",
   "toLocaleString", "toString", "valueOf", "__proto__", "__defineGetter__",
   "__defineSetter__", "__lookupGetter__", "__lookupSetter__"]

/-- The lookup `table[key]`. -/
def lookupProp {α : Type} (table : List (String × α)) (key : String) : Lookup α :=
  match table.lookup key with
  | some v => Lookup.own v
  | none => if objectPrototypeKeys.contains key then Lookup.inherited else Lookup.absent

/-! ## Maps -/

/-- The call `map.get(key)`. -/
def mapGet {α : Type} (m : List (String × α)) (key : String) : Option α :=
  m.lookup key

/-- The call `map.set(key, v)`: an existing key keeps its position. -/
def mapSet {α : Type} : List (String × α) → String → α → List (String × α)
  | [], key, v => [(key, v)]
  | (k, x) :: rest, key, v =>
    if k = key then (k, v) :: rest else (k, x) :: mapSet rest key v

/-- The call `map.delete(key)`: no entry is left under the key. -/
def mapDelete {α : Type} (m : List (String × α)) (key : String) : List (String × α) :=
  m.filter (fun kv => kv.1 != key)


/-! ## authService.js: static tables -/

/-- A user record; a property that is absent (or `null`) is `none`. -/
structure User where
  email : Option String
  role : Option String
  password : Option String
deriving DecidableEq, Repr

/-- The module constant `authorizedUsers`. -/
def authorizedUsers : List User :=
  [ { email := some "sysadmin@xu.edu.ph", role := some "SystemAdministrator",
      password := some "SysAdmin123!" },
    { email := some "registrar@xu.edu.ph", role := some "UniversityRegistrar",
      password := some "Registrar456!" },
    { email := some "evaluator@xu.edu.ph", role := some "Evaluator",
      password := some "Evaluator789!" },
    { email := some "assistant@my.xu.edu.ph", role := some "StudentAssistant",
      password := some "Assistant000!" },
    { email := some "intern@my.xu.edu.ph", role := some "Intern",
      password := some "Intern111!" } ]

/-- The module constant `rolesPermissions` (the same literal in
`authService.js` and `accessControlService.js`). -/
def rolesPermissions : List (String × List String) :=
  [ ("SystemAdministrator",
      ["manage_access_control", "whitelist_users", "assign_roles",
       "view_all_audit_logs", "manage_system_config", "create_users",
       "delete_users", "modify_user_roles"]),
    ("UniversityRegistrar",
      ["create_requests", "read_all_requests", "update_all_requests",
       "delete_requests", "assign_staff_permissions", "manage_interns_assistants",
       "sign_documents", "release_documents", "view_all_audit_logs",
       "manage_user_access", "delegate_permissions"]),
    ("Evaluator",
      ["create_requests", "read_assigned_requests", "update_request_status",
       "mark_request_issued", "mark_request_printed", "edit_request_data",
       "view_own_audit_logs", "process_documents"]),
    ("StudentAssistant",
      ["read_assigned_requests", "update_request_info", "verify_request_data",
       "coordinate_with_registrar", "view_assigned_audit_logs"]),
    ("Intern",
      ["read_assigned_requests", "verify_request_data", "view_limited_audit_logs"]) ]

/-- The field `VALID_DOMAINS`. -/
def VALID_DOMAINS : List String := ["@xu.edu.ph", "@my.xu.edu.ph"]

/-- The field `SESSION_TIMEOUT`: 24 hours in milliseconds. -/
def SESSION_TIMEOUT : Nat := 24 * 60 * 60 * 1000

/-- The field `MAX_LOGIN_ATTEMPTS`. -/
def MAX_LOGIN_ATTEMPTS : Nat := 5

/-- The field `LOCKOUT_DURATION`: 30 minutes in milliseconds. -/
def LOCKOUT_DURATION : Nat := 30 * 60 * 1000

/-- The field `ROLE_HIERARCHY`. -/
def ROLE_HIERARCHY : List (String × Int) :=
  [ ("SystemAdministrator", 4), ("UniversityRegistrar", 3), ("Evaluator", 2),
    ("StudentAssistant", 1), ("Intern", 0) ]

/-- The field `DOMAIN_ROLE_RESTRICTIONS`. -/
def DOMAIN_ROLE_RESTRICTIONS : List (String × List String) :=
  [ ("@xu.edu.ph", ["SystemAdministrator", "UniversityRegistrar", "Evaluator"]),
    ("@my.xu.edu.ph", ["StudentAssistant", "Intern"]) ]

/-! ## authService.js: state -/

/-- The object built by `_generateClientInfo`. -/
structure ClientInfo where
  timestamp : Nat
  userAgent : String
  ipAddress : String
  sessionSource : String
deriving DecidableEq, Repr

/-- A session object as stored in `activeSessions`. -/
structure Session where
  sessionId : String
  email : String
  role : String
  permissions : List String
  createdAt : Nat
  isActive : Bool
  lastAccessedAt : Nat
  roleLevel : JsValue
  domain : String
  destroyedAt : Option Nat := none
  destroyedBy : Option String := none
  clientInfo : Option ClientInfo := none
  loginMethod : Option String := none
deriving DecidableEq, Repr

/-- One element of the `attempts` array of a login-attempt record. -/
structure AttemptEntry where
  timestamp : Nat
  reason : String
  clientInfo : Option ClientInfo
deriving DecidableEq, Repr

/-- A record of the `loginAttempts` map. -/
structure LoginAttempt where
  failedAttempts : Nat
  lastAttempt : Option Nat
  lockedUntil : Option Nat
  attempts : List AttemptEntry
deriving DecidableEq, Repr

/-- The object returned by `getLoginAttempts`; `lockedUntil` is `none` when
the property is absent from the result, `some none` when it is `null`. -/
structure AttemptInfo where
  failedAttempts : Nat
  lastAttempt : Option Nat
  isLocked : Bool
  lockedUntil : Option (Option Nat)
deriving DecidableEq, Repr

/-- A value of the `details` object of a security event. -/
inductive AuditDetail where
  | text (key : String) (value : String)
  | count (key : String) (value : Nat)
  | attemptInfo (key : String) (value : AttemptInfo)
  | client (key : String) (value : ClientInfo)
deriving DecidableEq, Repr

/-- An entry of `securityAuditLog`. -/
structure AuditEntry where
  timestamp : Nat
  eventType : String
  action : String
  details : List AuditDetail
  severity : String
deriving DecidableEq, Repr

/-- The mutable state of an `AuthService` instance. -/
structure AuthService where
  activeSessions : List (String × Session)
  loginAttempts : List (String × LoginAttempt)
  securityAuditLog : List AuditEntry
deriving DecidableEq, Repr

namespace AuthService

/-- The state after `new AuthService()`. -/
def fresh : AuthService :=
  { activeSessions := [], loginAttempts := [], securityAuditLog := [] }

/-- The method `validateEmailDomain` on a string. -/
def validateEmailDomain (email : String) : Bool :=
  if email = "" then false
  else
    let normalizedEmail := jsToLowerCase email
    VALID_DOMAINS.contains (jsSubstringFrom normalizedEmail (jsIndexOf normalizedEmail '@'))

/-- The method `isUserInWhitelist`. -/
def isUserInWhitelist (email : JsValue) : Option User :=
  match email with
  | JsValue.string e =>
    if e = "" then none
    else
      match authorizedUsers.find? (fun user => user.email == some e) with
      | some explicitUser => some explicitUser
      | none =>
        if jsEndsWith e "@my.xu.edu.ph" then
          some { email := some e, role := some "StudentAssistant", password := none }
        else none
  | _ => none

/-- The method `validateRoleForDomain`.  When the computed domain names a
property inherited from `Object.prototype`, `allowedRoles` is truthy and has
no `includes` method, and the call throws. -/
def validateRoleForDomain (email role : Option String) : Except String Bool :=
  match email, role with
  | some e, some r =>
    if e = "" || r = "" then Except.ok false
    else
      let domain := jsSubstringFrom e (jsIndexOf e '@')
      match lookupProp DOMAIN_ROLE_RESTRICTIONS domain with
      | Lookup.own allowedRoles => Except.ok (allowedRoles.contains r)
      | Lookup.inherited => Except.error "TypeError: allowedRoles.includes is not a function"
      | Lookup.absent => Except.ok false
  | _, _ => Except.ok false

/-- The method `getRoleLevel`: `this.ROLE_HIERARCHY[role] || -1`. -/
def getRoleLevel (role : String) : JsValue :=
  match lookupProp ROLE_HIERARCHY role with
  | Lookup.own level => if level != 0 then JsValue.number level else JsValue.number (-1)
  | Lookup.inherited => JsValue.object
  | Lookup.absent => JsValue.number (-1)

/-- The operator `>=` on the values `getRoleLevel` returns: a non-number
converts to `NaN` and compares false. -/
def jsGe : JsValue → JsValue → Bool
  | JsValue.number a, JsValue.number b => decide (a ≥ b)
  | _, _ => false

/-- The method `hasEqualOrHigherRole`. -/
def hasEqualOrHigherRole (role1 role2 : String) : Bool :=
  jsGe (getRoleLevel role1) (getRoleLevel role2)

/-- The method `getRolePermissions`: `rolesPermissions[role] || []`. -/
def getRolePermissions (role : String) : Lookup (List String) :=
  match lookupProp rolesPermissions role with
  | Lookup.own permissions => Lookup.own permissions
  | Lookup.inherited => Lookup.inherited
  | Lookup.absent => Lookup.own []

/-- The method `_getEventSeverity`. -/
def _getEventSeverity (eventType action : String) : String :=
  if ["ACCOUNT_LOCKED", "INVALID_PASSWORD", "UNAUTHORIZED_USER"].contains action then "HIGH"
  else if ["INVALID_DOMAIN", "SESSION_CREATION_FAILED"].contains action then "MEDIUM"
  else if eventType = "LOGIN_SUCCESS" then "INFO"
  else "LOW"

/-- The method `_logSecurityEvent`: appends to `securityAuditLog`. -/
def _logSecurityEvent (self : AuthService) (now : Nat) (eventType action : String)
    (details : List AuditDetail) : AuthService :=
  { self with
    securityAuditLog := self.securityAuditLog ++
      [{ timestamp := now, eventType := eventType, action := action, details := details,
         severity := _getEventSeverity eventType action }] }

/-- The method `_generateSessionId`; `rnd` is
`Math.random().toString(36).substring(2)`. -/
def _generateSessionId (rnd : String) (now : Nat) : String :=
  "sess_" ++ rnd ++ toBase36 now

/-- The method `_isValidSessionId`. -/
def _isValidSessionId (sessionId : JsValue) : Bool :=
  match sessionId with
  | JsValue.string s => s != "" && jsStartsWith s "sess_"
  | _ => false

end AuthService

/-! ## authService.js: sessions -/

namespace AuthService

/-- The method `createSession`.  `none` in the result is the `null` return
value.  `now` is the clock and `rnd` the random part of the session id. -/
def createSession (self : AuthService) (user : Option User) (now : Nat) (rnd : String) :
    Except String (Option Session × AuthService) :=
  match user with
  | none => Except.ok (none, self)
  | some u =>
    match u.email, u.role with
    | some email, some role =>
      if email = "" || role = "" then Except.ok (none, self)
      else
        match lookupProp rolesPermissions role with
        | Lookup.absent => Except.ok (none, self)
        | permissions =>
          match validateRoleForDomain (some email) (some role) with
          | Except.error e => Except.error e
          | Except.ok false =>
            Except.ok (none,
              self._logSecurityEvent now "SESSION_CREATION" "INVALID_ROLE_FOR_DOMAIN"
                [AuditDetail.text "email" email, AuditDetail.text "role" role,
                 AuditDetail.text "domain" (jsSubstringFrom email (jsIndexOf email '@'))])
          | Except.ok true =>
            match permissions with
            | Lookup.own perms =>
              let sessionId := _generateSessionId rnd now
              let session : Session :=
                { sessionId := sessionId
                  email := email
                  role := role
                  permissions := perms
                  createdAt := now
                  isActive := true
                  lastAccessedAt := now
                  roleLevel := getRoleLevel role
                  domain := jsSubstringFrom email (jsIndexOf email '@') }
              Except.ok (some session,
                { self with activeSessions := mapSet self.activeSessions sessionId session })
            | _ => Except.error "TypeError: permissions is not iterable"
    | _, _ => Except.ok (none, self)

/-- The method `_isSessionExpired`. -/
def _isSessionExpired (session : Session) (now : Nat) : Bool :=
  decide (((now : Int) - (session.createdAt : Int)) > (SESSION_TIMEOUT : Int))

/-- The method `_expireSession`. -/
def _expireSession (self : AuthService) (sessionId : String) (now : Nat) : AuthService :=
  match mapGet self.activeSessions sessionId with
  | some session =>
    if session.isActive then
      { self with
        activeSessions := mapSet self.activeSessions sessionId
          { session with isActive := false, destroyedAt := some now,
                         destroyedBy := some "timeout" } }
    else self
  | none => self

/-- The method `hasPermission`. -/
def hasPermission (self : AuthService) (sessionId permission : String) (now : Nat) :
    Bool × AuthService :=
  match mapGet self.activeSessions sessionId with
  | none => (false, self)
  | some session =>
    if !session.isActive then (false, self)
    else if _isSessionExpired session now then (false, self._expireSession sessionId now)
    else (session.permissions.contains permission, self)

/-- The object returned by `logout`. -/
structure LogoutResult where
  success : Bool
  message : String
  sessionId : Option String := none
deriving DecidableEq, Repr

/-- The method `logout`. -/
def logout (self : AuthService) (sessionId : JsValue) (now : Nat) :
    LogoutResult × AuthService :=
  if !sessionId.truthy then
    ({ success := false, message := "Session ID is required" }, self)
  else
    match sessionId with
    | JsValue.string sid =>
      if !_isValidSessionId sessionId then
        ({ success := false, message := "Invalid session ID format" }, self)
      else
        match mapGet self.activeSessions sid with
        | none => ({ success := false, message := "Invalid or expired session" }, self)
        | some session =>
          if !session.isActive then
            ({ success := false, message := "Session already destroyed" }, self)
          else
            ({ success := true, message := "Session destroyed successfully",
               sessionId := some sid },
             { self with
               activeSessions := mapSet self.activeSessions sid
                 { session with isActive := false, destroyedAt := some now,
                                destroyedBy := some "user_logout" } })
    | _ => ({ success := false, message := "Invalid session ID format" }, self)

/-- The `user` part of the object returned by `validateSession`. -/
structure SessionUser where
  email : String
  role : String
  permissions : List String
deriving DecidableEq, Repr

/-- The object returned by `validateSession`. -/
structure SessionView where
  sessionId : String
  user : SessionUser
  isActive : Bool
  lastAccessedAt : Nat
  createdAt : Nat
deriving DecidableEq, Repr

/-- The method `validateSession`; `none` is the `null` return value. -/
def validateSession (self : AuthService) (token : JsValue) (now : Nat) :
    Option SessionView × AuthService :=
  if !token.truthy then (none, self)
  else
    match token with
    | JsValue.string tok =>
      if !_isValidSessionId token then (none, self)
      else
        match mapGet self.activeSessions tok with
        | none => (none, self)
        | some session =>
          if !session.isActive then (none, self)
          else if _isSessionExpired session now then (none, self._expireSession tok now)
          else
            let touched := { session with lastAccessedAt := now }
            (some { sessionId := touched.sessionId
                    user := { email := touched.email, role := touched.role,
                              permissions := touched.permissions }
                    isActive := touched.isActive
                    lastAccessedAt := touched.lastAccessedAt
                    createdAt := touched.createdAt },
             { self with activeSessions := mapSet self.activeSessions tok touched })
    | _ => (none, self)

/-- The object returned by `getSessionStatus`. -/
structure SessionStatus where
  isActive : Bool
  destroyedAt : Option Nat
  reason : Option String
  lastAccessedAt : Option Nat
  expiresAt : Option Nat
deriving DecidableEq, Repr

/-- The method `getSessionStatus`. -/
def getSessionStatus (self : AuthService) (sessionId : JsValue) (now : Nat) :
    Option SessionStatus × AuthService :=
  match sessionId with
  | JsValue.string sid =>
    if !_isValidSessionId sessionId then (none, self)
    else
      match mapGet self.activeSessions sid with
      | none => (none, self)
      | some session =>
        if _isSessionExpired session now then
          let self1 := self._expireSession sid now
          let destroyedAt :=
            match mapGet self1.activeSessions sid with
            | some s => s.destroyedAt
            | none => none
          (some { isActive := false, destroyedAt := destroyedAt, reason := some "timeout",
                  lastAccessedAt := none, expiresAt := none }, self1)
        else
          (some { isActive := session.isActive, destroyedAt := session.destroyedAt,
                  reason := none, lastAccessedAt := some session.lastAccessedAt,
                  expiresAt := some (session.createdAt + SESSION_TIMEOUT) }, self)
  | _ => (none, self)

/-- The loop of `cleanupExpiredSessions` over the entries of the map. -/
def cleanupLoop (now : Nat) : List (String × Session) → AuthService → Nat → AuthService × Nat
  | [], self, cleanedCount => (self, cleanedCount)
  | (sessionId, session) :: rest, self, cleanedCount =>
    if _isSessionExpired session now then
      cleanupLoop now rest (self._expireSession sessionId now) (cleanedCount + 1)
    else cleanupLoop now rest self cleanedCount

/-- The object returned by `cleanupExpiredSessions`. -/
structure CleanupResult where
  cleanedSessions : Nat
  activeSessions : Nat
deriving DecidableEq, Repr

/-- The method `cleanupExpiredSessions`. -/
def cleanupExpiredSessions (self : AuthService) (now : Nat) : CleanupResult × AuthService :=
  let (self1, cleanedCount) := cleanupLoop now self.activeSessions self 0
  ({ cleanedSessions := cleanedCount,
     activeSessions := (self1.activeSessions.filter (fun kv => kv.2.isActive)).length },
   self1)

end AuthService

/-! ## authService.js: login throttle and login -/

namespace AuthService

/-- The method `_clearFailedAttempts`. -/
def _clearFailedAttempts (self : AuthService) (email : String) : AuthService :=
  { self with loginAttempts := mapDelete self.loginAttempts email }

/-- The method `_isAccountLocked`: the answer and the state after the lazy
expiry of the record. -/
def _isAccountLocked (self : AuthService) (email : String) (now : Nat) : Bool × AuthService :=
  match mapGet self.loginAttempts email with
  | none => (false, self)
  | some attempts =>
    let expired :=
      match attempts.lockedUntil with
      | some lockoutExpiry => lockoutExpiry != 0 && decide (now > lockoutExpiry)
      | none => false
    if expired then (false, self._clearFailedAttempts email)
    else (decide (attempts.failedAttempts ≥ MAX_LOGIN_ATTEMPTS), self)

/-- The method `_recordFailedAttempt`. -/
def _recordFailedAttempt (self : AuthService) (email reason : String)
    (clientInfo : Option ClientInfo) (now : Nat) : AuthService :=
  let attempts : LoginAttempt :=
    match mapGet self.loginAttempts email with
    | some a => a
    | none => { failedAttempts := 0, lastAttempt := none, lockedUntil := none, attempts := [] }
  let attempts1 : LoginAttempt :=
    { attempts with
      failedAttempts := attempts.failedAttempts + 1
      lastAttempt := some now
      attempts := attempts.attempts ++
        [{ timestamp := now, reason := reason, clientInfo := clientInfo }] }
  let attempts2 : LoginAttempt :=
    if attempts1.failedAttempts ≥ MAX_LOGIN_ATTEMPTS then
      { attempts1 with lockedUntil := some (now + LOCKOUT_DURATION) }
    else attempts1
  { self with loginAttempts := mapSet self.loginAttempts email attempts2 }

/-- The method `getLoginAttempts`; computing `isLocked` may clear the record. -/
def getLoginAttempts (self : AuthService) (email : String) (now : Nat) :
    AttemptInfo × AuthService :=
  match mapGet self.loginAttempts email with
  | none =>
    ({ failedAttempts := 0, lastAttempt := none, isLocked := false, lockedUntil := none }, self)
  | some attempts =>
    let (locked, self1) := self._isAccountLocked email now
    ({ failedAttempts := attempts.failedAttempts, lastAttempt := attempts.lastAttempt,
       isLocked := locked, lockedUntil := some attempts.lockedUntil }, self1)

/-- The method `_getLockoutTimeRemaining`, in seconds. -/
def _getLockoutTimeRemaining (self : AuthService) (email : String) (now : Nat) : Nat :=
  match mapGet self.loginAttempts email with
  | none => 0
  | some attempts =>
    match attempts.lockedUntil with
    | none => 0
    | some lockedUntil =>
      if lockedUntil = 0 then 0
      else
        let remaining : Int := (lockedUntil : Int) - (now : Int)
        (max 0 (-((-remaining) / 1000))).toNat

/-- The method `_sanitizeLoginInput`: the reason of the failure, or the
cleaned e-mail and password. -/
def _sanitizeLoginInput (email password : JsValue) : Except String (String × String) :=
  if !email.truthy || !password.truthy then Except.error "Missing credentials"
  else
    match email, password with
    | JsValue.string e, JsValue.string p =>
      let cleanEmail := jsToLowerCase (jsTrim e)
      let cleanPassword := jsTrim p
      if cleanEmail = "" || cleanPassword = "" then Except.error "Empty credentials"
      else if !emailPatternTest cleanEmail then Except.error "Invalid email format"
      else Except.ok (cleanEmail, cleanPassword)
    | _, _ => Except.error "Invalid data type"

/-- The method `_generateClientInfo`. -/
def _generateClientInfo (now : Nat) : ClientInfo :=
  { timestamp := now, userAgent := "Node.js-AuthService/1.0", ipAddress := "127.0.0.1",
    sessionSource := "direct_login" }

/-- The `session` part of a successful login result. -/
structure LoginSession where
  sessionId : String
  expiresAt : Nat
  isActive : Bool
deriving DecidableEq, Repr

/-- The object returned by `login`. -/
structure LoginResult where
  success : Bool
  message : String
  errorCode : Option String := none
  retryAfter : Option Nat := none
  user : Option SessionUser := none
  session : Option LoginSession := none
  loginTimestamp : Option Nat := none
deriving DecidableEq, Repr

/-- The text logged for the e-mail of a rejected input: `email || 'null'`. -/
def emailOrNull (email : JsValue) : String :=
  match email with
  | JsValue.string e => if e = "" then "null" else e
  | JsValue.number n => if n = 0 then "null" else toString n
  | JsValue.bool b => if b then "true" else "null"
  | JsValue.object => "[object Object]"
  | _ => "null"

/-- The method `login`.  `now` is the clock of steps 1 to 4, `later` the
clock after the awaited delay of `_validatePasswordSecure` (steps 5 to 8),
`rnd` the random part of the session id. -/
def login (self : AuthService) (email password : JsValue) (now later : Nat) (rnd : String) :
    Except String (LoginResult × AuthService) :=
  let clientInfo := _generateClientInfo now
  match _sanitizeLoginInput email password with
  | Except.error reason =>
    Except.ok
      ({ success := false, message := "Email and password are required",
         errorCode := some "MISSING_CREDENTIALS" },
       self._logSecurityEvent now "LOGIN_ATTEMPT" "INVALID_INPUT"
         [AuditDetail.text "email" (emailOrNull email), AuditDetail.text "reason" reason])
  | Except.ok (cleanEmail, cleanPassword) =>
    let (locked, s1) := self._isAccountLocked cleanEmail now
    if locked then
      let (lockoutInfo, s2) := s1.getLoginAttempts cleanEmail now
      let s3 := s2._logSecurityEvent now "LOGIN_ATTEMPT" "ACCOUNT_LOCKED"
        [AuditDetail.text "email" cleanEmail, AuditDetail.attemptInfo "lockoutInfo" lockoutInfo]
      Except.ok
        ({ success := false,
           message := "Account temporarily locked due to multiple failed login attempts",
           errorCode := some "ACCOUNT_LOCKED",
           retryAfter := some (s3._getLockoutTimeRemaining cleanEmail now) }, s3)
    else if !validateEmailDomain cleanEmail then
      let s2 := s1._recordFailedAttempt cleanEmail "INVALID_DOMAIN" (some clientInfo) now
      Except.ok
        ({ success := false, message := "Invalid email domain",
           errorCode := some "INVALID_DOMAIN" },
         s2._logSecurityEvent now "LOGIN_ATTEMPT" "INVALID_DOMAIN"
           [AuditDetail.text "email" cleanEmail])
    else
      match isUserInWhitelist (JsValue.string cleanEmail) with
      | none =>
        let s2 := s1._recordFailedAttempt cleanEmail "UNAUTHORIZED_USER" (some clientInfo) now
        Except.ok
          ({ success := false, message := "User not authorized",
             errorCode := some "UNAUTHORIZED_USER" },
           s2._logSecurityEvent now "LOGIN_ATTEMPT" "UNAUTHORIZED_USER"
             [AuditDetail.text "email" cleanEmail])
      | some user =>
        if user.password != some cleanPassword then
          let s2 := s1._recordFailedAttempt cleanEmail "INVALID_PASSWORD" (some clientInfo) later
          let (info, s3) := s2.getLoginAttempts cleanEmail later
          Except.ok
            ({ success := false, message := "Invalid credentials",
               errorCode := some "INVALID_PASSWORD" },
             s3._logSecurityEvent later "LOGIN_ATTEMPT" "INVALID_PASSWORD"
               [AuditDetail.text "email" cleanEmail,
                AuditDetail.count "attemptCount" (info.failedAttempts + 1)])
        else
          match s1.createSession (some user) later rnd with
          | Except.error e => Except.error e
          | Except.ok (none, s2) =>
            Except.ok
              ({ success := false, message := "Failed to create session",
                 errorCode := some "SESSION_CREATION_FAILED" },
               s2._logSecurityEvent later "LOGIN_ATTEMPT" "SESSION_CREATION_FAILED"
                 [AuditDetail.text "email" cleanEmail])
          | Except.ok (some session, s2) =>
            let s3 := s2._clearFailedAttempts cleanEmail
            let session1 : Session :=
              { session with clientInfo := some clientInfo,
                             loginMethod := some "email_password" }
            let s4 : AuthService :=
              { s3 with activeSessions := mapSet s3.activeSessions session.sessionId session1 }
            let s5 := s4._logSecurityEvent later "LOGIN_SUCCESS" "USER_AUTHENTICATED"
              [AuditDetail.text "email" cleanEmail, AuditDetail.text "role" session.role,
               AuditDetail.text "sessionId" session.sessionId,
               AuditDetail.client "clientInfo" clientInfo]
            Except.ok
              ({ success := true, message := "Login successful",
                 user := some { email := session.email, role := session.role,
                                permissions := session1.permissions },
                 session := some { sessionId := session1.sessionId,
                                   expiresAt := session1.createdAt + SESSION_TIMEOUT,
                                   isActive := session1.isActive },
                 loginTimestamp := some now }, s5)

end AuthService

/-! ## Runs of login calls -/

namespace AuthService

/-- The arguments of one `login` call with string credentials. -/
structure LoginCall where
  email : String
  password : String
  now : Nat
  later : Nat
  rnd : String
deriving DecidableEq, Repr

/-- One `login` call. -/
def loginCall (self : AuthService) (c : LoginCall) : Except String (LoginResult × AuthService) :=
  self.login (JsValue.string c.email) (JsValue.string c.password) c.now c.later c.rnd

/-- Consecutive `login` calls on one service: the results in order and the
final state. -/
def loginRun : AuthService → List LoginCall → Except String (List LoginResult × AuthService)
  | self, [] => Except.ok ([], self)
  | self, c :: cs =>
    match self.loginCall c with
    | Except.error e => Except.error e
    | Except.ok (r, s1) =>
      match loginRun s1 cs with
      | Except.error e => Except.error e
      | Except.ok (rs, s2) => Except.ok (r :: rs, s2)

/-- The throttle table holds nothing but `k` failures of `e`, locked as `lockedUntil` says. -/
def ThrottleOnly (s : AuthService) (e : String) (k : Nat) (lockedUntil : Option Nat) : Prop :=
  (k = 0 ∧ lockedUntil = none ∧ s.loginAttempts = []) ∨
  (0 < k ∧ ∃ a, s.loginAttempts = [(e, a)] ∧ a.failedAttempts = k ∧ a.lockedUntil = lockedUntil)

end AuthService

/-! ## Runs of logout calls -/

namespace AuthService

/-- Consecutive `logout` calls with one session id, at the given clock
readings: the results in order and the final state. -/
def logoutRun : AuthService → JsValue → List Nat → List LogoutResult × AuthService
  | self, _, [] => ([], self)
  | self, sessionId, t :: ts =>
    let (r, s1) := self.logout sessionId t
    let (rs, s2) := logoutRun s1 sessionId ts
    (r :: rs, s2)

end AuthService

/-! ## Concrete values for instantiating the theorems -/

namespace AuthService

/-- The whitelisted record of `sysadmin@xu.edu.ph`. -/
def adminUser : User :=
  { email := some "sysadmin@xu.edu.ph", role := some "SystemAdministrator",
    password := some "SysAdmin123!" }

/-- The session `createSession` builds for `adminUser` at clock `1000` with
random part `abc`. -/
def adminSession : Session :=
  { sessionId := "sess_abcrs", email := "sysadmin@xu.edu.ph", role := "SystemAdministrator",
    permissions := ["manage_access_control", "whitelist_users", "assign_roles",
      "view_all_audit_logs", "manage_system_config", "create_users", "delete_users",
      "modify_user_roles"],
    createdAt := 1000, isActive := true, lastAccessedAt := 1000,
    roleLevel := JsValue.number 4, domain := "@xu.edu.ph" }

/-- A service that holds `adminSession` and nothing else. -/
def adminService : AuthService :=
  { activeSessions := [("sess_abcrs", adminSession)], loginAttempts := [],
    securityAuditLog := [] }

end AuthService

/-! ## Runs of validateSession calls -/

namespace AuthService

/-- Consecutive `validateSession` calls with one token, at the given clock
readings: the final state. -/
def validateRun : AuthService → JsValue → List Nat → AuthService
  | self, _, [] => self
  | self, token, t :: ts => validateRun (self.validateSession token t).2 token ts

end AuthService

/-! ## Throttle bookkeeping -/

namespace AuthService

/-- The failed-attempt count recorded for an e-mail (`0` without a record). -/
def attemptCount (self : AuthService) (email : String) : Nat :=
  match mapGet self.loginAttempts email with
  | none => 0
  | some attempts => attempts.failedAttempts

/-- A lock is recorded only on a record that has reached the threshold. -/
def LocksAtThreshold (self : AuthService) : Prop :=
  ∀ email attempts, mapGet self.loginAttempts email = some attempts →
    attempts.lockedUntil ≠ none → attempts.failedAttempts ≥ MAX_LOGIN_ATTEMPTS

end AuthService

namespace AuthService

/-- The five roles, highest rank first. -/
def roleRanking : List String :=
  ["SystemAdministrator", "UniversityRegistrar", "Evaluator", "StudentAssistant", "Intern"]

end AuthService

/-! ## Runs of operations -/

/-- One call of a state-changing public method of `AuthService` (the other
public methods only read the session table). -/
inductive AuthOp where
  | login (email password : JsValue) (now later : Nat) (rnd : String)
  | createSession (user : Option User) (now : Nat) (rnd : String)
  | validateSession (token : JsValue) (now : Nat)
  | hasPermission (sessionId permission : String) (now : Nat)
  | getSessionStatus (sessionId : JsValue) (now : Nat)
  | logout (sessionId : JsValue) (now : Nat)
  | cleanupExpiredSessions (now : Nat)
  | getLoginAttempts (email : String) (now : Nat)
deriving DecidableEq, Repr

namespace AuthOp

/-- The state after the call.  A call that throws stores no session; its
state is taken to be the state before the call. -/
def apply (s : AuthService) : AuthOp → AuthService
  | login email password now later rnd =>
    match s.login email password now later rnd with
    | Except.ok (_, s1) => s1
    | Except.error _ => s
  | createSession user now rnd =>
    match s.createSession user now rnd with
    | Except.ok (_, s1) => s1
    | Except.error _ => s
  | validateSession token now => (s.validateSession token now).2
  | hasPermission sessionId permission now => (s.hasPermission sessionId permission now).2
  | getSessionStatus sessionId now => (s.getSessionStatus sessionId now).2
  | logout sessionId now => (s.logout sessionId now).2
  | cleanupExpiredSessions now => (s.cleanupExpiredSessions now).2
  | getLoginAttempts email now => (s.getLoginAttempts email now).2

/-- The session id `_generateSessionId` returns during the call, for the
calls that create a session. -/
def newId : AuthOp → Option String
  | login _ _ _ later rnd => some (AuthService._generateSessionId rnd later)
  | createSession _ now rnd => some (AuthService._generateSessionId rnd now)
  | _ => none

/-- The state after a sequence of calls. -/
def run : AuthService → List AuthOp → AuthService
  | s, [] => s
  | s, op :: ops => run (op.apply s) ops

/-- Every session id generated during the run is unused at the moment it is
generated. -/
def FreshIds : AuthService → List AuthOp → Prop
  | _, [] => True
  | s, op :: ops =>
    (∀ id, op.newId = some id → mapGet s.activeSessions id = none) ∧ FreshIds (op.apply s) ops

end AuthOp

/-- Session `b` is a later state of session `a`: same id, e-mail, role,
permissions and creation time, and identical to `a` when `a` is inactive. -/
def Session.Evolves (a b : Session) : Prop :=
  a.sessionId = b.sessionId ∧ a.email = b.email ∧ a.role = b.role ∧
    a.permissions = b.permissions ∧ a.createdAt = b.createdAt ∧ (a.isActive = false → b = a)

/-- Every session of the table `m` is still stored under its key in `m1`, in
a later state. -/
def SessionsEvolve (m m1 : List (String × Session)) : Prop :=
  ∀ k a, mapGet m k = some a → ∃ b, mapGet m1 k = some b ∧ a.Evolves b

/-! ## Concrete runs for instantiating the theorems -/

namespace AuthService

/-- The session `adminSession` after `logout` at clock `2000`. -/
def loggedOutSession : Session :=
  { adminSession with isActive := false, destroyedAt := some 2000,
                      destroyedBy := some "user_logout" }

/-- A service that holds `loggedOutSession` and nothing else. -/
def loggedOutService : AuthService :=
  { activeSessions := [("sess_abcrs", loggedOutSession)], loginAttempts := [],
    securityAuditLog := [] }

/-- One call of each operation, all naming the session `sess_abcrs`. -/
def sampleOps : List AuthOp :=
  [AuthOp.validateSession (JsValue.string "sess_abcrs") 3000,
   AuthOp.hasPermission "sess_abcrs" "create_users" 3000,
   AuthOp.getSessionStatus (JsValue.string "sess_abcrs") 3000,
   AuthOp.logout (JsValue.string "sess_abcrs") 3000,
   AuthOp.createSession (some adminUser) 4000 "def",
   AuthOp.getLoginAttempts "sysadmin@xu.edu.ph" 4000,
   AuthOp.cleanupExpiredSessions 90000000]

end AuthService

namespace AuthService

/-- Every record of the throttle table has between one and five failed
attempts, and a lock exactly when it has five. -/
def ThrottleBounded (self : AuthService) : Prop :=
  ∀ kv ∈ self.loginAttempts,
    1 ≤ kv.2.failedAttempts ∧ kv.2.failedAttempts ≤ 5 ∧
      (kv.2.lockedUntil ≠ none ↔ kv.2.failedAttempts = 5)

end AuthService

/-! ## accessControlService.js -/

namespace AccessControlService

/-- The module constant `rolesPermissions` of `accessControlService.js`. -/
def rolesPermissions : List (String × List String) :=
  [ ("SystemAdministrator",
      ["manage_access_control", "whitelist_users", "assign_roles",
       "view_all_audit_logs", "manage_system_config", "create_users",
       "delete_users", "modify_user_roles"]),
    ("UniversityRegistrar",
      ["create_requests", "read_all_requests", "update_all_requests",
       "delete_requests", "assign_staff_permissions", "manage_interns_assistants",
       "sign_documents", "release_documents", "view_all_audit_logs",
       "manage_user_access", "delegate_permissions"]),
    ("Evaluator",
      ["create_requests", "read_assigned_requests", "update_request_status",
       "mark_request_issued", "mark_request_printed", "edit_request_data",
       "view_own_audit_logs", "process_documents"]),
    ("StudentAssistant",
      ["read_assigned_requests", "update_request_info", "verify_request_data",
       "coordinate_with_registrar", "view_assigned_audit_logs"]),
    ("Intern",
      ["read_assigned_requests", "verify_request_data", "view_limited_audit_logs"]) ]

/-- The method `_isValidStringInput`. -/
def _isValidStringInput (input : JsValue) : Bool :=
  match input with
  | JsValue.string s => s != "" && decide ((jsTrim s).data.length > 0)
  | _ => false

/-- The method `hasPermission`; an inherited property is not an array. -/
def hasPermission (userRole permission : JsValue) : Bool :=
  if !_isValidStringInput userRole || !_isValidStringInput permission then false
  else
    match userRole, permission with
    | JsValue.string role, JsValue.string perm =>
      match lookupProp rolesPermissions role with
      | Lookup.own rolePermissions => rolePermissions.contains perm
      | _ => false
    | _, _ => false

end AccessControlService

/-! ## dataEntryService.js: numbers, dates and patterns -/

/-- Decimal digit test, the class `\d`. -/
def isDigitChar (c : Char) : Bool := decide ('0' ≤ c) && decide (c ≤ '9')

/-- Value of a string of decimal digits. -/
def digitsValue (l : List Char) : Nat :=
  l.foldl (fun acc c => 10 * acc + (c.toNat - 48)) 0

/-- The property `length` of a string: UTF-16 code units. -/
def jsLength (s : String) : Nat :=
  (s.data.map (fun c => if c.val > 0xFFFF then 2 else 1)).sum

/-- Number of binary digits of `n`; `fuel` bounds the recursion, and `n`
itself is enough. -/
def bitLengthAux : Nat → Nat → Nat
  | 0, _ => 0
  | fuel + 1, n => if n = 0 then 0 else bitLengthAux fuel (n / 2) + 1

/-- Number of binary digits of `n`. -/
def bitLength (n : Nat) : Nat := bitLengthAux n n

/-- The integer part of the binary logarithm of the positive rational
`n / d`. -/
def binaryExponent (n d : Nat) : Int :=
  let a : Int := bitLength n
  let b : Int := bitLength d
  if a ≥ b then (if n ≥ d * 2 ^ (a - b).toNat then a - b else a - b - 1)
  else (if n * 2 ^ (b - a).toNat ≥ d then a - b else a - b - 1)

/-- The integer nearest to `p / q`, a tie going to the even one. -/
def roundHalfEven (p q : Nat) : Nat :=
  if 2 * (p % q) < q then p / q
  else if 2 * (p % q) > q then p / q + 1
  else p / q + (p / q) % 2

/-- A Number value.  A finite value is `±m × 2^e` in the form of IEEE 754
binary64: `m < 2^53` and `-1074 ≤ e ≤ 971`, with `2^52 ≤ m` unless
`e = -1074`; the zeros are `±0 × 2^(-1074)`. -/
inductive JsNumber where
  | nan
  | infinity (neg : Bool)
  | finite (neg : Bool) (m : Nat) (e : Int)
deriving DecidableEq, Repr

namespace JsNumber

/-- The Number value of the positive rational `n / d`: the nearest binary64
value, a tie going to the even significand, and `Infinity` from
`2^1024 - 2^970` on. -/
def ofRatio (neg : Bool) (n d : Nat) : JsNumber :=
  let e : Int := max (-1074) (binaryExponent n d - 52)
  let m : Nat :=
    if e ≥ 0 then roundHalfEven n (d * 2 ^ e.toNat) else roundHalfEven (n * 2 ^ (-e).toNat) d
  if m = 2 ^ 53 then (if e + 1 > 971 then infinity neg else finite neg (2 ^ 52) (e + 1))
  else if e > 971 then infinity neg
  else finite neg m e

/-- The Number value of the decimal `±digits × 10^exp`, as the engine reads
a decimal literal. -/
def ofDecimal (neg : Bool) (digits : Nat) (exp : Int) : JsNumber :=
  if digits = 0 then finite neg 0 (-1074)
  else if exp ≥ 0 then ofRatio neg (digits * 10 ^ exp.toNat) 1
  else ofRatio neg digits (10 ^ (-exp).toNat)

/-- The test `isNaN(x)`. -/
def isNaN : JsNumber → Bool
  | nan => true
  | _ => false

/-- The comparison `m1 × 2^e1 < m2 × 2^e2` of two magnitudes. -/
def magLt (m1 : Nat) (e1 : Int) (m2 : Nat) (e2 : Int) : Bool :=
  if m1 = 0 then decide (0 < m2)
  else if m2 = 0 then false
  else if e1 ≥ e2 then decide (m1 * 2 ^ (e1 - e2).toNat < m2)
  else decide (m1 < m2 * 2 ^ (e2 - e1).toNat)

/-- The comparison `x < y`. -/
def lt : JsNumber → JsNumber → Bool
  | nan, _ => false
  | _, nan => false
  | infinity n1, infinity n2 => n1 && !n2
  | infinity n1, finite _ _ _ => n1
  | finite _ _ _, infinity n2 => !n2
  | finite false m1 e1, finite false m2 e2 => magLt m1 e1 m2 e2
  | finite true m1 e1, finite true m2 e2 => magLt m2 e2 m1 e1
  | finite true m1 _, finite false m2 _ => decide (0 < m1) || decide (0 < m2)
  | finite false _ _, finite true _ _ => false

/-- The comparison `x > y`. -/
def gt (x y : JsNumber) : Bool := lt y x

/-- The Number `0`. -/
def zero : JsNumber := finite false 0 (-1074)

end JsNumber

/-- The optional exponent part of a decimal literal: `e`, an optional sign
and at least one digit; anything else is not part of the number. -/
def parseExponent : List Char → Int
  | c :: rest =>
    if c = 'e' || c = 'E' then
      match rest with
      | '-' :: ds =>
        if (ds.takeWhile isDigitChar).isEmpty then 0
        else -((digitsValue (ds.takeWhile isDigitChar) : Nat) : Int)
      | '+' :: ds => ((digitsValue (ds.takeWhile isDigitChar) : Nat) : Int)
      | ds => ((digitsValue (ds.takeWhile isDigitChar) : Nat) : Int)
    else 0
  | [] => 0

/-- The unsigned part of `parseFloat`: the longest prefix that is a decimal
literal. -/
def parseUnsigned (neg : Bool) (l : List Char) : JsNumber :=
  if "Infinity".data.isPrefixOf l then JsNumber.infinity neg
  else
    let intPart := l.takeWhile isDigitChar
    let afterInt := l.dropWhile isDigitChar
    match afterInt with
    | '.' :: afterDot =>
      let fracPart := afterDot.takeWhile isDigitChar
      if intPart.isEmpty && fracPart.isEmpty then JsNumber.nan
      else
        JsNumber.ofDecimal neg (digitsValue (intPart ++ fracPart))
          (parseExponent (afterDot.dropWhile isDigitChar) - (fracPart.length : Int))
    | _ =>
      if intPart.isEmpty then JsNumber.nan
      else JsNumber.ofDecimal neg (digitsValue intPart) (parseExponent afterInt)

/-- The function `parseFloat` on a string. -/
def jsParseFloat (s : String) : JsNumber :=
  match s.data.dropWhile isJsSpace with
  | '-' :: rest => parseUnsigned true rest
  | '+' :: rest => parseUnsigned false rest
  | l => parseUnsigned false l

/-- Days from 1970-01-01 to the first day of the given month of the
proleptic Gregorian calendar. -/
def daysFromCivil (y m : Int) : Int :=
  let y1 := if m ≤ 2 then y - 1 else y
  let era := y1 / 400
  let yoe := y1 - era * 400
  let mp := (m + 9) % 12
  let doy := (153 * mp + 2) / 5
  let doe := yoe * 365 + yoe / 4 - yoe / 100 + doy
  era * 146097 + doe - 719468

/-- The test of `/^\d{4}-\d{2}-\d{2}$/`. -/
def datePatternTest (s : String) : Bool :=
  match s.data with
  | [y1, y2, y3, y4, d1, m1, m2, d2, a1, a2] =>
    isDigitChar y1 && isDigitChar y2 && isDigitChar y3 && isDigitChar y4 && d1 == '-' &&
      isDigitChar m1 && isDigitChar m2 && d2 == '-' && isDigitChar a1 && isDigitChar a2
  | _ => false

/-- The time value of `new Date(s)` for a string of the form `YYYY-MM-DD`, as
Node's engine computes it: UTC midnight; the month must be 1 to 12 and the
day 1 to 31, and a day past the end of the month runs into the next month.
`none` is an invalid date. -/
def jsDateParse (s : String) : Option Int :=
  match s.data with
  | [y1, y2, y3, y4, _, m1, m2, _, a1, a2] =>
    let y := digitsValue [y1, y2, y3, y4]
    let m := digitsValue [m1, m2]
    let d := digitsValue [a1, a2]
    if 1 ≤ m && m ≤ 12 && 1 ≤ d && d ≤ 31 then
      some ((daysFromCivil y m + ((d : Int) - 1)) * 86400000)
    else none
  | _ => none

/-- The effect of `setHours(0, 0, 0, 0)` on a time value, in a zone whose
local time is UTC plus `tz` milliseconds. -/
def localMidnight (tz : Int) (t : Int) : Int :=
  ((t + tz) / 86400000) * 86400000 - tz

/-- The test of `NAME_PATTERN`, `/^[A-Za-z\s\-']+$/`. -/
def namePatternTest (s : String) : Bool :=
  !s.data.isEmpty &&
    s.data.all (fun c => c.isAlpha || isJsSpace c || c == '-' || c == '\'')

/-- The test of `CONTROL_NUMBER_PATTERN`, `/^\d{5}$/`. -/
def controlNumberPatternTest (s : String) : Bool :=
  s.data.length == 5 && s.data.all isDigitChar

/-- The test of `PHONE_PATTERN`, `/^09\d{9}$/`. -/
def phonePatternTest (s : String) : Bool :=
  match s.data with
  | '0' :: '9' :: rest => rest.length == 9 && rest.all isDigitChar
  | _ => false

/-- The expression `s.split('.')[1]`, for a string that contains a dot: the
text between the first dot and the next one. -/
def afterFirstDot (s : String) : List Char :=
  ((s.data.dropWhile (fun c => c != '.')).drop 1).takeWhile (fun c => c != '.')

/-! ## dataEntryService.js: section validators -/

/-- The object built by `_createValidationResult`; `sanitizedData` is `none`
when it is `null`. -/
structure ValidationResult (α : Type) where
  isValid : Bool
  errors : List String
  sanitizedData : Option α
deriving DecidableEq, Repr

/-- The student section as submitted; fields are strings when present. -/
structure StudentData where
  lastName : Option String := none
  firstName : Option String := none
  middleName : Option String := none
  year : Option String := none
  program : Option String := none
  contactNumber : Option String := none
  evaluator : Option String := none
deriving DecidableEq, Repr

/-- The object built by `_trimStudentData`, and by `_sanitizeStudentData`. -/
structure StudentRecord where
  lastName : String
  firstName : String
  middleName : String
  year : Option String
  program : String
  contactNumber : String
  evaluator : String
deriving DecidableEq, Repr

/-- The documents section as submitted; the quantity arrays hold integers. -/
structure DocumentsData where
  documents : Option (List String)
  originalQuantities : List Int
  authenticatedQuantities : List Int
  otherDocuments : Option String := none
deriving DecidableEq, Repr

/-- The object built by `_createDocumentsSanitizedData`. -/
structure DocumentsRecord where
  documents : List String
  originalQuantities : List Int
  authenticatedQuantities : List Int
  otherDocuments : String
  totalDocuments : Nat
  totalOriginalCopies : Int
  totalAuthenticatedCopies : Int
deriving DecidableEq, Repr

/-- The other-details section as submitted; text fields are strings when
present. -/
structure OtherDetails where
  controlNumber : Option String := none
  amount : Option String := none
  dueDate : Option String := none
  receiveOption : Option String := none
  mailingAddress : Option String := none
  emailAddress : Option String := none
  scannedAndEmail : JsValue := JsValue.undefined
deriving DecidableEq, Repr

/-- The `sanitizedData` object of `validateOtherDetails`: a property is
`none` while it has not been assigned. -/
structure OtherRecord where
  amount : Option JsNumber := none
  controlNumber : Option String := none
  dueDate : Option String := none
  receiveOption : Option String := none
  mailingAddress : Option String := none
  emailAddress : Option String := none
  scannedAndEmail : Option Bool := none
deriving DecidableEq, Repr

/-- The remarks section as submitted. -/
structure Remarks where
  comment : Option String := none
  isPublic : JsValue := JsValue.undefined
deriving DecidableEq, Repr

/-- The sanitized remarks. -/
structure RemarksRecord where
  comment : String
  isPublic : Bool
deriving DecidableEq, Repr

/-- One element of `statusHistory`. -/
structure StatusEntry where
  status : String
  updatedBy : String
  updatedAt : Nat
deriving DecidableEq, Repr

/-- A stored request. -/
structure Request where
  id : String
  trackingCode : String
  status : String
  controlNumber : Option String
  studentDetails : StudentRecord
  requestedDocuments : DocumentsRecord
  otherDetails : OtherRecord
  remarks : RemarksRecord
  createdBy : String
  createdAt : Nat
  updatedAt : Nat
  updatedBy : Option String := none
  statusHistory : List StatusEntry
deriving DecidableEq, Repr

/-- The caller's session as the data-entry service reads it. -/
structure UserSession where
  email : String
  role : JsValue
deriving DecidableEq, Repr

/-- The request data passed to `createRequest`; a section that is missing is
`none`. -/
structure RequestData where
  studentDetails : Option StudentData := none
  requestedDocuments : Option DocumentsData := none
  otherDetails : Option OtherDetails := none
  remarks : Option Remarks := none
deriving DecidableEq, Repr

/-- The mutable state of a `DataEntryService`: the `requests` map. -/
structure DataEntryService where
  requests : List (String × Request)
deriving DecidableEq, Repr

namespace DataEntryService

/-- The state after `new DataEntryService(accessControlService)`. -/
def fresh : DataEntryService := { requests := [] }

/-- The constant `VALID_YEARS`. -/
def VALID_YEARS : List String := ["1st Year", "2nd Year", "3rd Year", "4th Year", "5th Year"]

/-- The constant `VALID_DOCUMENT_TYPES`. -/
def VALID_DOCUMENT_TYPES : List String :=
  ["Transcript of Records", "Diploma", "Certificate of Enrollment",
   "Certificate of Graduation", "Certificate of Good Moral Character", "Other"]

/-- The constant `VALID_RECEIVE_OPTIONS`. -/
def VALID_RECEIVE_OPTIONS : List String := ["pickup", "mail", "email"]

/-- The constant `VALID_XU_DOMAINS`. -/
def VALID_XU_DOMAINS : List String := ["@xu.edu.ph", "@my.xu.edu.ph"]

/-- The constant `MAX_COMMENT_LENGTH`. -/
def MAX_COMMENT_LENGTH : Nat := 1000

/-- The constant `MAX_QUANTITY_PER_DOCUMENT`. -/
def MAX_QUANTITY_PER_DOCUMENT : Int := 100

/-- The constant `MAX_TOTAL_COPIES`. -/
def MAX_TOTAL_COPIES : Int := 100

/-- The constant `MAX_AMOUNT`, the Number `9999.99`. -/
def MAX_AMOUNT : JsNumber := JsNumber.ofDecimal false 999999 (-2)

/-- The expression `s ? s.trim() : ''` on an optional string. -/
def trimOrEmpty : Option String → String
  | some s => if s = "" then "" else jsTrim s
  | none => ""

/-- The method `_trimStudentData`. -/
def _trimStudentData (studentData : StudentData) : StudentRecord :=
  { lastName := trimOrEmpty studentData.lastName
    firstName := trimOrEmpty studentData.firstName
    middleName := trimOrEmpty studentData.middleName
    year := studentData.year
    program := trimOrEmpty studentData.program
    contactNumber := trimOrEmpty studentData.contactNumber
    evaluator := trimOrEmpty studentData.evaluator }

/-- The method `_validateRequiredStudentFields`: the messages it pushes. -/
def _validateRequiredStudentFields (t : StudentRecord) : List String :=
  (if t.lastName = "" then ["Last Name is required"] else []) ++
  (if t.firstName = "" then ["First Name is required"] else []) ++
  (if !strTruthy t.year then ["Year is required"] else []) ++
  (if t.program = "" then ["Program is required"] else []) ++
  (if t.contactNumber = "" then ["Contact Number is required"] else []) ++
  (if t.evaluator = "" then ["Evaluator is required"] else [])

/-- One iteration of `_validateStudentNameFormats`. -/
def nameFormatError (value label : String) : List String :=
  if value != "" && !namePatternTest value then
    [label ++ " can only contain letters, spaces, hyphens, and apostrophes"]
  else []

/-- The method `_validateStudentNameFormats`: the messages it pushes. -/
def _validateStudentNameFormats (t : StudentRecord) : List String :=
  nameFormatError t.lastName "Last Name" ++ nameFormatError t.firstName "First Name" ++
    nameFormatError t.middleName "Middle Name"

/-- The method `_validateStudentYear`: the messages it pushes. -/
def _validateStudentYear (t : StudentRecord) : List String :=
  match t.year with
  | some y =>
    if y != "" && !VALID_YEARS.contains y then
      ["Year must be one of: 1st Year, 2nd Year, 3rd Year, 4th Year, 5th Year"]
    else []
  | none => []

/-- The method `_validatePhilippineNumber`. -/
def _validatePhilippineNumber (number : String) : Bool :=
  let cleanNumber : String :=
    ⟨number.data.filter (fun c => !(isJsSpace c || c == '-' || c == '(' || c == ')'))⟩
  phonePatternTest cleanNumber

/-- The method `_validateXUEmail`. -/
def _validateXUEmail (email : String) : Bool :=
  if !emailPatternTest email then false
  else VALID_XU_DOMAINS.any (fun domain => jsEndsWith (jsToLowerCase email) domain)

/-- The method `_validateStudentContactAndEvaluator`: the messages it pushes. -/
def _validateStudentContactAndEvaluator (t : StudentRecord) : List String :=
  (if t.contactNumber != "" && !_validatePhilippineNumber t.contactNumber then
    ["Invalid contact number format"] else []) ++
  (if t.evaluator != "" && !_validateXUEmail t.evaluator then
    ["Evaluator email must be from XU domain (@xu.edu.ph or @my.xu.edu.ph)"] else [])

/-- The method `_sanitizeStudentData`. -/
def _sanitizeStudentData (t : StudentRecord) : StudentRecord :=
  { lastName := jsToUpperCase t.lastName
    firstName := jsToUpperCase t.firstName
    middleName := jsToUpperCase t.middleName
    year := t.year
    program := t.program
    contactNumber := t.contactNumber
    evaluator := jsToLowerCase t.evaluator }

/-- The method `validateStudentDetails`. -/
def validateStudentDetails (studentData : Option StudentData) : ValidationResult StudentRecord :=
  match studentData with
  | none =>
    { isValid := false, errors := ["Student details are required"], sanitizedData := none }
  | some d =>
    let trimmedData := _trimStudentData d
    let errors := _validateRequiredStudentFields trimmedData ++
      _validateStudentNameFormats trimmedData ++ _validateStudentYear trimmedData ++
      _validateStudentContactAndEvaluator trimmedData
    { isValid := errors.isEmpty, errors := errors,
      sanitizedData := if errors.isEmpty then some (_sanitizeStudentData trimmedData) else none }

/-- The method `_validateSingleDocument`: the messages it pushes. -/
def _validateSingleDocument (docType : String) (originalQty authQty : Int) : List String :=
  (if !VALID_DOCUMENT_TYPES.contains docType then ["Invalid document type: " ++ docType]
   else []) ++
  (if originalQty < 0 || originalQty > MAX_QUANTITY_PER_DOCUMENT then
    ["Original quantities must be between 0 and 100"] else []) ++
  (if authQty < 0 || authQty > MAX_QUANTITY_PER_DOCUMENT then
    ["Authenticated quantities must be between 0 and 100"] else []) ++
  (if originalQty + authQty = 0 then
    ["Each document must have at least 1 copy (original or authenticated)"] else [])

/-- The loop of `_validateDocumentDetails`: messages and running totals.  The
three lists have the same length when it runs. -/
def documentLoop : List String → List Int → List Int → List String × Int × Int
  | docType :: docs, originalQty :: origs, authQty :: auths =>
    let (errs, totalOriginalCopies, totalAuthenticatedCopies) := documentLoop docs origs auths
    (_validateSingleDocument docType originalQty authQty ++ errs,
     originalQty + totalOriginalCopies, authQty + totalAuthenticatedCopies)
  | _, _, _ => ([], 0, 0)

/-- The method `_validateTotalCopies`: the messages it pushes. -/
def _validateTotalCopies (totalOriginalCopies totalAuthenticatedCopies : Int) : List String :=
  if totalOriginalCopies + totalAuthenticatedCopies > MAX_TOTAL_COPIES then
    ["Total copies per request cannot exceed 100"]
  else []

/-- The method `_validateOtherDocumentsSpecification`: the messages it pushes. -/
def _validateOtherDocumentsSpecification (documents : List String)
    (otherDocuments : Option String) : List String :=
  if documents.contains "Other" then
    if trimOrEmpty otherDocuments = "" then
      ["Other documents must be specified when \"Other\" is selected"]
    else []
  else []

/-- The method `validateRequestedDocuments`. -/
def validateRequestedDocuments (documentsData : Option DocumentsData) :
    ValidationResult DocumentsRecord :=
  match documentsData with
  | none =>
    { isValid := false, errors := ["Documents data is required"], sanitizedData := none }
  | some d =>
    match d.documents with
    | none =>
      { isValid := false, errors := ["At least one document must be selected"],
        sanitizedData := none }
    | some documents =>
      if documents.length = 0 then
        { isValid := false, errors := ["At least one document must be selected"],
          sanitizedData := none }
      else if documents.length ≠ d.originalQuantities.length ||
          documents.length ≠ d.authenticatedQuantities.length then
        { isValid := false, errors := ["Document arrays must have matching lengths"],
          sanitizedData := none }
      else
        let (errs, totalOriginalCopies, totalAuthenticatedCopies) :=
          documentLoop documents d.originalQuantities d.authenticatedQuantities
        let errors := errs ++ _validateTotalCopies totalOriginalCopies totalAuthenticatedCopies ++
          _validateOtherDocumentsSpecification documents d.otherDocuments
        { isValid := errors.isEmpty, errors := errors,
          sanitizedData :=
            if errors.isEmpty then
              some { documents := documents
                     originalQuantities := d.originalQuantities
                     authenticatedQuantities := d.authenticatedQuantities
                     otherDocuments := trimOrEmpty d.otherDocuments
                     totalDocuments := documents.length
                     totalOriginalCopies := totalOriginalCopies
                     totalAuthenticatedCopies := totalAuthenticatedCopies }
            else none }

/-- The method `controlNumberExists`. -/
def controlNumberExists (self : DataEntryService) (controlNumber : Option String) : Bool :=
  self.requests.any (fun kv => kv.2.controlNumber == controlNumber)

/-- The method `_validateControlNumber`: the messages it pushes. -/
def _validateControlNumber (self : DataEntryService) (controlNumber : Option String) :
    List String :=
  match controlNumber with
  | none => ["Control number is required"]
  | some c =>
    if c = "" || jsTrim c = "" then ["Control number is required"]
    else if !controlNumberPatternTest c then ["Control number must be 5 digits"]
    else if self.controlNumberExists (some c) then ["Control number already exists"]
    else []

/-- The method `_validateAmount`: the messages it pushes and the `amount`
it assigns to `sanitizedData`. -/
def _validateAmount (amount : Option String) : List String × Option JsNumber :=
  match amount with
  | none => (["Amount is required"], none)
  | some a =>
    if a = "" || jsTrim a = "" then (["Amount is required"], none)
    else
      let amountStr := jsTrim a
      let amountNum := jsParseFloat amountStr
      if amountNum.isNaN then (["Amount must be a valid number"], none)
      else if amountNum.lt JsNumber.zero then (["Amount must be 0 or positive"], none)
      else if amountNum.gt MAX_AMOUNT then
        (["Amount cannot exceed 9999.99"], none)
      else if amountStr.data.contains '.' && decide ((afterFirstDot amountStr).length > 2) then
        (["Amount cannot have more than 2 decimal places"], none)
      else ([], some amountNum)

/-- The method `_validateDueDate`: the messages it pushes.  `now` is the
clock and `tz` the offset of local time from UTC, both in milliseconds. -/
def _validateDueDate (dueDate : Option String) (now : Nat) (tz : Int) : List String :=
  match dueDate with
  | none => ["Due date is required"]
  | some d =>
    if d = "" || jsTrim d = "" then ["Due date is required"]
    else if !datePatternTest d then ["Due date must be in YYYY-MM-DD format"]
    else
      match jsDateParse d with
      | none => ["Due date must be a valid date"]
      | some date =>
        if localMidnight tz date < localMidnight tz (now : Int) then
          ["Due date cannot be in the past"]
        else []

/-- The method `_validateReceiveOption`: the messages it pushes. -/
def _validateReceiveOption (receiveOption mailingAddress emailAddress : Option String) :
    List String :=
  match receiveOption with
  | none => ["Receive option must be one of: pickup, mail, email"]
  | some r =>
    if r = "" || !VALID_RECEIVE_OPTIONS.contains r then
      ["Receive option must be one of: pickup, mail, email"]
    else
      (if r = "mail" && trimOrEmpty mailingAddress = "" then
        ["Mailing address is required for mail delivery"] else []) ++
      (if r = "email" && trimOrEmpty emailAddress = "" then
        ["Email address is required for email delivery"] else [])

/-- The method `validateOtherDetails`. -/
def validateOtherDetails (self : DataEntryService) (otherDetails : Option OtherDetails)
    (now : Nat) (tz : Int) : ValidationResult OtherRecord :=
  match otherDetails with
  | none =>
    { isValid := false, errors := ["Other details are required"], sanitizedData := none }
  | some o =>
    let (amountErrors, amount) := _validateAmount o.amount
    let errors := self._validateControlNumber o.controlNumber ++ amountErrors ++
      _validateDueDate o.dueDate now tz ++
      _validateReceiveOption o.receiveOption o.mailingAddress o.emailAddress
    { isValid := errors.isEmpty, errors := errors,
      sanitizedData :=
        if errors.isEmpty then
          some { amount := amount
                 controlNumber := o.controlNumber
                 dueDate := o.dueDate
                 receiveOption := o.receiveOption
                 mailingAddress := some (trimOrEmpty o.mailingAddress)
                 emailAddress := some (trimOrEmpty o.emailAddress)
                 scannedAndEmail := some o.scannedAndEmail.truthy }
        else some { amount := amount } }

/-- The method `validateRemarks`. -/
def validateRemarks (remarks : Option Remarks) : ValidationResult RemarksRecord :=
  match remarks with
  | none => { isValid := true, errors := [], sanitizedData := some { comment := "", isPublic := false } }
  | some r =>
    let errors :=
      (match r.comment with
        | some c =>
          if c != "" && decide (jsLength c > MAX_COMMENT_LENGTH) then
            ["Comment exceeds maximum length (1000 characters)"]
          else []
        | none => []) ++
      (match r.isPublic with
        | JsValue.bool _ => []
        | _ => ["Privacy setting must be boolean"])
    { isValid := errors.isEmpty, errors := errors,
      sanitizedData :=
        if errors.isEmpty then
          some { comment := r.comment.getD "", isPublic := r.isPublic.truthy }
        else none }

end DataEntryService

/-! ## dataEntryService.js: requests -/

namespace DataEntryService

/-- The object returned by `createRequest` and `updateRequestStatus`. -/
structure Response where
  success : Bool
  error : Option String := none
  message : Option String := none
  errors : Option (List String) := none
  data : Option Request := none
deriving DecidableEq, Repr

/-- The method `_createErrorResponse`. -/
def _createErrorResponse (error message : String) : Response :=
  { success := false, error := some error, message := some message }

/-- The method `_hasCreatePermissions`. -/
def _hasCreatePermissions (userSession : UserSession) : Bool :=
  AccessControlService.hasPermission userSession.role (JsValue.string "create_requests")

/-- The method `_hasUpdateStatusPermissions`. -/
def _hasUpdateStatusPermissions (userSession : UserSession) : Bool :=
  AccessControlService.hasPermission userSession.role (JsValue.string "update_request_status")

/-- The object built by `_validateAllRequestSections`. -/
structure SectionResults where
  student : ValidationResult StudentRecord
  documents : ValidationResult DocumentsRecord
  otherDetails : ValidationResult OtherRecord
  remarks : ValidationResult RemarksRecord
deriving DecidableEq, Repr

/-- The method `_validateAllRequestSections`. -/
def _validateAllRequestSections (self : DataEntryService) (requestData : RequestData)
    (now : Nat) (tz : Int) : SectionResults :=
  { student := validateStudentDetails requestData.studentDetails
    documents := validateRequestedDocuments requestData.requestedDocuments
    otherDetails := self.validateOtherDetails requestData.otherDetails now tz
    remarks := validateRemarks requestData.remarks }

/-- The method `_collectAllValidationErrors`. -/
def _collectAllValidationErrors (validationResults : SectionResults) : List String :=
  validationResults.student.errors ++ validationResults.documents.errors ++
    validationResults.otherDetails.errors ++ validationResults.remarks.errors

/-- The method `generateControlNumber`:
`Math.floor(10000 + Math.random() * 90000).toString()`, where `Math.random()`
is `rand / 2^53` and the arithmetic is exact. -/
def generateControlNumber (rand : Nat) : String :=
  toString (10000 + rand * 90000 / 2 ^ 53)

/-- The method `generateTrackingCode`. -/
def generateTrackingCode (lastName : String) (rand : Nat) : String :=
  jsToUpperCase lastName ++ "_" ++ generateControlNumber rand

/-- The method `_buildNewRequest`; `idHex` is
`crypto.randomBytes(8).toString('hex')`.  Reading a property of a `null`
`sanitizedData` throws. -/
def _buildNewRequest (validationResults : SectionResults) (userSession : UserSession)
    (now : Nat) (idHex : String) (rand : Nat) : Except String Request :=
  match validationResults.student.sanitizedData, validationResults.otherDetails.sanitizedData,
    validationResults.documents.sanitizedData, validationResults.remarks.sanitizedData with
  | some student, some other, some documents, some remarks =>
    Except.ok
      { id := "req_" ++ idHex
        trackingCode := generateTrackingCode student.lastName rand
        status := "Request Received"
        controlNumber := other.controlNumber
        studentDetails := student
        requestedDocuments := documents
        otherDetails := other
        remarks := remarks
        createdBy := userSession.email
        createdAt := now
        updatedAt := now
        statusHistory :=
          [{ status := "Request Received", updatedBy := userSession.email, updatedAt := now }] }
  | _, _, _, _ => Except.error "TypeError: Cannot read properties of null"

/-- The method `createRequest`.  `now` is the clock, `tz` the offset of local
time from UTC, `idHex` and `rand` the random values. -/
def createRequest (self : DataEntryService) (requestData : RequestData)
    (userSession : UserSession) (now : Nat) (tz : Int) (idHex : String) (rand : Nat) :
    Except String (Response × DataEntryService) :=
  if !_hasCreatePermissions userSession then
    Except.ok (_createErrorResponse "INSUFFICIENT_PERMISSIONS"
      "You do not have permission to create requests", self)
  else
    let validationResults := self._validateAllRequestSections requestData now tz
    let allErrors := _collectAllValidationErrors validationResults
    if allErrors.length > 0 then
      Except.ok ({ success := false, errors := some allErrors }, self)
    else
      match _buildNewRequest validationResults userSession now idHex rand with
      | Except.error e => Except.error e
      | Except.ok newRequest =>
        Except.ok ({ success := true, data := some newRequest },
          { self with requests := mapSet self.requests newRequest.id newRequest })

/-- The method `getRequestById`. -/
def getRequestById (self : DataEntryService) (requestId : String) : Option Request :=
  mapGet self.requests requestId

/-- The object returned by `_validateStatusTransition`. -/
structure TransitionResult where
  isValid : Bool
  errors : List String
deriving DecidableEq, Repr

/-- The local constant `statusOrder` of `_validateStatusTransition`. -/
def statusOrder : List (String × Int) :=
  [("Request Received", 0), ("Processing", 1), ("Ready for Pickup", 2)]

/-- The method `_validateStatusTransition`.  A current status that is not a
key of `statusOrder` gives `undefined` (or an inherited function), and both
comparisons with it are false. -/
def _validateStatusTransition (currentStatus newStatus : String) : TransitionResult :=
  let validStatuses := ["Request Received", "Processing", "Ready for Pickup"]
  if !validStatuses.contains newStatus then
    { isValid := false, errors := ["Invalid status value"] }
  else
    match lookupProp statusOrder currentStatus, lookupProp statusOrder newStatus with
    | Lookup.own currentStatusOrder, Lookup.own newStatusOrder =>
      if newStatusOrder < currentStatusOrder then
        { isValid := false, errors := ["Cannot move backwards in status"] }
      else if newStatusOrder > currentStatusOrder + 1 then
        { isValid := false, errors := ["Cannot skip Processing status"] }
      else { isValid := true, errors := [] }
    | _, _ => { isValid := true, errors := [] }

/-- The method `_updateRequestWithNewStatus`. -/
def _updateRequestWithNewStatus (request : Request) (newStatus : String)
    (userSession : UserSession) (now : Nat) : Request :=
  { request with
    status := newStatus
    updatedBy := some userSession.email
    updatedAt := now
    statusHistory := request.statusHistory ++
      [{ status := newStatus, updatedBy := userSession.email, updatedAt := now }] }

/-- The method `updateRequestStatus`. -/
def updateRequestStatus (self : DataEntryService) (requestId newStatus : String)
    (userSession : UserSession) (now : Nat) : Response × DataEntryService :=
  if !_hasUpdateStatusPermissions userSession then
    (_createErrorResponse "INSUFFICIENT_PERMISSIONS"
      "You do not have permission to update request status", self)
  else
    match self.getRequestById requestId with
    | none => (_createErrorResponse "REQUEST_NOT_FOUND" "Request not found", self)
    | some request =>
      let statusValidation := _validateStatusTransition request.status newStatus
      if !statusValidation.isValid then
        ({ success := false, errors := some statusValidation.errors }, self)
      else
        let request1 := _updateRequestWithNewStatus request newStatus userSession now
        ({ success := true, data := some request1 },
         { self with requests := mapSet self.requests requestId request1 })

/-- The arguments of one `createRequest` call. -/
structure CreateCall where
  requestData : RequestData
  userSession : UserSession
  now : Nat
  tz : Int
  idHex : String
  rand : Nat
deriving DecidableEq, Repr

/-- Consecutive `createRequest` calls on one service: the final state (a call
that throws leaves the state as it was). -/
def createRun : DataEntryService → List CreateCall → DataEntryService
  | self, [] => self
  | self, c :: cs =>
    match self.createRequest c.requestData c.userSession c.now c.tz c.idHex c.rand with
    | Except.ok (_, s1) => createRun s1 cs
    | Except.error _ => createRun self cs

/-- The request data of the test suite (`validRequestData`). -/
def sampleRequestData : RequestData :=
  { studentDetails := some
      { lastName := some "SANTOS", firstName := some "MARIA", middleName := some "GARCIA",
        year := some "4th Year", program := some "BS Computer Science",
        contactNumber := some "09171234567", evaluator := some "evaluator@xu.edu.ph" }
    requestedDocuments := some
      { documents := some ["Transcript of Records"], originalQuantities := [1],
        authenticatedQuantities := [0], otherDocuments := some "" }
    otherDetails := some
      { controlNumber := some "12345", amount := some "150.00", dueDate := some "2025-02-15",
        receiveOption := some "pickup", mailingAddress := some "",
        emailAddress := some "student@my.xu.edu.ph", scannedAndEmail := JsValue.bool false }
    remarks := some { comment := some "", isPublic := JsValue.bool true } }

/-- The evaluator session of the test suite. -/
def evaluatorSession : UserSession :=
  { email := "evaluator@xu.edu.ph", role := JsValue.string "Evaluator" }

end DataEntryService

namespace DataEntryService

/-- The request `createRequest` builds from `sampleRequestData` for the
evaluator at clock `1739577600000` (2025-02-15) with random values `00ff`
and `0`. -/
def sampleRequest : Request :=
  { id := "req_00ff"
    trackingCode := "SANTOS_10000"
    status := "Request Received"
    controlNumber := some "12345"
    studentDetails :=
      { lastName := "SANTOS", firstName := "MARIA", middleName := "GARCIA",
        year := some "4th Year", program := "BS Computer Science",
        contactNumber := "09171234567", evaluator := "evaluator@xu.edu.ph" }
    requestedDocuments :=
      { documents := ["Transcript of Records"], originalQuantities := [1],
        authenticatedQuantities := [0], otherDocuments := "", totalDocuments := 1,
        totalOriginalCopies := 1, totalAuthenticatedCopies := 0 }
    otherDetails :=
      { amount := some (JsNumber.ofDecimal false 15000 (-2)), controlNumber := some "12345",
        dueDate := some "2025-02-15", receiveOption := some "pickup",
        mailingAddress := some "", emailAddress := some "student@my.xu.edu.ph",
        scannedAndEmail := some false }
    remarks := { comment := "", isPublic := true }
    createdBy := "evaluator@xu.edu.ph"
    createdAt := 1739577600000
    updatedAt := 1739577600000
    statusHistory :=
      [{ status := "Request Received", updatedBy := "evaluator@xu.edu.ph",
         updatedAt := 1739577600000 }] }

/-- A service that holds `sampleRequest` and nothing else. -/
def sampleStore : DataEntryService := { requests := [("req_00ff", sampleRequest)] }

end DataEntryService

namespace DataEntryService

/-- The control numbers of the stored requests, in map order. -/
def controlNumbers (self : DataEntryService) : List (Option String) :=
  self.requests.map (fun kv => kv.2.controlNumber)

end DataEntryService

namespace DataEntryService

/-- Every stored control number is a five-digit string and no two stored
requests share one. -/
def ControlNumbersOk (ds : DataEntryService) : Prop :=
  ds.controlNumbers.Nodup ∧
    ∀ c ∈ ds.controlNumbers, ∃ s, c = some s ∧ s ≠ "" ∧ jsTrim s ≠ "" ∧
      controlNumberPatternTest s = true

end DataEntryService

/-- A sanitized student record passed back as a student section: every
property is present. -/
def StudentRecord.toData (r : StudentRecord) : StudentData :=
  { lastName := some r.lastName
    firstName := some r.firstName
    middleName := some r.middleName
    year := r.year
    program := some r.program
    contactNumber := some r.contactNumber
    evaluator := some r.evaluator }

namespace DataEntryService

/-- The `errors` array of `validateStudentDetails` after its four checks on
the trimmed data. -/
def studentErrors (t : StudentRecord) : List String :=
  _validateRequiredStudentFields t ++ _validateStudentNameFormats t ++ _validateStudentYear t ++
    _validateStudentContactAndEvaluator t

end DataEntryService

namespace DataEntryService

/-- A student section with surrounding blanks and mixed case. -/
def sampleStudentData : StudentData :=
  { lastName := some " Santos ", firstName := some "maria", middleName := some "",
    year := some "4th Year", program := some " BS Computer Science",
    contactNumber := some "09171234567", evaluator := some " Evaluator@XU.edu.ph " }

/-- The sanitized form of `sampleStudentData`. -/
def sampleStudentRecord : StudentRecord :=
  { lastName := "SANTOS", firstName := "MARIA", middleName := "", year := some "4th Year",
    program := "BS Computer Science", contactNumber := "09171234567",
    evaluator := "evaluator@xu.edu.ph" }

end DataEntryService

namespace DataEntryService

/-- The other-details section of the test suite. -/
def sampleOtherDetails : OtherDetails :=
  { controlNumber := some "12345", amount := some "150.00", dueDate := some "2025-02-15",
    receiveOption := some "pickup", mailingAddress := some "",
    emailAddress := some "student@my.xu.edu.ph", scannedAndEmail := JsValue.bool false }

end DataEntryService

/-! ## Runs of data-entry operations -/

/-- One call of a state-changing `DataEntryService` method, with the clock
and random values it reads. -/
inductive DataOp where
  | createRequest (c : DataEntryService.CreateCall)
  | updateRequestStatus (requestId newStatus : String) (userSession : UserSession) (now : Nat)
deriving DecidableEq, Repr

namespace DataOp

/-- The state after the call; a call that throws leaves the state as it
was. -/
def apply (ds : DataEntryService) : DataOp → DataEntryService
  | createRequest c =>
    match ds.createRequest c.requestData c.userSession c.now c.tz c.idHex c.rand with
    | Except.ok (_, ds1) => ds1
    | Except.error _ => ds
  | updateRequestStatus requestId newStatus userSession now =>
    (ds.updateRequestStatus requestId newStatus userSession now).2

/-- The request id `_buildNewRequest` generates during the call, for
`createRequest`. -/
def newId : DataOp → Option String
  | createRequest c => some ("req_" ++ c.idHex)
  | _ => none

/-- The state after a sequence of calls. -/
def run : DataEntryService → List DataOp → DataEntryService
  | ds, [] => ds
  | ds, op :: ops => run (op.apply ds) ops

/-- Every request id generated during the run is unused at the moment it is
generated. -/
def FreshIds : DataEntryService → List DataOp → Prop
  | _, [] => True
  | ds, op :: ops =>
    (∀ id, op.newId = some id → mapGet ds.requests id = none) ∧ FreshIds (op.apply ds) ops

end DataOp

/-- The status of the request is the status of the last entry of its
`statusHistory`. -/
def Request.StatusIsLast (r : Request) : Prop :=
  r.statusHistory.getLast?.map (fun e => e.status) = some r.status

/-- Request `b` is a later state of request `a`: the history of `a` is an
initial part of the history of `b`, and `b` has its status last in its history
when `a` has. -/
def Request.Extends (a b : Request) : Prop :=
  a.statusHistory <+: b.statusHistory ∧ (a.StatusIsLast → b.StatusIsLast)

/-! ## searchService.js -/

/-- A record of `SAMPLE_DATA`. -/
structure TrackingRecord where
  trackingCode : String
  surname : String
  controlNumber : String
  status : String
  documentType : String
  dateRequested : String
deriving DecidableEq, Repr

/-- The object returned by `searchTrackingCode`; `data` is `Lookup.absent`
when the result has no `data` property. -/
structure SearchResult where
  success : Bool
  error : Option String := none
  message : Option String := none
  data : Lookup TrackingRecord := Lookup.absent
deriving DecidableEq, Repr

/-- The call `s.split(sep)` for a one-character separator, on characters. -/
def splitChar (sep : Char) : List Char → List (List Char)
  | [] => [[]]
  | c :: rest =>
    if c = sep then [] :: splitChar sep rest
    else
      match splitChar sep rest with
      | hd :: tl => (c :: hd) :: tl
      | [] => [[c]]

/-- The call `s.split(/\s+/)`, on characters: the pieces between maximal runs
of white space. -/
def splitSpaces : List Char → List (List Char)
  | [] => [[]]
  | c :: rest =>
    if isJsSpace c then
      match rest with
      | d :: _ => if isJsSpace d then splitSpaces rest else [] :: splitSpaces rest
      | [] => [] :: splitSpaces rest
    else
      match splitSpaces rest with
      | hd :: tl => (c :: hd) :: tl
      | [] => [[c]]

/-- The test of `/^[A-Z_]+_\d+$/i` on characters: the trailing digits are
preceded by an underscore, and what precedes it is a non-empty run of letters
and underscores. -/
def validCodePatternTest (part : List Char) : Bool :=
  let digits := part.reverse.takeWhile isDigitChar
  match part.reverse.dropWhile isDigitChar with
  | '_' :: before =>
    !digits.isEmpty && !before.isEmpty && before.all (fun c => c.isAlpha || c == '_')
  | _ => false

namespace SearchService

/-- The module constant `SAMPLE_DATA`. -/
def SAMPLE_DATA : List (String × TrackingRecord) :=
  [ ("ERASMO_12345",
      { trackingCode := "ERASMO_12345", surname := "ERASMO", controlNumber := "12345",
        status := "Processing", documentType := "Transcript of Records",
        dateRequested := "2025-01-15" }),
    ("SANTOS_67890",
      { trackingCode := "SANTOS_67890", surname := "SANTOS", controlNumber := "67890",
        status := "Ready for Pickup", documentType := "Diploma",
        dateRequested := "2025-01-10" }),
    ("GARCIA_98765",
      { trackingCode := "GARCIA_98765", surname := "GARCIA", controlNumber := "98765",
        status := "Request Received", documentType := "Certificate of Enrollment",
        dateRequested := "2025-01-20" }) ]

/-- The module constant `CONTROL_NUMBER_TO_SURNAME`, filled from the values
of `SAMPLE_DATA`. -/
def CONTROL_NUMBER_TO_SURNAME : List (String × String) :=
  SAMPLE_DATA.foldl (fun acc kv => mapSet acc kv.2.controlNumber kv.2.surname) []

/-- The function `isValidFormat`. -/
def isValidFormat (code : JsValue) : Bool :=
  match code with
  | JsValue.string c =>
    let trimmedCode := jsTrim c
    if trimmedCode = "" then false
    else
      let underscoreCount := (trimmedCode.data.filter (fun ch => ch == '_')).length
      if underscoreCount ≠ 1 then false
      else
        match splitChar '_' trimmedCode.data with
        | [surname, controlNumber] =>
          if surname.isEmpty || decide (jsLength ⟨surname⟩ < 2) then false
          else if !surname.all Char.isAlpha then false
          else if controlNumber.isEmpty || decide (jsLength ⟨controlNumber⟩ < 2) then false
          else if !controlNumber.all isDigitChar then false
          else true
        | _ => false
  | _ => false

/-- The parts of `input.split(separator).map(part => part.trim())` that are
not empty. -/
def separatedParts (separator : Char) (input : String) : List (List Char) :=
  ((splitChar separator input.data).map trimChars).filter (fun part => decide (part.length > 0))

/-- The test `hasMultipleValidCodes` makes for one separator. -/
def multipleWithSeparator (input : String) (separator : Char) : Bool :=
  input.data.contains separator &&
    decide ((separatedParts separator input).length > 1) &&
    decide (((separatedParts separator input).filter validCodePatternTest).length > 1)

/-- The function `hasMultipleValidCodes`. -/
def hasMultipleValidCodes (input : String) : Bool :=
  if [',', ';', '\n', '|', '&'].any (multipleWithSeparator input) then true
  else
    let spaceParts := (splitSpaces input.data).filter (fun part => decide (part.length > 0))
    if decide (spaceParts.length > 1) &&
        decide ((spaceParts.filter validCodePatternTest).length > 1) then true
    else false

/-- The function `searchTrackingCode`. -/
def searchTrackingCode (trackingCode : JsValue) : SearchResult :=
  match trackingCode with
  | JsValue.string t =>
    if t = "" || jsTrim t = "" then
      { success := false, error := some "Invalid tracking code format",
        message := some ("Tracking code cannot be empty. Please use format: " ++
          "SURNAME_NUMBER (e.g., ERASMO_12345)") }
    else
      let trimmedCode := jsTrim t
      if hasMultipleValidCodes trimmedCode then
        { success := false, error := some "Multiple tracking codes not allowed",
          message := some ("Please enter only one tracking code at a time. Use format: " ++
            "SURNAME_NUMBER (e.g., ERASMO_12345)") }
      else if !isValidFormat (JsValue.string trimmedCode) then
        { success := false, error := some "Invalid tracking code format",
          message := some ("Invalid tracking code format. Please use format: " ++
            "SURNAME_NUMBER (e.g., ERASMO_12345)") }
      else
        let upperCaseCode := jsToUpperCase trimmedCode
        let mismatch : Bool :=
          match splitChar '_' upperCaseCode.data with
          | [surname, controlNumber] =>
            match lookupProp CONTROL_NUMBER_TO_SURNAME ⟨controlNumber⟩ with
            | Lookup.own known => known != "" && known != ⟨surname⟩
            | Lookup.inherited => true
            | Lookup.absent => false
          | _ => false
        if mismatch then
          { success := false, error := some "Surname mismatch",
            message := some ("The surname provided does not match our records for this " ++
              "control number. Please verify your tracking code.") }
        else
          match lookupProp SAMPLE_DATA upperCaseCode with
          | Lookup.absent =>
            { success := false, error := some "Tracking code not found",
              message := some ("Tracking code \"" ++ trimmedCode ++
                "\" does not exist in our system. Please verify and try again.") }
          | data => { success := true, data := data }
  | _ =>
    { success := false, error := some "Invalid tracking code format",
      message := some ("Tracking code cannot be empty. Please use format: " ++
        "SURNAME_NUMBER (e.g., ERASMO_12345)") }

end SearchService

namespace DataEntryService

/-- The request data of the test suite with another last name. -/
def requestDataFor (lastName : String) : RequestData :=
  { sampleRequestData with
    studentDetails := some
      { lastName := some lastName, firstName := some "MARIA", middleName := some "GARCIA",
        year := some "4th Year", program := some "BS Computer Science",
        contactNumber := some "09171234567", evaluator := some "evaluator@xu.edu.ph" } }

/-- The tracking code of the request the evaluator creates from
`requestDataFor lastName` on a new service, at clock `1739577600000` with
random value `rand / 2^53`; `none` when no request is created. -/
def createdTrackingCode (lastName : String) (rand : Nat) : Option String :=
  match fresh.createRequest (requestDataFor lastName) evaluatorSession 1739577600000 28800000
      "00ff" rand with
  | Except.ok (r, _) => r.data.map (fun req => req.trackingCode)
  | Except.error _ => none

end DataEntryService

/-! ## Facts about maps -/

theorem mapGet_mapSet_self {α : Type} (m : List (String × α)) (k : String) (v : α) :
    mapGet (mapSet m k v) k = some v := by
  induction m with
  | nil => simp [mapSet, mapGet, List.lookup]
  | cons hd tl ih =>
    obtain ⟨k', x⟩ := hd
    by_cases h : k' = k
    · subst h; simp [mapSet, mapGet, List.lookup]
    · have h' : (k == k') = false := by simpa using fun h2 => h h2.symm
      simp only [mapGet] at ih
      simp [mapSet, mapGet, h, List.lookup, h', ih]

theorem mapGet_mapSet_ne {α : Type} (m : List (String × α)) (k k' : String) (v : α)
    (hne : k' ≠ k) : mapGet (mapSet m k v) k' = mapGet m k' := by
  induction m with
  | nil =>
    have h' : (k' == k) = false := by simpa using hne
    simp [mapSet, mapGet, List.lookup, h']
  | cons hd tl ih =>
    obtain ⟨k0, x⟩ := hd
    simp only [mapGet] at ih
    by_cases h : k0 = k
    · subst h
      have h' : (k' == k0) = false := by simpa using hne
      simp [mapSet, mapGet, List.lookup, h']
    · by_cases h2 : k' = k0
      · subst h2; simp [mapSet, mapGet, List.lookup, h]
      · have h' : (k' == k0) = false := by simpa using h2
        simp [mapSet, mapGet, List.lookup, h, h', ih]

/-! ## Lockout after five failed logins -/

namespace AuthService

theorem trimChars_nil : trimChars [] = [] := by decide

theorem jsTrim_ne_empty {p : String} (h : jsTrim p ≠ "") : p ≠ "" := by
  intro hp; apply h; subst hp; decide

theorem jsToLowerCase_jsTrim_ne_empty {e' : String} (h : jsToLowerCase (jsTrim e') ≠ "") :
    e' ≠ "" := by
  intro hp; apply h; subst hp; decide

/-- Input sanitisation of a well-formed pair of credentials. -/
theorem sanitize_ok (e' p' : String) (hpat : emailPatternTest (jsToLowerCase (jsTrim e')) = true)
    (hp : jsTrim p' ≠ "") :
    _sanitizeLoginInput (JsValue.string e') (JsValue.string p') =
      Except.ok (jsToLowerCase (jsTrim e'), jsTrim p') := by
  have he : jsToLowerCase (jsTrim e') ≠ "" := by
    intro h; rw [h] at hpat; revert hpat; decide
  have he' := jsToLowerCase_jsTrim_ne_empty he
  have hp' := jsTrim_ne_empty hp
  simp [_sanitizeLoginInput, JsValue.truthy, he, he', hp, hp', hpat]

/-- What the five whitelisted records share. -/
theorem whitelisted_facts (u : User) (hu : u ∈ authorizedUsers) :
    ∃ e role pw, u = { email := some e, role := some role, password := some pw } ∧
      emailPatternTest e = true ∧ validateEmailDomain e = true ∧
      isUserInWhitelist (JsValue.string e) = some u ∧
      ∃ perms, lookupProp rolesPermissions role = Lookup.own perms ∧
        e ≠ "" ∧ role ≠ "" ∧ pw ≠ "" ∧
        validateRoleForDomain (some e) (some role) = Except.ok true := by
  simp only [authorizedUsers, List.mem_cons, List.mem_singleton, List.not_mem_nil, or_false] at hu
  rcases hu with rfl | rfl | rfl | rfl | rfl
  all_goals
    exact ⟨_, _, _, rfl, by decide, by decide, by decide, _, rfl, by decide, by decide,
      by decide, by decide⟩

end AuthService

namespace AuthService

theorem login_wrong_password_step (s : AuthService) (u : User) (hu : u ∈ authorizedUsers)
    (e pw : String) (he : u.email = some e) (hpw : u.password = some pw)
    (c : LoginCall) (hce : jsToLowerCase (jsTrim c.email) = e)
    (hcp : jsTrim c.password ≠ "") (hwrong : jsTrim c.password ≠ pw)
    (k : Nat) (hk : k < 5) (hs : ThrottleOnly s e k none) :
    ∃ r s1, s.loginCall c = Except.ok (r, s1) ∧ r.success = false ∧
      r.errorCode = some "INVALID_PASSWORD" ∧ s1.activeSessions = s.activeSessions ∧
      ThrottleOnly s1 e (k + 1)
        (if k + 1 ≥ 5 then some (c.later + LOCKOUT_DURATION) else none) := by
  obtain ⟨e0, role, pw0, rfl, hpat, hdom, hwl, perms, hperm, hene, hrne, hpwne, hvr⟩ :=
    whitelisted_facts u hu
  simp only [Option.some.injEq] at he hpw
  subst he; subst hpw
  have hsan := sanitize_ok c.email c.password (by rw [hce]; exact hpat) hcp
  rw [hce] at hsan
  rcases hs with ⟨rfl, -, hs⟩ | ⟨hkpos, a, hs, hak, hal⟩
  · simp [loginCall, login, hsan, _isAccountLocked, mapGet, hs, hdom, hwl, hwrong,
      _recordFailedAttempt, getLoginAttempts, mapSet, _logSecurityEvent, ThrottleOnly,
      MAX_LOGIN_ATTEMPTS, List.lookup, Ne.symm hwrong]
    exact ⟨_, _, ⟨rfl, rfl⟩, rfl, rfl, rfl, _, rfl, rfl, rfl⟩
  · have h5 : ¬ 5 ≤ k := by omega
    have hlt : ¬ (c.later + LOCKOUT_DURATION < c.later) := by omega
    have hD : ¬ (c.later + LOCKOUT_DURATION = 0) := by simp [LOCKOUT_DURATION]
    by_cases h4 : 4 ≤ k
    · simp [loginCall, login, hsan, _isAccountLocked, mapGet, hs, hdom, hwl, hwrong,
        _recordFailedAttempt, getLoginAttempts, mapSet, _logSecurityEvent, ThrottleOnly,
        MAX_LOGIN_ATTEMPTS, List.lookup, Ne.symm hwrong, hak, hal, h5, h4, hlt, hD]
      exact ⟨_, _, ⟨rfl, rfl⟩, rfl, rfl, rfl, _, rfl, rfl, rfl⟩
    · simp [loginCall, login, hsan, _isAccountLocked, mapGet, hs, hdom, hwl, hwrong,
        _recordFailedAttempt, getLoginAttempts, mapSet, _logSecurityEvent, ThrottleOnly,
        MAX_LOGIN_ATTEMPTS, List.lookup, Ne.symm hwrong, hak, hal, h5, h4]
      exact ⟨_, _, ⟨rfl, rfl⟩, rfl, rfl, rfl, _, rfl, rfl, rfl⟩

/-- A run of wrong-password calls that stays below the threshold. -/
theorem loginRun_wrong_passwords (u : User) (hu : u ∈ authorizedUsers)
    (e pw : String) (he : u.email = some e) (hpw : u.password = some pw)
    (cs : List LoginCall)
    (hcs : ∀ c ∈ cs, jsToLowerCase (jsTrim c.email) = e ∧ jsTrim c.password ≠ "" ∧
      jsTrim c.password ≠ pw) :
    ∀ (s : AuthService) (k : Nat), k + cs.length < 5 → ThrottleOnly s e k none →
      ∃ rs s1, loginRun s cs = Except.ok (rs, s1) ∧
        (∀ r ∈ rs, r.success = false ∧ r.errorCode = some "INVALID_PASSWORD") ∧
        rs.length = cs.length ∧
        s1.activeSessions = s.activeSessions ∧ ThrottleOnly s1 e (k + cs.length) none := by
  induction cs with
  | nil =>
    intro s k _ hs
    exact ⟨[], s, rfl, by simp, rfl, rfl, by simpa using hs⟩
  | cons c cs ih =>
    intro s k hk hs
    simp only [List.length_cons] at hk
    obtain ⟨hce, hcp, hwrong⟩ := hcs c (List.mem_cons_self _ _)
    obtain ⟨r, s1, hr, hsucc, hcode, hact, hthr⟩ :=
      login_wrong_password_step s u hu e pw he hpw c hce hcp hwrong k (by omega) hs
    have hlt : ¬ (k + 1 ≥ 5) := by omega
    rw [if_neg hlt] at hthr
    obtain ⟨rs, s2, hrun, hall, hlen, hact2, hthr2⟩ :=
      ih (fun c' hc' => hcs c' (List.mem_cons_of_mem _ hc')) s1 (k + 1) (by omega) hthr
    refine ⟨r :: rs, s2, ?_, ?_, ?_, ?_, ?_⟩
    · simp [loginRun, hr, hrun]
    · intro r' hr'
      rcases List.mem_cons.mp hr' with rfl | h
      · exact ⟨hsucc, hcode⟩
      · exact hall r' h
    · simp [hlen]
    · rw [hact2, hact]
    · have : k + (cs.length + 1) = k + 1 + cs.length := by omega
      simpa [this] using hthr2

end AuthService

namespace AuthService

theorem login_while_locked (s : AuthService) (u : User) (hu : u ∈ authorizedUsers)
    (e : String) (he : u.email = some e)
    (c : LoginCall) (hce : jsToLowerCase (jsTrim c.email) = e) (hcp : jsTrim c.password ≠ "")
    (lockedUntil : Nat) (hs : ThrottleOnly s e 5 (some lockedUntil))
    (hnow : c.now ≤ lockedUntil) :
    ∃ r s1, s.loginCall c = Except.ok (r, s1) ∧ r.success = false ∧
      r.errorCode = some "ACCOUNT_LOCKED" ∧ s1.loginAttempts = s.loginAttempts ∧
      s1.activeSessions = s.activeSessions := by
  obtain ⟨e0, role, pw0, rfl, hpat, hdom, hwl, perms, hperm, hene, hrne, hpwne, hvr⟩ :=
    whitelisted_facts u hu
  simp only [Option.some.injEq] at he
  subst he
  have hsan := sanitize_ok c.email c.password (by rw [hce]; exact hpat) hcp
  rw [hce] at hsan
  rcases hs with ⟨h0, -, -⟩ | ⟨-, a, hs, hak, hal⟩
  · omega
  · have hlt : ¬ (lockedUntil < c.now) := by omega
    simp [loginCall, login, hsan, _isAccountLocked, mapGet, hs, getLoginAttempts,
      _logSecurityEvent, MAX_LOGIN_ATTEMPTS, List.lookup, hak, hal, hlt]
    exact ⟨_, _, ⟨rfl, rfl⟩, rfl, rfl, rfl, rfl⟩

theorem login_after_lockout (s : AuthService) (u : User) (hu : u ∈ authorizedUsers)
    (e pw : String) (he : u.email = some e) (hpw : u.password = some pw)
    (c : LoginCall) (hce : jsToLowerCase (jsTrim c.email) = e) (hcp : jsTrim c.password = pw)
    (lockedUntil : Nat) (hs : ThrottleOnly s e 5 (some lockedUntil))
    (h0 : lockedUntil ≠ 0) (hnow : lockedUntil < c.now) :
    ∃ r s1, s.loginCall c = Except.ok (r, s1) ∧ r.success = true ∧ r.errorCode = none ∧
      s1.loginAttempts = [] := by
  obtain ⟨e0, role, pw0, rfl, hpat, hdom, hwl, perms, hperm, hene, hrne, hpwne, hvr⟩ :=
    whitelisted_facts u hu
  simp only [Option.some.injEq] at he hpw
  subst he; subst hpw
  have hpne : jsTrim c.password ≠ "" := by rw [hcp]; exact hpwne
  have hsan := sanitize_ok c.email c.password (by rw [hce]; exact hpat) hpne
  rw [hce, hcp] at hsan
  rcases hs with ⟨h0, -, -⟩ | ⟨-, a, hs, hak, hal⟩
  · omega
  · simp [loginCall, login, hsan, _isAccountLocked, mapGet, hs, getLoginAttempts,
      _logSecurityEvent, MAX_LOGIN_ATTEMPTS, List.lookup, hak, hal, hnow, h0, hdom, hwl,
      _clearFailedAttempts, mapDelete, createSession, hene, hrne, hperm, hvr]
    exact ⟨_, _, ⟨rfl, rfl⟩, rfl, rfl, rfl⟩

end AuthService

namespace AuthService

theorem loginRun_append (cs cs' : List LoginCall) :
    ∀ (s s1 s2 : AuthService) (rs rs' : List LoginResult),
      loginRun s cs = Except.ok (rs, s1) → loginRun s1 cs' = Except.ok (rs', s2) →
      loginRun s (cs ++ cs') = Except.ok (rs ++ rs', s2) := by
  induction cs with
  | nil =>
    intro s s1 s2 rs rs' h1 h2
    simp only [loginRun, Except.ok.injEq, Prod.mk.injEq] at h1
    obtain ⟨rfl, rfl⟩ := h1
    simpa using h2
  | cons c cs ih =>
    intro s s1 s2 rs rs' h1 h2
    simp only [loginRun] at h1
    cases hc : s.loginCall c with
    | error e => simp [hc] at h1
    | ok p =>
      obtain ⟨r, sa⟩ := p
      simp only [hc] at h1
      cases hrun : loginRun sa cs with
      | error e => simp [hrun] at h1
      | ok q =>
        obtain ⟨rs0, sb⟩ := q
        simp only [hrun, Except.ok.injEq, Prod.mk.injEq] at h1
        obtain ⟨rfl, rfl⟩ := h1
        have := ih sa sb s2 rs0 rs' hrun h2
        simp [loginRun, hc, this]

end AuthService

/-- **C1.** On a fresh service, five consecutive logins for one whitelisted
e-mail with a wrong password (a non-blank string that differs from the stored
password after trimming) each fail with `INVALID_PASSWORD`; a sixth login for
that e-mail is then answered `ACCOUNT_LOCKED` whatever its (non-blank)
password, the correct one included, as long as its clock has not passed
`lockedUntil`, which is the clock of the fifth failure plus the 30 minutes of
`LOCKOUT_DURATION`; once the clock has passed it, a login with the correct
password succeeds and `getLoginAttempts` reports no failed attempt. -/
theorem AuthService.login_lockout_after_five_failures
    (u : User) (hu : u ∈ authorizedUsers) (e pw : String)
    (he : u.email = some e) (hpw : u.password = some pw)
    (c1 c2 c3 c4 c5 c6 : AuthService.LoginCall)
    (hwrong : ∀ c ∈ [c1, c2, c3, c4, c5],
      jsToLowerCase (jsTrim c.email) = e ∧ jsTrim c.password ≠ "" ∧ jsTrim c.password ≠ pw)
    (h6e : jsToLowerCase (jsTrim c6.email) = e) (h6p : jsTrim c6.password ≠ "") :
    ∃ rs s5, AuthService.loginRun AuthService.fresh [c1, c2, c3, c4, c5] = Except.ok (rs, s5) ∧
      rs.length = 5 ∧
      (∀ r ∈ rs, r.success = false ∧ r.errorCode = some "INVALID_PASSWORD") ∧
      (c6.now ≤ c5.later + LOCKOUT_DURATION →
        ∃ r s6, s5.loginCall c6 = Except.ok (r, s6) ∧ r.success = false ∧
          r.errorCode = some "ACCOUNT_LOCKED") ∧
      (c5.later + LOCKOUT_DURATION < c6.now → jsTrim c6.password = pw →
        ∃ r s6, s5.loginCall c6 = Except.ok (r, s6) ∧ r.success = true ∧
          ∀ t, (s6.getLoginAttempts e t).1.failedAttempts = 0) := by
  have h4 : ∀ c ∈ [c1, c2, c3, c4],
      jsToLowerCase (jsTrim c.email) = e ∧ jsTrim c.password ≠ "" ∧ jsTrim c.password ≠ pw := by
    intro c hc
    apply hwrong
    simp only [List.mem_cons, List.mem_singleton, List.not_mem_nil, or_false] at hc ⊢
    tauto
  obtain ⟨rs4, s4, hrun4, hall4, hlen4, -, hthr4⟩ :=
    AuthService.loginRun_wrong_passwords u hu e pw he hpw [c1, c2, c3, c4] h4
      AuthService.fresh 0 (by simp) (Or.inl ⟨rfl, rfl, rfl⟩)
  obtain ⟨h5e, h5p, h5w⟩ := hwrong c5 (by simp)
  obtain ⟨r5, s5, hr5, hsucc5, hcode5, -, hthr5⟩ :=
    AuthService.login_wrong_password_step s4 u hu e pw he hpw c5 h5e h5p h5w 4 (by omega)
      (by simpa using hthr4)
  simp only [ge_iff_le, le_refl, if_true, Nat.reduceAdd] at hthr5
  have hrun5 : AuthService.loginRun s4 [c5] = Except.ok ([r5], s5) := by
    simp [AuthService.loginRun, hr5]
  have hrun := AuthService.loginRun_append [c1, c2, c3, c4] [c5] _ _ _ _ _ hrun4 hrun5
  refine ⟨rs4 ++ [r5], s5, hrun, by simp [hlen4], ?_, ?_, ?_⟩
  · intro r hr
    rcases List.mem_append.mp hr with h | h
    · exact hall4 r h
    · simp only [List.mem_singleton] at h
      subst h
      exact ⟨hsucc5, hcode5⟩
  · intro hnow
    obtain ⟨r, s6, hr, hs, hc, -, -⟩ :=
      AuthService.login_while_locked s5 u hu e he c6 h6e h6p _ hthr5 hnow
    exact ⟨r, s6, hr, hs, hc⟩
  · intro hnow hgood
    obtain ⟨r, s6, hr, hs, -, hempty⟩ :=
      AuthService.login_after_lockout s5 u hu e pw he hpw c6 h6e hgood _ hthr5
        (by simp [LOCKOUT_DURATION]) hnow
    refine ⟨r, s6, hr, hs, ?_⟩
    intro t
    simp [AuthService.getLoginAttempts, mapGet, hempty]

/-- Five wrong passwords for `sysadmin@xu.edu.ph`, then the correct one. -/
theorem AuthService.login_lockout_after_five_failures_witness :
    ∃ rs s5, AuthService.loginRun AuthService.fresh
        [⟨"sysadmin@xu.edu.ph", "wrong", 1000, 1100, "a"⟩,
         ⟨"sysadmin@xu.edu.ph", "wrong", 2000, 2100, "b"⟩,
         ⟨" SysAdmin@XU.edu.ph", "wrong", 3000, 3100, "c"⟩,
         ⟨"sysadmin@xu.edu.ph", "wrong", 4000, 4100, "d"⟩,
         ⟨"sysadmin@xu.edu.ph", "wrong", 5000, 5100, "e"⟩] = Except.ok (rs, s5) ∧
      rs.length = 5 ∧
      (∀ r ∈ rs, r.success = false ∧ r.errorCode = some "INVALID_PASSWORD") ∧
      ((6000 : Nat) ≤ 5100 + LOCKOUT_DURATION →
        ∃ r s6, s5.loginCall ⟨"sysadmin@xu.edu.ph", "SysAdmin123!", 6000, 6100, "f"⟩ =
          Except.ok (r, s6) ∧ r.success = false ∧ r.errorCode = some "ACCOUNT_LOCKED") ∧
      (5100 + LOCKOUT_DURATION < (6000 : Nat) → jsTrim "SysAdmin123!" = "SysAdmin123!" →
        ∃ r s6, s5.loginCall ⟨"sysadmin@xu.edu.ph", "SysAdmin123!", 6000, 6100, "f"⟩ =
          Except.ok (r, s6) ∧ r.success = true ∧
          ∀ t, (s6.getLoginAttempts "sysadmin@xu.edu.ph" t).1.failedAttempts = 0) :=
  AuthService.login_lockout_after_five_failures
    ⟨some "sysadmin@xu.edu.ph", some "SystemAdministrator", some "SysAdmin123!"⟩
    (by decide) "sysadmin@xu.edu.ph" "SysAdmin123!" rfl rfl
    ⟨"sysadmin@xu.edu.ph", "wrong", 1000, 1100, "a"⟩
    ⟨"sysadmin@xu.edu.ph", "wrong", 2000, 2100, "b"⟩
    ⟨" SysAdmin@XU.edu.ph", "wrong", 3000, 3100, "c"⟩
    ⟨"sysadmin@xu.edu.ph", "wrong", 4000, 4100, "d"⟩
    ⟨"sysadmin@xu.edu.ph", "wrong", 5000, 5100, "e"⟩
    ⟨"sysadmin@xu.edu.ph", "SysAdmin123!", 6000, 6100, "f"⟩
    (by decide) (by decide) (by decide)

/-! ## Session creation and logout -/

namespace AuthService

/-- What a successful `createSession` returned and stored. -/
theorem createSession_some {s s1 : AuthService} {user : Option User} {now : Nat} {rnd : String}
    {sess : Session} (h : s.createSession user now rnd = Except.ok (some sess, s1)) :
    ∃ email role pw perms, user = some { email := some email, role := some role, password := pw } ∧
      lookupProp rolesPermissions role = Lookup.own perms ∧
      validateRoleForDomain (some email) (some role) = Except.ok true ∧
      sess = { sessionId := _generateSessionId rnd now, email := email, role := role,
               permissions := perms, createdAt := now, isActive := true,
               lastAccessedAt := now, roleLevel := getRoleLevel role,
               domain := jsSubstringFrom email (jsIndexOf email '@') } ∧
      s1 = { s with activeSessions := mapSet s.activeSessions (_generateSessionId rnd now) sess } := by
  unfold createSession at h
  split at h
  · simp at h
  · rename_i u
    split at h
    · rename_i email role hemail hrole
      split at h
      · simp at h
      · split at h
        · simp at h
        · rename_i permissions hperm
          split at h
          · simp at h
          · simp at h
          · rename_i hvr
            split at h
            · rename_i perms hp
              simp only [Except.ok.injEq, Prod.mk.injEq, Option.some.injEq] at h
              obtain ⟨h1, h2⟩ := h
              refine ⟨email, role, u.password, perms, ?_, hp, hvr, h1.symm, ?_⟩
              · cases u; simp_all
              · rw [← h2, ← h1]
            · simp at h
    · simp at h

end AuthService

namespace AuthService

theorem generated_id_valid (rnd : String) (now : Nat) :
    _isValidSessionId (JsValue.string (_generateSessionId rnd now)) = true := by
  have h1 : (_generateSessionId rnd now).data = "sess_".data ++ (rnd.data ++ (toBase36 now).data) := by
    simp [_generateSessionId, String.data_append]
  have h2 : _generateSessionId rnd now ≠ "" := by
    intro h
    rw [h] at h1
    simp at h1
  simp [_isValidSessionId, jsStartsWith, h1, h2]

/-- The four outcomes of `logout` on a string id. -/
theorem logout_string (s : AuthService) (sid : String) (t : Nat) :
    s.logout (JsValue.string sid) t =
      if sid = "" then ({ success := false, message := "Session ID is required" }, s)
      else if _isValidSessionId (JsValue.string sid) = false then
        ({ success := false, message := "Invalid session ID format" }, s)
      else
        match mapGet s.activeSessions sid with
        | none => ({ success := false, message := "Invalid or expired session" }, s)
        | some session =>
          if session.isActive = false then
            ({ success := false, message := "Session already destroyed" }, s)
          else
            ({ success := true, message := "Session destroyed successfully",
               sessionId := some sid },
             { s with
               activeSessions := mapSet s.activeSessions sid
                 { session with isActive := false, destroyedAt := some t,
                                destroyedBy := some "user_logout" } }) := by
  by_cases h1 : sid = ""
  · simp [logout, JsValue.truthy, h1]
  · by_cases hv : _isValidSessionId (JsValue.string sid) = false
    · simp [logout, JsValue.truthy, h1, hv]
    · simp only [Bool.not_eq_false] at hv
      cases hget : mapGet s.activeSessions sid with
      | none => simp [logout, JsValue.truthy, h1, hv, hget]
      | some sess =>
        cases hact : sess.isActive <;> simp [logout, JsValue.truthy, h1, hv, hget, hact]

/-- A session id under which no active session is stored cannot be logged out. -/
theorem logout_not_active (s : AuthService) (id : JsValue) (t : Nat)
    (h : ∀ sid sess, id = JsValue.string sid → mapGet s.activeSessions sid = some sess →
      sess.isActive = false) :
    (s.logout id t).1.success = false ∧ (s.logout id t).2 = s := by
  cases id with
  | string sid =>
    rw [logout_string]
    by_cases h1 : sid = ""
    · simp [h1]
    · by_cases hv : _isValidSessionId (JsValue.string sid) = false
      · simp [h1, hv]
      · cases hget : mapGet s.activeSessions sid with
        | none => simp [h1, hv]
        | some sess => simp [h1, hv, h sid sess rfl hget]
  | undefined => simp [logout, JsValue.truthy]
  | null => simp [logout, JsValue.truthy]
  | bool b => cases b <;> simp [logout, JsValue.truthy]
  | number n => by_cases hn : n = 0 <;> simp [logout, JsValue.truthy, hn]
  | object => simp [logout, JsValue.truthy]

/-- After a successful logout the session stored under the id is inactive. -/
theorem logout_success_inactive (s : AuthService) (id : JsValue) (t : Nat)
    (h : (s.logout id t).1.success = true) :
    ∀ sid sess, id = JsValue.string sid →
      mapGet (s.logout id t).2.activeSessions sid = some sess → sess.isActive = false := by
  intro sid sess hid
  subst hid
  rw [logout_string] at h ⊢
  by_cases h1 : sid = ""
  · simp [h1] at h
  · by_cases hv : _isValidSessionId (JsValue.string sid) = false
    · simp [h1, hv] at h
    · cases hget : mapGet s.activeSessions sid with
      | none => simp [h1, hv, hget] at h
      | some sess0 =>
        cases hact : sess0.isActive with
        | false => simp [h1, hv, hget, hact] at h
        | true =>
          simp only [h1, hv, hget, hact, if_false, Bool.true_eq_false, mapGet_mapSet_self,
            Option.some.injEq]
          intro hg
          rw [← hg]

theorem logoutRun_not_active (id : JsValue) (ts : List Nat) :
    ∀ s : AuthService,
      (∀ sid sess, id = JsValue.string sid → mapGet s.activeSessions sid = some sess →
        sess.isActive = false) →
      ∀ r ∈ (logoutRun s id ts).1, r.success = false := by
  induction ts with
  | nil => intro s _ r hr; simp [logoutRun] at hr
  | cons t ts ih =>
    intro s h r hr
    obtain ⟨h1, h2⟩ := logout_not_active s id t h
    simp only [logoutRun, List.mem_cons] at hr
    rcases hr with rfl | hr
    · exact h1
    · rw [h2] at hr
      exact ih s h r hr

theorem logoutRun_at_most_one_success (id : JsValue) (ts : List Nat) :
    ∀ s : AuthService, ((logoutRun s id ts).1.filter (fun r => r.success)).length ≤ 1 := by
  induction ts with
  | nil => intro s; simp [logoutRun]
  | cons t ts ih =>
    intro s
    simp only [logoutRun]
    cases hsucc : (s.logout id t).1.success with
    | false =>
      simp only [List.filter_cons, hsucc]
      exact ih _
    | true =>
      have hdead := logout_success_inactive s id t hsucc
      have hall := logoutRun_not_active id ts _ hdead
      have hnil : (logoutRun (s.logout id t).2 id ts).1.filter (fun r => r.success) = [] := by
        rw [List.filter_eq_nil_iff]
        intro r hr
        simp [hall r hr]
      simp [List.filter_cons, hsucc, hnil]

end AuthService

/-- **C2 (failing input).** For the user object with e-mail `'constructor'` and
role `'Intern'` the call `createSession` neither returns `null` nor stores a
session: `validateRoleForDomain` finds the inherited `Object.prototype.constructor`
under the computed domain and throws a `TypeError`. -/
theorem AuthService.createSession_throws_on_inherited_domain :
    AuthService.validateRoleForDomain (some "constructor") (some "Intern") =
        Except.error "TypeError: allowedRoles.includes is not a function" ∧
      AuthService.fresh.createSession
          (some { email := some "constructor", role := some "Intern", password := none })
          1000 "abc" =
        Except.error "TypeError: allowedRoles.includes is not a function" := by
  constructor <;> decide

/-- **C5.** For a session just returned by `createSession`, the first
`logout` of its id succeeds and the second fails with the message
`'Session already destroyed'`; a well-formed id under which nothing is stored
gets the different message `'Invalid or expired session'`; and no run of
`logout` calls with one session id, from any state, has two successes. -/
theorem AuthService.logout_twice
    (s s1 : AuthService) (user : Option User) (now : Nat) (rnd : String) (sess : Session)
    (h : s.createSession user now rnd = Except.ok (some sess, s1)) (t1 t2 : Nat) :
    (s1.logout (JsValue.string sess.sessionId) t1).1.success = true ∧
    ((s1.logout (JsValue.string sess.sessionId) t1).2.logout
        (JsValue.string sess.sessionId) t2).1 =
      { success := false, message := "Session already destroyed" } ∧
    (∀ (s0 : AuthService) (sid : String) (t : Nat),
      AuthService._isValidSessionId (JsValue.string sid) = true →
      mapGet s0.activeSessions sid = none →
      (s0.logout (JsValue.string sid) t).1 =
        { success := false, message := "Invalid or expired session" }) ∧
    ("Session already destroyed" : String) ≠ "Invalid or expired session" ∧
    (∀ (s0 : AuthService) (id : JsValue) (ts : List Nat),
      ((AuthService.logoutRun s0 id ts).1.filter (fun r => r.success)).length ≤ 1) := by
  obtain ⟨email, role, pw, perms, -, -, -, hsess, hs1⟩ := AuthService.createSession_some h
  have hid : sess.sessionId = AuthService._generateSessionId rnd now := by rw [hsess]
  have hvalid := AuthService.generated_id_valid rnd now
  have hne : AuthService._generateSessionId rnd now ≠ "" := by
    intro h0
    rw [h0] at hvalid
    revert hvalid
    decide
  have hget : mapGet s1.activeSessions (AuthService._generateSessionId rnd now) = some sess := by
    rw [hs1]
    exact mapGet_mapSet_self _ _ _
  have hact : sess.isActive = true := by rw [hsess]
  refine ⟨?_, ?_, ?_, by decide, ?_⟩
  · rw [hid, AuthService.logout_string]
    simp [hne, hvalid, hget, hact]
  · rw [hid, AuthService.logout_string, AuthService.logout_string]
    simp [hne, hvalid, hget, hact, mapGet_mapSet_self]
  · intro s0 sid t hv hnone
    have hsid : sid ≠ "" := by
      intro h0
      rw [h0] at hv
      revert hv
      decide
    rw [AuthService.logout_string]
    simp [hsid, hv, hnone]
  · intro s0 id ts
    exact AuthService.logoutRun_at_most_one_success id ts s0

/-- A session created for `sysadmin@xu.edu.ph` on a fresh service, logged out twice. -/
theorem AuthService.logout_twice_witness :
    AuthService.fresh.createSession (some AuthService.adminUser) 1000 "abc" =
      Except.ok (some AuthService.adminSession, AuthService.adminService) ∧
    (AuthService.adminService.logout (JsValue.string "sess_abcrs") 2000).1.success = true ∧
    ((AuthService.adminService.logout (JsValue.string "sess_abcrs") 2000).2.logout
        (JsValue.string "sess_abcrs") 3000).1 =
      { success := false, message := "Session already destroyed" } :=
  ⟨by decide,
   (AuthService.logout_twice AuthService.fresh AuthService.adminService
      (some AuthService.adminUser) 1000 "abc" AuthService.adminSession (by decide) 2000 3000).1,
   (AuthService.logout_twice AuthService.fresh AuthService.adminService
      (some AuthService.adminUser) 1000 "abc" AuthService.adminSession (by decide) 2000 3000).2.1⟩

/-! ## Session validation and permission queries -/

namespace AuthService

theorem isSessionExpired_iff (sess : Session) (now : Nat) :
    _isSessionExpired sess now = true ↔ sess.createdAt + SESSION_TIMEOUT < now := by
  simp only [_isSessionExpired, decide_eq_true_eq]
  omega

theorem isValidSessionId_string (tok : String) :
    _isValidSessionId (JsValue.string tok) = true ↔ tok ≠ "" ∧ jsStartsWith tok "sess_" = true := by
  simp [_isValidSessionId]

/-- The outcomes of `validateSession` on a string token. -/
theorem validateSession_string (s : AuthService) (tok : String) (now : Nat) :
    s.validateSession (JsValue.string tok) now =
      if tok = "" then (none, s)
      else if _isValidSessionId (JsValue.string tok) = false then (none, s)
      else
        match mapGet s.activeSessions tok with
        | none => (none, s)
        | some session =>
          if session.isActive = false then (none, s)
          else if _isSessionExpired session now = true then (none, s._expireSession tok now)
          else
            (some { sessionId := session.sessionId
                    user := { email := session.email, role := session.role,
                              permissions := session.permissions }
                    isActive := session.isActive
                    lastAccessedAt := now
                    createdAt := session.createdAt },
             { s with activeSessions :=
                 mapSet s.activeSessions tok { session with lastAccessedAt := now } }) := by
  by_cases h1 : tok = ""
  · simp [validateSession, JsValue.truthy, h1]
  · by_cases hv : _isValidSessionId (JsValue.string tok) = false
    · simp [validateSession, JsValue.truthy, h1, hv]
    · simp only [Bool.not_eq_false] at hv
      cases hget : mapGet s.activeSessions tok with
      | none => simp [validateSession, JsValue.truthy, h1, hv, hget]
      | some sess =>
        cases hact : sess.isActive with
        | false => simp [validateSession, JsValue.truthy, h1, hv, hget, hact]
        | true =>
          cases hexp : _isSessionExpired sess now <;>
            simp [validateSession, JsValue.truthy, h1, hv, hget, hact, hexp]

theorem validateSession_not_string (s : AuthService) (token : JsValue) (now : Nat)
    (h : ∀ tok, token ≠ JsValue.string tok) : s.validateSession token now = (none, s) := by
  cases token with
  | string tok => exact absurd rfl (h tok)
  | undefined => simp [validateSession, JsValue.truthy]
  | null => simp [validateSession, JsValue.truthy]
  | bool b => cases b <;> simp [validateSession, JsValue.truthy]
  | number n => by_cases hn : n = 0 <;> simp [validateSession, JsValue.truthy, hn]
  | object => simp [validateSession, JsValue.truthy]

theorem expireSession_active (s : AuthService) (tok : String) (now : Nat) (sess : Session)
    (hget : mapGet s.activeSessions tok = some sess) (hact : sess.isActive = true) :
    s._expireSession tok now =
      { s with
        activeSessions := mapSet s.activeSessions tok
          ({ sess with isActive := false, destroyedAt := some now,
                       destroyedBy := some "timeout" } : Session) } := by
  simp [_expireSession, hget, hact]

/-- The creation time of whatever is stored under a token survives `validateSession`. -/
theorem validateSession_createdAt (s : AuthService) (token : JsValue) (now : Nat) (tok : String) :
    (mapGet (s.validateSession token now).2.activeSessions tok).map (fun x => x.createdAt) =
      (mapGet s.activeSessions tok).map (fun x => x.createdAt) := by
  by_cases hs : ∃ t, token = JsValue.string t
  · obtain ⟨t, rfl⟩ := hs
    rw [validateSession_string]
    by_cases h1 : t = ""
    · simp [h1]
    · by_cases hv : _isValidSessionId (JsValue.string t) = false
      · simp [h1, hv]
      · cases hget : mapGet s.activeSessions t with
        | none => simp [h1, hv]
        | some sess =>
          cases hact : sess.isActive with
          | false => simp [h1, hv, hact]
          | true =>
            by_cases htk : tok = t
            · subst htk
              cases hexp : _isSessionExpired sess now <;>
                simp [h1, hv, hact, hexp, expireSession_active s tok now sess hget hact,
                  mapGet_mapSet_self, hget]
            · cases hexp : _isSessionExpired sess now <;>
                simp [h1, hv, hact, hexp, expireSession_active s t now sess hget hact,
                  mapGet_mapSet_ne _ _ _ _ htk]
  · rw [validateSession_not_string s token now (fun t ht => hs ⟨t, ht⟩)]

theorem validateRun_createdAt (token : JsValue) (tok : String) (ts : List Nat) :
    ∀ s : AuthService,
      (mapGet (validateRun s token ts).activeSessions tok).map (fun x => x.createdAt) =
        (mapGet s.activeSessions tok).map (fun x => x.createdAt) := by
  induction ts with
  | nil => intro s; rfl
  | cons t ts ih =>
    intro s
    simp only [validateRun]
    rw [ih, validateSession_createdAt]

end AuthService

/-- **C8.** `validateSession(token)` at clock `now` returns `null` exactly
when the token is not a string, is empty, lacks the `sess_` prefix, has no
session stored under it, or the stored session is inactive or was created more
than `SESSION_TIMEOUT` (86,400,000 ms) before `now`.  An active session that is
that old is marked inactive with `destroyedBy = 'timeout'`; otherwise the call
sets `lastAccessedAt` to `now` and returns the session's id, e-mail, role and
permission list.  The age is counted from `createdAt`: after any run of earlier
`validateSession` calls, a session older than the timeout is still rejected. -/
theorem AuthService.validateSession_spec (s : AuthService) (token : JsValue) (now : Nat) :
    ((s.validateSession token now).1 = none ↔
      ((∀ tok, token ≠ JsValue.string tok) ∨
        ∃ tok, token = JsValue.string tok ∧
          (tok = "" ∨ jsStartsWith tok "sess_" = false ∨ mapGet s.activeSessions tok = none ∨
            ∃ sess, mapGet s.activeSessions tok = some sess ∧
              (sess.isActive = false ∨ sess.createdAt + SESSION_TIMEOUT < now)))) ∧
    (∀ tok sess, token = JsValue.string tok → tok ≠ "" → jsStartsWith tok "sess_" = true →
      mapGet s.activeSessions tok = some sess → sess.isActive = true →
      (sess.createdAt + SESSION_TIMEOUT < now →
        (s.validateSession token now).2 =
          { s with
            activeSessions := mapSet s.activeSessions tok
              ({ sess with isActive := false, destroyedAt := some now,
                           destroyedBy := some "timeout" } : Session) }) ∧
      (now ≤ sess.createdAt + SESSION_TIMEOUT →
        s.validateSession token now =
          (some { sessionId := sess.sessionId
                  user := { email := sess.email, role := sess.role,
                            permissions := sess.permissions }
                  isActive := true
                  lastAccessedAt := now
                  createdAt := sess.createdAt },
           { s with
             activeSessions := mapSet s.activeSessions tok
               ({ sess with lastAccessedAt := now } : Session) }))) ∧
    (∀ tok sess (ts : List Nat), token = JsValue.string tok →
      mapGet s.activeSessions tok = some sess → sess.createdAt + SESSION_TIMEOUT < now →
      ((AuthService.validateRun s token ts).validateSession token now).1 = none) ∧
    SESSION_TIMEOUT = 86400000 := by
  have key : ∀ (s0 : AuthService) (tok : String),
      ((s0.validateSession (JsValue.string tok) now).1 = none ↔
        (tok = "" ∨ jsStartsWith tok "sess_" = false ∨ mapGet s0.activeSessions tok = none ∨
          ∃ sess, mapGet s0.activeSessions tok = some sess ∧
            (sess.isActive = false ∨ sess.createdAt + SESSION_TIMEOUT < now))) := by
    intro s0 tok
    rw [AuthService.validateSession_string]
    by_cases h1 : tok = ""
    · simp [h1]
    · by_cases hp : jsStartsWith tok "sess_" = true
      · have hv : AuthService._isValidSessionId (JsValue.string tok) = true :=
          (AuthService.isValidSessionId_string tok).mpr ⟨h1, hp⟩
        cases hget : mapGet s0.activeSessions tok with
        | none => simp [h1, hv]
        | some sess =>
          cases hact : sess.isActive with
          | false => simp [h1, hv, hact]
          | true =>
            by_cases hexp : sess.createdAt + SESSION_TIMEOUT < now
            · have := (AuthService.isSessionExpired_iff sess now).mpr hexp
              simp [h1, hv, hact, this, hexp]
            · have : AuthService._isSessionExpired sess now = false := by
                rw [← Bool.not_eq_true, AuthService.isSessionExpired_iff]; exact hexp
              simp [h1, hv, hp, hact, this, hexp]
      · have hp' : jsStartsWith tok "sess_" = false := by simpa using hp
        have hv : AuthService._isValidSessionId (JsValue.string tok) = false := by
          rw [← Bool.not_eq_true, AuthService.isValidSessionId_string]; tauto
        simp [h1, hv, hp']
  refine ⟨?_, ?_, ?_, by decide⟩
  · by_cases hs : ∃ t, token = JsValue.string t
    · obtain ⟨t, rfl⟩ := hs
      rw [key]
      constructor
      · intro h; exact Or.inr ⟨t, rfl, h⟩
      · rintro (h | ⟨t', ht', h⟩)
        · exact absurd rfl (h t)
        · cases ht'; exact h
    · have hn : ∀ tok, token ≠ JsValue.string tok := fun t ht => hs ⟨t, ht⟩
      rw [AuthService.validateSession_not_string s token now hn]
      simp only [true_iff]
      exact Or.inl hn
  · intro tok sess htok h1 hp hget hact
    subst htok
    have hv : AuthService._isValidSessionId (JsValue.string tok) = true :=
      (AuthService.isValidSessionId_string tok).mpr ⟨h1, hp⟩
    rw [AuthService.validateSession_string]
    constructor
    · intro hexp
      have := (AuthService.isSessionExpired_iff sess now).mpr hexp
      simp [h1, hv, hget, hact, this, AuthService.expireSession_active s tok now sess hget hact]
    · intro hexp
      have : AuthService._isSessionExpired sess now = false := by
        rw [← Bool.not_eq_true, AuthService.isSessionExpired_iff]; omega
      simp [h1, hv, hget, hact, this]
  · intro tok sess ts htok hget hexp
    subst htok
    rw [key]
    have hc := AuthService.validateRun_createdAt (JsValue.string tok) tok ts s
    rw [hget] at hc
    cases hget' : mapGet (AuthService.validateRun s (JsValue.string tok) ts).activeSessions tok with
    | none => exact Or.inr (Or.inr (Or.inl rfl))
    | some sess' =>
      rw [hget'] at hc
      simp only [Option.map_some', Option.some.injEq] at hc
      exact Or.inr (Or.inr (Or.inr ⟨sess', rfl, Or.inr (by omega)⟩))

/-- **C9.** `hasPermission(sessionId, permission)` is true exactly when a
session is stored under the id, it is active, it is not older than
`SESSION_TIMEOUT`, and the permission is in the session's permission list;
that list is the entry of `rolesPermissions` for the session's role, copied
when `createSession` stored the session. -/
theorem AuthService.hasPermission_spec (s : AuthService) (sessionId permission : String)
    (now : Nat) :
    ((s.hasPermission sessionId permission now).1 = true ↔
      ∃ sess, mapGet s.activeSessions sessionId = some sess ∧ sess.isActive = true ∧
        now ≤ sess.createdAt + SESSION_TIMEOUT ∧ permission ∈ sess.permissions) ∧
    (∀ (user : Option User) (t : Nat) (rnd : String) (sess : Session) (s1 : AuthService),
      s.createSession user t rnd = Except.ok (some sess, s1) →
      lookupProp rolesPermissions sess.role = Lookup.own sess.permissions ∧
        mapGet s1.activeSessions sess.sessionId = some sess) := by
  constructor
  · unfold AuthService.hasPermission
    cases hget : mapGet s.activeSessions sessionId with
    | none => simp
    | some sess =>
      cases hact : sess.isActive with
      | false => simp [hact]
      | true =>
        by_cases hexp : sess.createdAt + SESSION_TIMEOUT < now
        · have := (AuthService.isSessionExpired_iff sess now).mpr hexp
          simp only [hact, this]
          simp
          intro h
          omega
        · have : AuthService._isSessionExpired sess now = false := by
            rw [← Bool.not_eq_true, AuthService.isSessionExpired_iff]; exact hexp
          simp only [hact, this]
          simp
          constructor
          · intro h; exact ⟨hact, by omega, h⟩
          · intro h; exact h.2.2
  · intro user t rnd sess s1 h
    obtain ⟨email, role, pw, perms, -, hperm, -, hsess, hs1⟩ := AuthService.createSession_some h
    constructor
    · rw [hsess]; exact hperm
    · rw [hs1, hsess]; exact mapGet_mapSet_self _ _ _

/-! ## Login: unrecognised domains -/

theorem char_toLower_idem (c : Char) : c.toLower.toLower = c.toLower := by
  by_cases h : c.toNat ≥ 65 ∧ c.toNat ≤ 90
  · have h1 : c.toLower = Char.ofNat (c.toNat + 32) := by
      simp only [Char.toLower]; rw [if_pos h]
    rw [h1]
    obtain ⟨ha, hb⟩ := h
    generalize c.toNat = n at ha hb
    interval_cases n <;> rfl
  · have h1 : c.toLower = c := by
      simp only [Char.toLower]; rw [if_neg h]
    rw [h1, h1]

theorem jsToLowerCase_idem (s : String) : jsToLowerCase (jsToLowerCase s) = jsToLowerCase s := by
  simp [jsToLowerCase, List.map_map, Function.comp_def, char_toLower_idem]

theorem jsSubstringFrom_endsWith (s d : String) (i : Int) (h : jsSubstringFrom s i = d) :
    jsEndsWith s d = true := by
  subst h
  simp only [jsEndsWith, jsSubstringFrom, List.isSuffixOf_iff_suffix]
  exact List.drop_suffix _ _

namespace AuthService

theorem validateEmailDomain_false_of_not_endsWith (x : String)
    (h1 : jsEndsWith (jsToLowerCase x) "@xu.edu.ph" = false)
    (h2 : jsEndsWith (jsToLowerCase x) "@my.xu.edu.ph" = false) :
    validateEmailDomain (jsToLowerCase x) = false := by
  unfold validateEmailDomain
  split
  · rfl
  · rw [jsToLowerCase_idem]
    simp only [VALID_DOMAINS, List.contains_cons, List.contains_nil, Bool.or_false,
      Bool.or_eq_false_iff, beq_eq_false_iff_ne, ne_eq]
    constructor
    · intro h
      rw [jsSubstringFrom_endsWith _ _ _ h] at h1
      exact absurd h1 (by decide)
    · intro h
      rw [jsSubstringFrom_endsWith _ _ _ h] at h2
      exact absurd h2 (by decide)

end AuthService

/-- **C10 (counterexample).** On a fresh service, `login('hacker@gmail.com', '')`
is answered `MISSING_CREDENTIALS`, not `INVALID_DOMAIN`; so is a `null`
password. -/
theorem AuthService.login_invalid_domain_blank_password :
    (∃ s1, AuthService.fresh.login (JsValue.string "hacker@gmail.com") (JsValue.string "")
        1000 1100 "abc" =
      Except.ok ({ success := false, message := "Email and password are required",
                   errorCode := some "MISSING_CREDENTIALS" }, s1)) ∧
    (∃ s1, AuthService.fresh.login (JsValue.string "hacker@gmail.com") JsValue.null
        1000 1100 "abc" =
      Except.ok ({ success := false, message := "Email and password are required",
                   errorCode := some "MISSING_CREDENTIALS" }, s1)) ∧
    (some "MISSING_CREDENTIALS" : Option String) ≠ some "INVALID_DOMAIN" := by
  refine ⟨⟨_, rfl⟩, ⟨_, rfl⟩, by decide⟩

/-- **C10 (amended).** On a fresh service, for every e-mail string whose
trimmed, lower-cased form is well formed and ends neither in `@xu.edu.ph` nor
in `@my.xu.edu.ph`, and for every password string that is not blank, `login`
returns `success = false` with `errorCode = 'INVALID_DOMAIN'`. -/
theorem AuthService.login_invalid_domain (email password : String) (now later : Nat)
    (rnd : String)
    (hwf : emailPatternTest (jsToLowerCase (jsTrim email)) = true)
    (h1 : jsEndsWith (jsToLowerCase (jsTrim email)) "@xu.edu.ph" = false)
    (h2 : jsEndsWith (jsToLowerCase (jsTrim email)) "@my.xu.edu.ph" = false)
    (hp : jsTrim password ≠ "") :
    ∃ s1, AuthService.fresh.login (JsValue.string email) (JsValue.string password)
        now later rnd =
      Except.ok ({ success := false, message := "Invalid email domain",
                   errorCode := some "INVALID_DOMAIN" }, s1) := by
  have hsan := AuthService.sanitize_ok email password hwf hp
  have hdom := AuthService.validateEmailDomain_false_of_not_endsWith (jsTrim email) h1 h2
  simp [AuthService.login, hsan, AuthService._isAccountLocked, AuthService.fresh, mapGet, hdom]

/-- The login `('hacker@gmail.com', 'password123')` of the test suite. -/
theorem AuthService.login_invalid_domain_witness :
    ∃ s1, AuthService.fresh.login (JsValue.string "hacker@gmail.com")
        (JsValue.string "password123") 1000 1100 "abc" =
      Except.ok ({ success := false, message := "Invalid email domain",
                   errorCode := some "INVALID_DOMAIN" }, s1) :=
  AuthService.login_invalid_domain "hacker@gmail.com" "password123" 1000 1100 "abc"
    (by decide) (by decide) (by decide) (by decide)

/-! ## Status transitions -/

namespace DataEntryService

theorem statusOrder_lookup {s : String} {o : Int} (h : statusOrder.lookup s = some o) :
    (s = "Request Received" ∧ o = 0) ∨ (s = "Processing" ∧ o = 1) ∨
      (s = "Ready for Pickup" ∧ o = 2) := by
  by_cases h1 : s = "Request Received"
  · subst h1; left; refine ⟨rfl, ?_⟩
    have : statusOrder.lookup "Request Received" = some 0 := by decide
    rw [this] at h; exact (Option.some.inj h).symm
  · by_cases h2 : s = "Processing"
    · subst h2; right; left; refine ⟨rfl, ?_⟩
      have : statusOrder.lookup "Processing" = some 1 := by decide
      rw [this] at h; exact (Option.some.inj h).symm
    · by_cases h3 : s = "Ready for Pickup"
      · subst h3; right; right; refine ⟨rfl, ?_⟩
        have : statusOrder.lookup "Ready for Pickup" = some 2 := by decide
        rw [this] at h; exact (Option.some.inj h).symm
      · exfalso
        have e1 : (s == "Request Received") = false := by simpa using h1
        have e2 : (s == "Processing") = false := by simpa using h2
        have e3 : (s == "Ready for Pickup") = false := by simpa using h3
        simp [statusOrder, List.lookup, e1, e2, e3] at h

theorem validateStatusTransition_unknown_target (c t : String)
    (hmem : t ∉ ["Request Received", "Processing", "Ready for Pickup"]) :
    _validateStatusTransition c t = { isValid := false, errors := ["Invalid status value"] } := by
  have hc : (["Request Received", "Processing", "Ready for Pickup"].contains t) = false := by
    simpa using hmem
  unfold _validateStatusTransition
  simp only [hc, Bool.not_false, if_true]

end DataEntryService

/-- **C3 (counterexample).** The target `'Request Received'` is the start
value, yet from `'Processing'` and from `'Ready for Pickup'` it is rejected as
a backward move. -/
theorem DataEntryService.validateStatusTransition_start_value_rejected :
    DataEntryService._validateStatusTransition "Processing" "Request Received" =
        { isValid := false, errors := ["Cannot move backwards in status"] } ∧
      DataEntryService._validateStatusTransition "Ready for Pickup" "Request Received" =
        { isValid := false, errors := ["Cannot move backwards in status"] } := by
  constructor <;> decide

/-- **C3 (amended).** For a current and a target status among
`'Request Received'`, `'Processing'`, `'Ready for Pickup'` (orders 0, 1, 2),
`_validateStatusTransition` is valid exactly when the order of the target is
the order of the current status or one more; every target outside the three
statuses is rejected with `'Invalid status value'`, whatever the current
status. -/
theorem DataEntryService.validateStatusTransition_spec (current target : String)
    (oc ot : Int) (hc : DataEntryService.statusOrder.lookup current = some oc)
    (ht : DataEntryService.statusOrder.lookup target = some ot) :
    ((DataEntryService._validateStatusTransition current target).isValid = true ↔
      (ot = oc ∨ ot = oc + 1)) ∧
    (∀ c t : String, t ∉ ["Request Received", "Processing", "Ready for Pickup"] →
      DataEntryService._validateStatusTransition c t =
        { isValid := false, errors := ["Invalid status value"] }) := by
  constructor
  · rcases DataEntryService.statusOrder_lookup hc with ⟨rfl, rfl⟩ | ⟨rfl, rfl⟩ | ⟨rfl, rfl⟩ <;>
      rcases DataEntryService.statusOrder_lookup ht with ⟨rfl, rfl⟩ | ⟨rfl, rfl⟩ | ⟨rfl, rfl⟩ <;>
      decide
  · intro c t hmem
    exact DataEntryService.validateStatusTransition_unknown_target c t hmem

/-- The transition from `'Request Received'` to `'Processing'`. -/
theorem DataEntryService.validateStatusTransition_spec_witness :
    ((DataEntryService._validateStatusTransition "Request Received" "Processing").isValid = true ↔
      ((1 : Int) = 0 ∨ (1 : Int) = 0 + 1)) ∧
    (∀ c t : String, t ∉ ["Request Received", "Processing", "Ready for Pickup"] →
      DataEntryService._validateStatusTransition c t =
        { isValid := false, errors := ["Invalid status value"] }) :=
  DataEntryService.validateStatusTransition_spec "Request Received" "Processing" 0 1
    (by decide) (by decide)

/-- **C4 (counterexample).** The request stored by a successful
`createRequest` has status `'Request Received'`, and `updateRequestStatus`
accepts the target `'Request Received'` for it, a target other than
`'Processing'`. -/
theorem DataEntryService.updateRequestStatus_same_status_accepted :
    DataEntryService.fresh.createRequest DataEntryService.sampleRequestData
        DataEntryService.evaluatorSession 1739577600000 28800000 "00ff" 0 =
      Except.ok ({ success := true, data := some DataEntryService.sampleRequest },
        DataEntryService.sampleStore) ∧
    DataEntryService.sampleRequest.status = "Request Received" ∧
    (DataEntryService.sampleStore.updateRequestStatus "req_00ff" "Request Received"
        DataEntryService.evaluatorSession 1739577700000).1.success = true := by
  refine ⟨by decide, by decide, by decide⟩

/-- **C4 (amended).** For a caller holding `update_request_status` and a
stored request whose status is `'Request Received'`, the targets
`updateRequestStatus` accepts are `'Request Received'` itself and
`'Processing'`; the target `'Ready for Pickup'` is rejected with the errors
`['Cannot skip Processing status']`; and for a request whose status is
`'Ready for Pickup'` the target `'Request Received'` is rejected with
`['Cannot move backwards in status']`.  A rejected call leaves the store as
it was. -/
theorem DataEntryService.updateRequestStatus_transitions (ds : DataEntryService)
    (requestId : String) (request : Request) (userSession : UserSession) (now : Nat)
    (hperm : DataEntryService._hasUpdateStatusPermissions userSession = true)
    (hget : ds.getRequestById requestId = some request) :
    (request.status = "Request Received" →
      (∀ target : String,
        (ds.updateRequestStatus requestId target userSession now).1.success = true ↔
          (target = "Request Received" ∨ target = "Processing")) ∧
      ds.updateRequestStatus requestId "Ready for Pickup" userSession now =
        ({ success := false, errors := some ["Cannot skip Processing status"] }, ds)) ∧
    (request.status = "Ready for Pickup" →
      ds.updateRequestStatus requestId "Request Received" userSession now =
        ({ success := false, errors := some ["Cannot move backwards in status"] }, ds)) := by
  have hup : ∀ target : String, ds.updateRequestStatus requestId target userSession now =
      if (DataEntryService._validateStatusTransition request.status target).isValid = false then
        ({ success := false,
           errors := some (DataEntryService._validateStatusTransition request.status target).errors },
         ds)
      else
        ({ success := true,
           data := some (DataEntryService._updateRequestWithNewStatus request target userSession now) },
         DataEntryService.mk (mapSet ds.requests requestId
           (DataEntryService._updateRequestWithNewStatus request target userSession now))) := by
    intro target
    simp [DataEntryService.updateRequestStatus, hperm, hget]
  have e1 : DataEntryService._validateStatusTransition "Request Received" "Request Received" =
      { isValid := true, errors := [] } := by decide
  have e2 : DataEntryService._validateStatusTransition "Request Received" "Processing" =
      { isValid := true, errors := [] } := by decide
  have e3 : DataEntryService._validateStatusTransition "Request Received" "Ready for Pickup" =
      { isValid := false, errors := ["Cannot skip Processing status"] } := by decide
  have e4 : DataEntryService._validateStatusTransition "Ready for Pickup" "Request Received" =
      { isValid := false, errors := ["Cannot move backwards in status"] } := by decide
  refine ⟨fun hst => ⟨fun target => ?_, ?_⟩, fun hst => ?_⟩
  · rw [hup, hst]
    by_cases h1 : target = "Request Received"
    · subst h1; simp [e1]
    · by_cases h2 : target = "Processing"
      · subst h2; simp [e2]
      · by_cases h3 : target = "Ready for Pickup"
        · subst h3; simp [e3]
        · have hmem : target ∉ ["Request Received", "Processing", "Ready for Pickup"] := by
            simp [h1, h2, h3]
          have := DataEntryService.validateStatusTransition_unknown_target
            "Request Received" target hmem
          simp [this, h1, h2]
  · rw [hup, hst]; simp [e3]
  · rw [hup, hst]; simp [e4]

/-- The stored `sampleRequest` and the evaluator's session. -/
theorem DataEntryService.updateRequestStatus_transitions_witness :
    (DataEntryService.sampleRequest.status = "Request Received" →
      (∀ target : String,
        (DataEntryService.sampleStore.updateRequestStatus "req_00ff" target
            DataEntryService.evaluatorSession 1739577700000).1.success = true ↔
          (target = "Request Received" ∨ target = "Processing")) ∧
      DataEntryService.sampleStore.updateRequestStatus "req_00ff" "Ready for Pickup"
          DataEntryService.evaluatorSession 1739577700000 =
        ({ success := false, errors := some ["Cannot skip Processing status"] },
         DataEntryService.sampleStore)) ∧
    (DataEntryService.sampleRequest.status = "Ready for Pickup" →
      DataEntryService.sampleStore.updateRequestStatus "req_00ff" "Request Received"
          DataEntryService.evaluatorSession 1739577700000 =
        ({ success := false, errors := some ["Cannot move backwards in status"] },
         DataEntryService.sampleStore)) :=
  DataEntryService.updateRequestStatus_transitions DataEntryService.sampleStore "req_00ff"
    DataEntryService.sampleRequest DataEntryService.evaluatorSession 1739577700000
    (by decide) (by decide)

/-! ## Request creation -/

namespace DataEntryService

theorem validateStudentDetails_sanitized (d : Option StudentData)
    (h : (validateStudentDetails d).errors = []) :
    ∃ r, (validateStudentDetails d).sanitizedData = some r := by
  cases d with
  | none => simp [validateStudentDetails] at h
  | some d =>
    simp only [validateStudentDetails] at h ⊢
    simp only [h]
    simp

theorem validateRequestedDocuments_sanitized (d : Option DocumentsData)
    (h : (validateRequestedDocuments d).errors = []) :
    ∃ r, (validateRequestedDocuments d).sanitizedData = some r := by
  unfold validateRequestedDocuments at h ⊢
  split at h
  · simp at h
  · split at h
    · simp at h
    · split at h
      · simp at h
      · split at h
        · simp at h
        · rename_i hlen1 hlen2
          simp only [hlen1, hlen2, if_false] at h ⊢
          simp only [h]
          simp

theorem validateOtherDetails_sanitized (ds : DataEntryService) (d : Option OtherDetails)
    (now : Nat) (tz : Int) (h : (ds.validateOtherDetails d now tz).errors = []) :
    ∃ r, (ds.validateOtherDetails d now tz).sanitizedData = some r ∧
      ∃ o, d = some o ∧ r.controlNumber = o.controlNumber ∧
        ds._validateControlNumber o.controlNumber = [] := by
  cases d with
  | none => simp [validateOtherDetails] at h
  | some o =>
    simp only [validateOtherDetails] at h ⊢
    simp only [List.append_eq_nil] at h
    obtain ⟨⟨⟨h1, h2⟩, h3⟩, h4⟩ := h
    simp [h1, h2, h3, h4]

theorem validateRemarks_sanitized (d : Option Remarks)
    (h : (validateRemarks d).errors = []) :
    ∃ r, (validateRemarks d).sanitizedData = some r := by
  cases d with
  | none => simp [validateRemarks]
  | some r =>
    simp only [validateRemarks] at h ⊢
    simp only [h]
    simp

/-- The two outcomes of `createRequest` for a caller who may create requests. -/
theorem createRequest_permitted (ds : DataEntryService) (requestData : RequestData)
    (userSession : UserSession) (now : Nat) (tz : Int) (idHex : String) (rand : Nat)
    (hperm : _hasCreatePermissions userSession = true) :
    (_collectAllValidationErrors (ds._validateAllRequestSections requestData now tz) ≠ [] ∧
      ds.createRequest requestData userSession now tz idHex rand =
        Except.ok ({ success := false,
                     errors := some (_collectAllValidationErrors
                       (ds._validateAllRequestSections requestData now tz)) }, ds)) ∨
    (_collectAllValidationErrors (ds._validateAllRequestSections requestData now tz) = [] ∧
      ∃ req o, ds.createRequest requestData userSession now tz idHex rand =
          Except.ok ({ success := true, data := some req },
            { requests := mapSet ds.requests req.id req }) ∧
        req.id = "req_" ++ idHex ∧ requestData.otherDetails = some o ∧
        req.controlNumber = o.controlNumber ∧
        ds._validateControlNumber o.controlNumber = []) := by
  by_cases herr : _collectAllValidationErrors (ds._validateAllRequestSections requestData now tz) = []
  · right
    refine ⟨herr, ?_⟩
    have herr' := herr
    simp only [_collectAllValidationErrors, _validateAllRequestSections,
      List.append_eq_nil] at herr'
    obtain ⟨⟨⟨h1, h2⟩, h3⟩, h4⟩ := herr'
    obtain ⟨r1, hr1⟩ := validateStudentDetails_sanitized _ h1
    obtain ⟨r2, hr2⟩ := validateRequestedDocuments_sanitized _ h2
    obtain ⟨r3, hr3, o, ho, hcn, hval⟩ := validateOtherDetails_sanitized ds _ now tz h3
    obtain ⟨r4, hr4⟩ := validateRemarks_sanitized _ h4
    have hb : ∃ req : Request, req.id = "req_" ++ idHex ∧ req.controlNumber = r3.controlNumber ∧
        _buildNewRequest (ds._validateAllRequestSections requestData now tz)
          userSession now idHex rand = Except.ok req := by
      refine ⟨
          { id := "req_" ++ idHex
            trackingCode := generateTrackingCode r1.lastName rand
            status := "Request Received"
            controlNumber := r3.controlNumber
            studentDetails := r1
            requestedDocuments := r2
            otherDetails := r3
            remarks := r4
            createdBy := userSession.email
            createdAt := now
            updatedAt := now
            statusHistory :=
              [{ status := "Request Received", updatedBy := userSession.email,
                 updatedAt := now }] }, rfl, rfl, ?_⟩
      simp only [_buildNewRequest, _validateAllRequestSections, hr1, hr2, hr3, hr4]
    obtain ⟨req, hid, hctl, hb⟩ := hb
    refine ⟨req, o, ?_, hid, ho, hctl.trans hcn, hval⟩
    simp only [createRequest, hperm, herr, Bool.not_true, Bool.false_eq_true, if_false,
      List.length_nil, gt_iff_lt, lt_self_iff_false, hb]
  · left
    refine ⟨herr, ?_⟩
    have hlen : (_collectAllValidationErrors
        (ds._validateAllRequestSections requestData now tz)).length > 0 :=
      List.length_pos.mpr herr
    simp only [createRequest, hperm, Bool.not_true, Bool.false_eq_true, if_false, hlen, if_true]

end DataEntryService

/-- **C6.** For a caller whose role holds `create_requests`, `createRequest`
fails exactly when one of the four section validators (student, documents,
other details, remarks) reports an error; the `errors` it returns are the four
error lists concatenated in that order; a failing call, for invalid data or
for a caller without the permission, leaves the request store as it was, and
a successful call stores exactly the request it returns. -/
theorem DataEntryService.createRequest_all_or_nothing (ds : DataEntryService)
    (requestData : RequestData) (userSession : UserSession) (now : Nat) (tz : Int)
    (idHex : String) (rand : Nat)
    (hperm : DataEntryService._hasCreatePermissions userSession = true) :
    ∃ r ds1, ds.createRequest requestData userSession now tz idHex rand = Except.ok (r, ds1) ∧
      (r.success = false ↔
        ((DataEntryService.validateStudentDetails requestData.studentDetails).errors ≠ [] ∨
         (DataEntryService.validateRequestedDocuments requestData.requestedDocuments).errors ≠ [] ∨
         (ds.validateOtherDetails requestData.otherDetails now tz).errors ≠ [] ∨
         (DataEntryService.validateRemarks requestData.remarks).errors ≠ [])) ∧
      (r.success = false →
        r.errors = some
          ((DataEntryService.validateStudentDetails requestData.studentDetails).errors ++
           (DataEntryService.validateRequestedDocuments requestData.requestedDocuments).errors ++
           (ds.validateOtherDetails requestData.otherDetails now tz).errors ++
           (DataEntryService.validateRemarks requestData.remarks).errors) ∧
        ds1 = ds) ∧
      (r.success = true →
        ∃ req, r.data = some req ∧ ds1.requests = mapSet ds.requests req.id req) ∧
      (∀ other : UserSession, DataEntryService._hasCreatePermissions other = false →
        ds.createRequest requestData other now tz idHex rand =
          Except.ok (DataEntryService._createErrorResponse "INSUFFICIENT_PERMISSIONS"
            "You do not have permission to create requests", ds)) := by
  have hcollect : DataEntryService._collectAllValidationErrors
      (ds._validateAllRequestSections requestData now tz) =
      (DataEntryService.validateStudentDetails requestData.studentDetails).errors ++
      (DataEntryService.validateRequestedDocuments requestData.requestedDocuments).errors ++
      (ds.validateOtherDetails requestData.otherDetails now tz).errors ++
      (DataEntryService.validateRemarks requestData.remarks).errors := rfl
  have hdeny : ∀ other : UserSession, DataEntryService._hasCreatePermissions other = false →
      ds.createRequest requestData other now tz idHex rand =
        Except.ok (DataEntryService._createErrorResponse "INSUFFICIENT_PERMISSIONS"
          "You do not have permission to create requests", ds) := by
    intro other hother
    simp [DataEntryService.createRequest, hother]
  rcases DataEntryService.createRequest_permitted ds requestData userSession now tz idHex rand
      hperm with ⟨herr, hres⟩ | ⟨herr, req, o, hres, -⟩
  · refine ⟨_, _, hres, ?_, ?_, ?_, hdeny⟩
    · simp only [true_iff]
      rw [hcollect] at herr
      by_contra hcon
      simp only [not_or, not_not] at hcon
      obtain ⟨h1, h2, h3, h4⟩ := hcon
      apply herr
      simp [h1, h2, h3, h4]
    · intro _
      exact ⟨by rw [hcollect], rfl⟩
    · intro h; simp at h
  · refine ⟨_, _, hres, ?_, ?_, ?_, hdeny⟩
    · rw [hcollect] at herr
      simp only [List.append_eq_nil] at herr
      obtain ⟨⟨⟨h1, h2⟩, h3⟩, h4⟩ := herr
      simp [h1, h2, h3, h4]
    · intro h; simp at h
    · intro _
      exact ⟨req, rfl, rfl⟩

/-- A request with no section at all, submitted by the evaluator. -/
theorem DataEntryService.createRequest_all_or_nothing_witness :
    ∃ r ds1, DataEntryService.fresh.createRequest {} DataEntryService.evaluatorSession
        1739577600000 28800000 "00ff" 0 = Except.ok (r, ds1) ∧
      r.errors = some ["Student details are required", "Documents data is required",
        "Other details are required"] ∧ ds1 = DataEntryService.fresh := by
  obtain ⟨r, ds1, hres, -, hfail, -, -⟩ :=
    DataEntryService.createRequest_all_or_nothing DataEntryService.fresh {}
      DataEntryService.evaluatorSession 1739577600000 28800000 "00ff" 0 (by decide)
  have hr : r.success = false := by
    have : DataEntryService.fresh.createRequest {} DataEntryService.evaluatorSession
        1739577600000 28800000 "00ff" 0 =
        Except.ok ({ success := false,
                     errors := some ["Student details are required",
                       "Documents data is required", "Other details are required"] },
          DataEntryService.fresh) := by decide
    rw [this] at hres
    simp only [Except.ok.injEq, Prod.mk.injEq] at hres
    rw [← hres.1]
  exact ⟨r, ds1, hres, (hfail hr).1, (hfail hr).2⟩

/-! ## Uniqueness of control numbers -/

theorem mem_map_mapSet {α β : Type} (g : α → β) (m : List (String × α)) (k : String) (v : α)
    (y : β) (h : y ∈ (mapSet m k v).map (fun kv => g kv.2)) :
    y ∈ m.map (fun kv => g kv.2) ∨ y = g v := by
  induction m with
  | nil => simp [mapSet] at h; exact Or.inr h
  | cons hd tl ih =>
    obtain ⟨k0, x⟩ := hd
    by_cases hk : k0 = k
    · simp only [mapSet, hk, if_true, List.map_cons, List.mem_cons] at h ⊢
      rcases h with h | h
      · exact Or.inr h
      · exact Or.inl (Or.inr h)
    · simp only [mapSet, hk, if_false, List.map_cons, List.mem_cons] at h ⊢
      rcases h with h | h
      · exact Or.inl (Or.inl h)
      · rcases ih h with h' | h'
        · exact Or.inl (Or.inr h')
        · exact Or.inr h'

theorem nodup_map_mapSet {α β : Type} (g : α → β) (m : List (String × α)) (k : String) (v : α)
    (hnd : (m.map (fun kv => g kv.2)).Nodup) (hnew : g v ∉ m.map (fun kv => g kv.2)) :
    ((mapSet m k v).map (fun kv => g kv.2)).Nodup := by
  induction m with
  | nil => simp [mapSet]
  | cons hd tl ih =>
    obtain ⟨k0, x⟩ := hd
    simp only [List.map_cons, List.nodup_cons, List.mem_cons, not_or] at hnd hnew
    by_cases hk : k0 = k
    · simp only [mapSet, hk, if_true, List.map_cons, List.nodup_cons]
      exact ⟨hnew.2, hnd.2⟩
    · simp only [mapSet, hk, if_false, List.map_cons, List.nodup_cons]
      refine ⟨?_, ih hnd.2 hnew.2⟩
      intro hmem
      rcases mem_map_mapSet g tl k v _ hmem with h | h
      · exact hnd.1 h
      · exact hnew.1 h.symm

namespace DataEntryService

theorem controlNumberExists_iff (ds : DataEntryService) (c : Option String) :
    ds.controlNumberExists c = true ↔ c ∈ ds.controlNumbers := by
  simp only [controlNumberExists, controlNumbers, List.any_eq_true, List.mem_map, beq_iff_eq]

theorem validateControlNumber_nil (ds : DataEntryService) (c : Option String)
    (h : ds._validateControlNumber c = []) :
    (∃ s, c = some s ∧ s ≠ "" ∧ jsTrim s ≠ "" ∧ controlNumberPatternTest s = true) ∧
      c ∉ ds.controlNumbers := by
  cases c with
  | none => simp [_validateControlNumber] at h
  | some s =>
    unfold _validateControlNumber at h
    simp only at h
    split at h
    · simp at h
    · rename_i h1
      split at h
      · simp at h
      · rename_i h2
        split at h
        · simp at h
        · rename_i h3
          simp only [Bool.or_eq_true, decide_eq_true_eq, not_or] at h1
          refine ⟨⟨s, rfl, h1.1, h1.2, by simpa using h2⟩, ?_⟩
          rw [← controlNumberExists_iff]
          exact h3

theorem validateControlNumber_exists (ds : DataEntryService) (s : String)
    (h1 : s ≠ "") (h2 : jsTrim s ≠ "") (h3 : controlNumberPatternTest s = true)
    (h4 : some s ∈ ds.controlNumbers) :
    ds._validateControlNumber (some s) = ["Control number already exists"] := by
  have := (controlNumberExists_iff ds (some s)).mpr h4
  simp [_validateControlNumber, h1, h2, h3, this]

theorem createRequest_preserves (ds : DataEntryService) (c : CreateCall)
    (hinv : ControlNumbersOk ds) :
    ∃ r ds1, ds.createRequest c.requestData c.userSession c.now c.tz c.idHex c.rand =
        Except.ok (r, ds1) ∧ ControlNumbersOk ds1 := by
  by_cases hperm : _hasCreatePermissions c.userSession = true
  · rcases createRequest_permitted ds c.requestData c.userSession c.now c.tz c.idHex c.rand
        hperm with ⟨-, hres⟩ | ⟨-, req, o, hres, -, -, hctl, hval⟩
    · exact ⟨_, _, hres, hinv⟩
    · refine ⟨_, _, hres, ?_⟩
      obtain ⟨hpat, hnew⟩ := validateControlNumber_nil ds _ hval
      rw [← hctl] at hpat hnew
      constructor
      · exact nodup_map_mapSet (fun r : Request => r.controlNumber) ds.requests req.id req
          hinv.1 hnew
      · intro cn hcn
        rcases mem_map_mapSet (fun r : Request => r.controlNumber) ds.requests req.id req cn hcn
          with h | h
        · exact hinv.2 cn h
        · rw [h]; exact hpat
  · have hp : _hasCreatePermissions c.userSession = false := by simpa using hperm
    exact ⟨_createErrorResponse "INSUFFICIENT_PERMISSIONS"
      "You do not have permission to create requests", ds, by simp [createRequest, hp], hinv⟩

theorem createRun_preserves (calls : List CreateCall) :
    ∀ ds : DataEntryService, ControlNumbersOk ds → ControlNumbersOk (createRun ds calls) := by
  induction calls with
  | nil => intro ds h; exact h
  | cons c cs ih =>
    intro ds h
    obtain ⟨r, ds1, hres, hinv⟩ := createRequest_preserves ds c h
    simp only [createRun, hres]
    exact ih ds1 hinv

end DataEntryService

/-- **C7.** After any sequence of `createRequest` calls on one service, no
two stored requests have the same `controlNumber`; and a further
`createRequest` whose `otherDetails.controlNumber` equals the control number
of a stored request fails and stores nothing, with an `errors` list that
contains `'Control number already exists'` when the caller may create
requests. -/
theorem DataEntryService.createRun_unique_control_numbers (calls : List CreateCall) :
    (DataEntryService.createRun DataEntryService.fresh calls).controlNumbers.Nodup ∧
    ∀ (requestData : RequestData) (userSession : UserSession) (now : Nat) (tz : Int)
      (idHex : String) (rand : Nat) (o : OtherDetails),
      requestData.otherDetails = some o →
      o.controlNumber ∈ (DataEntryService.createRun DataEntryService.fresh calls).controlNumbers →
      ∃ r, (DataEntryService.createRun DataEntryService.fresh calls).createRequest
            requestData userSession now tz idHex rand =
          Except.ok (r, DataEntryService.createRun DataEntryService.fresh calls) ∧
        r.success = false ∧
        (DataEntryService._hasCreatePermissions userSession = true →
          ∃ errs, r.errors = some errs ∧ "Control number already exists" ∈ errs) := by
  have hinv : DataEntryService.ControlNumbersOk
      (DataEntryService.createRun DataEntryService.fresh calls) :=
    DataEntryService.createRun_preserves calls DataEntryService.fresh
      ⟨by simp [DataEntryService.controlNumbers, DataEntryService.fresh],
       by simp [DataEntryService.controlNumbers, DataEntryService.fresh]⟩
  refine ⟨hinv.1, ?_⟩
  intro requestData userSession now tz idHex rand o ho hmem
  generalize DataEntryService.createRun DataEntryService.fresh calls = ds at hinv hmem ⊢
  obtain ⟨s, hs, h1, h2, h3⟩ := hinv.2 _ hmem
  rw [hs] at hmem
  have hval := DataEntryService.validateControlNumber_exists ds s h1 h2 h3 hmem
  by_cases hperm : DataEntryService._hasCreatePermissions userSession = true
  · have hin : "Control number already exists" ∈
        DataEntryService._collectAllValidationErrors
          (ds._validateAllRequestSections requestData now tz) := by
      simp only [DataEntryService._collectAllValidationErrors,
        DataEntryService._validateAllRequestSections, DataEntryService.validateOtherDetails,
        ho, hs, hval, List.mem_append]
      left; right; left; left; left
      exact List.mem_singleton.mpr rfl
    rcases DataEntryService.createRequest_permitted ds requestData userSession now tz idHex
        rand hperm with ⟨-, hres⟩ | ⟨herr, -⟩
    · exact ⟨_, hres, rfl, fun _ => ⟨_, rfl, hin⟩⟩
    · rw [herr] at hin; simp at hin
  · have hp : DataEntryService._hasCreatePermissions userSession = false := by simpa using hperm
    refine ⟨DataEntryService._createErrorResponse "INSUFFICIENT_PERMISSIONS"
      "You do not have permission to create requests",
      by simp [DataEntryService.createRequest, hp], rfl, fun h => ?_⟩
    rw [hp] at h; simp at h

/-! ## Successful login -/

theorem mapGet_mapDelete_self {α : Type} (m : List (String × α)) (k : String) :
    mapGet (mapDelete m k) k = none := by
  induction m with
  | nil => simp [mapDelete, mapGet]
  | cons hd tl ih =>
    obtain ⟨k0, x⟩ := hd
    simp only [mapDelete, mapGet] at ih ⊢
    by_cases h : k0 = k
    · simp [List.filter_cons, h, ih]
    · have h' : (k == k0) = false := by simpa using fun h2 => h h2.symm
      simp [List.filter_cons, h, List.lookup, h', ih]

theorem mapGet_mapDelete_ne {α : Type} (m : List (String × α)) (k k' : String) (hne : k' ≠ k) :
    mapGet (mapDelete m k) k' = mapGet m k' := by
  induction m with
  | nil => simp [mapDelete, mapGet]
  | cons hd tl ih =>
    obtain ⟨k0, x⟩ := hd
    simp only [mapDelete, mapGet] at ih ⊢
    by_cases h : k0 = k
    · subst h
      have h' : (k' == k0) = false := by simpa using hne
      simp [List.filter_cons, List.lookup, h', ih]
    · by_cases h2 : k' = k0
      · subst h2; simp [List.filter_cons, h, List.lookup]
      · have h' : (k' == k0) = false := by simpa using h2
        simp [List.filter_cons, h, List.lookup, h', ih]

namespace AuthService

/-- The stored e-mail and password of a whitelisted user are already in the
form `login` normalises them to. -/
theorem whitelisted_normal (u : User) (hu : u ∈ authorizedUsers) :
    ∃ e role pw, u = { email := some e, role := some role, password := some pw } ∧
      jsToLowerCase (jsTrim e) = e ∧ jsTrim pw = pw := by
  simp only [authorizedUsers, List.mem_cons, List.mem_singleton, List.not_mem_nil, or_false] at hu
  rcases hu with rfl | rfl | rfl | rfl | rfl
  all_goals exact ⟨_, _, _, rfl, by decide, by decide⟩

end AuthService

/-- **C11.** For each of the five whitelisted users, `login` with the user's
e-mail and exact password on an account that is not locked succeeds: the
result carries the whitelisted role and that role's permission list and an
active session whose id `validateSession` accepts (until the session times
out), and no failed-attempt record is left for the e-mail.  For
`sysadmin@xu.edu.ph` the role is `SystemAdministrator` and the permissions
include `manage_access_control`. -/
theorem AuthService.login_whitelisted_success (s : AuthService) (u : User)
    (hu : u ∈ authorizedUsers) (e role pw : String)
    (hrec : u = { email := some e, role := some role, password := some pw })
    (now later : Nat) (rnd : String) (hunlocked : (s._isAccountLocked e now).1 = false) :
    ∃ r s1 perms ls,
      s.login (JsValue.string e) (JsValue.string pw) now later rnd = Except.ok (r, s1) ∧
      r.success = true ∧
      lookupProp rolesPermissions role = Lookup.own perms ∧
      r.user = some { email := e, role := role, permissions := perms } ∧
      r.session = some ls ∧ ls.isActive = true ∧
      (∀ t, t ≤ later + SESSION_TIMEOUT →
        ∃ v, (s1.validateSession (JsValue.string ls.sessionId) t).1 = some v ∧
          v.sessionId = ls.sessionId ∧
          v.user = { email := e, role := role, permissions := perms }) ∧
      mapGet s1.loginAttempts e = none ∧
      (∀ t, (s1.getLoginAttempts e t).1.failedAttempts = 0) ∧
      (e = "sysadmin@xu.edu.ph" →
        role = "SystemAdministrator" ∧ "manage_access_control" ∈ perms) := by
  obtain ⟨e0, role0, pw0, hu0, hpat, hdom, hwl, perms, hperm, hene, hrne, hpwne, hvr⟩ :=
    AuthService.whitelisted_facts u hu
  obtain ⟨e1, role1, pw1, hu1, hnorm, htrim⟩ := AuthService.whitelisted_normal u hu
  rw [hrec] at hu0 hu1 hwl
  simp only [User.mk.injEq, Option.some.injEq] at hu0 hu1
  obtain ⟨rfl, rfl, rfl⟩ := hu0
  obtain ⟨rfl, rfl, rfl⟩ := hu1
  have hsan := AuthService.sanitize_ok e pw (by rw [hnorm]; exact hpat) (by rw [htrim]; exact hpwne)
  rw [hnorm, htrim] at hsan
  obtain ⟨s0, hlock⟩ : ∃ s0, s._isAccountLocked e now = (false, s0) :=
    ⟨(s._isAccountLocked e now).2, by rw [← hunlocked]⟩
  have hvalid := AuthService.generated_id_valid rnd later
  have hidne : AuthService._generateSessionId rnd later ≠ "" := by
    intro h0
    rw [h0] at hvalid
    revert hvalid
    decide
  have hlogin : s.login (JsValue.string e) (JsValue.string pw) now later rnd =
      Except.ok
        ({ success := true, message := "Login successful",
           user := some { email := e, role := role, permissions := perms },
           session := some { sessionId := AuthService._generateSessionId rnd later,
                             expiresAt := later + SESSION_TIMEOUT, isActive := true },
           loginTimestamp := some now },
         ((AuthService.mk
            (mapSet (mapSet s0.activeSessions (AuthService._generateSessionId rnd later)
              { sessionId := AuthService._generateSessionId rnd later, email := e, role := role,
                permissions := perms, createdAt := later, isActive := true,
                lastAccessedAt := later, roleLevel := AuthService.getRoleLevel role,
                domain := jsSubstringFrom e (jsIndexOf e '@') })
              (AuthService._generateSessionId rnd later)
              { sessionId := AuthService._generateSessionId rnd later, email := e, role := role,
                permissions := perms, createdAt := later, isActive := true,
                lastAccessedAt := later, roleLevel := AuthService.getRoleLevel role,
                domain := jsSubstringFrom e (jsIndexOf e '@'),
                clientInfo := some (AuthService._generateClientInfo now),
                loginMethod := some "email_password" })
            (mapDelete s0.loginAttempts e) s0.securityAuditLog)._logSecurityEvent later
              "LOGIN_SUCCESS" "USER_AUTHENTICATED"
              [AuditDetail.text "email" e, AuditDetail.text "role" role,
               AuditDetail.text "sessionId" (AuthService._generateSessionId rnd later),
               AuditDetail.client "clientInfo" (AuthService._generateClientInfo now)])) := by
    simp [AuthService.login, hsan, hlock, hdom, hwl, AuthService.createSession, hene, hrne,
      hperm, hvr, AuthService._clearFailedAttempts, AuthService._logSecurityEvent]
  refine ⟨_, _, perms, _, hlogin, rfl, hperm, rfl, rfl, rfl, ?_, ?_, ?_, ?_⟩
  · intro t ht
    rw [AuthService.validateSession_string]
    have hexp : AuthService._isSessionExpired
        { sessionId := AuthService._generateSessionId rnd later, email := e, role := role,
          permissions := perms, createdAt := later, isActive := true,
          lastAccessedAt := later, roleLevel := AuthService.getRoleLevel role,
          domain := jsSubstringFrom e (jsIndexOf e '@'),
          clientInfo := some (AuthService._generateClientInfo now),
          loginMethod := some "email_password" } t = false := by
      rw [← Bool.not_eq_true, AuthService.isSessionExpired_iff]
      simp only [not_lt]
      exact ht
    simp [hidne, hvalid, AuthService._logSecurityEvent, mapGet_mapSet_self, hexp]
  · simp [AuthService._logSecurityEvent, mapGet_mapDelete_self]
  · intro t
    simp [AuthService.getLoginAttempts, AuthService._logSecurityEvent, mapGet_mapDelete_self]
  · intro he
    subst he
    have : (⟨some "sysadmin@xu.edu.ph", some role, some pw⟩ : User) ∈ authorizedUsers := by
      rw [← hrec]; exact hu
    simp only [authorizedUsers, List.mem_cons, List.mem_singleton, List.not_mem_nil, or_false,
      User.mk.injEq, Option.some.injEq] at this
    rcases this with ⟨-, rfl, -⟩ | ⟨h, -⟩ | ⟨h, -⟩ | ⟨h, -⟩ | ⟨h, -⟩
    · have hp : lookupProp rolesPermissions "SystemAdministrator" = Lookup.own
          ["manage_access_control", "whitelist_users", "assign_roles",
           "view_all_audit_logs", "manage_system_config", "create_users",
           "delete_users", "modify_user_roles"] := by decide
      rw [hp] at hperm
      simp only [Lookup.own.injEq] at hperm
      subst hperm
      exact ⟨rfl, by decide⟩
    all_goals exact absurd h (by decide)

/-- The login of the test suite: `sysadmin@xu.edu.ph` with its password on a
fresh service. -/
theorem AuthService.login_whitelisted_success_witness :
    ∃ r s1 perms ls,
      AuthService.fresh.login (JsValue.string "sysadmin@xu.edu.ph")
        (JsValue.string "SysAdmin123!") 1000 1100 "abc" = Except.ok (r, s1) ∧
      r.success = true ∧
      lookupProp rolesPermissions "SystemAdministrator" = Lookup.own perms ∧
      r.user = some { email := "sysadmin@xu.edu.ph", role := "SystemAdministrator",
                      permissions := perms } ∧
      r.session = some ls ∧ ls.isActive = true ∧
      (∀ t, t ≤ 1100 + SESSION_TIMEOUT →
        ∃ v, (s1.validateSession (JsValue.string ls.sessionId) t).1 = some v ∧
          v.sessionId = ls.sessionId ∧
          v.user = { email := "sysadmin@xu.edu.ph", role := "SystemAdministrator",
                     permissions := perms }) ∧
      mapGet s1.loginAttempts "sysadmin@xu.edu.ph" = none ∧
      (∀ t, (s1.getLoginAttempts "sysadmin@xu.edu.ph" t).1.failedAttempts = 0) ∧
      (("sysadmin@xu.edu.ph" : String) = "sysadmin@xu.edu.ph" →
        ("SystemAdministrator" : String) = "SystemAdministrator" ∧
          "manage_access_control" ∈ perms) :=
  AuthService.login_whitelisted_success AuthService.fresh AuthService.adminUser (by decide)
    "sysadmin@xu.edu.ph" "SystemAdministrator" "SysAdmin123!" rfl 1000 1100 "abc" (by decide)

/-! ## Failed logins and the throttle table -/

namespace AuthService

theorem locksAtThreshold_mapDelete (s : AuthService) (e : String) (h : LocksAtThreshold s) :
    LocksAtThreshold (s._clearFailedAttempts e) := by
  intro e' a hget hl
  by_cases he : e' = e
  · subst he
    simp [_clearFailedAttempts, mapGet_mapDelete_self] at hget
  · simp only [_clearFailedAttempts, mapGet_mapDelete_ne _ _ _ he] at hget
    exact h e' a hget hl

/-- The call `_isAccountLocked` either answers from the record and leaves the
state alone, or finds a lapsed lock, clears the record and answers `false`. -/
theorem isAccountLocked_cases (s : AuthService) (e : String) (now : Nat) :
    (s._isAccountLocked e now = (false, s._clearFailedAttempts e) ∧
      ∃ a L, mapGet s.loginAttempts e = some a ∧ a.lockedUntil = some L ∧ L ≠ 0 ∧ L < now) ∨
    (s._isAccountLocked e now = (decide (s.attemptCount e ≥ MAX_LOGIN_ATTEMPTS), s) ∧
      ∀ a L, mapGet s.loginAttempts e = some a → a.lockedUntil = some L → L ≠ 0 → now ≤ L) := by
  unfold _isAccountLocked attemptCount
  cases hget : mapGet s.loginAttempts e with
  | none => right; simp [MAX_LOGIN_ATTEMPTS]
  | some a =>
    cases hl : a.lockedUntil with
    | none =>
      right; simp [hl]
      intro a1 L1 ha hl1
      subst ha
      rw [hl] at hl1
      exact absurd hl1 (by simp)
    | some L =>
      by_cases h0 : L = 0
      · right; simp [hl, h0]
        intro a1 L1 ha hl1 h1
        subst ha
        rw [hl] at hl1
        simp only [Option.some.injEq] at hl1
        omega
      · by_cases hlt : L < now
        · left; simp [hl, h0, hlt]
        · right; simp [hl, h0, hlt]
          intro a1 L1 ha hl1 h1
          subst ha
          rw [hl] at hl1
          simp only [Option.some.injEq] at hl1
          omega

theorem isAccountLocked_false_facts (s s0 : AuthService) (e : String) (now : Nat)
    (hinv : LocksAtThreshold s) (h : s._isAccountLocked e now = (false, s0)) :
    s0.activeSessions = s.activeSessions ∧ s0.securityAuditLog = s.securityAuditLog ∧
    LocksAtThreshold s0 ∧
    (mapGet s0.loginAttempts e = none ∨
      ∃ a, mapGet s0.loginAttempts e = some a ∧ a.failedAttempts < MAX_LOGIN_ATTEMPTS ∧
        a.lockedUntil = none) := by
  rcases isAccountLocked_cases s e now with ⟨heq, -⟩ | ⟨heq, -⟩
  · rw [heq] at h
    simp only [Prod.mk.injEq, true_and] at h
    subst h
    refine ⟨rfl, rfl, locksAtThreshold_mapDelete s e hinv, Or.inl ?_⟩
    simp [_clearFailedAttempts, mapGet_mapDelete_self]
  · rw [heq] at h
    simp only [Prod.mk.injEq, decide_eq_false_iff_not, not_le] at h
    obtain ⟨hcount, rfl⟩ := h
    refine ⟨rfl, rfl, hinv, ?_⟩
    cases hget : mapGet s.loginAttempts e with
    | none => exact Or.inl rfl
    | some a =>
      right
      simp only [attemptCount, hget] at hcount
      refine ⟨a, rfl, hcount, ?_⟩
      by_contra hl
      have := hinv e a hget hl
      omega

theorem isAccountLocked_true_facts (s s0 : AuthService) (e : String) (now : Nat)
    (h : s._isAccountLocked e now = (true, s0)) :
    s0 = s ∧ (s.getLoginAttempts e now).2 = s := by
  rcases isAccountLocked_cases s e now with ⟨heq, -⟩ | ⟨heq, -⟩
  · rw [heq] at h; simp at h
  · rw [heq] at h
    simp only [Prod.mk.injEq] at h
    refine ⟨h.2.symm, ?_⟩
    unfold getLoginAttempts
    cases hget : mapGet s.loginAttempts e with
    | none => rfl
    | some a => simp [heq]

/-- The record `_recordFailedAttempt` writes. -/
theorem recordFailedAttempt_facts (s : AuthService) (e reason : String)
    (ci : Option ClientInfo) (now : Nat) :
    (s._recordFailedAttempt e reason ci now).activeSessions = s.activeSessions ∧
    (s._recordFailedAttempt e reason ci now).securityAuditLog = s.securityAuditLog ∧
    (∀ e', e' ≠ e → mapGet (s._recordFailedAttempt e reason ci now).loginAttempts e' =
      mapGet s.loginAttempts e') ∧
    ∃ a, mapGet (s._recordFailedAttempt e reason ci now).loginAttempts e = some a ∧
      a.failedAttempts = s.attemptCount e + 1 ∧
      (a.failedAttempts ≥ MAX_LOGIN_ATTEMPTS → a.lockedUntil = some (now + LOCKOUT_DURATION)) ∧
      (a.failedAttempts < MAX_LOGIN_ATTEMPTS →
        a.lockedUntil = ((mapGet s.loginAttempts e).bind (fun x => x.lockedUntil))) := by
  refine ⟨rfl, rfl, ?_, ?_⟩
  · intro e' hne
    simp only [_recordFailedAttempt]
    exact mapGet_mapSet_ne _ _ _ _ hne
  · simp only [_recordFailedAttempt, mapGet_mapSet_self, attemptCount]
    refine ⟨_, rfl, ?_⟩
    cases hget : mapGet s.loginAttempts e with
    | none => simp [MAX_LOGIN_ATTEMPTS]
    | some a0 =>
      by_cases h5 : a0.failedAttempts + 1 ≥ MAX_LOGIN_ATTEMPTS
      · simp only [h5, if_true, true_and, ge_iff_le, implies_true, Option.bind_some]
        intro hlt; omega
      · simp only [h5, if_false, true_and, ge_iff_le, Option.bind_some]
        exact ⟨fun h => False.elim h, fun _ => rfl⟩

theorem recordFailedAttempt_inv (s : AuthService) (e reason : String)
    (ci : Option ClientInfo) (now : Nat) (hinv : LocksAtThreshold s) :
    LocksAtThreshold (s._recordFailedAttempt e reason ci now) := by
  obtain ⟨-, -, hother, a, hget, -, h5, hlt⟩ := recordFailedAttempt_facts s e reason ci now
  intro e' a' hget' hl
  by_cases he : e' = e
  · subst he
    rw [hget] at hget'
    simp only [Option.some.injEq] at hget'
    subst hget'
    by_contra hcon
    have hlt' := hlt (by omega)
    rw [hlt'] at hl
    cases hg : mapGet s.loginAttempts e' with
    | none => simp [hg] at hl
    | some a0 =>
      simp only [hg, Option.bind_some] at hl hlt'
      have h0 := hinv e' a0 hg hl
      obtain ⟨-, -, -, a1, hget1, hc1, -, -⟩ := recordFailedAttempt_facts s e' reason ci now
      rw [hget] at hget1
      simp only [Option.some.injEq] at hget1
      subst hget1
      simp only [attemptCount, hg] at hc1
      omega
  · rw [hother e' he] at hget'
    exact hinv e' a' hget' hl

end AuthService

namespace AuthService

theorem createSession_loginAttempts {s s1 : AuthService} {user : Option User} {now : Nat}
    {rnd : String} {x : Option Session} (h : s.createSession user now rnd = Except.ok (x, s1)) :
    s1.loginAttempts = s.loginAttempts := by
  cases x with
  | some sess =>
    obtain ⟨_, _, _, _, -, -, -, -, hs1⟩ := createSession_some h
    rw [hs1]
  | none =>
    unfold createSession at h
    split at h
    · simp only [Except.ok.injEq, Prod.mk.injEq, true_and] at h; rw [← h]
    · split at h
      · split at h
        · simp only [Except.ok.injEq, Prod.mk.injEq, true_and] at h; rw [← h]
        · split at h
          · simp only [Except.ok.injEq, Prod.mk.injEq, true_and] at h; rw [← h]
          · split at h
            · simp at h
            · simp only [Except.ok.injEq, Prod.mk.injEq, true_and] at h
              rw [← h]; rfl
            · split at h
              · simp at h
              · simp at h
      · simp only [Except.ok.injEq, Prod.mk.injEq, true_and] at h; rw [← h]

/-- Reading the attempts right after a failure was recorded clears nothing. -/
theorem getLoginAttempts_after_record (s0 : AuthService) (e reason : String)
    (ci : Option ClientInfo) (later : Nat)
    (hrec : mapGet s0.loginAttempts e = none ∨
      ∃ a, mapGet s0.loginAttempts e = some a ∧ a.failedAttempts < MAX_LOGIN_ATTEMPTS ∧
        a.lockedUntil = none) :
    ((s0._recordFailedAttempt e reason ci later).getLoginAttempts e later).2 =
      s0._recordFailedAttempt e reason ci later := by
  obtain ⟨-, -, -, a, hget, -, h5, hlt⟩ := recordFailedAttempt_facts s0 e reason ci later
  have hold : (mapGet s0.loginAttempts e).bind (fun x => x.lockedUntil) = none := by
    rcases hrec with h | ⟨a0, h, -, hl⟩
    · simp [h]
    · simp [h, hl]
  unfold getLoginAttempts
  rw [hget]
  simp only
  rcases isAccountLocked_cases (s0._recordFailedAttempt e reason ci later) e later with
    ⟨-, a', L, hget', hl', -, hL⟩ | ⟨heq, -⟩
  · exfalso
    rw [hget] at hget'
    simp only [Option.some.injEq] at hget'
    subst hget'
    by_cases hc : a.failedAttempts ≥ MAX_LOGIN_ATTEMPTS
    · rw [h5 hc] at hl'
      simp only [Option.some.injEq] at hl'
      omega
    · rw [hlt (by omega), hold] at hl'
      simp at hl'
  · rw [heq]

end AuthService

/-- **C12 (counterexample).** After five wrong passwords the sixth login is
answered `ACCOUNT_LOCKED`, and the failed-attempt count recorded for the
e-mail is 5 before the call and still 5 after it. -/
theorem AuthService.login_locked_not_counted :
    ∃ rs s5 r s6,
      AuthService.loginRun AuthService.fresh
        [⟨"sysadmin@xu.edu.ph", "wrong", 1000, 1100, "a"⟩,
         ⟨"sysadmin@xu.edu.ph", "wrong", 2000, 2100, "b"⟩,
         ⟨"sysadmin@xu.edu.ph", "wrong", 3000, 3100, "c"⟩,
         ⟨"sysadmin@xu.edu.ph", "wrong", 4000, 4100, "d"⟩,
         ⟨"sysadmin@xu.edu.ph", "wrong", 5000, 5100, "e"⟩] = Except.ok (rs, s5) ∧
      s5.login (JsValue.string "sysadmin@xu.edu.ph") (JsValue.string "wrong") 6000 6100 "f" =
        Except.ok (r, s6) ∧
      r.errorCode = some "ACCOUNT_LOCKED" ∧
      s5.attemptCount "sysadmin@xu.edu.ph" = 5 ∧ s6.attemptCount "sysadmin@xu.edu.ph" = 5 ∧
      s6.loginAttempts = s5.loginAttempts := by
  refine ⟨_, _, _, _, rfl, rfl, ?_, ?_, ?_, ?_⟩ <;> decide

/-- **C12 (amended).** On a throttle table that records locks only at the
threshold (as every table built by `login` does, and the table stays so), a
`login` call that fails with `INVALID_DOMAIN`, `UNAUTHORIZED_USER` or
`INVALID_PASSWORD` appends one entry to the security audit log and records
one failed attempt for the normalised e-mail: the count is one more than the
count left by the lazy expiry of a lapsed lock.  A call that fails with
`MISSING_CREDENTIALS` or `ACCOUNT_LOCKED` appends one audit entry and leaves
the `loginAttempts` table unchanged. -/
theorem AuthService.login_failure_accounting (s s1 : AuthService) (email password : JsValue)
    (now later : Nat) (rnd : String) (r : AuthService.LoginResult)
    (hinv : s.LocksAtThreshold)
    (h : s.login email password now later rnd = Except.ok (r, s1)) :
    ((r.errorCode = some "MISSING_CREDENTIALS" ∨ r.errorCode = some "ACCOUNT_LOCKED") →
      s1.loginAttempts = s.loginAttempts ∧
      s1.securityAuditLog.length = s.securityAuditLog.length + 1) ∧
    ((r.errorCode = some "INVALID_DOMAIN" ∨ r.errorCode = some "UNAUTHORIZED_USER" ∨
        r.errorCode = some "INVALID_PASSWORD") →
      ∃ e p, AuthService._sanitizeLoginInput email password = Except.ok (e, p) ∧
        s1.attemptCount e = (s._isAccountLocked e now).2.attemptCount e + 1 ∧
        s1.securityAuditLog.length = s.securityAuditLog.length + 1) ∧
    s1.LocksAtThreshold ∧ AuthService.fresh.LocksAtThreshold := by
  have hfresh : AuthService.fresh.LocksAtThreshold := by
    intro e a hget
    simp [AuthService.fresh, mapGet] at hget
  cases hsan : AuthService._sanitizeLoginInput email password with
  | error reason =>
    simp only [AuthService.login, hsan, Except.ok.injEq, Prod.mk.injEq] at h
    obtain ⟨rfl, rfl⟩ := h
    refine ⟨fun _ => ⟨rfl, by simp [AuthService._logSecurityEvent]⟩, ?_, hinv, hfresh⟩
    intro hc
    simp at hc
  | ok ep =>
    obtain ⟨e, p⟩ := ep
    cases hlock : s._isAccountLocked e now with
    | mk locked s0 =>
      cases locked with
      | true =>
        obtain ⟨rfl, hget⟩ := AuthService.isAccountLocked_true_facts s s0 e now hlock
        obtain ⟨info, hinfo⟩ : ∃ info, s0.getLoginAttempts e now = (info, s0) :=
          ⟨(s0.getLoginAttempts e now).1, Prod.ext rfl hget⟩
        simp only [AuthService.login, hsan, hlock, hinfo, if_true, Except.ok.injEq,
          Prod.mk.injEq] at h
        obtain ⟨rfl, rfl⟩ := h
        refine ⟨fun _ => ⟨rfl, by simp [AuthService._logSecurityEvent]⟩, ?_, hinv, hfresh⟩
        intro hc
        simp at hc
      | false =>
        obtain ⟨-, hlog0, hinv0, hrec⟩ :=
          AuthService.isAccountLocked_false_facts s s0 e now hinv hlock
        have hcount : ∀ reason ci t,
            (s0._recordFailedAttempt e reason ci t).attemptCount e = s0.attemptCount e + 1 := by
          intro reason ci t
          obtain ⟨-, -, -, a, hga, hca, -, -⟩ :=
            AuthService.recordFailedAttempt_facts s0 e reason ci t
          simp only [AuthService.attemptCount, hga] at hca ⊢
          exact hca
        by_cases hdom : AuthService.validateEmailDomain e = true
        · cases hwl : AuthService.isUserInWhitelist (JsValue.string e) with
          | none =>
            simp only [AuthService.login, hsan, hlock, hdom, hwl, Bool.false_eq_true, if_false,
              Bool.not_true, Except.ok.injEq, Prod.mk.injEq] at h
            obtain ⟨rfl, rfl⟩ := h
            refine ⟨fun hc => by simp at hc, fun _ => ⟨e, p, rfl, ?_, ?_⟩, ?_, hfresh⟩
            · simpa [AuthService._logSecurityEvent, AuthService.attemptCount, hlock] using
                hcount "UNAUTHORIZED_USER" (some (AuthService._generateClientInfo now)) now
            · simp [AuthService._logSecurityEvent, AuthService._recordFailedAttempt, hlog0]
            · exact AuthService.recordFailedAttempt_inv s0 e _ _ now hinv0
          | some user =>
            by_cases hpw : user.password = some p
            · cases hcs : s0.createSession (some user) later rnd with
              | error err =>
                simp [AuthService.login, hsan, hlock, hdom, hwl, hpw, hcs] at h
              | ok res =>
                obtain ⟨x, s2⟩ := res
                have hla := AuthService.createSession_loginAttempts hcs
                cases x with
                | none =>
                  simp only [AuthService.login, hsan, hlock, hdom, hwl, hpw, hcs,
                    Bool.false_eq_true, if_false, Bool.not_true, bne_self_eq_false,
                    Except.ok.injEq, Prod.mk.injEq] at h
                  obtain ⟨rfl, rfl⟩ := h
                  refine ⟨fun hc => by simp at hc, fun hc => by simp at hc, ?_, hfresh⟩
                  intro e' a hg hl
                  simp only [AuthService._logSecurityEvent, hla] at hg
                  exact hinv0 e' a hg hl
                | some sess =>
                  simp only [AuthService.login, hsan, hlock, hdom, hwl, hpw, hcs,
                    Bool.false_eq_true, if_false, Bool.not_true, bne_self_eq_false,
                    Except.ok.injEq, Prod.mk.injEq] at h
                  obtain ⟨rfl, rfl⟩ := h
                  refine ⟨fun hc => by simp at hc, fun hc => by simp at hc, ?_, hfresh⟩
                  intro e' a hg hl
                  have hinv2 : s2.LocksAtThreshold := by
                    intro e2 a2 hg2 hl2
                    rw [hla] at hg2
                    exact hinv0 e2 a2 hg2 hl2
                  exact AuthService.locksAtThreshold_mapDelete s2 e hinv2 e' a
                    (by simpa [AuthService._logSecurityEvent, AuthService._clearFailedAttempts]
                      using hg) hl
            · have hne : (user.password != some p) = true := by simpa using hpw
              have hkeep := AuthService.getLoginAttempts_after_record s0 e "INVALID_PASSWORD"
                (some (AuthService._generateClientInfo now)) later hrec
              obtain ⟨info, hinfo⟩ : ∃ info,
                  (s0._recordFailedAttempt e "INVALID_PASSWORD"
                    (some (AuthService._generateClientInfo now)) later).getLoginAttempts e later =
                  (info, s0._recordFailedAttempt e "INVALID_PASSWORD"
                    (some (AuthService._generateClientInfo now)) later) :=
                ⟨_, Prod.ext rfl hkeep⟩
              simp only [AuthService.login, hsan, hlock, hdom, hwl, hne, hinfo,
                Bool.false_eq_true, if_false, Bool.not_true, if_true, Except.ok.injEq,
                Prod.mk.injEq] at h
              obtain ⟨rfl, rfl⟩ := h
              refine ⟨fun hc => by simp at hc, fun _ => ⟨e, p, rfl, ?_, ?_⟩, ?_, hfresh⟩
              · simpa [AuthService._logSecurityEvent, AuthService.attemptCount, hlock] using
                  hcount "INVALID_PASSWORD" (some (AuthService._generateClientInfo now)) later
              · simp [AuthService._logSecurityEvent, AuthService._recordFailedAttempt, hlog0]
              · exact AuthService.recordFailedAttempt_inv s0 e _ _ later hinv0
        · have hdom' : AuthService.validateEmailDomain e = false := by simpa using hdom
          simp only [AuthService.login, hsan, hlock, hdom', Bool.false_eq_true, if_false,
            Bool.not_false, if_true, Except.ok.injEq, Prod.mk.injEq] at h
          obtain ⟨rfl, rfl⟩ := h
          refine ⟨fun hc => by simp at hc, fun _ => ⟨e, p, rfl, ?_, ?_⟩, ?_, hfresh⟩
          · simpa [AuthService._logSecurityEvent, AuthService.attemptCount, hlock] using
              hcount "INVALID_DOMAIN" (some (AuthService._generateClientInfo now)) now
          · simp [AuthService._logSecurityEvent, AuthService._recordFailedAttempt, hlog0]
          · exact AuthService.recordFailedAttempt_inv s0 e _ _ now hinv0

/-- A wrong password for `sysadmin@xu.edu.ph` on a fresh service. -/
theorem AuthService.login_failure_accounting_witness :
    AuthService.fresh.LocksAtThreshold ∧
    ∃ r s1, AuthService.fresh.login (JsValue.string "sysadmin@xu.edu.ph")
        (JsValue.string "wrong") 1000 1100 "a" = Except.ok (r, s1) ∧
      r.errorCode = some "INVALID_PASSWORD" ∧
      ((r.errorCode = some "INVALID_DOMAIN" ∨ r.errorCode = some "UNAUTHORIZED_USER" ∨
          r.errorCode = some "INVALID_PASSWORD") →
        ∃ e p, AuthService._sanitizeLoginInput (JsValue.string "sysadmin@xu.edu.ph")
            (JsValue.string "wrong") = Except.ok (e, p) ∧
          s1.attemptCount e = (AuthService.fresh._isAccountLocked e 1000).2.attemptCount e + 1 ∧
          s1.securityAuditLog.length = AuthService.fresh.securityAuditLog.length + 1) :=
  ⟨fun _ _ hget => by simp [AuthService.fresh, mapGet] at hget,
   _, _, rfl, rfl,
   (AuthService.login_failure_accounting AuthService.fresh _
      (JsValue.string "sysadmin@xu.edu.ph") (JsValue.string "wrong") 1000 1100 "a" _
      (fun _ _ hget => by simp [AuthService.fresh, mapGet] at hget) rfl).2.1⟩

/-! ## The domain of a well-formed address -/

theorem indexOfFrom_append (c : Char) (pre rest : List Char) (hpre : c ∉ pre) :
    ∀ i : Nat, indexOfFrom c (pre ++ c :: rest) i = ((i + pre.length : Nat) : Int) := by
  induction pre with
  | nil => intro i; simp [indexOfFrom]
  | cons x xs ih =>
    intro i
    simp only [List.mem_cons, not_or] at hpre
    have hx : ¬ x = c := fun h => hpre.1 h.symm
    have := ih hpre.2 (i + 1)
    simp only [List.cons_append, indexOfFrom, hx, if_false, List.length_cons]
    show indexOfFrom c (xs ++ c :: rest) (i + 1) = _
    rw [this]
    congr 1
    omega

theorem suffix_skip_prefix (d pre t : List Char) (a : Char) (hd : d.head? = some a)
    (hpre : a ∉ pre) (h : d <:+ pre ++ t) : d <:+ t := by
  induction pre with
  | nil => simpa using h
  | cons x xs ih =>
    simp only [List.mem_cons, not_or] at hpre
    rw [List.cons_append, List.suffix_cons_iff] at h
    rcases h with h | h
    · rw [h] at hd
      simp only [List.head?_cons, Option.some.injEq] at hd
      exact absurd hd.symm hpre.1
    · exact ih hpre.2 h

/-- In an address that passes the e-mail pattern, a suffix that starts with
`@` is the whole part from the first `@` on. -/
theorem wellformed_domain (e d : String) (hwf : emailPatternTest e = true)
    (hd : d.data.head? = some '@') (hends : jsEndsWith e d = true) :
    jsSubstringFrom e (jsIndexOf e '@') = d := by
  simp only [jsEndsWith, List.isSuffixOf_iff_suffix] at hends
  unfold emailPatternTest at hwf
  simp only at hwf
  have hsplit := List.takeWhile_append_dropWhile (fun c : Char => !isJsSpace c && c != '@') e.data
  have hpre := @List.all_takeWhile _ (fun c : Char => !isJsSpace c && c != '@') e.data
  generalize List.takeWhile (fun c : Char => !isJsSpace c && c != '@') e.data = pre at hsplit hpre hwf
  cases hdw : List.dropWhile (fun c : Char => !isJsSpace c && c != '@') e.data with
  | nil => simp [hdw] at hwf
  | cons c rest =>
    rw [hdw] at hsplit hwf
    simp only [Bool.and_eq_true, beq_iff_eq] at hwf
    obtain ⟨⟨⟨hc, -⟩, hrest⟩, -⟩ := hwf
    subst hc
    have hnotpre : '@' ∉ pre := by
      intro hmem
      have := List.all_eq_true.mp hpre '@' hmem
      simp at this
    have hnotrest : '@' ∉ rest := by
      intro hmem
      have := List.all_eq_true.mp hrest '@' hmem
      simp at this
    have hidx : jsIndexOf e '@' = ((pre.length : Nat) : Int) := by
      unfold jsIndexOf
      rw [← hsplit, indexOfFrom_append '@' pre rest hnotpre 0]
      simp
    have hdrop : e.data.drop pre.length = '@' :: rest := by
      rw [← hsplit]; simp
    rw [← hsplit] at hends
    have h1 := suffix_skip_prefix d.data pre ('@' :: rest) '@' hd hnotpre hends
    rw [List.suffix_cons_iff] at h1
    have hdeq : d.data = '@' :: rest := by
      rcases h1 with h1 | h1
      · exact h1
      · exfalso
        apply hnotrest
        apply List.IsSuffix.mem _ h1
        cases hdd : d.data with
        | nil => rw [hdd] at hd; simp at hd
        | cons y ys =>
          rw [hdd] at hd
          simp only [List.head?_cons, Option.some.injEq] at hd
          rw [hd]; exact List.mem_cons_self _ _
    simp only [jsSubstringFrom, hidx, Int.toNat_ofNat, hdrop]
    rw [← hdeq]

theorem endsWith_exclusive (e : String) (h1 : jsEndsWith e "@xu.edu.ph" = true) :
    jsEndsWith e "@my.xu.edu.ph" = false := by
  rw [← Bool.not_eq_true]
  intro h2
  simp only [jsEndsWith, List.isSuffixOf_iff_suffix] at h1 h2
  have := List.suffix_of_suffix_length_le h1 h2 (by decide)
  revert this
  decide

namespace AuthService

theorem validateEmailDomain_of_endsWith (x d : String)
    (hwf : emailPatternTest (jsToLowerCase x) = true) (hd : d ∈ VALID_DOMAINS)
    (hends : jsEndsWith (jsToLowerCase x) d = true) :
    validateEmailDomain (jsToLowerCase x) = true := by
  have hhead : d.data.head? = some '@' := by
    simp only [VALID_DOMAINS, List.mem_cons, List.mem_singleton, List.not_mem_nil, or_false] at hd
    rcases hd with rfl | rfl <;> rfl
  have hne : jsToLowerCase x ≠ "" := by
    intro h; rw [h] at hwf; revert hwf; decide
  unfold validateEmailDomain
  rw [if_neg hne]
  simp only [jsToLowerCase_idem, wellformed_domain _ d hwf hhead hends]
  simpa [List.contains_iff_exists_mem_beq] using hd

theorem isUserInWhitelist_unlisted (e : String) (hnot : ∀ u ∈ authorizedUsers, u.email ≠ some e) :
    (jsEndsWith e "@my.xu.edu.ph" = true →
      isUserInWhitelist (JsValue.string e) =
        some { email := some e, role := some "StudentAssistant", password := none }) ∧
    (jsEndsWith e "@my.xu.edu.ph" = false → isUserInWhitelist (JsValue.string e) = none) := by
  have hfind : authorizedUsers.find? (fun user => user.email == some e) = none := by
    rw [List.find?_eq_none]
    intro u hu
    simpa using hnot u hu
  constructor
  · intro h
    have hne : e ≠ "" := by
      intro h0; rw [h0] at h; revert h; decide
    simp [isUserInWhitelist, hne, hfind, h]
  · intro h
    by_cases hne : e = ""
    · simp [isUserInWhitelist, hne]
    · simp [isUserInWhitelist, hne, hfind, h]

end AuthService

/-- **C13 (counterexample).** On a fresh service a wrong password for the
whitelisted `sysadmin@xu.edu.ph` gives `'Invalid credentials'` /
`INVALID_PASSWORD`, while the unlisted `unauthorized@xu.edu.ph` gives
`'User not authorized'` / `UNAUTHORIZED_USER`: message and code differ. -/
theorem AuthService.login_unknown_user_distinguishable :
    (∃ s1, AuthService.fresh.login (JsValue.string "sysadmin@xu.edu.ph")
        (JsValue.string "wrongpassword") 1000 1100 "a" =
      Except.ok ({ success := false, message := "Invalid credentials",
                   errorCode := some "INVALID_PASSWORD" }, s1)) ∧
    (∃ s2, AuthService.fresh.login (JsValue.string "unauthorized@xu.edu.ph")
        (JsValue.string "password123") 1000 1100 "a" =
      Except.ok ({ success := false, message := "User not authorized",
                   errorCode := some "UNAUTHORIZED_USER" }, s2)) ∧
    ("Invalid credentials" : String) ≠ "User not authorized" ∧
    (some "INVALID_PASSWORD" : Option String) ≠ some "UNAUTHORIZED_USER" := by
  refine ⟨⟨_, rfl⟩, ⟨_, rfl⟩, by decide, by decide⟩

/-- **C13 (amended).** On a fresh service, a whitelisted e-mail presented
with a wrong password is answered `'Invalid credentials'` /
`INVALID_PASSWORD`.  An e-mail that is not in the static whitelist gets the
same message and code when its domain is `my.xu.edu.ph` (it is provisioned
with no password), and `'User not authorized'` / `UNAUTHORIZED_USER` when its
domain is `xu.edu.ph`. -/
theorem AuthService.login_unknown_user_results (u : User) (hu : u ∈ authorizedUsers)
    (e pw : String) (he : u.email = some e) (hpw : u.password = some pw)
    (c : AuthService.LoginCall) (hce : jsToLowerCase (jsTrim c.email) = e)
    (hcp : jsTrim c.password ≠ "") (hwrong : jsTrim c.password ≠ pw)
    (c2 : AuthService.LoginCall)
    (hwf : emailPatternTest (jsToLowerCase (jsTrim c2.email)) = true)
    (hp2 : jsTrim c2.password ≠ "")
    (hnot : ∀ v ∈ authorizedUsers, v.email ≠ some (jsToLowerCase (jsTrim c2.email))) :
    (∃ s1, AuthService.fresh.loginCall c =
      Except.ok ({ success := false, message := "Invalid credentials",
                   errorCode := some "INVALID_PASSWORD" }, s1)) ∧
    (jsEndsWith (jsToLowerCase (jsTrim c2.email)) "@my.xu.edu.ph" = true →
      ∃ s2, AuthService.fresh.loginCall c2 =
        Except.ok ({ success := false, message := "Invalid credentials",
                     errorCode := some "INVALID_PASSWORD" }, s2)) ∧
    (jsEndsWith (jsToLowerCase (jsTrim c2.email)) "@xu.edu.ph" = true →
      ∃ s2, AuthService.fresh.loginCall c2 =
        Except.ok ({ success := false, message := "User not authorized",
                     errorCode := some "UNAUTHORIZED_USER" }, s2)) := by
  have hsan2 := AuthService.sanitize_ok c2.email c2.password hwf hp2
  refine ⟨?_, ?_, ?_⟩
  · obtain ⟨e0, role, pw0, rfl, hpat, hdom, hwl, perms, hperm, hene, hrne, hpwne, hvr⟩ :=
      AuthService.whitelisted_facts u hu
    simp only [Option.some.injEq] at he hpw
    subst he; subst hpw
    have hsan := AuthService.sanitize_ok c.email c.password (by rw [hce]; exact hpat) hcp
    rw [hce] at hsan
    simp [AuthService.loginCall, AuthService.login, hsan, AuthService._isAccountLocked,
      AuthService.fresh, mapGet, hdom, hwl, Ne.symm hwrong, AuthService._recordFailedAttempt,
      AuthService.getLoginAttempts, mapSet, MAX_LOGIN_ATTEMPTS, List.lookup]
  · intro hends
    have hdom := AuthService.validateEmailDomain_of_endsWith (jsTrim c2.email) "@my.xu.edu.ph"
      hwf (by decide) hends
    have hwl := (AuthService.isUserInWhitelist_unlisted _ hnot).1 hends
    simp [AuthService.loginCall, AuthService.login, hsan2, AuthService._isAccountLocked,
      AuthService.fresh, mapGet, hdom, hwl, AuthService._recordFailedAttempt,
      AuthService.getLoginAttempts, mapSet, MAX_LOGIN_ATTEMPTS, List.lookup]
  · intro hends
    have hdom := AuthService.validateEmailDomain_of_endsWith (jsTrim c2.email) "@xu.edu.ph"
      hwf (by decide) hends
    have hwl := (AuthService.isUserInWhitelist_unlisted _ hnot).2 (endsWith_exclusive _ hends)
    simp [AuthService.loginCall, AuthService.login, hsan2, AuthService._isAccountLocked,
      AuthService.fresh, mapGet, hdom, hwl]

/-- A wrong password for `sysadmin@xu.edu.ph` against the unlisted
`random@my.xu.edu.ph`. -/
theorem AuthService.login_unknown_user_results_witness :
    (∃ s1, AuthService.fresh.loginCall ⟨"sysadmin@xu.edu.ph", "wrongpassword", 1000, 1100, "a"⟩ =
      Except.ok ({ success := false, message := "Invalid credentials",
                   errorCode := some "INVALID_PASSWORD" }, s1)) ∧
    (jsEndsWith (jsToLowerCase (jsTrim "random@my.xu.edu.ph")) "@my.xu.edu.ph" = true →
      ∃ s2, AuthService.fresh.loginCall ⟨"random@my.xu.edu.ph", "password123", 1000, 1100, "a"⟩ =
        Except.ok ({ success := false, message := "Invalid credentials",
                     errorCode := some "INVALID_PASSWORD" }, s2)) ∧
    (jsEndsWith (jsToLowerCase (jsTrim "random@my.xu.edu.ph")) "@xu.edu.ph" = true →
      ∃ s2, AuthService.fresh.loginCall ⟨"random@my.xu.edu.ph", "password123", 1000, 1100, "a"⟩ =
        Except.ok ({ success := false, message := "User not authorized",
                     errorCode := some "UNAUTHORIZED_USER" }, s2)) :=
  AuthService.login_unknown_user_results AuthService.adminUser (by decide)
    "sysadmin@xu.edu.ph" "SysAdmin123!" rfl rfl
    ⟨"sysadmin@xu.edu.ph", "wrongpassword", 1000, 1100, "a"⟩ (by decide) (by decide) (by decide)
    ⟨"random@my.xu.edu.ph", "password123", 1000, 1100, "a"⟩ (by decide) (by decide) (by decide)

/-! ## Whitelist and role hierarchy -/

/-- **C14 (failing input).** For the unlisted `random@my.xu.edu.ph`,
`isUserInWhitelist` returns a synthesized user with that e-mail and a `null`
password whose role is `StudentAssistant`, level 1 of `ROLE_HIERARCHY`, not
the lowest role `Intern`, level 0; the tests of the repository expect `null`
for this input.  The same holds for every unlisted e-mail that ends with
`@my.xu.edu.ph`; an unlisted e-mail that ends with `@xu.edu.ph` gets `null`. -/
theorem AuthService.isUserInWhitelist_provisions_student_assistant :
    (∀ u ∈ authorizedUsers, u.email ≠ some "random@my.xu.edu.ph") ∧
    AuthService.isUserInWhitelist (JsValue.string "random@my.xu.edu.ph") =
        some { email := some "random@my.xu.edu.ph", role := some "StudentAssistant",
               password := none } ∧
    AuthService.isUserInWhitelist (JsValue.string "random@my.xu.edu.ph") ≠
        some { email := some "random@my.xu.edu.ph", role := some "Intern",
               password := none } ∧
    AuthService.isUserInWhitelist (JsValue.string "random@my.xu.edu.ph") ≠ none ∧
    ROLE_HIERARCHY.lookup "StudentAssistant" = some 1 ∧
    ROLE_HIERARCHY.lookup "Intern" = some 0 ∧
    (∀ kv ∈ ROLE_HIERARCHY, (0 : Int) ≤ kv.2) ∧
    (∀ e : String, (∀ u ∈ authorizedUsers, u.email ≠ some e) →
      (jsEndsWith e "@xu.edu.ph" = true →
        AuthService.isUserInWhitelist (JsValue.string e) = none) ∧
      (jsEndsWith e "@my.xu.edu.ph" = true →
        AuthService.isUserInWhitelist (JsValue.string e) =
          some { email := some e, role := some "StudentAssistant", password := none })) := by
  refine ⟨by decide, by decide, by decide, by decide, by decide, by decide, by decide, ?_⟩
  intro e hnot
  exact ⟨fun h => (AuthService.isUserInWhitelist_unlisted e hnot).2 (endsWith_exclusive e h),
    (AuthService.isUserInWhitelist_unlisted e hnot).1⟩

/-- **C15 (failing input).** The addresses `random@my.xu.edu.ph` and
`student@my.xu.edu.ph` are not among the five whitelisted ones, and
`isUserInWhitelist` returns a user object for them, not `null`. -/
theorem AuthService.isUserInWhitelist_not_null_for_unlisted :
    (∀ u ∈ authorizedUsers, u.email ≠ some "random@my.xu.edu.ph" ∧
      u.email ≠ some "student@my.xu.edu.ph") ∧
    AuthService.isUserInWhitelist (JsValue.string "random@my.xu.edu.ph") ≠ none ∧
    AuthService.isUserInWhitelist (JsValue.string "student@my.xu.edu.ph") ≠ none ∧
    AuthService.isUserInWhitelist (JsValue.string "unauthorized@xu.edu.ph") = none ∧
    AuthService.isUserInWhitelist JsValue.null = none ∧
    AuthService.isUserInWhitelist (JsValue.string "") = none ∧
    AuthService.isUserInWhitelist (JsValue.number 123) = none ∧
    (∀ u ∈ authorizedUsers, ∃ e, u.email = some e ∧
      AuthService.isUserInWhitelist (JsValue.string e) = some u) := by
  refine ⟨by decide, by decide, by decide, by decide, by decide, by decide, by decide, ?_⟩
  intro u hu
  obtain ⟨e, role, pw, rfl, -, -, hwl, -⟩ := AuthService.whitelisted_facts u hu
  exact ⟨e, rfl, hwl⟩

/-- **C16.** Each of the five roles has a non-empty permission list;
`getRoleLevel` is 4, 3, 2, 1 and -1 along `SystemAdministrator`,
`UniversityRegistrar`, `Evaluator`, `StudentAssistant`, `Intern`, hence
strictly decreasing; and on these roles `hasEqualOrHigherRole r1 r2` is true
exactly when `r1` is ranked at or above `r2`. -/
theorem AuthService.role_hierarchy_total_order :
    (∀ r ∈ AuthService.roleRanking,
      ∃ perms, lookupProp rolesPermissions r = Lookup.own perms ∧ perms ≠ []) ∧
    AuthService.roleRanking.map AuthService.getRoleLevel =
      [JsValue.number 4, JsValue.number 3, JsValue.number 2, JsValue.number 1,
       JsValue.number (-1)] ∧
    ((4 : Int) > 3 ∧ (3 : Int) > 2 ∧ (2 : Int) > 1 ∧ (1 : Int) > -1) ∧
    (∀ r1 ∈ AuthService.roleRanking, ∀ r2 ∈ AuthService.roleRanking,
      (AuthService.hasEqualOrHigherRole r1 r2 = true ↔
        AuthService.roleRanking.indexOf r1 ≤ AuthService.roleRanking.indexOf r2)) := by
  refine ⟨?_, by decide, by decide, by decide⟩
  intro r hr
  simp only [AuthService.roleRanking, List.mem_cons, List.mem_singleton, List.not_mem_nil,
    or_false] at hr
  rcases hr with rfl | rfl | rfl | rfl | rfl <;> exact ⟨_, rfl, by decide⟩

/-- **C17 (failing input).** `'Visitor'` is not a role name, yet
`getRoleLevel('Visitor')` and `getRoleLevel('Intern')` are both `-1`
(`ROLE_HIERARCHY['Intern']` is `0`, which `|| -1` replaces), so
`hasEqualOrHigherRole('Visitor', 'Intern')` is true. -/
theorem AuthService.unknown_role_not_below_intern :
    "Visitor" ∉ AuthService.roleRanking ∧
    AuthService.getRoleLevel "Visitor" = JsValue.number (-1) ∧
    AuthService.getRoleLevel "Intern" = JsValue.number (-1) ∧
    ROLE_HIERARCHY.lookup "Intern" = some 0 ∧
    AuthService.hasEqualOrHigherRole "Visitor" "Intern" = true := by
  refine ⟨by decide, by decide, by decide, by decide, by decide⟩

/-! ## Stored sessions over runs of operations -/

theorem sessionEvolves_refl (a : Session) : a.Evolves a :=
  ⟨rfl, rfl, rfl, rfl, rfl, fun _ => rfl⟩

theorem sessionEvolves_trans {a b c : Session} (h1 : a.Evolves b) (h2 : b.Evolves c) :
    a.Evolves c := by
  obtain ⟨a1, a2, a3, a4, a5, a6⟩ := h1
  obtain ⟨b1, b2, b3, b4, b5, b6⟩ := h2
  refine ⟨a1.trans b1, a2.trans b2, a3.trans b3, a4.trans b4, a5.trans b5, ?_⟩
  intro ha
  have hb := a6 ha
  subst hb
  exact b6 ha

theorem sessionsEvolve_refl (m : List (String × Session)) : SessionsEvolve m m :=
  fun _ a h => ⟨a, h, sessionEvolves_refl a⟩

theorem sessionsEvolve_trans {m m1 m2 : List (String × Session)}
    (h1 : SessionsEvolve m m1) (h2 : SessionsEvolve m1 m2) : SessionsEvolve m m2 := by
  intro k a ha
  obtain ⟨b, hb, hab⟩ := h1 k a ha
  obtain ⟨c, hc, hbc⟩ := h2 k b hb
  exact ⟨c, hc, sessionEvolves_trans hab hbc⟩

theorem sessionsEvolve_mapSet_existing (m : List (String × Session)) (id : String)
    (y x : Session) (hy : mapGet m id = some y) (hyx : y.Evolves x) :
    SessionsEvolve m (mapSet m id x) := by
  intro k a ha
  by_cases hk : k = id
  · subst hk
    rw [hy] at ha
    simp only [Option.some.injEq] at ha
    subst ha
    exact ⟨x, mapGet_mapSet_self _ _ _, hyx⟩
  · exact ⟨a, by rw [mapGet_mapSet_ne _ _ _ _ hk]; exact ha, sessionEvolves_refl a⟩

theorem sessionsEvolve_mapSet_fresh (m : List (String × Session)) (id : String) (x : Session)
    (hfresh : mapGet m id = none) : SessionsEvolve m (mapSet m id x) := by
  intro k a ha
  by_cases hk : k = id
  · subst hk; rw [hfresh] at ha; simp at ha
  · exact ⟨a, by rw [mapGet_mapSet_ne _ _ _ _ hk]; exact ha, sessionEvolves_refl a⟩

namespace AuthService

theorem expireSession_evolves (s : AuthService) (id : String) (now : Nat) :
    SessionsEvolve s.activeSessions (s._expireSession id now).activeSessions := by
  unfold _expireSession
  cases hget : mapGet s.activeSessions id with
  | none => exact sessionsEvolve_refl _
  | some sess =>
    cases hact : sess.isActive with
    | false => simp only [hact, Bool.false_eq_true, if_false]; exact sessionsEvolve_refl _
    | true =>
      simp only [hact, if_true]
      apply sessionsEvolve_mapSet_existing _ _ sess _ hget
      exact ⟨rfl, rfl, rfl, rfl, rfl, fun h => by rw [hact] at h; simp at h⟩

theorem validateSession_evolves (s : AuthService) (token : JsValue) (now : Nat) :
    SessionsEvolve s.activeSessions (s.validateSession token now).2.activeSessions := by
  by_cases hs : ∃ t, token = JsValue.string t
  · obtain ⟨t, rfl⟩ := hs
    rw [validateSession_string]
    by_cases h1 : t = ""
    · simp only [h1, if_true]; exact sessionsEvolve_refl _
    · by_cases hv : _isValidSessionId (JsValue.string t) = false
      · simp only [h1, hv, if_true, if_false]; exact sessionsEvolve_refl _
      · cases hget : mapGet s.activeSessions t with
        | none => simp only [h1, hv, if_false]; exact sessionsEvolve_refl _
        | some sess =>
          cases hact : sess.isActive with
          | false => simp only [h1, hv, hact, if_false, if_true]; exact sessionsEvolve_refl _
          | true =>
            cases hexp : _isSessionExpired sess now with
            | true =>
              simp only [h1, hv, hact, hexp, if_false, if_true, Bool.true_eq_false]
              exact expireSession_evolves s t now
            | false =>
              simp only [h1, hv, hact, hexp, if_false, Bool.true_eq_false, Bool.false_eq_true]
              apply sessionsEvolve_mapSet_existing _ _ sess _ hget
              exact ⟨rfl, rfl, rfl, rfl, rfl, fun h => by rw [hact] at h; simp at h⟩
  · rw [validateSession_not_string s token now (fun t ht => hs ⟨t, ht⟩)]
    exact sessionsEvolve_refl _

theorem hasPermission_evolves (s : AuthService) (sessionId permission : String) (now : Nat) :
    SessionsEvolve s.activeSessions
      (s.hasPermission sessionId permission now).2.activeSessions := by
  unfold hasPermission
  cases hget : mapGet s.activeSessions sessionId with
  | none => exact sessionsEvolve_refl _
  | some sess =>
    cases hact : sess.isActive with
    | false => simp only [hact, Bool.not_false, if_true]; exact sessionsEvolve_refl _
    | true =>
      cases hexp : _isSessionExpired sess now with
      | true =>
        simp only [hact, hexp, Bool.not_true, Bool.false_eq_true, if_false, if_true]
        exact expireSession_evolves s sessionId now
      | false =>
        simp only [hact, hexp, Bool.not_true, Bool.false_eq_true, if_false]
        exact sessionsEvolve_refl _

theorem getSessionStatus_evolves (s : AuthService) (sessionId : JsValue) (now : Nat) :
    SessionsEvolve s.activeSessions (s.getSessionStatus sessionId now).2.activeSessions := by
  unfold getSessionStatus
  split
  · split
    · exact sessionsEvolve_refl _
    · split
      · exact sessionsEvolve_refl _
      · split
        · exact expireSession_evolves s _ now
        · exact sessionsEvolve_refl _
  · exact sessionsEvolve_refl _

theorem logout_evolves (s : AuthService) (sessionId : JsValue) (now : Nat) :
    SessionsEvolve s.activeSessions (s.logout sessionId now).2.activeSessions := by
  by_cases hs : ∃ t, sessionId = JsValue.string t
  · obtain ⟨t, rfl⟩ := hs
    rw [logout_string]
    by_cases h1 : t = ""
    · simp only [h1, if_true]; exact sessionsEvolve_refl _
    · by_cases hv : _isValidSessionId (JsValue.string t) = false
      · simp only [h1, hv, if_true, if_false]; exact sessionsEvolve_refl _
      · cases hget : mapGet s.activeSessions t with
        | none => simp only [h1, hv, if_false]; exact sessionsEvolve_refl _
        | some sess =>
          cases hact : sess.isActive with
          | false => simp only [h1, hv, hact, if_false, if_true]; exact sessionsEvolve_refl _
          | true =>
            simp only [h1, hv, hact, if_false, Bool.true_eq_false]
            apply sessionsEvolve_mapSet_existing _ _ sess _ hget
            exact ⟨rfl, rfl, rfl, rfl, rfl, fun h => by rw [hact] at h; simp at h⟩
  · have := (logout_not_active s sessionId now
      (fun sid sess hid => absurd ⟨sid, hid⟩ hs)).2
    rw [this]
    exact sessionsEvolve_refl _

theorem cleanupLoop_evolves (now : Nat) (l : List (String × Session)) :
    ∀ (s : AuthService) (n : Nat),
      SessionsEvolve s.activeSessions (cleanupLoop now l s n).1.activeSessions := by
  induction l with
  | nil => intro s n; exact sessionsEvolve_refl _
  | cons hd tl ih =>
    intro s n
    obtain ⟨id, sess⟩ := hd
    simp only [cleanupLoop]
    split
    · exact sessionsEvolve_trans (expireSession_evolves s id now) (ih _ _)
    · exact ih _ _

theorem cleanup_evolves (s : AuthService) (now : Nat) :
    SessionsEvolve s.activeSessions (s.cleanupExpiredSessions now).2.activeSessions := by
  simp only [cleanupExpiredSessions]
  exact cleanupLoop_evolves now s.activeSessions s 0

end AuthService

namespace AuthService

theorem isAccountLocked_sessions (s : AuthService) (e : String) (now : Nat) :
    (s._isAccountLocked e now).2.activeSessions = s.activeSessions := by
  rcases isAccountLocked_cases s e now with ⟨h, -⟩ | ⟨h, -⟩
  · rw [h]; rfl
  · rw [h]

theorem getLoginAttempts_sessions (s : AuthService) (e : String) (now : Nat) :
    (s.getLoginAttempts e now).2.activeSessions = s.activeSessions := by
  unfold getLoginAttempts
  cases hg : mapGet s.loginAttempts e <;> simp [isAccountLocked_sessions]

theorem createSession_none_sessions {s s1 : AuthService} {user : Option User} {now : Nat}
    {rnd : String} (h : s.createSession user now rnd = Except.ok (none, s1)) :
    s1.activeSessions = s.activeSessions := by
  unfold createSession at h
  split at h
  · simp only [Except.ok.injEq, Prod.mk.injEq, true_and] at h; rw [← h]
  · split at h
    · split at h
      · simp only [Except.ok.injEq, Prod.mk.injEq, true_and] at h; rw [← h]
      · split at h
        · simp only [Except.ok.injEq, Prod.mk.injEq, true_and] at h; rw [← h]
        · split at h
          · simp at h
          · simp only [Except.ok.injEq, Prod.mk.injEq, true_and] at h
            rw [← h]; rfl
          · split at h
            · simp at h
            · simp at h
    · simp only [Except.ok.injEq, Prod.mk.injEq, true_and] at h; rw [← h]

theorem createSession_evolves (s : AuthService) (user : Option User) (now : Nat) (rnd : String)
    (hfresh : mapGet s.activeSessions (_generateSessionId rnd now) = none) :
    SessionsEvolve s.activeSessions
      ((AuthOp.createSession user now rnd).apply s).activeSessions := by
  simp only [AuthOp.apply]
  cases h : s.createSession user now rnd with
  | error e => exact sessionsEvolve_refl _
  | ok res =>
    obtain ⟨x, s1⟩ := res
    cases x with
    | none =>
      simp only [createSession_none_sessions h]
      exact sessionsEvolve_refl _
    | some sess =>
      obtain ⟨_, _, _, _, -, -, -, -, hs1⟩ := createSession_some h
      simp only [hs1]
      exact sessionsEvolve_mapSet_fresh _ _ _ hfresh

/-- The session table after `login`: untouched, or extended by the session
stored under the generated id. -/
theorem login_sessions {s s1 : AuthService} {email password : JsValue} {now later : Nat}
    {rnd : String} {r : LoginResult}
    (h : s.login email password now later rnd = Except.ok (r, s1)) :
    (s1.activeSessions = s.activeSessions ∧ r.session = none) ∨
    ∃ x x1 : Session, x.Evolves x1 ∧ x1.sessionId = _generateSessionId rnd later ∧
      x1.isActive = true ∧
      r.session = some { sessionId := x1.sessionId, expiresAt := x1.createdAt + SESSION_TIMEOUT,
                         isActive := x1.isActive } ∧
      s1.activeSessions =
        mapSet (mapSet s.activeSessions (_generateSessionId rnd later) x)
          (_generateSessionId rnd later) x1 := by
  cases hsan : _sanitizeLoginInput email password with
  | error reason =>
    simp only [login, hsan, Except.ok.injEq, Prod.mk.injEq] at h
    obtain ⟨rfl, rfl⟩ := h
    exact Or.inl ⟨rfl, rfl⟩
  | ok ep =>
    obtain ⟨e, p⟩ := ep
    have hs0 := isAccountLocked_sessions s e now
    cases hlock : s._isAccountLocked e now with
    | mk locked s0 =>
      rw [hlock] at hs0
      simp only at hs0
      cases locked with
      | true =>
        have hg := getLoginAttempts_sessions s0 e now
        cases hinfo : s0.getLoginAttempts e now with
        | mk info s2 =>
          rw [hinfo] at hg
          simp only [login, hsan, hlock, hinfo, if_true, Except.ok.injEq, Prod.mk.injEq] at h
          obtain ⟨rfl, rfl⟩ := h
          exact Or.inl ⟨by simpa [_logSecurityEvent, hs0] using hg, rfl⟩
      | false =>
        by_cases hdom : validateEmailDomain e = true
        · cases hwl : isUserInWhitelist (JsValue.string e) with
          | none =>
            simp only [login, hsan, hlock, hdom, hwl, Bool.false_eq_true, if_false,
              Bool.not_true, Except.ok.injEq, Prod.mk.injEq] at h
            obtain ⟨rfl, rfl⟩ := h
            exact Or.inl ⟨hs0, rfl⟩
          | some user =>
            by_cases hpw : user.password = some p
            · cases hcs : s0.createSession (some user) later rnd with
              | error err => simp [login, hsan, hlock, hdom, hwl, hpw, hcs] at h
              | ok res =>
                obtain ⟨x, s2⟩ := res
                cases x with
                | none =>
                  simp only [login, hsan, hlock, hdom, hwl, hpw, hcs, Bool.false_eq_true,
                    if_false, Bool.not_true, bne_self_eq_false, Except.ok.injEq,
                    Prod.mk.injEq] at h
                  obtain ⟨rfl, rfl⟩ := h
                  exact Or.inl ⟨by
                    simpa [_logSecurityEvent, hs0] using createSession_none_sessions hcs, rfl⟩
                | some sess =>
                  obtain ⟨em, ro, pw0, perms, -, -, -, hsess, hs2⟩ := createSession_some hcs
                  simp only [login, hsan, hlock, hdom, hwl, hpw, hcs, Bool.false_eq_true,
                    if_false, Bool.not_true, bne_self_eq_false, Except.ok.injEq,
                    Prod.mk.injEq] at h
                  obtain ⟨rfl, rfl⟩ := h
                  right
                  refine ⟨sess, { sess with clientInfo := some (_generateClientInfo now),
                                            loginMethod := some "email_password" },
                    ?_, ?_, ?_, ?_, ?_⟩
                  · exact ⟨rfl, rfl, rfl, rfl, rfl, fun hh => by rw [hsess] at hh; simp at hh⟩
                  · rw [hsess]
                  · rw [hsess]
                  · rfl
                  · have hid : sess.sessionId = _generateSessionId rnd later := by rw [hsess]
                    simp only [_logSecurityEvent, _clearFailedAttempts, hs2, hs0, hid]
            · have hne : (user.password != some p) = true := by simpa using hpw
              have hg := getLoginAttempts_sessions
                (s0._recordFailedAttempt e "INVALID_PASSWORD"
                  (some (_generateClientInfo now)) later) e later
              cases hinfo : (s0._recordFailedAttempt e "INVALID_PASSWORD"
                  (some (_generateClientInfo now)) later).getLoginAttempts e later with
              | mk info s3 =>
                rw [hinfo] at hg
                simp only [login, hsan, hlock, hdom, hwl, hne, hinfo, Bool.false_eq_true,
                  if_false, Bool.not_true, if_true, Except.ok.injEq, Prod.mk.injEq] at h
                obtain ⟨rfl, rfl⟩ := h
                exact Or.inl ⟨by simpa [_logSecurityEvent, _recordFailedAttempt, hs0] using hg,
                  rfl⟩
        · have hdom' : validateEmailDomain e = false := by simpa using hdom
          simp only [login, hsan, hlock, hdom', Bool.false_eq_true, if_false, Bool.not_false,
            if_true, Except.ok.injEq, Prod.mk.injEq] at h
          obtain ⟨rfl, rfl⟩ := h
          exact Or.inl ⟨hs0, rfl⟩

theorem login_evolves (s : AuthService) (email password : JsValue) (now later : Nat)
    (rnd : String) (hfresh : mapGet s.activeSessions (_generateSessionId rnd later) = none) :
    SessionsEvolve s.activeSessions
      ((AuthOp.login email password now later rnd).apply s).activeSessions := by
  simp only [AuthOp.apply]
  cases h : s.login email password now later rnd with
  | error e => exact sessionsEvolve_refl _
  | ok res =>
    obtain ⟨r, s1⟩ := res
    rcases login_sessions h with ⟨heq, -⟩ | ⟨x, x1, hev, -, -, -, heq⟩
    · simp only [heq]; exact sessionsEvolve_refl _
    · simp only [heq]
      exact sessionsEvolve_trans (sessionsEvolve_mapSet_fresh _ _ x hfresh)
        (sessionsEvolve_mapSet_existing _ _ x x1 (mapGet_mapSet_self _ _ _) hev)

end AuthService

theorem AuthOp.apply_evolves (s : AuthService) (op : AuthOp)
    (hfresh : ∀ id, op.newId = some id → mapGet s.activeSessions id = none) :
    SessionsEvolve s.activeSessions (op.apply s).activeSessions := by
  cases op with
  | login email password now later rnd =>
    exact AuthService.login_evolves s email password now later rnd (hfresh _ rfl)
  | createSession user now rnd =>
    exact AuthService.createSession_evolves s user now rnd (hfresh _ rfl)
  | validateSession token now => exact AuthService.validateSession_evolves s token now
  | hasPermission sessionId permission now =>
    exact AuthService.hasPermission_evolves s sessionId permission now
  | getSessionStatus sessionId now => exact AuthService.getSessionStatus_evolves s sessionId now
  | logout sessionId now => exact AuthService.logout_evolves s sessionId now
  | cleanupExpiredSessions now => exact AuthService.cleanup_evolves s now
  | getLoginAttempts email now =>
    simp only [AuthOp.apply, AuthService.getLoginAttempts_sessions]
    exact sessionsEvolve_refl _

theorem AuthOp.run_evolves (ops : List AuthOp) :
    ∀ s : AuthService, AuthOp.FreshIds s ops →
      SessionsEvolve s.activeSessions (AuthOp.run s ops).activeSessions := by
  induction ops with
  | nil => intro s _; exact sessionsEvolve_refl _
  | cons op ops ih =>
    intro s hfresh
    exact sessionsEvolve_trans (AuthOp.apply_evolves s op hfresh.1) (ih _ hfresh.2)

/-- A stored session that is inactive stays exactly as it is through every
later run of `login`, `createSession`, `validateSession`, `hasPermission`,
`getSessionStatus`, `logout`, `cleanupExpiredSessions` and `getLoginAttempts`
calls in which every generated session id is unused when it is generated, and
a login that then succeeds with an unused id stores an active session under
another id. -/
theorem AuthService.inactive_session_kept_of_fresh_ids (s : AuthService) (k : String)
    (sess : Session) (ops : List AuthOp) (email password : JsValue) (now later : Nat) (rnd : String)
    (hget : mapGet s.activeSessions k = some sess) (hinactive : sess.isActive = false)
    (hfresh : AuthOp.FreshIds s ops)
    (hnew : mapGet (AuthOp.run s ops).activeSessions (AuthService._generateSessionId rnd later)
      = none) :
    (∃ b, mapGet (AuthOp.run s ops).activeSessions k = some b ∧ b.isActive = false ∧
      b.destroyedBy = sess.destroyedBy ∧ b.destroyedAt = sess.destroyedAt ∧ b = sess) ∧
    (∀ r s1 ls, (AuthOp.run s ops).login email password now later rnd = Except.ok (r, s1) →
      r.session = some ls →
      ls.sessionId ≠ k ∧ mapGet s1.activeSessions k = some sess ∧
        ∃ x, mapGet s1.activeSessions ls.sessionId = some x ∧ x.isActive = true) := by
  have hrun : mapGet (AuthOp.run s ops).activeSessions k = some sess := by
    obtain ⟨b, hb, hev⟩ := AuthOp.run_evolves ops s hfresh k sess hget
    rw [hb, hev.2.2.2.2.2 hinactive]
  refine ⟨⟨sess, hrun, hinactive, rfl, rfl, rfl⟩, ?_⟩
  intro r s1 ls hlogin hls
  have hne : k ≠ AuthService._generateSessionId rnd later := by
    intro h
    rw [← h, hrun] at hnew
    simp at hnew
  rcases AuthService.login_sessions hlogin with ⟨-, hnone⟩ | ⟨x, x1, -, hid, hact, hsome, heq⟩
  · rw [hnone] at hls; simp at hls
  · rw [hsome] at hls
    simp only [Option.some.injEq] at hls
    subst hls
    simp only
    rw [hid, heq]
    refine ⟨fun h => hne h.symm, ?_, x1, mapGet_mapSet_self _ _ _, hact⟩
    rw [mapGet_mapSet_ne _ _ _ _ hne, mapGet_mapSet_ne _ _ _ _ hne]
    exact hrun

/-- **C18 (failing input).** A session is created at clock `1000` while
`Math.random()` is `0.5` (random part `i`, id `sess_irs`) and logged out at
clock `2000`: it is stored inactive with `destroyedBy = 'user_logout'`.  A
login at clock `24328` while `Math.random()` is `0` (random part empty)
generates the id `sess_irs` again, since `_generateSessionId` concatenates the
random part and the clock and checks nothing: the login succeeds and stores
its session under that id, so the entry is active again, its `destroyedBy`
and `destroyedAt` are gone, and the table still has one entry.  Two
`createSession` calls in one millisecond with the same random value collide
in the same way.  The calls that generate no id keep an inactive session as
it is, and so does every run in which the generated ids are unused when they
are generated, where a login also stores its session under another id. -/
theorem AuthService.inactive_session_replaced_on_id_collision :
    AuthService._generateSessionId "i" 1000 = "sess_irs" ∧
    AuthService._generateSessionId "" 24328 = "sess_irs" ∧
    (mapGet (AuthOp.run AuthService.fresh
        [AuthOp.createSession (some AuthService.adminUser) 1000 "i",
         AuthOp.logout (JsValue.string "sess_irs") 2000]).activeSessions "sess_irs").map
        (fun a => (a.isActive, a.destroyedBy, a.destroyedAt)) =
      some (false, some "user_logout", some 2000) ∧
    ((AuthOp.run AuthService.fresh
        [AuthOp.createSession (some AuthService.adminUser) 1000 "i",
         AuthOp.logout (JsValue.string "sess_irs") 2000]).login
          (JsValue.string "sysadmin@xu.edu.ph") (JsValue.string "SysAdmin123!")
          24200 24328 "").toOption.map
        (fun p => (p.1.success, p.1.session.map (fun x => x.sessionId),
          p.2.activeSessions.length)) =
      some (true, some "sess_irs", 1) ∧
    (mapGet (AuthOp.run AuthService.fresh
        [AuthOp.createSession (some AuthService.adminUser) 1000 "i",
         AuthOp.logout (JsValue.string "sess_irs") 2000,
         AuthOp.login (JsValue.string "sysadmin@xu.edu.ph") (JsValue.string "SysAdmin123!")
           24200 24328 ""]).activeSessions "sess_irs").map
        (fun a => (a.isActive, a.destroyedBy, a.destroyedAt, a.createdAt)) =
      some (true, none, none, 24328) ∧
    (mapGet (AuthOp.run AuthService.fresh
        [AuthOp.createSession (some AuthService.adminUser) 1000 "i",
         AuthOp.logout (JsValue.string "sess_irs") 1000,
         AuthOp.createSession (some AuthService.adminUser) 1000 "i"]).activeSessions
        "sess_irs").map
        (fun a => (a.isActive, a.destroyedBy, a.destroyedAt)) =
      some (true, none, none) ∧
    (∀ (s : AuthService) (k : String) (sess : Session) (op : AuthOp),
      mapGet s.activeSessions k = some sess → sess.isActive = false →
      op.newId = none → mapGet (op.apply s).activeSessions k = some sess) ∧
    (∀ (s : AuthService) (k : String) (sess : Session) (ops : List AuthOp)
        (email password : JsValue) (now later : Nat) (rnd : String),
      mapGet s.activeSessions k = some sess → sess.isActive = false →
      AuthOp.FreshIds s ops →
      mapGet (AuthOp.run s ops).activeSessions (AuthService._generateSessionId rnd later)
        = none →
      mapGet (AuthOp.run s ops).activeSessions k = some sess ∧
      (∀ r s1 ls, (AuthOp.run s ops).login email password now later rnd = Except.ok (r, s1) →
        r.session = some ls →
        ls.sessionId ≠ k ∧ mapGet s1.activeSessions k = some sess ∧
          ∃ x, mapGet s1.activeSessions ls.sessionId = some x ∧ x.isActive = true)) ∧
    AuthOp.FreshIds AuthService.loggedOutService AuthService.sampleOps := by
  refine ⟨by decide, by decide, by decide, by decide, by decide, by decide, ?_, ?_, ?_⟩
  · intro s k sess op hget hinactive hnone
    have hfresh : ∀ id, op.newId = some id → mapGet s.activeSessions id = none := by
      intro id hid
      rw [hnone] at hid
      exact absurd hid (by simp)
    obtain ⟨b, hb, hev⟩ := AuthOp.apply_evolves s op hfresh k sess hget
    rw [hb, hev.2.2.2.2.2 hinactive]
  · intro s k sess ops email password now later rnd hget hinactive hfresh hnew
    obtain ⟨⟨b, hb, -, -, -, hbs⟩, hlogin⟩ :=
      AuthService.inactive_session_kept_of_fresh_ids s k sess ops email password now later rnd
        hget hinactive hfresh hnew
    exact ⟨by rw [hb, hbs], hlogin⟩
  · simp only [AuthService.sampleOps, AuthOp.FreshIds, AuthOp.newId, forall_eq', and_true,
      reduceCtorEq, false_implies, implies_true, true_and, Option.some.injEq]
    decide

/-- **C19.** A session stored by `createSession` keeps its e-mail, role,
permission list and `createdAt` through every later run of `login`,
`createSession`, `validateSession`, `hasPermission`, `getSessionStatus`,
`logout`, `cleanupExpiredSessions` and `getLoginAttempts` calls.  While it is
active and not older than `SESSION_TIMEOUT`, `validateSession` on its id
changes only its `lastAccessedAt` and `hasPermission` on its id leaves the
whole state as it was.  Session ids come from `Math.random` and the clock; the
generated ids are taken to be unused when they are generated. -/
theorem AuthService.session_core_fields_immutable (s0 s : AuthService) (user : Option User)
    (t0 : Nat) (rnd : String) (sess : Session) (ops : List AuthOp)
    (hcs : s0.createSession user t0 rnd = Except.ok (some sess, s))
    (hfresh : AuthOp.FreshIds s ops) :
    ∃ b, mapGet (AuthOp.run s ops).activeSessions sess.sessionId = some b ∧
      b.email = sess.email ∧ b.role = sess.role ∧ b.permissions = sess.permissions ∧
      b.createdAt = sess.createdAt ∧
      ∀ now, b.isActive = true → now ≤ b.createdAt + SESSION_TIMEOUT →
        ((AuthOp.run s ops).validateSession (JsValue.string sess.sessionId) now).2 =
          { AuthOp.run s ops with
            activeSessions := mapSet (AuthOp.run s ops).activeSessions sess.sessionId
              ({ b with lastAccessedAt := now } : Session) } ∧
        ∀ permission,
          ((AuthOp.run s ops).hasPermission sess.sessionId permission now).2
            = AuthOp.run s ops := by
  obtain ⟨email, role, pw, perms, -, -, -, hsess, hs⟩ := AuthService.createSession_some hcs
  have hid : sess.sessionId = AuthService._generateSessionId rnd t0 := by rw [hsess]
  have hstored : mapGet s.activeSessions sess.sessionId = some sess := by
    rw [hs, hid]; exact mapGet_mapSet_self _ _ _
  obtain ⟨b, hb, -, h2, h3, h4, h5, -⟩ := AuthOp.run_evolves ops s hfresh _ _ hstored
  refine ⟨b, hb, h2.symm, h3.symm, h4.symm, h5.symm, ?_⟩
  intro now hact hage
  have hvalid : AuthService._isValidSessionId (JsValue.string sess.sessionId) = true := by
    rw [hid]; exact AuthService.generated_id_valid rnd t0
  have hne : sess.sessionId ≠ "" := ((AuthService.isValidSessionId_string _).mp hvalid).1
  have hexp : AuthService._isSessionExpired b now = false := by
    rw [← Bool.not_eq_true, AuthService.isSessionExpired_iff]; omega
  constructor
  · rw [AuthService.validateSession_string]
    simp [hne, hvalid, hb, hact, hexp]
  · intro permission
    simp [AuthService.hasPermission, hb, hact, hexp]

/-- The session `createSession` stores for `sysadmin@xu.edu.ph` on a fresh
service, through one call of each operation. -/
theorem AuthService.session_core_fields_immutable_witness :
    AuthService.fresh.createSession (some AuthService.adminUser) 1000 "abc"
      = Except.ok (some AuthService.adminSession, AuthService.adminService) ∧
    AuthOp.FreshIds AuthService.adminService AuthService.sampleOps ∧
    ∃ b, mapGet (AuthOp.run AuthService.adminService AuthService.sampleOps).activeSessions
        AuthService.adminSession.sessionId = some b ∧
      b.email = AuthService.adminSession.email ∧ b.role = AuthService.adminSession.role ∧
      b.permissions = AuthService.adminSession.permissions ∧
      b.createdAt = AuthService.adminSession.createdAt ∧
      ∀ now, b.isActive = true → now ≤ b.createdAt + SESSION_TIMEOUT →
        ((AuthOp.run AuthService.adminService AuthService.sampleOps).validateSession
            (JsValue.string AuthService.adminSession.sessionId) now).2 =
          { AuthOp.run AuthService.adminService AuthService.sampleOps with
            activeSessions :=
              mapSet (AuthOp.run AuthService.adminService AuthService.sampleOps).activeSessions
                AuthService.adminSession.sessionId
                ({ b with lastAccessedAt := now } : Session) } ∧
        ∀ permission,
          ((AuthOp.run AuthService.adminService AuthService.sampleOps).hasPermission
              AuthService.adminSession.sessionId permission now).2
            = AuthOp.run AuthService.adminService AuthService.sampleOps :=
  have hfresh : AuthOp.FreshIds AuthService.adminService AuthService.sampleOps := by
    simp only [AuthService.sampleOps, AuthOp.FreshIds, AuthOp.newId, forall_eq', and_true,
      reduceCtorEq, false_implies, implies_true, true_and, Option.some.injEq]
    decide
  ⟨by decide, hfresh,
    AuthService.session_core_fields_immutable AuthService.fresh AuthService.adminService
      (some AuthService.adminUser) 1000 "abc" AuthService.adminSession AuthService.sampleOps
      (by decide) hfresh⟩

namespace AuthService

theorem cleanupLoop_count (now : Nat) :
    ∀ (l : List (String × Session)) (s : AuthService) (c : Nat),
      (cleanupLoop now l s c).2 = c + (l.filter (fun kv => _isSessionExpired kv.2 now)).length := by
  intro l
  induction l with
  | nil => intro s c; simp [cleanupLoop]
  | cons kv rest ih =>
    intro s c
    obtain ⟨k, x⟩ := kv
    by_cases hexp : _isSessionExpired x now = true
    · simp only [cleanupLoop, hexp, if_true, ih, List.filter_cons_of_pos, List.length_cons]
      omega
    · simp only [cleanupLoop, hexp, Bool.false_eq_true, if_false, ih]
      rw [List.filter_cons_of_neg (by simpa using hexp)]

end AuthService

/-- **C20 (failing input).** The count `cleanedSessions` of `cleanupExpiredSessions` is the
number of stored sessions older than `SESSION_TIMEOUT`, whether or not they
were still active: with one session created at clock `1000`, the call at clock
`86401001` destroys it and returns `cleanedSessions = 1`, and a second call at
the same clock changes nothing and returns `cleanedSessions = 1` again. -/
theorem AuthService.cleanupExpiredSessions_recounts_destroyed (s : AuthService) (now : Nat) :
    (s.cleanupExpiredSessions now).1.cleanedSessions
      = (s.activeSessions.filter (fun kv => AuthService._isSessionExpired kv.2 now)).length ∧
    AuthService.adminService.cleanupExpiredSessions 86401001 =
      ({ cleanedSessions := 1, activeSessions := 0 },
       { AuthService.adminService with
         activeSessions := [("sess_abcrs",
           ({ AuthService.adminSession with isActive := false, destroyedAt := some 86401001,
                                            destroyedBy := some "timeout" } : Session))] }) ∧
    (AuthService.adminService.cleanupExpiredSessions 86401001).2.cleanupExpiredSessions 86401001 =
      ({ cleanedSessions := 1, activeSessions := 0 },
       (AuthService.adminService.cleanupExpiredSessions 86401001).2) := by
  refine ⟨?_, by decide, by decide⟩
  have h := AuthService.cleanupLoop_count now s.activeSessions s 0
  simp only [AuthService.cleanupExpiredSessions]
  rw [h]
  simp

/-! ## The lock test and the remaining lock time -/

namespace AuthService

theorem getLockoutTimeRemaining_of_lock (s : AuthService) (e : String) (now : Nat)
    (a : LoginAttempt) (L : Nat) (hget : mapGet s.loginAttempts e = some a)
    (hl : a.lockedUntil = some L) (h0 : L ≠ 0) (hnow : now ≤ L) :
    s._getLockoutTimeRemaining e now = (L - now + 999) / 1000 := by
  simp only [_getLockoutTimeRemaining, hget, hl, h0, if_false]
  have h1 : (0 : Int) ≤ -(-((L : Int) - (now : Int)) / 1000) := by omega
  rw [max_eq_right h1]
  omega

end AuthService

/-- **C21 (counterexample).** Five wrong passwords, the fifth at clock
`5100`, lock `sysadmin@xu.edu.ph` until `1805100`.  At clock `1805100`
itself the lock has been reached, yet `_isAccountLocked` returns `true` and
keeps the record, and `login` answers `ACCOUNT_LOCKED` with `retryAfter = 0`. -/
theorem AuthService.isAccountLocked_at_expiry_instant :
    ∃ rs s5 a,
      AuthService.loginRun AuthService.fresh
        [⟨"sysadmin@xu.edu.ph", "wrong", 1000, 1100, "a"⟩,
         ⟨"sysadmin@xu.edu.ph", "wrong", 2000, 2100, "b"⟩,
         ⟨"sysadmin@xu.edu.ph", "wrong", 3000, 3100, "c"⟩,
         ⟨"sysadmin@xu.edu.ph", "wrong", 4000, 4100, "d"⟩,
         ⟨"sysadmin@xu.edu.ph", "wrong", 5000, 5100, "e"⟩] = Except.ok (rs, s5) ∧
      mapGet s5.loginAttempts "sysadmin@xu.edu.ph" = some a ∧
      a.failedAttempts = 5 ∧ a.lockedUntil = some 1805100 ∧
      s5._isAccountLocked "sysadmin@xu.edu.ph" 1805100 = (true, s5) ∧
      ∃ r s6, s5.login (JsValue.string "sysadmin@xu.edu.ph") (JsValue.string "SysAdmin123!")
          1805100 1805200 "f" = Except.ok (r, s6) ∧
        r.errorCode = some "ACCOUNT_LOCKED" ∧ r.retryAfter = some 0 ∧
        s6.loginAttempts = s5.loginAttempts := by
  refine ⟨_, _, _, rfl, rfl, ?_, ?_, ?_, _, _, rfl, ?_, ?_, ?_⟩ <;> decide

/-- **C21 (amended).** `_isAccountLocked(email)` at clock `now` returns
`true` exactly when a record exists for the e-mail with `failedAttempts ≥ 5`
whose `lockedUntil`, when set, has not been passed (`now ≤ lockedUntil`).
When `lockedUntil` has been passed (`now > lockedUntil`) it deletes the record
and returns `false`; up to and including `lockedUntil` it leaves the table as
it is.  The `retryAfter` reported with `ACCOUNT_LOCKED` is the number of
seconds left until `lockedUntil`, rounded up: positive while
`now < lockedUntil` and `0` at `now = lockedUntil`. -/
theorem AuthService.isAccountLocked_spec (s : AuthService) (e : String) (now : Nat) :
    ((s._isAccountLocked e now).1 = true ↔
      ∃ a, mapGet s.loginAttempts e = some a ∧ a.failedAttempts ≥ 5 ∧
        ∀ L, a.lockedUntil = some L → L ≠ 0 → now ≤ L) ∧
    (∀ a L, mapGet s.loginAttempts e = some a → a.lockedUntil = some L → L ≠ 0 →
      (L < now →
        s._isAccountLocked e now =
          (false, { s with loginAttempts := mapDelete s.loginAttempts e }) ∧
        mapGet (s._isAccountLocked e now).2.loginAttempts e = none) ∧
      (now ≤ L → s._isAccountLocked e now = (decide (a.failedAttempts ≥ 5), s))) ∧
    (∀ (email password : JsValue) (later : Nat) (rnd : String) (r : AuthService.LoginResult)
        (s1 : AuthService),
      s.login email password now later rnd = Except.ok (r, s1) →
      r.errorCode = some "ACCOUNT_LOCKED" →
      ∃ e1 p a, AuthService._sanitizeLoginInput email password = Except.ok (e1, p) ∧
        mapGet s.loginAttempts e1 = some a ∧ a.failedAttempts ≥ 5 ∧
        s1.loginAttempts = s.loginAttempts ∧
        ∀ L, a.lockedUntil = some L → L ≠ 0 →
          now ≤ L ∧ r.retryAfter = some ((L - now + 999) / 1000) ∧
          (now < L → 0 < (L - now + 999) / 1000) ∧ (now = L → (L - now + 999) / 1000 = 0)) := by
  have key : ∀ e0 : String, ((s._isAccountLocked e0 now).1 = true ↔
      ∃ a, mapGet s.loginAttempts e0 = some a ∧ a.failedAttempts ≥ 5 ∧
        ∀ L, a.lockedUntil = some L → L ≠ 0 → now ≤ L) := by
    intro e0
    rcases AuthService.isAccountLocked_cases s e0 now with ⟨heq, a, L, hget, hl, h0, hlt⟩ | ⟨heq, hle⟩
    · rw [heq]
      simp only [Bool.false_eq_true, false_iff, not_exists, not_and]
      intro a1 hget1 _ hall
      rw [hget] at hget1
      simp only [Option.some.injEq] at hget1
      subst hget1
      have := hall L hl h0
      omega
    · rw [heq]
      simp only [decide_eq_true_eq, AuthService.attemptCount, MAX_LOGIN_ATTEMPTS]
      cases hget : mapGet s.loginAttempts e0 with
      | none => simp
      | some a =>
        simp only [Option.some.injEq, exists_eq_left']
        constructor
        · intro h; exact ⟨h, fun L hl h0 => hle a L hget hl h0⟩
        · intro h; exact h.1
  refine ⟨key e, ?_, ?_⟩
  · intro a L hget hl h0
    constructor
    · intro hlt
      have h : s._isAccountLocked e now =
          (false, { s with loginAttempts := mapDelete s.loginAttempts e }) := by
        simp [AuthService._isAccountLocked, hget, hl, h0, hlt, AuthService._clearFailedAttempts]
      rw [h]
      exact ⟨rfl, mapGet_mapDelete_self _ _⟩
    · intro hle
      have hnot : ¬ L < now := by omega
      simp [AuthService._isAccountLocked, hget, hl, h0, hnot, MAX_LOGIN_ATTEMPTS]
  · intro email password later rnd r s1 h hcode
    cases hsan : AuthService._sanitizeLoginInput email password with
    | error reason =>
      simp only [AuthService.login, hsan, Except.ok.injEq, Prod.mk.injEq] at h
      obtain ⟨rfl, -⟩ := h
      simp at hcode
    | ok ep =>
      obtain ⟨e1, p⟩ := ep
      cases hlock : s._isAccountLocked e1 now with
      | mk locked s0 =>
        cases locked with
        | true =>
          obtain ⟨rfl, hgetl⟩ := AuthService.isAccountLocked_true_facts s s0 e1 now hlock
          obtain ⟨info, hinfo⟩ : ∃ info, s0.getLoginAttempts e1 now = (info, s0) :=
            ⟨(s0.getLoginAttempts e1 now).1, Prod.ext rfl hgetl⟩
          simp only [AuthService.login, hsan, hlock, hinfo, if_true, Except.ok.injEq,
            Prod.mk.injEq] at h
          obtain ⟨rfl, rfl⟩ := h
          have htrue : (s0._isAccountLocked e1 now).1 = true := by rw [hlock]
          obtain ⟨a, hget, h5, hall⟩ := (key e1).mp htrue
          refine ⟨e1, p, a, rfl, hget, h5, rfl, ?_⟩
          intro L hl h0
          have hle := hall L hl h0
          refine ⟨hle, ?_, ?_, ?_⟩
          · simp only [Option.some.injEq]
            exact AuthService.getLockoutTimeRemaining_of_lock _ e1 now a L hget hl h0 hle
          · intro hlt
            apply Nat.div_pos <;> omega
          · intro heq
            subst heq
            simp
        | false =>
          exfalso
          by_cases hdom : AuthService.validateEmailDomain e1 = true
          · cases hwl : AuthService.isUserInWhitelist (JsValue.string e1) with
            | none =>
              simp only [AuthService.login, hsan, hlock, hdom, hwl, Bool.false_eq_true,
                if_false, Bool.not_true, Except.ok.injEq, Prod.mk.injEq] at h
              obtain ⟨rfl, -⟩ := h
              simp at hcode
            | some user =>
              by_cases hpw : user.password = some p
              · cases hcs : s0.createSession (some user) later rnd with
                | error err => simp [AuthService.login, hsan, hlock, hdom, hwl, hpw, hcs] at h
                | ok res =>
                  obtain ⟨x, s2⟩ := res
                  cases x with
                  | none =>
                    simp only [AuthService.login, hsan, hlock, hdom, hwl, hpw, hcs,
                      Bool.false_eq_true, if_false, Bool.not_true, bne_self_eq_false,
                      Except.ok.injEq, Prod.mk.injEq] at h
                    obtain ⟨rfl, -⟩ := h
                    simp at hcode
                  | some sess =>
                    simp only [AuthService.login, hsan, hlock, hdom, hwl, hpw, hcs,
                      Bool.false_eq_true, if_false, Bool.not_true, bne_self_eq_false,
                      Except.ok.injEq, Prod.mk.injEq] at h
                    obtain ⟨rfl, -⟩ := h
                    simp at hcode
              · have hne : (user.password != some p) = true := by simpa using hpw
                simp only [AuthService.login, hsan, hlock, hdom, hwl, hne, Bool.false_eq_true,
                  if_false, Bool.not_true, if_true, Except.ok.injEq, Prod.mk.injEq] at h
                obtain ⟨rfl, -⟩ := h
                simp at hcode
          · have hdom' : AuthService.validateEmailDomain e1 = false := by simpa using hdom
            simp only [AuthService.login, hsan, hlock, hdom', Bool.false_eq_true, if_false,
              Bool.not_false, if_true, Except.ok.injEq, Prod.mk.injEq] at h
            obtain ⟨rfl, -⟩ := h
            simp at hcode

/-! ## Counting failed attempts -/

namespace AuthService

theorem loginRun_wrong_passwords_le (u : User) (hu : u ∈ authorizedUsers)
    (e pw : String) (he : u.email = some e) (hpw : u.password = some pw)
    (cs : List LoginCall)
    (hcs : ∀ c ∈ cs, jsToLowerCase (jsTrim c.email) = e ∧ jsTrim c.password ≠ "" ∧
      jsTrim c.password ≠ pw) :
    ∀ (s : AuthService) (k : Nat), k + cs.length ≤ 5 → ThrottleOnly s e k none →
      ∃ rs s1 L, loginRun s cs = Except.ok (rs, s1) ∧
        ThrottleOnly s1 e (k + cs.length) L := by
  induction cs with
  | nil =>
    intro s k _ hs
    exact ⟨[], s, none, rfl, by simpa using hs⟩
  | cons c cs ih =>
    intro s k hk hs
    simp only [List.length_cons] at hk
    obtain ⟨hce, hcp, hwrong⟩ := hcs c (List.mem_cons_self _ _)
    obtain ⟨r, s1, hr, -, -, -, hthr⟩ :=
      login_wrong_password_step s u hu e pw he hpw c hce hcp hwrong k (by omega) hs
    by_cases h5 : k + 1 ≥ 5
    · have hnil : cs = [] := List.length_eq_zero.mp (by omega)
      subst hnil
      exact ⟨[r], s1, _, by simp [loginRun, hr], by simpa using hthr⟩
    · rw [if_neg h5] at hthr
      obtain ⟨rs, s2, L, hrun, hthr2⟩ :=
        ih (fun c' hc' => hcs c' (List.mem_cons_of_mem _ hc')) s1 (k + 1) (by omega) hthr
      refine ⟨r :: rs, s2, L, by simp [loginRun, hr, hrun], ?_⟩
      have : k + (cs.length + 1) = k + 1 + cs.length := by omega
      simpa [this] using hthr2

theorem getLoginAttempts_throttleOnly (s : AuthService) (e : String) (k : Nat)
    (L : Option Nat) (hs : ThrottleOnly s e k L) (t : Nat) :
    (s.getLoginAttempts e t).1.failedAttempts = k := by
  rcases hs with ⟨rfl, -, hs⟩ | ⟨-, a, hs, hak, -⟩
  · simp [getLoginAttempts, mapGet, hs]
  · simp [getLoginAttempts, mapGet, hs, List.lookup, hak]

end AuthService

/-- **C22.** `_recordFailedAttempt(email)` at clock `now` raises that
e-mail's `failedAttempts` by exactly one, creating the record with count 1
when there is none, and leaves the record of every other e-mail as it was.
On a table that records locks only at the threshold (as every table built by
`login` does, and the table stays so) the new record has
`lockedUntil = now + 1,800,000` exactly when the new count has reached 5, and
`lockedUntil = null` below 5.  Hence after `n ≤ 5` wrong-password logins for
one whitelisted e-mail on a fresh service, `getLoginAttempts(email)` reports
`failedAttempts = n`. -/
theorem AuthService.recordFailedAttempt_spec (s : AuthService) (e reason : String)
    (ci : Option ClientInfo) (now : Nat) (hinv : s.LocksAtThreshold) :
    (s._recordFailedAttempt e reason ci now).attemptCount e = s.attemptCount e + 1 ∧
    (mapGet s.loginAttempts e = none →
      ∃ a, mapGet (s._recordFailedAttempt e reason ci now).loginAttempts e = some a ∧
        a.failedAttempts = 1) ∧
    (∀ e1, e1 ≠ e →
      mapGet (s._recordFailedAttempt e reason ci now).loginAttempts e1 =
        mapGet s.loginAttempts e1) ∧
    (∃ a, mapGet (s._recordFailedAttempt e reason ci now).loginAttempts e = some a ∧
      (a.failedAttempts ≥ 5 → a.lockedUntil = some (now + 1800000)) ∧
      (a.failedAttempts < 5 → a.lockedUntil = none)) ∧
    (s._recordFailedAttempt e reason ci now).LocksAtThreshold ∧
    AuthService.fresh.LocksAtThreshold ∧
    (∀ u ∈ authorizedUsers, ∀ (em pw : String) (cs : List AuthService.LoginCall),
      u.email = some em → u.password = some pw →
      (∀ c ∈ cs, jsToLowerCase (jsTrim c.email) = em ∧ jsTrim c.password ≠ "" ∧
        jsTrim c.password ≠ pw) →
      cs.length ≤ 5 →
      ∃ rs s1, AuthService.loginRun AuthService.fresh cs = Except.ok (rs, s1) ∧
        ∀ t, (s1.getLoginAttempts em t).1.failedAttempts = cs.length) := by
  obtain ⟨-, -, hother, a, hget, hcount, h5, hlt⟩ :=
    AuthService.recordFailedAttempt_facts s e reason ci now
  have hfresh : AuthService.fresh.LocksAtThreshold := by
    intro e0 a0 hget0
    simp [AuthService.fresh, mapGet] at hget0
  refine ⟨?_, ?_, hother, ⟨a, hget, ?_, ?_⟩, AuthService.recordFailedAttempt_inv s e reason ci now hinv,
    hfresh, ?_⟩
  · simp only [AuthService.attemptCount, hget]
    simpa [AuthService.attemptCount] using hcount
  · intro hnone
    refine ⟨a, hget, ?_⟩
    simpa [AuthService.attemptCount, hnone] using hcount
  · intro h
    simpa [LOCKOUT_DURATION] using h5 (by simpa [MAX_LOGIN_ATTEMPTS] using h)
  · intro h
    rw [hlt (by simpa [MAX_LOGIN_ATTEMPTS] using h)]
    cases hg : mapGet s.loginAttempts e with
    | none => rfl
    | some a0 =>
      show a0.lockedUntil = none
      by_contra hcon
      have h0 := hinv e a0 hg hcon
      simp only [AuthService.attemptCount, hg] at hcount
      simp only [MAX_LOGIN_ATTEMPTS] at h0
      omega
  · intro u hu em pw cs hem hpw hcs hlen
    obtain ⟨rs, s1, L, hrun, hthr⟩ :=
      AuthService.loginRun_wrong_passwords_le u hu em pw hem hpw cs hcs AuthService.fresh 0
        (by omega) (Or.inl ⟨rfl, rfl, rfl⟩)
    refine ⟨rs, s1, hrun, ?_⟩
    intro t
    simpa using AuthService.getLoginAttempts_throttleOnly s1 em _ L hthr t

/-- A first failure recorded for `sysadmin@xu.edu.ph` on a fresh service. -/
theorem AuthService.recordFailedAttempt_spec_witness :
    AuthService.fresh.LocksAtThreshold ∧
    (AuthService.fresh._recordFailedAttempt "sysadmin@xu.edu.ph" "INVALID_PASSWORD" none
        1000).attemptCount "sysadmin@xu.edu.ph"
      = AuthService.fresh.attemptCount "sysadmin@xu.edu.ph" + 1 ∧
    AuthService.fresh.attemptCount "sysadmin@xu.edu.ph" = 0 :=
  ⟨fun _ _ hget => by simp [AuthService.fresh, mapGet] at hget,
   (AuthService.recordFailedAttempt_spec AuthService.fresh "sysadmin@xu.edu.ph"
      "INVALID_PASSWORD" none 1000
      (fun _ _ hget => by simp [AuthService.fresh, mapGet] at hget)).1,
   by decide⟩

/-! ## Case conversion and trimming -/

theorem char_toUpper_cases (c : Char) :
    (c.toUpper = c ∧ ¬ (c.toNat ≥ 97 ∧ c.toNat ≤ 122)) ∨
    ∃ n, 97 ≤ n ∧ n ≤ 122 ∧ c = Char.ofNat n ∧ c.toUpper = Char.ofNat (n - 32) := by
  by_cases h : c.toNat ≥ 97 ∧ c.toNat ≤ 122
  · right
    refine ⟨c.toNat, h.1, h.2, (Char.ofNat_toNat c).symm, ?_⟩
    simp only [Char.toUpper]; rw [if_pos h]
  · left
    refine ⟨?_, h⟩
    simp only [Char.toUpper]; rw [if_neg h]

theorem char_toLower_cases (c : Char) :
    (c.toLower = c ∧ ¬ (c.toNat ≥ 65 ∧ c.toNat ≤ 90)) ∨
    ∃ n, 65 ≤ n ∧ n ≤ 90 ∧ c = Char.ofNat n ∧ c.toLower = Char.ofNat (n + 32) := by
  by_cases h : c.toNat ≥ 65 ∧ c.toNat ≤ 90
  · right
    refine ⟨c.toNat, h.1, h.2, (Char.ofNat_toNat c).symm, ?_⟩
    simp only [Char.toLower]; rw [if_pos h]
  · left
    refine ⟨?_, h⟩
    simp only [Char.toLower]; rw [if_neg h]

theorem char_toUpper_idem (c : Char) : c.toUpper.toUpper = c.toUpper := by
  rcases char_toUpper_cases c with ⟨h, -⟩ | ⟨n, ha, hb, rfl, h⟩
  · rw [h, h]
  · rw [h]; interval_cases n <;> rfl

theorem isJsSpace_toUpper (c : Char) : isJsSpace c.toUpper = isJsSpace c := by
  rcases char_toUpper_cases c with ⟨h, -⟩ | ⟨n, ha, hb, rfl, h⟩
  · rw [h]
  · rw [h]; interval_cases n <;> rfl

theorem isJsSpace_toLower (c : Char) : isJsSpace c.toLower = isJsSpace c := by
  rcases char_toLower_cases c with ⟨h, -⟩ | ⟨n, ha, hb, rfl, h⟩
  · rw [h]
  · rw [h]; interval_cases n <;> rfl

/-- Upper-casing keeps a character inside or outside the class of `NAME_PATTERN`. -/
theorem nameChar_toUpper (c : Char) :
    (c.toUpper.isAlpha || isJsSpace c.toUpper || c.toUpper == '-' || c.toUpper == '\'') =
      (c.isAlpha || isJsSpace c || c == '-' || c == '\'') := by
  rcases char_toUpper_cases c with ⟨h, -⟩ | ⟨n, ha, hb, rfl, h⟩
  · rw [h]
  · rw [h]; interval_cases n <;> rfl

/-- Lower-casing keeps a character inside or outside the class `[^\s@]`. -/
theorem plainChar_toLower (c : Char) :
    (!isJsSpace c.toLower && c.toLower != '@') = (!isJsSpace c && c != '@') := by
  rcases char_toLower_cases c with ⟨h, -⟩ | ⟨n, ha, hb, rfl, h⟩
  · rw [h]
  · rw [h]; interval_cases n <;> rfl

theorem char_toLower_eq_at (c : Char) : (c.toLower == '@') = (c == '@') := by
  rcases char_toLower_cases c with ⟨h, -⟩ | ⟨n, ha, hb, rfl, h⟩
  · rw [h]
  · rw [h]; interval_cases n <;> rfl

theorem char_toLower_eq_dot (c : Char) : (c.toLower == '.') = (c == '.') := by
  rcases char_toLower_cases c with ⟨h, -⟩ | ⟨n, ha, hb, rfl, h⟩
  · rw [h]
  · rw [h]; interval_cases n <;> rfl

theorem trimChars_map (f : Char → Char) (hf : ∀ c, isJsSpace (f c) = isJsSpace c)
    (l : List Char) : trimChars (l.map f) = (trimChars l).map f := by
  have hcomp : (isJsSpace ∘ f) = isJsSpace := funext hf
  simp only [trimChars, List.dropWhile_map, hcomp, ← List.map_reverse]

theorem dropWhile_prefix_of_fixed {p : Char → Bool} :
    ∀ {t m : List Char}, t <+: m → m.dropWhile p = m → t.dropWhile p = t := by
  intro t m hpre hm
  cases t with
  | nil => rfl
  | cons a t1 =>
    obtain ⟨rest, rfl⟩ := hpre
    by_cases hp : p a = true
    · exfalso
      simp only [List.cons_append, List.dropWhile_cons, hp, if_true] at hm
      have := (List.dropWhile_suffix p (l := t1 ++ rest)).length_le
      rw [hm] at this
      simp at this
    · simp [List.dropWhile_cons, hp]

theorem trimChars_idem (l : List Char) : trimChars (trimChars l) = trimChars l := by
  have hm : (l.dropWhile isJsSpace).dropWhile isJsSpace = l.dropWhile isJsSpace :=
    List.dropWhile_idempotent _ _
  have hpre : ((l.dropWhile isJsSpace).reverse.dropWhile isJsSpace).reverse <+:
      l.dropWhile isJsSpace := by
    have := List.dropWhile_suffix isJsSpace (l := (l.dropWhile isJsSpace).reverse)
    simpa using List.reverse_prefix.mpr this
  have hA := dropWhile_prefix_of_fixed hpre hm
  simp only [trimChars]
  rw [hA, List.reverse_reverse, List.dropWhile_idempotent]

theorem jsTrim_idem (s : String) : jsTrim (jsTrim s) = jsTrim s := by
  simp [jsTrim, trimChars_idem]

theorem jsTrim_toUpper (s : String) : jsTrim (jsToUpperCase s) = jsToUpperCase (jsTrim s) := by
  simp [jsTrim, jsToUpperCase, trimChars_map _ isJsSpace_toUpper]

theorem jsTrim_toLower (s : String) : jsTrim (jsToLowerCase s) = jsToLowerCase (jsTrim s) := by
  simp [jsTrim, jsToLowerCase, trimChars_map _ isJsSpace_toLower]

theorem jsToUpperCase_idem (s : String) : jsToUpperCase (jsToUpperCase s) = jsToUpperCase s := by
  simp [jsToUpperCase, List.map_map, Function.comp_def, char_toUpper_idem]

theorem jsToUpperCase_eq_empty (s : String) : jsToUpperCase s = "" ↔ s = "" := by
  constructor
  · intro h
    have := congrArg String.data h
    simp only [jsToUpperCase, List.map_eq_nil_iff] at this
    exact String.ext this
  · rintro rfl; rfl

theorem jsToLowerCase_eq_empty (s : String) : jsToLowerCase s = "" ↔ s = "" := by
  constructor
  · intro h
    have := congrArg String.data h
    simp only [jsToLowerCase, List.map_eq_nil_iff] at this
    exact String.ext this
  · rintro rfl; rfl

theorem namePatternTest_toUpper (s : String) :
    namePatternTest (jsToUpperCase s) = namePatternTest s := by
  have hcomp : ((fun c : Char => c.isAlpha || isJsSpace c || c == '-' || c == '\'') ∘
      Char.toUpper) = (fun c : Char => c.isAlpha || isJsSpace c || c == '-' || c == '\'') :=
    funext nameChar_toUpper
  simp only [namePatternTest, jsToUpperCase, List.all_map, hcomp, List.isEmpty_eq_true,
    List.map_eq_nil_iff]
  cases s.data <;> simp

theorem emailPatternTest_toLower (s : String) :
    emailPatternTest (jsToLowerCase s) = emailPatternTest s := by
  have hcomp : ((fun c : Char => !isJsSpace c && c != '@') ∘ Char.toLower) =
      (fun c : Char => !isJsSpace c && c != '@') := funext plainChar_toLower
  have hdot : ∀ l : List Char, (l.map Char.toLower).contains '.' = l.contains '.' := by
    intro l
    induction l with
    | nil => rfl
    | cons a l ih =>
      simp only [List.map_cons, List.contains_cons, ih]
      have := char_toLower_eq_dot a
      simp only [beq_iff_eq] at this ⊢
      rw [Bool.eq_iff_iff] at this ⊢
      simp only [Bool.or_eq_true, beq_iff_eq, decide_eq_true_eq] at this ⊢
      constructor
      · rintro (h | h)
        · left; rw [eq_comm] at h ⊢; exact this.mp h
        · right; exact h
      · rintro (h | h)
        · left; rw [eq_comm] at h ⊢; exact this.mpr h
        · right; exact h
  simp only [emailPatternTest, jsToLowerCase, List.takeWhile_map, List.dropWhile_map, hcomp]
  cases hd : s.data.dropWhile (fun c : Char => !isJsSpace c && c != '@') with
  | nil => rfl
  | cons c rest =>
    simp only [List.map_cons, List.all_map, hcomp, char_toLower_eq_at, ← List.map_drop]
    rw [← List.map_dropLast, hdot]
    cases List.takeWhile (fun c : Char => !isJsSpace c && c != '@') s.data <;> rfl

namespace DataEntryService

theorem jsTrim_trimOrEmpty (o : Option String) : jsTrim (trimOrEmpty o) = trimOrEmpty o := by
  cases o with
  | none => decide
  | some s =>
    by_cases h : s = ""
    · subst h; decide
    · simp [trimOrEmpty, h, jsTrim_idem]

theorem trimOrEmpty_some_of_trimmed (y : String) (hy : jsTrim y = y) :
    trimOrEmpty (some y) = y := by
  by_cases h : y = ""
  · simp [trimOrEmpty, h]
  · simp [trimOrEmpty, h, hy]

theorem trimStudentData_sanitized (d : StudentData) :
    _trimStudentData (_sanitizeStudentData (_trimStudentData d)).toData =
      _sanitizeStudentData (_trimStudentData d) := by
  have hu : ∀ o, trimOrEmpty (some (jsToUpperCase (trimOrEmpty o))) =
      jsToUpperCase (trimOrEmpty o) := fun o =>
    trimOrEmpty_some_of_trimmed _ (by rw [jsTrim_toUpper, jsTrim_trimOrEmpty])
  have hl : ∀ o, trimOrEmpty (some (jsToLowerCase (trimOrEmpty o))) =
      jsToLowerCase (trimOrEmpty o) := fun o =>
    trimOrEmpty_some_of_trimmed _ (by rw [jsTrim_toLower, jsTrim_trimOrEmpty])
  have hp : ∀ o, trimOrEmpty (some (trimOrEmpty o)) = trimOrEmpty o := fun o =>
    trimOrEmpty_some_of_trimmed _ (jsTrim_trimOrEmpty o)
  simp only [_trimStudentData, _sanitizeStudentData, StudentRecord.toData, hu, hl, hp]

theorem validateXUEmail_toLower (e : String) :
    _validateXUEmail (jsToLowerCase e) = _validateXUEmail e := by
  simp only [_validateXUEmail, emailPatternTest_toLower, jsToLowerCase_idem]

theorem studentErrors_sanitized (t : StudentRecord) :
    studentErrors (_sanitizeStudentData t) = studentErrors t := by
  have hne : ∀ x : String, (jsToUpperCase x != "") = (x != "") := by
    intro x
    by_cases h : x = ""
    · subst h; rfl
    · have h2 : jsToUpperCase x ≠ "" := fun hc => h ((jsToUpperCase_eq_empty x).mp hc)
      rw [bne_iff_ne.mpr h2, bne_iff_ne.mpr h]
  have hnl : ∀ x : String, (jsToLowerCase x != "") = (x != "") := by
    intro x
    by_cases h : x = ""
    · subst h; rfl
    · have h2 : jsToLowerCase x ≠ "" := fun hc => h ((jsToLowerCase_eq_empty x).mp hc)
      rw [bne_iff_ne.mpr h2, bne_iff_ne.mpr h]
  simp only [studentErrors, _validateRequiredStudentFields, _validateStudentNameFormats,
    nameFormatError, _validateStudentYear, _validateStudentContactAndEvaluator,
    _sanitizeStudentData, jsToUpperCase_eq_empty, jsToLowerCase_eq_empty,
    namePatternTest_toUpper, validateXUEmail_toLower, hne, hnl]

theorem sanitizeStudentData_idem (t : StudentRecord) :
    _sanitizeStudentData (_sanitizeStudentData t) = _sanitizeStudentData t := by
  simp only [_sanitizeStudentData, jsToUpperCase_idem, jsToLowerCase_idem]

theorem validateStudentDetails_some (d : StudentData) :
    validateStudentDetails (some d) =
      { isValid := (studentErrors (_trimStudentData d)).isEmpty
        errors := studentErrors (_trimStudentData d)
        sanitizedData :=
          if (studentErrors (_trimStudentData d)).isEmpty then
            some (_sanitizeStudentData (_trimStudentData d))
          else none } := rfl

end DataEntryService

/-- **C23.** When `validateStudentDetails` succeeds with sanitized data `s`,
the names in `s` are the upper-cased trimmed inputs, the evaluator is the
lower-cased trimmed input, and `validateStudentDetails(s)` succeeds again with
sanitized data equal to `s`. -/
theorem DataEntryService.validateStudentDetails_idempotent (d : StudentData)
    (s : StudentRecord)
    (hvalid : (DataEntryService.validateStudentDetails (some d)).isValid = true)
    (hs : (DataEntryService.validateStudentDetails (some d)).sanitizedData = some s) :
    s.lastName = jsToUpperCase (DataEntryService.trimOrEmpty d.lastName) ∧
    s.firstName = jsToUpperCase (DataEntryService.trimOrEmpty d.firstName) ∧
    s.middleName = jsToUpperCase (DataEntryService.trimOrEmpty d.middleName) ∧
    s.evaluator = jsToLowerCase (DataEntryService.trimOrEmpty d.evaluator) ∧
    DataEntryService.validateStudentDetails (some s.toData) =
      { isValid := true, errors := [], sanitizedData := some s } := by
  rw [DataEntryService.validateStudentDetails_some] at hvalid hs
  simp only at hvalid hs
  rw [hvalid] at hs
  simp only [if_true, Option.some.injEq] at hs
  have herr : DataEntryService.studentErrors (DataEntryService._trimStudentData d) = [] :=
    List.isEmpty_iff.mp hvalid
  refine ⟨by rw [← hs]; rfl, by rw [← hs]; rfl, by rw [← hs]; rfl, by rw [← hs]; rfl, ?_⟩
  rw [DataEntryService.validateStudentDetails_some, ← hs,
    DataEntryService.trimStudentData_sanitized, DataEntryService.studentErrors_sanitized,
    DataEntryService.sanitizeStudentData_idem, herr]
  rfl

/-- The section `sampleStudentData` and its sanitized form. -/
theorem DataEntryService.validateStudentDetails_idempotent_witness :
    DataEntryService.validateStudentDetails (some DataEntryService.sampleStudentData) =
      { isValid := true, errors := [],
        sanitizedData := some DataEntryService.sampleStudentRecord } ∧
    DataEntryService.validateStudentDetails
        (some DataEntryService.sampleStudentRecord.toData) =
      { isValid := true, errors := [],
        sanitizedData := some DataEntryService.sampleStudentRecord } :=
  ⟨by decide,
   (DataEntryService.validateStudentDetails_idempotent DataEntryService.sampleStudentData
      DataEntryService.sampleStudentRecord (by decide) (by decide)).2.2.2.2⟩

/-- **C24 (failing input).** With the other student fields valid, the
contact numbers `'09-17-123-4567'` and `'0917 123 4567'` are accepted:
`_validatePhilippineNumber` removes blanks, dashes and parentheses before it
tests `/^09\d{9}$/`, so neither is rejected with
`'Invalid contact number format'`.  The plain `'09171234567'` is accepted and
`'08171234567'` is rejected. -/
theorem DataEntryService.validateStudentDetails_accepts_dashed_contact :
    (∀ contact ∈ ["09-17-123-4567", "0917 123 4567", "(0917) 123-4567", "09171234567"],
      DataEntryService.validateStudentDetails
        (some { lastName := some "SANTOS", firstName := some "MARIA",
                middleName := some "GARCIA", year := some "4th Year",
                program := some "BS Computer Science", contactNumber := some contact,
                evaluator := some "evaluator@xu.edu.ph" }) =
      { isValid := true, errors := [],
        sanitizedData := some
          { lastName := "SANTOS", firstName := "MARIA", middleName := "GARCIA",
            year := some "4th Year", program := "BS Computer Science",
            contactNumber := contact, evaluator := "evaluator@xu.edu.ph" } }) ∧
    phonePatternTest "09-17-123-4567" = false ∧
    phonePatternTest "0917 123 4567" = false ∧
    DataEntryService._validatePhilippineNumber "09-17-123-4567" = true ∧
    DataEntryService._validatePhilippineNumber "0917 123 4567" = true ∧
    (DataEntryService.validateStudentDetails
        (some { lastName := some "SANTOS", firstName := some "MARIA",
                middleName := some "GARCIA", year := some "4th Year",
                program := some "BS Computer Science", contactNumber := some "08171234567",
                evaluator := some "evaluator@xu.edu.ph" })).errors =
      ["Invalid contact number format"] := by
  refine ⟨by decide, by decide, by decide, by decide, by decide, by decide⟩

/-! ## The documents section -/

namespace DataEntryService

theorem documentLoop_cons (docType : String) (docs : List String) (o : Int) (origs : List Int)
    (a : Int) (auths : List Int) :
    documentLoop (docType :: docs) (o :: origs) (a :: auths) =
      (_validateSingleDocument docType o a ++ (documentLoop docs origs auths).1,
       o + (documentLoop docs origs auths).2.1, a + (documentLoop docs origs auths).2.2) := by
  simp only [documentLoop]

theorem validateSingleDocument_nil (docType : String) (o a : Int) :
    _validateSingleDocument docType o a = [] ↔
      docType ∈ VALID_DOCUMENT_TYPES ∧ (0 ≤ o ∧ o ≤ 100) ∧ (0 ≤ a ∧ a ≤ 100) ∧ 1 ≤ o + a := by
  simp only [_validateSingleDocument, MAX_QUANTITY_PER_DOCUMENT, List.append_eq_nil,
    ite_eq_right_iff, List.cons_ne_nil, imp_false, Bool.not_eq_true', Bool.or_eq_true,
    decide_eq_true_eq, not_or, not_lt, Bool.not_eq_false,
    List.elem_eq_mem]
  constructor
  · rintro ⟨⟨⟨h1, h2⟩, h3⟩, h4⟩
    refine ⟨by simpa using h1, h2, h3, by omega⟩
  · rintro ⟨h1, h2, h3, h4⟩
    refine ⟨⟨⟨by simpa using h1, h2⟩, h3⟩, by omega⟩

theorem documentLoop_totals :
    ∀ (docs : List String) (origs auths : List Int),
      docs.length = origs.length → docs.length = auths.length →
      (documentLoop docs origs auths).2.1 = origs.sum ∧
      (documentLoop docs origs auths).2.2 = auths.sum := by
  intro docs
  induction docs with
  | nil =>
    intro origs auths h1 h2
    have ho : origs = [] := List.length_eq_zero.mp h1.symm
    have ha : auths = [] := List.length_eq_zero.mp h2.symm
    subst ho; subst ha
    simp [documentLoop]
  | cons t docs ih =>
    intro origs auths h1 h2
    cases origs with
    | nil => simp at h1
    | cons o origs =>
      cases auths with
      | nil => simp at h2
      | cons a auths =>
        simp only [List.length_cons, Nat.add_right_cancel_iff] at h1 h2
        obtain ⟨i1, i2⟩ := ih origs auths h1 h2
        simp only [documentLoop_cons, i1, i2, List.sum_cons, and_self]

theorem documentLoop_errors :
    ∀ (docs : List String) (origs auths : List Int),
      docs.length = origs.length → docs.length = auths.length →
      ((documentLoop docs origs auths).1 = [] ↔
        (∀ t ∈ docs, t ∈ VALID_DOCUMENT_TYPES) ∧ (∀ q ∈ origs, 0 ≤ q ∧ q ≤ 100) ∧
        (∀ q ∈ auths, 0 ≤ q ∧ q ≤ 100) ∧ ∀ p ∈ origs.zip auths, 1 ≤ p.1 + p.2) := by
  intro docs
  induction docs with
  | nil =>
    intro origs auths h1 h2
    have ho : origs = [] := List.length_eq_zero.mp h1.symm
    have ha : auths = [] := List.length_eq_zero.mp h2.symm
    subst ho; subst ha
    simp [documentLoop]
  | cons t docs ih =>
    intro origs auths h1 h2
    cases origs with
    | nil => simp at h1
    | cons o origs =>
      cases auths with
      | nil => simp at h2
      | cons a auths =>
        simp only [List.length_cons, Nat.add_right_cancel_iff] at h1 h2
        have i := ih origs auths h1 h2
        simp only [documentLoop_cons, List.append_eq_nil, validateSingleDocument_nil, i,
          List.mem_cons, forall_eq_or_imp, List.zip_cons_cons]
        tauto

theorem zip_sum_ge :
    ∀ (origs auths : List Int), origs.length = auths.length →
      (∀ p ∈ origs.zip auths, 1 ≤ p.1 + p.2) → (origs.length : Int) ≤ origs.sum + auths.sum := by
  intro origs
  induction origs with
  | nil => intro auths h _; cases auths <;> simp at h ⊢
  | cons o origs ih =>
    intro auths h hall
    cases auths with
    | nil => simp at h
    | cons a auths =>
      simp only [List.length_cons, Nat.add_right_cancel_iff] at h
      simp only [List.zip_cons_cons, List.mem_cons, forall_eq_or_imp] at hall
      have := ih auths h hall.2
      simp only [List.length_cons, List.sum_cons]
      push_cast
      omega

/-- The result of `validateRequestedDocuments` once the basic requirements
hold. -/
theorem validateRequestedDocuments_basic (d : DocumentsData) (docs : List String)
    (hdocs : d.documents = some docs) (hne : docs ≠ [])
    (h1 : docs.length = d.originalQuantities.length)
    (h2 : docs.length = d.authenticatedQuantities.length) :
    validateRequestedDocuments (some d) =
      { isValid :=
          ((documentLoop docs d.originalQuantities d.authenticatedQuantities).1 ++
            _validateTotalCopies d.originalQuantities.sum d.authenticatedQuantities.sum ++
            _validateOtherDocumentsSpecification docs d.otherDocuments).isEmpty
        errors :=
          (documentLoop docs d.originalQuantities d.authenticatedQuantities).1 ++
            _validateTotalCopies d.originalQuantities.sum d.authenticatedQuantities.sum ++
            _validateOtherDocumentsSpecification docs d.otherDocuments
        sanitizedData :=
          if ((documentLoop docs d.originalQuantities d.authenticatedQuantities).1 ++
            _validateTotalCopies d.originalQuantities.sum d.authenticatedQuantities.sum ++
            _validateOtherDocumentsSpecification docs d.otherDocuments).isEmpty then
            some { documents := docs
                   originalQuantities := d.originalQuantities
                   authenticatedQuantities := d.authenticatedQuantities
                   otherDocuments := trimOrEmpty d.otherDocuments
                   totalDocuments := docs.length
                   totalOriginalCopies := d.originalQuantities.sum
                   totalAuthenticatedCopies := d.authenticatedQuantities.sum }
          else none } := by
  obtain ⟨t1, t2⟩ := documentLoop_totals docs _ _ h1 h2
  have hlen : docs.length ≠ 0 := fun h => hne (List.length_eq_zero.mp h)
  simp only [validateRequestedDocuments, hdocs, hlen, if_false, ← h1, ← h2, ne_eq,
    not_true_eq_false, decide_False, Bool.or_self, Bool.false_eq_true, ← t1, ← t2]

/-- The result of `validateRequestedDocuments` is invalid when the basic
requirements fail. -/
theorem validateRequestedDocuments_early (d : DocumentsData)
    (h : ¬ ∃ docs, d.documents = some docs ∧ docs ≠ [] ∧
      docs.length = d.originalQuantities.length ∧
      docs.length = d.authenticatedQuantities.length) :
    (validateRequestedDocuments (some d)).isValid = false ∧
    (validateRequestedDocuments (some d)).sanitizedData = none ∧
    ((validateRequestedDocuments (some d)).errors = ["At least one document must be selected"] ∨
     (validateRequestedDocuments (some d)).errors = ["Document arrays must have matching lengths"]) := by
  cases hdocs : d.documents with
  | none => simp [validateRequestedDocuments, hdocs]
  | some docs =>
    by_cases hlen : docs.length = 0
    · simp [validateRequestedDocuments, hdocs, hlen]
    · have hne : docs ≠ [] := fun hc => hlen (by rw [hc]; rfl)
      have hmis : ¬ (docs.length = d.originalQuantities.length ∧
          docs.length = d.authenticatedQuantities.length) :=
        fun hc => h ⟨docs, hdocs, hne, hc.1, hc.2⟩
      have hcond : (decide (docs.length ≠ d.originalQuantities.length) ||
          decide (docs.length ≠ d.authenticatedQuantities.length)) = true := by
        simp only [ne_eq, Bool.or_eq_true, decide_eq_true_eq]
        by_contra hc
        push_neg at hc
        exact hmis hc
      simp only [validateRequestedDocuments, hdocs, hlen, if_false, hcond, if_true]
      simp

end DataEntryService

/-- **C25 (counterexample).** With `documents = ['Other']`, empty quantity
arrays and a blank `otherDocuments`, the early length check returns at once:
the only error is `'Document arrays must have matching lengths'`, and the
message about the unspecified `'Other'` document is not among the errors. -/
theorem DataEntryService.validateRequestedDocuments_other_length_mismatch :
    DataEntryService.validateRequestedDocuments
        (some { documents := some ["Other"], originalQuantities := [],
                authenticatedQuantities := [], otherDocuments := some "" }) =
      { isValid := false, errors := ["Document arrays must have matching lengths"],
        sanitizedData := none } ∧
    "Other documents must be specified when \"Other\" is selected" ∉
      (DataEntryService.validateRequestedDocuments
        (some { documents := some ["Other"], originalQuantities := [],
                authenticatedQuantities := [], otherDocuments := some "" })).errors := by
  refine ⟨by decide, by decide⟩

/-- **C25 (amended).** For integer quantity arrays,
`validateRequestedDocuments` returns `isValid = true` exactly when `documents`
is non-empty, the three arrays have the same length, every document type is
one of the six allowed types, every original and authenticated quantity lies
in `[0, 100]`, every document has `original + authenticated ≥ 1`, the total of
all copies is at most 100, and `otherDocuments` is non-blank whenever
`'Other'` is among the documents.  When `documents` is non-empty, the arrays
have the same length and `'Other'` is selected with a blank `otherDocuments`,
the errors contain
`'Other documents must be specified when "Other" is selected'`. -/
theorem DataEntryService.validateRequestedDocuments_spec (d : DocumentsData) :
    ((DataEntryService.validateRequestedDocuments (some d)).isValid = true ↔
      ∃ docs, d.documents = some docs ∧ docs ≠ [] ∧
        docs.length = d.originalQuantities.length ∧
        docs.length = d.authenticatedQuantities.length ∧
        (∀ t ∈ docs, t ∈ DataEntryService.VALID_DOCUMENT_TYPES) ∧
        (∀ q ∈ d.originalQuantities, 0 ≤ q ∧ q ≤ 100) ∧
        (∀ q ∈ d.authenticatedQuantities, 0 ≤ q ∧ q ≤ 100) ∧
        (∀ p ∈ d.originalQuantities.zip d.authenticatedQuantities, 1 ≤ p.1 + p.2) ∧
        d.originalQuantities.sum + d.authenticatedQuantities.sum ≤ 100 ∧
        ("Other" ∈ docs → DataEntryService.trimOrEmpty d.otherDocuments ≠ "")) ∧
    (∀ docs, d.documents = some docs → docs ≠ [] →
      docs.length = d.originalQuantities.length →
      docs.length = d.authenticatedQuantities.length →
      "Other" ∈ docs → DataEntryService.trimOrEmpty d.otherDocuments = "" →
      "Other documents must be specified when \"Other\" is selected" ∈
        (DataEntryService.validateRequestedDocuments (some d)).errors) ∧
    DataEntryService.VALID_DOCUMENT_TYPES.length = 6 := by
  refine ⟨?_, ?_, rfl⟩
  · by_cases hbasic : ∃ docs, d.documents = some docs ∧ docs ≠ [] ∧
        docs.length = d.originalQuantities.length ∧
        docs.length = d.authenticatedQuantities.length
    · obtain ⟨docs, hdocs, hne, h1, h2⟩ := hbasic
      rw [DataEntryService.validateRequestedDocuments_basic d docs hdocs hne h1 h2]
      simp only [List.isEmpty_iff, List.append_eq_nil,
        DataEntryService.documentLoop_errors docs _ _ h1 h2, hdocs, Option.some.injEq,
        exists_eq_left']
      have htot : DataEntryService._validateTotalCopies d.originalQuantities.sum
          d.authenticatedQuantities.sum = [] ↔
          d.originalQuantities.sum + d.authenticatedQuantities.sum ≤ 100 := by
        simp [DataEntryService._validateTotalCopies, DataEntryService.MAX_TOTAL_COPIES]
      have hother : DataEntryService._validateOtherDocumentsSpecification docs d.otherDocuments
          = [] ↔ ("Other" ∈ docs → DataEntryService.trimOrEmpty d.otherDocuments ≠ "") := by
        by_cases hmem : "Other" ∈ docs
        · by_cases hb : DataEntryService.trimOrEmpty d.otherDocuments = ""
          · simp [DataEntryService._validateOtherDocumentsSpecification, hmem, hb]
          · simp [DataEntryService._validateOtherDocumentsSpecification, hmem, hb]
        · simp [DataEntryService._validateOtherDocumentsSpecification, hmem]
      rw [htot, hother]
      tauto
    · have hinv := (DataEntryService.validateRequestedDocuments_early d hbasic).1
      rw [hinv]
      simp only [Bool.false_eq_true, false_iff]
      rintro ⟨docs, hdocs, hne, h1, h2, -⟩
      exact hbasic ⟨docs, hdocs, hne, h1, h2⟩
  · intro docs hdocs hne h1 h2 hmem hblank
    rw [DataEntryService.validateRequestedDocuments_basic d docs hdocs hne h1 h2]
    simp [DataEntryService._validateOtherDocumentsSpecification, hmem, hblank]

/-- **C26.** On every valid result of `validateRequestedDocuments` with
integer quantities, `totalDocuments` is `documents.length`,
`totalOriginalCopies` is the sum of `originalQuantities`,
`totalAuthenticatedCopies` is the sum of `authenticatedQuantities`, and
`1 ≤ totalDocuments ≤ totalOriginalCopies + totalAuthenticatedCopies ≤ 100`. -/
theorem DataEntryService.validateRequestedDocuments_totals (d : DocumentsData)
    (r : DocumentsRecord)
    (hvalid : (DataEntryService.validateRequestedDocuments (some d)).isValid = true)
    (hr : (DataEntryService.validateRequestedDocuments (some d)).sanitizedData = some r) :
    d.documents = some r.documents ∧
    r.totalDocuments = r.documents.length ∧
    r.totalOriginalCopies = d.originalQuantities.sum ∧
    r.totalAuthenticatedCopies = d.authenticatedQuantities.sum ∧
    1 ≤ r.totalDocuments ∧
    (r.totalDocuments : Int) ≤ r.totalOriginalCopies + r.totalAuthenticatedCopies ∧
    r.totalOriginalCopies + r.totalAuthenticatedCopies ≤ 100 := by
  by_cases hbasic : ∃ docs, d.documents = some docs ∧ docs ≠ [] ∧
      docs.length = d.originalQuantities.length ∧
      docs.length = d.authenticatedQuantities.length
  · obtain ⟨docs, hdocs, hne, h1, h2⟩ := hbasic
    rw [DataEntryService.validateRequestedDocuments_basic d docs hdocs hne h1 h2] at hvalid hr
    simp only at hvalid hr
    rw [hvalid] at hr
    simp only [if_true, Option.some.injEq] at hr
    simp only [List.isEmpty_iff, List.append_eq_nil,
      DataEntryService.documentLoop_errors docs _ _ h1 h2] at hvalid
    obtain ⟨⟨⟨-, -, -, hzip⟩, htot⟩, -⟩ := hvalid
    have htot' : d.originalQuantities.sum + d.authenticatedQuantities.sum ≤ 100 := by
      simpa [DataEntryService._validateTotalCopies, DataEntryService.MAX_TOTAL_COPIES] using htot
    have hge := DataEntryService.zip_sum_ge _ _ (h1.symm.trans h2) hzip
    have hpos : 1 ≤ docs.length := by
      cases docs with
      | nil => exact absurd rfl hne
      | cons a l => simp
    subst hr
    refine ⟨hdocs, rfl, rfl, rfl, hpos, ?_, htot'⟩
    simp only
    rw [h1]
    exact hge
  · have hinv := (DataEntryService.validateRequestedDocuments_early d hbasic).1
    rw [hinv] at hvalid
    simp at hvalid

/-- The documents section of the test suite: two documents, three original
copies and one authenticated copy. -/
theorem DataEntryService.validateRequestedDocuments_totals_witness :
    ∃ r, (DataEntryService.validateRequestedDocuments
        (some { documents := some ["Transcript of Records", "Diploma"],
                originalQuantities := [2, 1], authenticatedQuantities := [1, 0],
                otherDocuments := some "" })).sanitizedData = some r ∧
      r.totalDocuments = 2 ∧ r.totalOriginalCopies = 3 ∧ r.totalAuthenticatedCopies = 1 ∧
      1 ≤ r.totalDocuments ∧
      (r.totalDocuments : Int) ≤ r.totalOriginalCopies + r.totalAuthenticatedCopies ∧
      r.totalOriginalCopies + r.totalAuthenticatedCopies ≤ 100 :=
  ⟨_, rfl, rfl, rfl, rfl,
    (DataEntryService.validateRequestedDocuments_totals
      { documents := some ["Transcript of Records", "Diploma"],
        originalQuantities := [2, 1], authenticatedQuantities := [1, 0],
        otherDocuments := some "" } _ (by decide) rfl).2.2.2.2⟩

/-! ## Amounts -/

theorem digit_cases (c : Char) (h : isDigitChar c = true) :
    c ∈ ['0', '1', '2', '3', '4', '5', '6', '7', '8', '9'] := by
  simp only [isDigitChar, Bool.and_eq_true, decide_eq_true_eq] at h
  obtain ⟨h1, h2⟩ := h
  have h1' : 48 ≤ c.toNat := by
    have := h1
    rw [Char.le_def] at this
    simpa using this
  have h2' : c.toNat ≤ 57 := by
    have := h2
    rw [Char.le_def] at this
    simpa using this
  have hc : c = Char.ofNat c.toNat := (Char.ofNat_toNat c).symm
  revert hc
  generalize c.toNat = n at h1' h2'
  intro hc
  subst hc
  interval_cases n <;> decide

/-- What a decimal digit is not. -/
theorem digit_facts (c : Char) (h : isDigitChar c = true) :
    isJsSpace c = false ∧ c ≠ '.' ∧ c ≠ '-' ∧ c ≠ '+' ∧ c ≠ 'I' := by
  have := digit_cases c h
  simp only [List.mem_cons, List.mem_singleton, List.not_mem_nil, or_false] at this
  rcases this with rfl | rfl | rfl | rfl | rfl | rfl | rfl | rfl | rfl | rfl <;> decide

theorem dropWhile_eq_self_of_all_false {p : Char → Bool} :
    ∀ l : List Char, (∀ c ∈ l, p c = false) → l.dropWhile p = l := by
  intro l h
  cases l with
  | nil => rfl
  | cons a l => simp [List.dropWhile_cons, h a (List.mem_cons_self _ _)]

theorem trimChars_of_no_space (l : List Char) (h : ∀ c ∈ l, isJsSpace c = false) :
    trimChars l = l := by
  simp only [trimChars]
  rw [dropWhile_eq_self_of_all_false l h,
    dropWhile_eq_self_of_all_false l.reverse (fun c hc => h c (List.mem_reverse.mp hc)),
    List.reverse_reverse]

theorem takeWhile_digits_append (i : List Char) (hi : ∀ c ∈ i, isDigitChar c = true)
    (rest : List Char) (hrest : ∀ c, rest.head? = some c → isDigitChar c = false) :
    (i ++ rest).takeWhile isDigitChar = i ∧ (i ++ rest).dropWhile isDigitChar = rest := by
  induction i with
  | nil =>
    cases rest with
    | nil => simp
    | cons a rest =>
      have := hrest a rfl
      simp [List.takeWhile_cons, List.dropWhile_cons, this]
  | cons a i ih =>
    have ha := hi a (List.mem_cons_self _ _)
    obtain ⟨h1, h2⟩ := ih (fun c hc => hi c (List.mem_cons_of_mem _ hc))
    simp [List.takeWhile_cons, List.dropWhile_cons, ha, h1, h2]

theorem parseFloat_of_unsigned (l : List Char) (c : Char) (rest : List Char)
    (hl : l = c :: rest) (hc : isDigitChar c = true) :
    jsParseFloat ⟨l⟩ = parseUnsigned false l := by
  obtain ⟨hs, -, hm, hp, -⟩ := digit_facts c hc
  subst hl
  simp only [jsParseFloat, List.dropWhile_cons, hs, Bool.false_eq_true, if_false]
  split
  · rename_i heq
    simp only [List.cons.injEq] at heq
    exact absurd heq.1 hm
  · rename_i heq
    simp only [List.cons.injEq] at heq
    exact absurd heq.1 hp
  · rfl

theorem not_infinity_prefix (c : Char) (rest : List Char) (hc : isDigitChar c = true) :
    "Infinity".data.isPrefixOf (c :: rest) = false := by
  obtain ⟨-, -, -, -, hI⟩ := digit_facts c hc
  have : ("Infinity".data) = 'I' :: "nfinity".data := rfl
  rw [this]
  simp [List.isPrefixOf, Ne.symm hI]

/-- The value `parseFloat` reads from a numeral without a point. -/
theorem parseFloat_integer (i : List Char) (hne : i ≠ [])
    (hi : ∀ c ∈ i, isDigitChar c = true) :
    jsTrim ⟨i⟩ = ⟨i⟩ ∧ jsParseFloat ⟨i⟩ = JsNumber.ofDecimal false (digitsValue i) 0 ∧
    (⟨i⟩ : String).data.contains '.' = false := by
  refine ⟨?_, ?_, ?_⟩
  · simp only [jsTrim]
    rw [trimChars_of_no_space i (fun c hc => (digit_facts c (hi c hc)).1)]
  · cases i with
    | nil => exact absurd rfl hne
    | cons c rest =>
      rw [parseFloat_of_unsigned (c :: rest) c rest rfl (hi c (List.mem_cons_self _ _))]
      obtain ⟨h1, h2⟩ := takeWhile_digits_append (c :: rest) hi [] (by simp)
      simp only [List.append_nil] at h1 h2
      simp only [parseUnsigned, not_infinity_prefix c rest (hi c (List.mem_cons_self _ _)),
        Bool.false_eq_true, if_false, h1, h2]
      simp [parseExponent]
  · simp only [List.contains_eq_any_beq, List.any_eq_false, beq_iff_eq]
    intro c hc hdot
    exact (digit_facts c (hi c hc)).2.1 hdot.symm

/-- The value `parseFloat` reads from a numeral with a point. -/
theorem parseFloat_fraction (i f : List Char) (hne : i ≠ [])
    (hi : ∀ c ∈ i, isDigitChar c = true) (hf : ∀ c ∈ f, isDigitChar c = true) :
    jsTrim ⟨i ++ '.' :: f⟩ = ⟨i ++ '.' :: f⟩ ∧
    jsParseFloat ⟨i ++ '.' :: f⟩ =
      JsNumber.ofDecimal false (digitsValue (i ++ f)) (-(f.length : Int)) ∧
    (⟨i ++ '.' :: f⟩ : String).data.contains '.' = true ∧
    afterFirstDot ⟨i ++ '.' :: f⟩ = f := by
  have hdotd : isDigitChar '.' = false := by decide
  refine ⟨?_, ?_, ?_, ?_⟩
  · simp only [jsTrim]
    rw [trimChars_of_no_space]
    intro c hc
    rcases List.mem_append.mp hc with h | h
    · exact (digit_facts c (hi c h)).1
    · rcases List.mem_cons.mp h with rfl | h
      · decide
      · exact (digit_facts c (hf c h)).1
  · cases i with
    | nil => exact absurd rfl hne
    | cons c rest =>
      rw [parseFloat_of_unsigned ((c :: rest) ++ '.' :: f) c (rest ++ '.' :: f) rfl
        (hi c (List.mem_cons_self _ _))]
      obtain ⟨h1, h2⟩ := takeWhile_digits_append (c :: rest) hi ('.' :: f)
        (by intro x hx; simp only [List.head?_cons, Option.some.injEq] at hx; subst hx; exact hdotd)
      obtain ⟨h3, h4⟩ := takeWhile_digits_append f hf [] (by simp)
      simp only [List.append_nil] at h3 h4
      have hpre := not_infinity_prefix c (rest ++ '.' :: f) (hi c (List.mem_cons_self _ _))
      simp only [List.cons_append] at h1 h2 hpre ⊢
      simp only [parseUnsigned, hpre, Bool.false_eq_true, if_false, h1, h2, h3, h4]
      simp [parseExponent]
  · simp
  · have h1 : (i ++ '.' :: f).dropWhile (fun c => c != '.') = '.' :: f := by
      rw [List.dropWhile_append_of_pos]
      · simp [List.dropWhile_cons]
      · intro c hc
        simpa using (digit_facts c (hi c hc)).2.1
    have h2 : f.takeWhile (fun c => c != '.') = f := by
      rw [List.takeWhile_eq_self_iff]
      intro c hc
      simpa using (digit_facts c (hf c hc)).2.1
    simp only [afterFirstDot, h1, List.drop_succ_cons, List.drop_zero, h2]

/-! ## Rounding to binary64 -/

theorem bitLengthAux_zero (fuel : Nat) : bitLengthAux fuel 0 = 0 := by
  cases fuel <;> simp [bitLengthAux]

theorem bitLengthAux_spec :
    ∀ fuel n : Nat, 0 < n → n ≤ fuel →
      ∃ k, bitLengthAux fuel n = k + 1 ∧ 2 ^ k ≤ n ∧ n < 2 ^ (k + 1) := by
  intro fuel
  induction fuel with
  | zero => intro n hn hle; omega
  | succ fuel ih =>
    intro n hn hle
    have hne : ¬ n = 0 := by omega
    simp only [bitLengthAux, hne, if_false]
    by_cases h2 : n / 2 = 0
    · rw [h2, bitLengthAux_zero]
      refine ⟨0, rfl, by omega, ?_⟩
      have : n < 2 := by omega
      omega
    · obtain ⟨k, hk, h1, h3⟩ := ih (n / 2) (by omega) (by omega)
      refine ⟨k + 1, by rw [hk], ?_, ?_⟩
      · have : 2 ^ (k + 1) = 2 * 2 ^ k := by ring
        omega
      · have : 2 ^ (k + 1 + 1) = 2 * 2 ^ (k + 1) := by ring
        omega

/-- The number of binary digits of a positive number. -/
theorem bitLength_spec (n : Nat) (hn : 0 < n) :
    ∃ k, bitLength n = k + 1 ∧ 2 ^ k ≤ n ∧ n < 2 ^ (k + 1) :=
  bitLengthAux_spec n n hn (le_refl n)

/-- The value `binaryExponent` returns is the integer part of the binary
logarithm. -/
theorem binaryExponent_spec (n d : Nat) (hn : 0 < n) (hd : 0 < d) :
    (2 : ℚ) ^ (binaryExponent n d) ≤ (n : ℚ) / d ∧
      (n : ℚ) / d < (2 : ℚ) ^ (binaryExponent n d + 1) := by
  obtain ⟨ka, ha, hn1, hn2⟩ := bitLength_spec n hn
  obtain ⟨kb, hb, hd1, hd2⟩ := bitLength_spec d hd
  have hdq : (0 : ℚ) < d := by exact_mod_cast hd
  have hn1q : (2 : ℚ) ^ (ka : ℤ) ≤ n := by rw [zpow_natCast]; exact_mod_cast hn1
  have hn2q : (n : ℚ) < (2 : ℚ) ^ ((ka : ℤ) + 1) := by
    rw [show ((ka : ℤ) + 1) = ((ka + 1 : ℕ) : ℤ) by push_cast; ring, zpow_natCast]
    exact_mod_cast hn2
  have hd1q : (2 : ℚ) ^ (kb : ℤ) ≤ d := by rw [zpow_natCast]; exact_mod_cast hd1
  have hd2q : (d : ℚ) < (2 : ℚ) ^ ((kb : ℤ) + 1) := by
    rw [show ((kb : ℤ) + 1) = ((kb + 1 : ℕ) : ℤ) by push_cast; ring, zpow_natCast]
    exact_mod_cast hd2
  have h2 : (0 : ℚ) < 2 := by norm_num
  -- the two general bounds
  have hlow : (2 : ℚ) ^ ((ka : ℤ) - kb - 1) ≤ (n : ℚ) / d := by
    rw [le_div_iff₀ hdq]
    calc (2 : ℚ) ^ ((ka : ℤ) - kb - 1) * d
        ≤ (2 : ℚ) ^ ((ka : ℤ) - kb - 1) * (2 : ℚ) ^ ((kb : ℤ) + 1) :=
          mul_le_mul_of_nonneg_left hd2q.le (zpow_nonneg h2.le _)
      _ = (2 : ℚ) ^ (ka : ℤ) := by
          rw [← zpow_add₀ (two_ne_zero)]; congr 1; ring
      _ ≤ n := hn1q
  have hup : (n : ℚ) / d < (2 : ℚ) ^ ((ka : ℤ) - kb + 1) := by
    rw [div_lt_iff₀ hdq]
    calc (n : ℚ) < (2 : ℚ) ^ ((ka : ℤ) + 1) := hn2q
      _ = (2 : ℚ) ^ ((ka : ℤ) - kb + 1) * (2 : ℚ) ^ (kb : ℤ) := by
          rw [← zpow_add₀ (two_ne_zero)]; congr 1; ring
      _ ≤ (2 : ℚ) ^ ((ka : ℤ) - kb + 1) * d :=
          mul_le_mul_of_nonneg_left hd1q (zpow_nonneg h2.le _)
  have hab : ((bitLength n : ℤ) - (bitLength d : ℤ)) = (ka : ℤ) - kb := by
    rw [ha, hb]; push_cast; ring
  simp only [binaryExponent, hab]
  by_cases hge : (bitLength n : ℤ) ≥ (bitLength d : ℤ)
  · have hkk : kb ≤ ka := by rw [ha, hb] at hge; omega
    have htn : ((ka : ℤ) - kb).toNat = ka - kb := by omega
    simp only [hge, if_true, htn]
    have hcast : (((2 : ℕ) ^ (ka - kb) : ℕ) : ℚ) = (2 : ℚ) ^ ((ka : ℤ) - kb) := by
      rw [show ((ka : ℤ) - kb) = ((ka - kb : ℕ) : ℤ) by omega, zpow_natCast]; push_cast; ring
    by_cases hc : n ≥ d * 2 ^ (ka - kb)
    · simp only [hc, if_true]
      refine ⟨?_, hup⟩
      rw [le_div_iff₀ hdq, ← hcast, mul_comm]
      exact_mod_cast hc
    · simp only [hc, if_false]
      refine ⟨hlow, ?_⟩
      rw [show (ka : ℤ) - kb - 1 + 1 = (ka : ℤ) - kb by ring, div_lt_iff₀ hdq, ← hcast, mul_comm]
      have : n < d * 2 ^ (ka - kb) := by omega
      exact_mod_cast this
  · have hkk : ka < kb := by rw [ha, hb] at hge; omega
    have htn : ((bitLength d : ℤ) - (bitLength n : ℤ)).toNat = kb - ka := by
      rw [ha, hb]; omega
    simp only [hge, if_false, htn]
    have hcast : (((2 : ℕ) ^ (kb - ka) : ℕ) : ℚ) = ((2 : ℚ) ^ ((ka : ℤ) - kb))⁻¹ := by
      rw [← zpow_neg, show -((ka : ℤ) - kb) = ((kb - ka : ℕ) : ℤ) by omega, zpow_natCast]
      push_cast; ring
    have hpos : (0 : ℚ) < (2 : ℚ) ^ ((ka : ℤ) - kb) := zpow_pos h2 _
    by_cases hc : n * 2 ^ (kb - ka) ≥ d
    · simp only [hc, if_true]
      refine ⟨?_, hup⟩
      rw [le_div_iff₀ hdq]
      have hcq : (d : ℚ) ≤ n * ((2 : ℚ) ^ ((ka : ℤ) - kb))⁻¹ := by
        rw [← hcast]; exact_mod_cast hc
      rw [← div_eq_mul_inv, le_div_iff₀ hpos] at hcq
      linarith
    · simp only [hc, if_false]
      refine ⟨hlow, ?_⟩
      rw [show (ka : ℤ) - kb - 1 + 1 = (ka : ℤ) - kb by ring, div_lt_iff₀ hdq]
      have : n * 2 ^ (kb - ka) < d := by omega
      have hcq : (n : ℚ) * ((2 : ℚ) ^ ((ka : ℤ) - kb))⁻¹ < d := by
        rw [← hcast]; exact_mod_cast this
      rw [← div_eq_mul_inv, div_lt_iff₀ hpos] at hcq
      linarith

theorem roundHalfEven_ge (p q : Nat) : p / q ≤ roundHalfEven p q := by
  simp only [roundHalfEven]
  split
  · exact le_refl _
  · split <;> omega

theorem roundHalfEven_le (p q : Nat) : roundHalfEven p q ≤ p / q + 1 := by
  simp only [roundHalfEven]
  split
  · omega
  · split <;> omega

theorem div_le_div_of_cross (p1 q1 p2 q2 : Nat) (h1 : 0 < q1) (h2 : 0 < q2)
    (h : p1 * q2 ≤ p2 * q1) : p1 / q1 ≤ p2 / q2 := by
  rw [Nat.le_div_iff_mul_le h2]
  have hf : p1 / q1 * q1 ≤ p1 := Nat.div_mul_le_self p1 q1
  have : p1 / q1 * q2 * q1 ≤ p2 * q1 := by
    calc p1 / q1 * q2 * q1 = p1 / q1 * q1 * q2 := by ring
      _ ≤ p1 * q2 := Nat.mul_le_mul_right q2 hf
      _ ≤ p2 * q1 := h
  exact Nat.le_of_mul_le_mul_right this h1

/-- Rounding to the nearest integer is monotone. -/
theorem roundHalfEven_mono (p1 q1 p2 q2 : Nat) (h1 : 0 < q1) (h2 : 0 < q2)
    (h : p1 * q2 ≤ p2 * q1) : roundHalfEven p1 q1 ≤ roundHalfEven p2 q2 := by
  have hdiv := div_le_div_of_cross p1 q1 p2 q2 h1 h2 h
  rcases Nat.lt_or_eq_of_le hdiv with hlt | heq
  · calc roundHalfEven p1 q1 ≤ p1 / q1 + 1 := roundHalfEven_le p1 q1
      _ ≤ p2 / q2 := hlt
      _ ≤ roundHalfEven p2 q2 := roundHalfEven_ge p2 q2
  · -- equal integer parts: compare the remainders
    have e1 : q1 * (p1 / q1) + p1 % q1 = p1 := Nat.div_add_mod p1 q1
    have e2 : q2 * (p2 / q2) + p2 % q2 = p2 := Nat.div_add_mod p2 q2
    have hr : (p1 % q1) * q2 ≤ (p2 % q2) * q1 := by
      have h3 : (q1 * (p1 / q1) + p1 % q1) * q2 ≤ (q2 * (p2 / q2) + p2 % q2) * q1 := by
        rw [e1, e2]; exact h
      rw [← heq] at h3
      have h4 : (q1 * (p1 / q1) + p1 % q1) * q2 = q1 * q2 * (p1 / q1) + (p1 % q1) * q2 := by ring
      have h5 : (q2 * (p1 / q1) + p2 % q2) * q1 = q1 * q2 * (p1 / q1) + (p2 % q2) * q1 := by ring
      rw [h4, h5] at h3
      omega
    simp only [roundHalfEven, ← heq]
    by_cases ha : 2 * (p1 % q1) < q1
    · simp only [ha, if_true]
      split
      · exact le_refl _
      · split <;> omega
    · simp only [ha, if_false]
      have hb : ¬ 2 * (p2 % q2) < q2 := by
        intro hb
        have h6 : 2 * (p2 % q2) * q1 < q2 * q1 := Nat.mul_lt_mul_of_pos_right hb h1
        have h7 : q1 * q2 ≤ 2 * (p1 % q1) * q2 := by
          rw [mul_comm q1 q2]
          calc q2 * q1 = q1 * q2 := by ring
            _ ≤ 2 * (p1 % q1) * q2 := Nat.mul_le_mul_right q2 (by omega)
        have h8 : 2 * (p1 % q1) * q2 ≤ 2 * (p2 % q2) * q1 := by
          calc 2 * (p1 % q1) * q2 = 2 * ((p1 % q1) * q2) := by ring
            _ ≤ 2 * ((p2 % q2) * q1) := Nat.mul_le_mul_left 2 hr
            _ = 2 * (p2 % q2) * q1 := by ring
        have h9 : q2 * q1 = q1 * q2 := by ring
        omega
      simp only [hb, if_false]
      by_cases hc : 2 * (p1 % q1) > q1
      · have hd : 2 * (p2 % q2) > q2 := by
          have h6 : q1 * q2 < 2 * (p1 % q1) * q2 := Nat.mul_lt_mul_of_pos_right hc h2
          have h8 : 2 * (p1 % q1) * q2 ≤ 2 * (p2 % q2) * q1 := by
            calc 2 * (p1 % q1) * q2 = 2 * ((p1 % q1) * q2) := by ring
              _ ≤ 2 * ((p2 % q2) * q1) := Nat.mul_le_mul_left 2 hr
              _ = 2 * (p2 % q2) * q1 := by ring
          have h9 : q1 * q2 < 2 * (p2 % q2) * q1 := lt_of_lt_of_le h6 h8
          have h10 : q2 * q1 < 2 * (p2 % q2) * q1 := by rw [mul_comm q2 q1]; exact h9
          exact Nat.lt_of_mul_lt_mul_right h10
        simp only [hc, hd, if_true]
        exact le_refl _
      · simp only [hc, if_false]
        split <;> omega

namespace JsNumber

/-- The quotient `ofRatio` rounds, and what it returns. -/
theorem ofRatio_eq (neg : Bool) (n d : Nat) (hd : 0 < d) :
    ∃ p q : Nat, 0 < q ∧
      (p : ℚ) / q = (n : ℚ) / d / (2 : ℚ) ^ (max (-1074) (binaryExponent n d - 52)) ∧
      ofRatio neg n d =
        (if roundHalfEven p q = 2 ^ 53 then
          (if max (-1074) (binaryExponent n d - 52) + 1 > 971 then infinity neg
           else finite neg (2 ^ 52) (max (-1074) (binaryExponent n d - 52) + 1))
         else if max (-1074) (binaryExponent n d - 52) > 971 then infinity neg
         else finite neg (roundHalfEven p q) (max (-1074) (binaryExponent n d - 52))) := by
  simp only [ofRatio]
  generalize max (-1074) (binaryExponent n d - 52) = e
  have hdq : (0 : ℚ) < d := by exact_mod_cast hd
  by_cases he : e ≥ 0
  · refine ⟨n, d * 2 ^ e.toNat, Nat.mul_pos hd (by positivity), ?_, ?_⟩
    · have hc : (((2 : ℕ) ^ e.toNat : ℕ) : ℚ) = (2 : ℚ) ^ e := by
        have : e = ((e.toNat : ℕ) : ℤ) := (Int.toNat_of_nonneg he).symm
        rw [this, zpow_natCast]; push_cast
        rw [Int.toNat_natCast]
      rw [Nat.cast_mul, hc, div_div]
    · simp only [he, if_true]
  · refine ⟨n * 2 ^ (-e).toNat, d, hd, ?_, ?_⟩
    · have hc : (((2 : ℕ) ^ (-e).toNat : ℕ) : ℚ) = ((2 : ℚ) ^ e)⁻¹ := by
        have : -e = (((-e).toNat : ℕ) : ℤ) := (Int.toNat_of_nonneg (by omega)).symm
        rw [← zpow_neg, this, zpow_natCast]; push_cast
        rw [Int.toNat_natCast]
      rw [Nat.cast_mul, hc, div_eq_mul_inv, div_eq_mul_inv, div_eq_mul_inv]
      ring
    · simp only [he, if_false]

end JsNumber

namespace JsNumber

theorem max_amount_eq :
    DataEntryService.MAX_AMOUNT = finite false 5497552641321861 (-39) := by decide

theorem two_le_two_pow (k : Nat) (hk : 1 ≤ k) : 2 ≤ 2 ^ k := by
  calc 2 = 2 ^ 1 := by norm_num
    _ ≤ 2 ^ k := Nat.pow_le_pow_right (by norm_num) hk

theorem magLt_max_of_large (m : Nat) (e : Int) (hm : 2 ^ 52 ≤ m) (he : -38 ≤ e) :
    magLt 5497552641321861 (-39) m e = true := by
  have h1 : ¬ ((-39 : Int) ≥ e) := by omega
  have hm0 : ¬ m = 0 := by
    intro h; rw [h] at hm; norm_num at hm
  have hk : 2 ≤ 2 ^ (e - -39).toNat := two_le_two_pow _ (by omega)
  have hlt : 5497552641321861 < m * 2 ^ (e - -39).toNat := by
    calc 5497552641321861 < 2 ^ 52 * 2 := by norm_num
      _ ≤ m * 2 := Nat.mul_le_mul_right 2 hm
      _ ≤ m * 2 ^ (e - -39).toNat := Nat.mul_le_mul_left m hk
  simp only [magLt, hm0, h1, if_false, hlt, decide_True]
  norm_num

theorem magLt_max_of_small (m : Nat) (e : Int) (hm : m < 2 ^ 53) (he : e ≤ -40) :
    magLt 5497552641321861 (-39) m e = false := by
  have h1 : (-39 : Int) ≥ e := by omega
  have hk : 2 ≤ 2 ^ (-39 - e).toNat := two_le_two_pow _ (by omega)
  have hlt : ¬ 5497552641321861 * 2 ^ (-39 - e).toNat < m := by
    have : 2 ^ 53 ≤ 5497552641321861 * 2 ^ (-39 - e).toNat := by
      calc 2 ^ 53 ≤ 5497552641321861 * 2 := by norm_num
        _ ≤ 5497552641321861 * 2 ^ (-39 - e).toNat := Nat.mul_le_mul_left _ hk
    omega
  by_cases hm0 : m = 0
  · simp [magLt, hm0]
  · simp only [magLt, hm0, h1, if_true, if_false, hlt, decide_False]
    norm_num

/-- A quotient of at least 10000 rounds to a Number above `9999.99`. -/
theorem ofRatio_gt_max (n d : Nat) (hd : 0 < d) (h : 10000 * d ≤ n) :
    lt DataEntryService.MAX_AMOUNT (ofRatio false n d) = true := by
  have hn : 0 < n := by omega
  have hdq : (0 : ℚ) < d := by exact_mod_cast hd
  obtain ⟨hlo, hhi⟩ := binaryExponent_spec n d hn hd
  have hv : (10000 : ℚ) ≤ (n : ℚ) / d := by
    rw [le_div_iff₀ hdq]; exact_mod_cast h
  have hl : 13 ≤ binaryExponent n d := by
    by_contra hcon
    have h12 : binaryExponent n d + 1 ≤ 13 := by omega
    have h13 : (2 : ℚ) ^ (binaryExponent n d + 1) ≤ (2 : ℚ) ^ (13 : ℤ) :=
      zpow_le_zpow_right₀ (by norm_num) h12
    have h14 : (2 : ℚ) ^ (13 : ℤ) = 8192 := by norm_num
    linarith
  have he : max (-1074) (binaryExponent n d - 52) = binaryExponent n d - 52 :=
    max_eq_right (by omega)
  obtain ⟨p, q, hq, hpq, hof⟩ := ofRatio_eq false n d hd
  rw [hof, he, max_amount_eq]
  rw [he] at hpq
  have hqq : (0 : ℚ) < q := by exact_mod_cast hq
  have h2e : (0 : ℚ) < (2 : ℚ) ^ (binaryExponent n d - 52) := zpow_pos (by norm_num) _
  have hs52 : (2 : ℚ) ^ (52 : ℤ) ≤ (p : ℚ) / q := by
    rw [hpq, le_div_iff₀ h2e, ← zpow_add₀ two_ne_zero]
    have : (52 : ℤ) + (binaryExponent n d - 52) = binaryExponent n d := by ring
    rw [this]; exact hlo
  have hm0 : 2 ^ 52 ≤ p / q := by
    rw [Nat.le_div_iff_mul_le hq]
    have h1 : ((2 : ℚ) ^ (52 : ℤ)) * q ≤ p := by rwa [le_div_iff₀ hqq] at hs52
    have h2 : (((2 ^ 52 * q : ℕ)) : ℚ) ≤ (p : ℚ) := by
      push_cast
      have : ((2 : ℚ) ^ (52 : ℤ)) = (2 : ℚ) ^ 52 := by norm_num
      rw [this] at h1
      exact h1
    exact_mod_cast h2
  have hm : 2 ^ 52 ≤ roundHalfEven p q := le_trans hm0 (roundHalfEven_ge p q)
  by_cases hl13 : binaryExponent n d = 13
  · rw [hl13] at hpq ⊢
    have hs : (10000 : ℚ) * 2 ^ 39 ≤ (p : ℚ) / q := by
      rw [hpq]
      have : (2 : ℚ) ^ ((13 : ℤ) - 52) = ((2 : ℚ) ^ 39)⁻¹ := by norm_num
      rw [this, div_inv_eq_mul]
      have : (0 : ℚ) ≤ (2 : ℚ) ^ 39 := by positivity
      nlinarith
    have hm1 : 10000 * 2 ^ 39 ≤ p / q := by
      rw [Nat.le_div_iff_mul_le hq]
      have h1 : (10000 : ℚ) * 2 ^ 39 * q ≤ p := by rwa [le_div_iff₀ hqq] at hs
      have h2 : (((10000 * 2 ^ 39 * q : ℕ)) : ℚ) ≤ (p : ℚ) := by
        push_cast; norm_num at h1 ⊢; exact h1
      exact_mod_cast h2
    have hm2 : 10000 * 2 ^ 39 ≤ roundHalfEven p q := le_trans hm1 (roundHalfEven_ge p q)
    by_cases h53 : roundHalfEven p q = 2 ^ 53
    · simp only [h53, if_true]
      decide
    · simp only [h53, if_false]
      have hne : ¬ roundHalfEven p q = 0 := by
        intro h0; rw [h0] at hm2; norm_num at hm2
      have hlt : 5497552641321861 < roundHalfEven p q := by
        calc 5497552641321861 < 10000 * 2 ^ 39 := by norm_num
          _ ≤ roundHalfEven p q := hm2
      norm_num [lt, magLt, hne, hlt]
  · have hl14 : 14 ≤ binaryExponent n d := by omega
    by_cases h53 : roundHalfEven p q = 2 ^ 53
    · simp only [h53, if_true]
      by_cases hbig : binaryExponent n d - 52 + 1 > 971
      · simp only [hbig, if_true]; rfl
      · simp only [hbig, if_false, lt]
        exact magLt_max_of_large _ _ (le_refl _) (by omega)
    · simp only [h53, if_false]
      by_cases hbig : binaryExponent n d - 52 > 971
      · simp only [hbig, if_true]; rfl
      · simp only [hbig, if_false, lt]
        exact magLt_max_of_large _ _ hm (by omega)

end JsNumber

namespace JsNumber

theorem roundHalfEven_max : roundHalfEven (999999 * 2 ^ 39) 100 = 5497552641321861 := by
  norm_num [roundHalfEven]

/-- A positive quotient of at most 9999.99 rounds to a Number that is not
above `9999.99`. -/
theorem ofRatio_le_max (n d : Nat) (hn : 0 < n) (hd : 0 < d) (h : 100 * n ≤ 999999 * d) :
    lt DataEntryService.MAX_AMOUNT (ofRatio false n d) = false := by
  have hdq : (0 : ℚ) < d := by exact_mod_cast hd
  obtain ⟨hlo, hhi⟩ := binaryExponent_spec n d hn hd
  have hv : (n : ℚ) / d ≤ 999999 / 100 := by
    rw [div_le_div_iff₀ hdq (by norm_num)]
    have : ((100 * n : ℕ) : ℚ) ≤ ((999999 * d : ℕ) : ℚ) := by exact_mod_cast h
    push_cast at this
    linarith
  have hl : binaryExponent n d ≤ 13 := by
    by_contra hcon
    have h14 : (14 : ℤ) ≤ binaryExponent n d := by omega
    have h15 : (2 : ℚ) ^ (14 : ℤ) ≤ (2 : ℚ) ^ (binaryExponent n d) :=
      zpow_le_zpow_right₀ (by norm_num) h14
    have h16 : (2 : ℚ) ^ (14 : ℤ) = 16384 := by norm_num
    linarith
  obtain ⟨p, q, hq, hpq, hof⟩ := ofRatio_eq false n d hd
  rw [hof, max_amount_eq]
  have hqq : (0 : ℚ) < q := by exact_mod_cast hq
  have hge : binaryExponent n d - 52 ≤ max (-1074) (binaryExponent n d - 52) := le_max_right _ _
  have hle : max (-1074) (binaryExponent n d - 52) ≤ -39 := max_le (by norm_num) (by omega)
  generalize max (-1074) (binaryExponent n d - 52) = e at hpq hge hle ⊢
  have h2e : (0 : ℚ) < (2 : ℚ) ^ e := zpow_pos (by norm_num) _
  -- the quotient is below 2^53
  have hs53 : (p : ℚ) / q < (2 : ℚ) ^ (53 : ℤ) := by
    rw [hpq, div_lt_iff₀ h2e, ← zpow_add₀ two_ne_zero]
    have h1 : binaryExponent n d + 1 ≤ 53 + e := by omega
    exact lt_of_lt_of_le hhi (zpow_le_zpow_right₀ (by norm_num) h1)
  have hm0 : p / q < 2 ^ 53 := by
    rw [Nat.div_lt_iff_lt_mul hq]
    have h1 : (p : ℚ) < (2 : ℚ) ^ (53 : ℤ) * q := by rwa [div_lt_iff₀ hqq] at hs53
    have h2 : (p : ℚ) < (((2 ^ 53 * q : ℕ)) : ℚ) := by
      push_cast; norm_num at h1 ⊢; exact h1
    exact_mod_cast h2
  have hm : roundHalfEven p q ≤ 2 ^ 53 := by
    have := roundHalfEven_le p q
    omega
  by_cases he39 : e = -39
  · subst he39
    have hs : (p : ℚ) / q ≤ 999999 * 2 ^ 39 / 100 := by
      rw [hpq]
      have h1 : (2 : ℚ) ^ (-39 : ℤ) = ((2 : ℚ) ^ 39)⁻¹ := by norm_num
      rw [h1, div_inv_eq_mul]
      have h2 : (0 : ℚ) ≤ (2 : ℚ) ^ 39 := by positivity
      have h3 : (n : ℚ) / d * 2 ^ 39 ≤ 999999 / 100 * 2 ^ 39 :=
        mul_le_mul_of_nonneg_right hv h2
      linarith
    have hcross : p * 100 ≤ 999999 * 2 ^ 39 * q := by
      rw [div_le_div_iff₀ hqq (by norm_num)] at hs
      have h2 : (((p * 100 : ℕ)) : ℚ) ≤ (((999999 * 2 ^ 39 * q : ℕ)) : ℚ) := by
        push_cast; norm_num at hs ⊢; linarith
      exact_mod_cast h2
    have hmono := roundHalfEven_mono p q (999999 * 2 ^ 39) 100 hq (by norm_num) hcross
    rw [roundHalfEven_max] at hmono
    have h53 : ¬ roundHalfEven p q = 2 ^ 53 := by
      intro h0; rw [h0] at hmono; norm_num at hmono
    have hnlt : ¬ 5497552641321861 < roundHalfEven p q := by omega
    simp only [h53, if_false]
    by_cases h0 : roundHalfEven p q = 0
    · norm_num [lt, magLt, h0]
    · norm_num [lt, magLt, h0, hnlt]
  · have he40 : e ≤ -40 := by omega
    by_cases h53 : roundHalfEven p q = 2 ^ 53
    · have h1 : ¬ e + 1 > 971 := by omega
      simp only [h53, if_true, h1, if_false, lt]
      have h2 : (-39 : Int) ≥ e + 1 := by omega
      have h3 : ¬ 5497552641321861 * 2 ^ (-39 - (e + 1)).toNat < 2 ^ 52 := by
        have h4 : 1 ≤ 2 ^ (-39 - (e + 1)).toNat := Nat.one_le_two_pow
        have h5 : 5497552641321861 * 1 ≤ 5497552641321861 * 2 ^ (-39 - (e + 1)).toNat :=
          Nat.mul_le_mul_left _ h4
        have h6 : 2 ^ 52 ≤ 5497552641321861 := by norm_num
        omega
      simp only [magLt, h2, if_true, h3, decide_False]
      norm_num
    · have h1 : ¬ e > 971 := by omega
      simp only [h53, if_false, h1, lt]
      exact magLt_max_of_small _ _ (by omega) he40

end JsNumber

namespace JsNumber

theorem ofDecimal_isNaN (neg : Bool) (n : Nat) (e : Int) : (ofDecimal neg n e).isNaN = false := by
  simp only [ofDecimal, ofRatio]
  split_ifs <;> rfl

theorem ofDecimal_not_lt_zero (n : Nat) (e : Int) : lt (ofDecimal false n e) zero = false := by
  simp only [ofDecimal, ofRatio, zero]
  split_ifs <;> simp [lt, magLt]

/-- A decimal with at most two decimal places is read as a Number above
`9999.99` exactly when it is above 9999.99. -/
theorem ofDecimal_gt_max (n k : Nat) (hk : k ≤ 2) :
    (ofDecimal false n (-(k : Int))).gt DataEntryService.MAX_AMOUNT = true ↔
      999999 < n * 10 ^ (2 - k) := by
  simp only [gt]
  by_cases hn : n = 0
  · subst hn
    simp [ofDecimal, max_amount_eq, lt, magLt]
  · have hpos : 0 < n := Nat.pos_of_ne_zero hn
    have key : ∀ n1 d : Nat, 0 < n1 → 0 < d → ofDecimal false n (-(k : Int)) = ofRatio false n1 d →
        (999999 < n * 10 ^ (2 - k) ↔ 10000 * d ≤ n1) → (¬ 10000 * d ≤ n1 → 100 * n1 ≤ 999999 * d) →
        (lt DataEntryService.MAX_AMOUNT (ofDecimal false n (-(k : Int))) = true ↔
          999999 < n * 10 ^ (2 - k)) := by
      intro n1 d hn1 hd heq hiff hsmall
      rw [heq, hiff]
      by_cases hbig : 10000 * d ≤ n1
      · simp [hbig, ofRatio_gt_max n1 d hd hbig]
      · simp [hbig, ofRatio_le_max n1 d hn1 hd (hsmall hbig)]
    interval_cases k
    · refine key (n * 10 ^ 0) 1 (by omega) (by norm_num) ?_ (by omega) (by omega)
      simp [ofDecimal, hn]
    · refine key n (10 ^ 1) hpos (by norm_num) ?_ (by omega) (by omega)
      simp [ofDecimal, hn]
    · refine key n (10 ^ 2) hpos (by norm_num) ?_ (by omega) (by omega)
      simp [ofDecimal, hn]

end JsNumber

namespace DataEntryService

/-- The result of `validateOtherDetails` when only the amount can be wrong. -/
theorem validateOtherDetails_amount_only (self : DataEntryService) (o : OtherDetails)
    (now : Nat) (tz : Int)
    (hc : self._validateControlNumber o.controlNumber = [])
    (hd : _validateDueDate o.dueDate now tz = [])
    (hr : _validateReceiveOption o.receiveOption o.mailingAddress o.emailAddress = []) :
    (self.validateOtherDetails (some o) now tz).errors = (_validateAmount o.amount).1 ∧
    (self.validateOtherDetails (some o) now tz).isValid = (_validateAmount o.amount).1.isEmpty ∧
    ∃ r, (self.validateOtherDetails (some o) now tz).sanitizedData = some r ∧
      r.amount = (_validateAmount o.amount).2 := by
  simp only [validateOtherDetails, hc, hd, hr, List.nil_append, List.append_nil]
  refine ⟨trivial, trivial, ?_⟩
  by_cases h : (_validateAmount o.amount).1.isEmpty = true
  · simp [h]
  · simp [h]

/-- The outcome of `_validateAmount` on a string, by the tests it makes. -/
theorem validateAmount_some (a : String) :
    _validateAmount (some a) =
      if a = "" ∨ jsTrim a = "" then (["Amount is required"], none)
      else if (jsParseFloat (jsTrim a)).isNaN = true then
        (["Amount must be a valid number"], none)
      else if (jsParseFloat (jsTrim a)).lt JsNumber.zero = true then
        (["Amount must be 0 or positive"], none)
      else if (jsParseFloat (jsTrim a)).gt MAX_AMOUNT = true then
        (["Amount cannot exceed 9999.99"], none)
      else if (jsTrim a).data.contains '.' = true ∧ (afterFirstDot (jsTrim a)).length > 2 then
        (["Amount cannot have more than 2 decimal places"], none)
      else ([], some (jsParseFloat (jsTrim a))) := by
  by_cases h1 : a = "" ∨ jsTrim a = ""
  · simp [_validateAmount, h1]
  · have h1' : ¬ (a = "" ∨ jsTrim a = "") := h1
    push_neg at h1
    by_cases h2 : (jsParseFloat (jsTrim a)).isNaN = true
    · simp [_validateAmount, h1.1, h1.2, h2]
    · by_cases h3 : (jsParseFloat (jsTrim a)).lt JsNumber.zero = true
      · simp [_validateAmount, h1.1, h1.2, h2, h3]
      · by_cases h4 : (jsParseFloat (jsTrim a)).gt MAX_AMOUNT = true
        · simp [_validateAmount, h1.1, h1.2, h2, h3, h4]
        · by_cases h5 : (jsTrim a).data.contains '.' = true ∧
              (afterFirstDot (jsTrim a)).length > 2
          · simp [_validateAmount, h1.1, h1.2, h2, h3, h4, h5]
          · have h5' : ((jsTrim a).data.contains '.' &&
                decide ((afterFirstDot (jsTrim a)).length > 2)) = false := by
              rw [Bool.eq_false_iff]
              intro hc
              simp only [Bool.and_eq_true, decide_eq_true_eq] at hc
              exact h5 hc
            simp [_validateAmount, h1.1, h1.2, h2, h3, h4, h5', h5]

theorem validateAmount_integer (i : List Char) (hne : i ≠ [])
    (hi : ∀ c ∈ i, isDigitChar c = true) :
    _validateAmount (some ⟨i⟩) =
      if digitsValue i * 100 ≤ 999999 then
        ([], some (JsNumber.ofDecimal false (digitsValue i) 0))
      else (["Amount cannot exceed 9999.99"], none) := by
  obtain ⟨ht, hp, hdot⟩ := parseFloat_integer i hne hi
  have hne' : (⟨i⟩ : String) ≠ "" := by
    intro h
    exact hne (congrArg String.data h)
  have hgt := JsNumber.ofDecimal_gt_max (digitsValue i) 0 (by norm_num)
  simp only [Nat.cast_zero, neg_zero, Nat.sub_zero] at hgt
  rw [validateAmount_some, ht, hp]
  simp only [hne', or_self, if_false, JsNumber.ofDecimal_isNaN, JsNumber.ofDecimal_not_lt_zero,
    Bool.false_eq_true, hdot, false_and]
  by_cases h : digitsValue i * 100 ≤ 999999
  · have h' : ¬ (JsNumber.ofDecimal false (digitsValue i) 0).gt MAX_AMOUNT = true := by
      rw [hgt]; omega
    simp [h, h']
  · have h' : (JsNumber.ofDecimal false (digitsValue i) 0).gt MAX_AMOUNT = true := by
      rw [hgt]; omega
    simp [h, h']

theorem validateAmount_fraction (i f : List Char) (hne : i ≠ [])
    (hi : ∀ c ∈ i, isDigitChar c = true) (hf : ∀ c ∈ f, isDigitChar c = true) :
    ((_validateAmount (some ⟨i ++ '.' :: f⟩)).1 = [] ↔
      f.length ≤ 2 ∧ digitsValue (i ++ f) * 10 ^ (2 - f.length) ≤ 999999) ∧
    ((_validateAmount (some ⟨i ++ '.' :: f⟩)).1 = [] →
      (_validateAmount (some ⟨i ++ '.' :: f⟩)).2 =
        some (JsNumber.ofDecimal false (digitsValue (i ++ f)) (-(f.length : Int)))) := by
  obtain ⟨ht, hp, hdot, hafter⟩ := parseFloat_fraction i f hne hi hf
  have hne' : (⟨i ++ '.' :: f⟩ : String) ≠ "" := by
    intro h
    have := congrArg String.data h
    simp at this
  rw [validateAmount_some, ht, hp]
  simp only [hne', or_self, if_false, JsNumber.ofDecimal_isNaN, JsNumber.ofDecimal_not_lt_zero,
    Bool.false_eq_true, hdot, hafter, true_and]
  by_cases hlen : f.length ≤ 2
  · have hgt := JsNumber.ofDecimal_gt_max (digitsValue (i ++ f)) f.length hlen
    have hgt2 : ¬ f.length > 2 := by omega
    by_cases h : digitsValue (i ++ f) * 10 ^ (2 - f.length) ≤ 999999
    · have h' : ¬ (JsNumber.ofDecimal false (digitsValue (i ++ f)) (-(f.length : Int))).gt
          MAX_AMOUNT = true := by rw [hgt]; omega
      simp [h, h', hlen, hgt2]
    · have h' : (JsNumber.ofDecimal false (digitsValue (i ++ f)) (-(f.length : Int))).gt
          MAX_AMOUNT = true := by rw [hgt]; omega
      simp [h, h']
  · have hgt : f.length > 2 := by omega
    simp only [hgt, hlen, false_and, iff_false]
    constructor
    · split <;> simp
    · split <;> simp

end DataEntryService

set_option exponentiation.threshold 3000 in
set_option maxRecDepth 100000 in
/-- The text `'-1e-400'` is read as `-0`, which is not below zero: the amount
is accepted. -/
theorem DataEntryService.validateAmount_negative_zero :
    jsParseFloat "-1e-400" = JsNumber.finite true 0 (-1074) ∧
    DataEntryService._validateAmount (some "-1e-400") =
      ([], some (JsNumber.finite true 0 (-1074))) := by
  refine ⟨by decide, by decide⟩

/-- **C27 (failing input).** With the other fields of the test suite, the
amount `'12abc'`, a number followed by non-numeric characters, is accepted:
`parseFloat` reads the leading `12`, no amount error is raised, and
`sanitizedData.amount` is 12.  Likewise `'1.5.2'` is accepted as 1.5, and
`'-1e-400'`, which is read as `-0`, is accepted.  The amounts of the test suite behave as the claim says: `'0'`, `'0.00'`, `'100'`,
`'100.50'` and `'9999.99'` are accepted with their value, and `'-100'`,
`'abc'`, `'100.999'`, `'10000'`, `''` and a missing amount are rejected, each
with its message.  With the other fields valid, an amount written as a plain
decimal numeral (one or more digits, optionally a point and further digits)
is accepted exactly when it has at most two digits after the point and its
value is at most 9999.99, and `sanitizedData.amount` is then the Number read
from it.  In general the amount is accepted exactly when the Number
`parseFloat` reads from the start of the trimmed text is not `NaN`, not below
zero and not above 9999.99, and the text between the first point and the next
one is at most two characters long; what follows the number is not looked
at. -/
theorem DataEntryService.validateOtherDetails_accepts_trailing_text :
    DataEntryService.fresh.validateOtherDetails
        (some { DataEntryService.sampleOtherDetails with amount := some "12abc" })
        1739577600000 28800000 =
      { isValid := true, errors := [],
        sanitizedData := some
          { amount := some (JsNumber.ofDecimal false 12 0), controlNumber := some "12345",
            dueDate := some "2025-02-15", receiveOption := some "pickup",
            mailingAddress := some "", emailAddress := some "student@my.xu.edu.ph",
            scannedAndEmail := some false } } ∧
    DataEntryService._validateAmount (some "12abc") =
      DataEntryService._validateAmount (some "12") ∧
    (DataEntryService.fresh.validateOtherDetails
        (some { DataEntryService.sampleOtherDetails with amount := some "1.5.2" })
        1739577600000 28800000).isValid = true ∧
    DataEntryService._validateAmount (some "1.5.2") =
      ([], some (JsNumber.ofDecimal false 15 (-1))) ∧
    DataEntryService._validateAmount (some "-1e-400") =
      ([], some (JsNumber.finite true 0 (-1074))) ∧
    (∀ t ∈ [("0", JsNumber.zero), ("0.00", JsNumber.zero),
        ("100", JsNumber.ofDecimal false 100 0), ("100.50", JsNumber.ofDecimal false 1005 (-1)),
        ("9999.99", DataEntryService.MAX_AMOUNT)],
      DataEntryService._validateAmount (some t.1) = ([], some t.2)) ∧
    (∀ t ∈ [(some "-100", "Amount must be 0 or positive"),
        (some "abc", "Amount must be a valid number"),
        (some "100.999", "Amount cannot have more than 2 decimal places"),
        (some "10000", "Amount cannot exceed 9999.99"),
        (some "9999.991", "Amount cannot exceed 9999.99"),
        (some "", "Amount is required"), (some "   ", "Amount is required"),
        (none, "Amount is required")],
      DataEntryService._validateAmount t.1 = ([t.2], none)) ∧
    (∀ (self : DataEntryService) (o : OtherDetails) (now : Nat) (tz : Int),
      self._validateControlNumber o.controlNumber = [] →
      DataEntryService._validateDueDate o.dueDate now tz = [] →
      DataEntryService._validateReceiveOption o.receiveOption o.mailingAddress
        o.emailAddress = [] →
      (∀ i : List Char, i ≠ [] → (∀ c ∈ i, isDigitChar c = true) → o.amount = some ⟨i⟩ →
        ((self.validateOtherDetails (some o) now tz).isValid = true ↔
          digitsValue i * 100 ≤ 999999) ∧
        ((self.validateOtherDetails (some o) now tz).isValid = true →
          ∃ r, (self.validateOtherDetails (some o) now tz).sanitizedData = some r ∧
            r.amount = some (JsNumber.ofDecimal false (digitsValue i) 0)) ∧
        ((self.validateOtherDetails (some o) now tz).isValid = false →
          (self.validateOtherDetails (some o) now tz).errors =
            ["Amount cannot exceed 9999.99"])) ∧
      (∀ i f : List Char, i ≠ [] → (∀ c ∈ i, isDigitChar c = true) →
        (∀ c ∈ f, isDigitChar c = true) → o.amount = some ⟨i ++ '.' :: f⟩ →
        ((self.validateOtherDetails (some o) now tz).isValid = true ↔
          f.length ≤ 2 ∧ digitsValue (i ++ f) * 10 ^ (2 - f.length) ≤ 999999) ∧
        ((self.validateOtherDetails (some o) now tz).isValid = true →
          ∃ r, (self.validateOtherDetails (some o) now tz).sanitizedData = some r ∧
            r.amount =
              some (JsNumber.ofDecimal false (digitsValue (i ++ f)) (-(f.length : Int))))) ∧
      ((self.validateOtherDetails (some o) now tz).isValid = true ↔
        ∃ a, o.amount = some a ∧ jsTrim a ≠ "" ∧ (jsParseFloat (jsTrim a)).isNaN = false ∧
          (jsParseFloat (jsTrim a)).lt JsNumber.zero = false ∧
          (jsParseFloat (jsTrim a)).gt DataEntryService.MAX_AMOUNT = false ∧
          ¬ ((jsTrim a).data.contains '.' = true ∧ (afterFirstDot (jsTrim a)).length > 2)) ∧
      ((self.validateOtherDetails (some o) now tz).isValid = true →
        ∃ a r, o.amount = some a ∧
          (self.validateOtherDetails (some o) now tz).sanitizedData = some r ∧
          r.amount = some (jsParseFloat (jsTrim a)))) := by
  refine ⟨by decide, by decide, by decide, by decide,
    DataEntryService.validateAmount_negative_zero.2, by decide, by decide, ?_⟩
  intro self o now tz hc hd hr
  obtain ⟨herr, hval, r, hr1, hr2⟩ :=
    DataEntryService.validateOtherDetails_amount_only self o now tz hc hd hr
  rw [herr, hval, hr1]
  refine ⟨?_, ?_, ?_⟩
  · intro i hne hi ha
    simp only [Option.some.injEq, exists_eq_left']
    rw [hr2, ha, DataEntryService.validateAmount_integer i hne hi]
    by_cases h : digitsValue i * 100 ≤ 999999
    · simp [h]
    · simp [h]
  · intro i f hne hi hf ha
    obtain ⟨h1, h2⟩ := DataEntryService.validateAmount_fraction i f hne hi hf
    simp only [Option.some.injEq, exists_eq_left']
    rw [hr2, ha, List.isEmpty_iff]
    exact ⟨h1, h2⟩
  cases ha : o.amount with
  | none => simp [DataEntryService._validateAmount]
  | some a =>
    rw [ha] at hr2
    rw [DataEntryService.validateAmount_some] at hr2 ⊢
    simp only [Option.some.injEq, exists_eq_left', exists_and_left]
    by_cases h1 : jsTrim a = ""
    · simp [h1]
    · have h0 := AuthService.jsTrim_ne_empty h1
      by_cases h2 : (jsParseFloat (jsTrim a)).isNaN = true
      · simp [h0, h1, h2]
      · by_cases h3 : (jsParseFloat (jsTrim a)).lt JsNumber.zero = true
        · simp [h0, h1, h2, h3]
        · by_cases h4 : (jsParseFloat (jsTrim a)).gt DataEntryService.MAX_AMOUNT = true
          · simp [h0, h1, h2, h3, h4]
          · by_cases h5 : (jsTrim a).data.contains '.' = true ∧
                (afterFirstDot (jsTrim a)).length > 2
            · have h5a : '.' ∈ (jsTrim a).data := by simpa using h5.1
              simp [h0, h1, h2, h3, h4, h5, h5a]
            · simp only [Bool.not_eq_true] at h2 h3 h4
              simp only [h0, h1, h2, h3, h4, h5, or_self, if_false, Bool.false_eq_true] at hr2
              simp only [h0, h1, h2, h3, h4, h5, or_self, if_false, Bool.false_eq_true,
                List.isEmpty_nil, ne_eq, not_false_eq_true, and_self, true_iff, forall_const]
              exact ⟨trivial, hr2⟩

/-- **C28 (failing input).** Evaluated on 2025-02-15 (clock `1739577600000`,
local time UTC+8) with the other fields valid, the due date `'2025-02-30'` is
accepted without any error: `new Date('2025-02-30')` is not an invalid date in
Node but the time value of 2025-03-02, so the test `isNaN(date.getTime())`
does not reject it.  Month 13 is rejected with
`'Due date must be a valid date'`, the day itself is accepted and the day
before is rejected with `'Due date cannot be in the past'`.  The comparison
also depends on the zone: at UTC-5, on the local day 2025-02-15, the due date
`'2025-02-15'` is rejected as past. -/
theorem DataEntryService.validateDueDate_accepts_february_30 :
    DataEntryService.fresh.validateOtherDetails
        (some { DataEntryService.sampleOtherDetails with dueDate := some "2025-02-30" })
        1739577600000 28800000 =
      { isValid := true, errors := [],
        sanitizedData := some
          { amount := some (JsNumber.ofDecimal false 15000 (-2)), controlNumber := some "12345",
            dueDate := some "2025-02-30", receiveOption := some "pickup",
            mailingAddress := some "", emailAddress := some "student@my.xu.edu.ph",
            scannedAndEmail := some false } } ∧
    jsDateParse "2025-02-30" = jsDateParse "2025-03-02" ∧
    DataEntryService._validateDueDate (some "2025-13-01") 1739577600000 28800000 =
      ["Due date must be a valid date"] ∧
    DataEntryService._validateDueDate (some "2025-02-15") 1739577600000 28800000 = [] ∧
    DataEntryService._validateDueDate (some "2025-02-14") 1739577600000 28800000 =
      ["Due date cannot be in the past"] ∧
    DataEntryService._validateDueDate (some "2025-02-15") 1739620800000 (-18000000) =
      ["Due date cannot be in the past"] := by
  refine ⟨by decide, by decide, by decide, by decide, by decide, by decide⟩

/-! ## Remarks -/

theorem jsLength_replicate (n : Nat) : jsLength ⟨List.replicate n 'a'⟩ = n := by
  have h : ((if 'a'.val > 0xFFFF then 2 else 1) : Nat) = 1 := by decide
  simp only [jsLength, List.map_replicate, h, List.sum_replicate, smul_eq_mul, mul_one]

/-- **C29 (counterexample).** Remarks with a short comment and
`isPublic = 1`, `isPublic = 'true'` or no `isPublic` at all are rejected with
`'Privacy setting must be boolean'`: the privacy setting is not coerced. -/
theorem DataEntryService.validateRemarks_rejects_coercible :
    DataEntryService.validateRemarks
        (some { comment := some "ok", isPublic := JsValue.number 1 }) =
      { isValid := false, errors := ["Privacy setting must be boolean"],
        sanitizedData := none } ∧
    DataEntryService.validateRemarks
        (some { comment := some "ok", isPublic := JsValue.string "true" }) =
      { isValid := false, errors := ["Privacy setting must be boolean"],
        sanitizedData := none } ∧
    DataEntryService.validateRemarks (some { comment := some "ok" }) =
      { isValid := false, errors := ["Privacy setting must be boolean"],
        sanitizedData := none } ∧
    (JsValue.number 1).truthy = true := by
  refine ⟨by decide, by decide, by decide, by decide⟩

/-- **C29 (amended).** `validateRemarks` accepts absent remarks, returning
`sanitizedData = {comment: '', isPublic: false}`.  Otherwise it accepts the
remarks exactly when the comment, when present, has at most 1000 characters
(UTF-16 code units) and `isPublic` is a boolean, `true` or `false`; the
sanitized data is then the comment (`''` when absent) and that boolean.  A
comment of more than 1000 characters, such as one of 1001, is rejected with
`'Comment exceeds maximum length (1000 characters)'`, and a privacy setting
that is not a boolean with `'Privacy setting must be boolean'`. -/
theorem DataEntryService.validateRemarks_spec (r : Remarks) :
    DataEntryService.validateRemarks none =
      { isValid := true, errors := [],
        sanitizedData := some { comment := "", isPublic := false } } ∧
    ((DataEntryService.validateRemarks (some r)).isValid = true ↔
      (∀ c, r.comment = some c → jsLength c ≤ 1000) ∧ ∃ b, r.isPublic = JsValue.bool b) ∧
    (∀ b, r.isPublic = JsValue.bool b → (∀ c, r.comment = some c → jsLength c ≤ 1000) →
      DataEntryService.validateRemarks (some r) =
        { isValid := true, errors := [],
          sanitizedData := some { comment := r.comment.getD "", isPublic := b } }) ∧
    (∀ c, r.comment = some c → jsLength c > 1000 →
      (DataEntryService.validateRemarks (some r)).isValid = false ∧
      "Comment exceeds maximum length (1000 characters)" ∈
        (DataEntryService.validateRemarks (some r)).errors) ∧
    ((∀ b, r.isPublic ≠ JsValue.bool b) →
      (DataEntryService.validateRemarks (some r)).isValid = false ∧
      "Privacy setting must be boolean" ∈ (DataEntryService.validateRemarks (some r)).errors) ∧
    jsLength ⟨List.replicate 1001 'a'⟩ = 1001 := by
  have hempty : jsLength "" = 0 := by decide
  have hne : ∀ c : String, jsLength c > 1000 → c ≠ "" := by
    intro c hc h
    subst h
    rw [hempty] at hc
    omega
  obtain ⟨comment, isPublic⟩ := r
  refine ⟨rfl, ?_, ?_, ?_, ?_, jsLength_replicate 1001⟩
  · cases comment with
    | none =>
      cases isPublic <;> simp [DataEntryService.validateRemarks]
    | some c =>
      by_cases hlen : jsLength c > 1000
      · have hn : ¬ jsLength c ≤ 1000 := by omega
        cases isPublic <;>
          simp [DataEntryService.validateRemarks, DataEntryService.MAX_COMMENT_LENGTH, hlen, hn,
            hne c hlen]
      · have hn : jsLength c ≤ 1000 := by omega
        cases isPublic <;>
          simp [DataEntryService.validateRemarks, DataEntryService.MAX_COMMENT_LENGTH, hlen, hn]
  · intro b hb hc
    simp only at hb
    subst hb
    cases comment with
    | none => cases b <;> simp [DataEntryService.validateRemarks, JsValue.truthy]
    | some c =>
      have hn : jsLength c ≤ 1000 := hc c rfl
      cases b <;>
        simp [DataEntryService.validateRemarks, DataEntryService.MAX_COMMENT_LENGTH, hn,
          JsValue.truthy]
  · intro c hc hlen
    simp only [Option.some.injEq] at hc
    subst hc
    cases isPublic <;>
      simp [DataEntryService.validateRemarks, DataEntryService.MAX_COMMENT_LENGTH, hlen,
        hne c hlen]
  · intro hnb
    cases isPublic with
    | bool b => exact absurd rfl (hnb b)
    | undefined => cases comment <;> simp [DataEntryService.validateRemarks]
    | null => cases comment <;> simp [DataEntryService.validateRemarks]
    | number n => cases comment <;> simp [DataEntryService.validateRemarks]
    | string s => cases comment <;> simp [DataEntryService.validateRemarks]
    | object => cases comment <;> simp [DataEntryService.validateRemarks]

/-! ## The shape of a validation result -/

/-- **C30 (failing input).** `validateOtherDetails` with a wrong due date
returns `isValid = false` together with `sanitizedData = {amount: 150}`, and
with a wrong amount `sanitizedData = {}`: the object is never `null` once the
section is present.  The other three validators return `sanitizedData = null`
exactly when `isValid` is false, and all four have `isValid` true exactly when
`errors` is empty. -/
theorem DataEntryService.validateOtherDetails_sanitized_on_failure
    (self : DataEntryService) (student : Option StudentData) (docs : Option DocumentsData)
    (other : Option OtherDetails) (remarks : Option Remarks) (now : Nat) (tz : Int) :
    DataEntryService.fresh.validateOtherDetails
        (some { DataEntryService.sampleOtherDetails with dueDate := some "invalid-date" })
        1739577600000 28800000 =
      { isValid := false, errors := ["Due date must be in YYYY-MM-DD format"],
        sanitizedData := some { amount := some (JsNumber.ofDecimal false 15000 (-2)) } } ∧
    DataEntryService.fresh.validateOtherDetails
        (some { DataEntryService.sampleOtherDetails with amount := some "abc" })
        1739577600000 28800000 =
      { isValid := false, errors := ["Amount must be a valid number"],
        sanitizedData := some {} } ∧
    (∀ o, (self.validateOtherDetails (some o) now tz).sanitizedData ≠ none) ∧
    (((DataEntryService.validateStudentDetails student).isValid = true ↔
        (DataEntryService.validateStudentDetails student).errors = []) ∧
     ((DataEntryService.validateRequestedDocuments docs).isValid = true ↔
        (DataEntryService.validateRequestedDocuments docs).errors = []) ∧
     ((self.validateOtherDetails other now tz).isValid = true ↔
        (self.validateOtherDetails other now tz).errors = []) ∧
     ((DataEntryService.validateRemarks remarks).isValid = true ↔
        (DataEntryService.validateRemarks remarks).errors = [])) ∧
    (((DataEntryService.validateStudentDetails student).sanitizedData = none ↔
        (DataEntryService.validateStudentDetails student).isValid = false) ∧
     ((DataEntryService.validateRequestedDocuments docs).sanitizedData = none ↔
        (DataEntryService.validateRequestedDocuments docs).isValid = false) ∧
     ((DataEntryService.validateRemarks remarks).sanitizedData = none ↔
        (DataEntryService.validateRemarks remarks).isValid = false)) := by
  refine ⟨by decide, by decide, ?_, ⟨?_, ?_, ?_, ?_⟩, ⟨?_, ?_, ?_⟩⟩
  · intro o
    simp only [DataEntryService.validateOtherDetails]
    split <;> simp
  · cases student with
    | none => simp [DataEntryService.validateStudentDetails]
    | some d => simp [DataEntryService.validateStudentDetails]
  · cases docs with
    | none => simp [DataEntryService.validateRequestedDocuments]
    | some d =>
      by_cases hbasic : ∃ l, d.documents = some l ∧ l ≠ [] ∧
          l.length = d.originalQuantities.length ∧ l.length = d.authenticatedQuantities.length
      · obtain ⟨l, hl, hne, h1, h2⟩ := hbasic
        rw [DataEntryService.validateRequestedDocuments_basic d l hl hne h1 h2]
        simp
      · obtain ⟨hv, -, he⟩ := DataEntryService.validateRequestedDocuments_early d hbasic
        rw [hv]
        rcases he with he | he <;> simp [he]
  · cases other with
    | none => simp [DataEntryService.validateOtherDetails]
    | some o => simp [DataEntryService.validateOtherDetails]
  · cases remarks with
    | none => simp [DataEntryService.validateRemarks]
    | some r => simp [DataEntryService.validateRemarks]
  · cases student with
    | none => simp [DataEntryService.validateStudentDetails]
    | some d =>
      simp only [DataEntryService.validateStudentDetails]
      split <;> simp_all
  · cases docs with
    | none => simp [DataEntryService.validateRequestedDocuments]
    | some d =>
      by_cases hbasic : ∃ l, d.documents = some l ∧ l ≠ [] ∧
          l.length = d.originalQuantities.length ∧ l.length = d.authenticatedQuantities.length
      · obtain ⟨l, hl, hne, h1, h2⟩ := hbasic
        rw [DataEntryService.validateRequestedDocuments_basic d l hl hne h1 h2]
        simp only
        split <;> simp_all
      · obtain ⟨hv, hs, -⟩ := DataEntryService.validateRequestedDocuments_early d hbasic
        rw [hv, hs]
        simp
  · cases remarks with
    | none => simp [DataEntryService.validateRemarks]
    | some r =>
      simp only [DataEntryService.validateRemarks]
      split <;> simp_all

/-! ## Who may create a request -/

/-- **C31 (failing input).** With the request data of the test suite, which
passes all four section validators, `createRequest` for a caller whose role
is `SystemAdministrator` fails with `INSUFFICIENT_PERMISSIONS` and stores
nothing: the role's permission list has no `'create_requests'`.  The roles
`Evaluator` and `UniversityRegistrar` succeed; `Intern`, `StudentAssistant`
and the unknown role `Student` are refused with the same error and the message
`'You do not have permission to create requests'`. -/
theorem DataEntryService.createRequest_denies_system_administrator
    (ds : DataEntryService) (requestData : RequestData) (email : String) (now : Nat) (tz : Int)
    (idHex : String) (rand : Nat) :
    ds.createRequest requestData { email := email, role := JsValue.string "SystemAdministrator" }
        now tz idHex rand =
      Except.ok ({ success := false, error := some "INSUFFICIENT_PERMISSIONS",
                   message := some "You do not have permission to create requests" }, ds) ∧
    lookupProp AccessControlService.rolesPermissions "SystemAdministrator" =
      Lookup.own ["manage_access_control", "whitelist_users", "assign_roles",
        "view_all_audit_logs", "manage_system_config", "create_users", "delete_users",
        "modify_user_roles"] ∧
    (DataEntryService.validateStudentDetails
        DataEntryService.sampleRequestData.studentDetails).isValid = true ∧
    (DataEntryService.validateRequestedDocuments
        DataEntryService.sampleRequestData.requestedDocuments).isValid = true ∧
    (DataEntryService.fresh.validateOtherDetails DataEntryService.sampleRequestData.otherDetails
        1739577600000 28800000).isValid = true ∧
    (DataEntryService.validateRemarks DataEntryService.sampleRequestData.remarks).isValid
      = true ∧
    (∀ role ∈ ["Evaluator", "UniversityRegistrar"],
      ∃ r ds1, DataEntryService.fresh.createRequest DataEntryService.sampleRequestData
          { email := "staff@xu.edu.ph", role := JsValue.string role }
          1739577600000 28800000 "00ff" 0 = Except.ok (r, ds1) ∧ r.success = true) ∧
    (∀ role ∈ ["Intern", "StudentAssistant", "Student", "SystemAdministrator"],
      DataEntryService.fresh.createRequest DataEntryService.sampleRequestData
          { email := "staff@xu.edu.ph", role := JsValue.string role }
          1739577600000 28800000 "00ff" 0 =
        Except.ok ({ success := false, error := some "INSUFFICIENT_PERMISSIONS",
                     message := some "You do not have permission to create requests" },
          DataEntryService.fresh)) := by
  refine ⟨?_, by decide, by decide, by decide, by decide, by decide, ?_, by decide⟩
  · have h : DataEntryService._hasCreatePermissions
        { email := email, role := JsValue.string "SystemAdministrator" } = false := by
      have h0 : AccessControlService.hasPermission (JsValue.string "SystemAdministrator")
          (JsValue.string "create_requests") = false := by decide
      simpa [DataEntryService._hasCreatePermissions] using h0
    simp [DataEntryService.createRequest, h, DataEntryService._createErrorResponse]
  · intro role hrole
    simp only [List.mem_cons, List.mem_singleton, List.not_mem_nil, or_false] at hrole
    rcases hrole with rfl | rfl
    · exact ⟨_, _, rfl, by decide⟩
    · exact ⟨_, _, rfl, by decide⟩

/-! ## The request built by createRequest -/

theorem isDigitChar_digitChar (d : Nat) (h : d < 10) : isDigitChar (Nat.digitChar d) = true := by
  interval_cases d <;> decide

/-- The decimal numeral of a number with five digits. -/
theorem toString_five_digits (n : Nat) (h1 : 10000 ≤ n) (h2 : n < 100000) :
    ∃ digits : List Char, toString n = ⟨digits⟩ ∧ digits.length = 5 ∧
      ∀ c ∈ digits, isDigitChar c = true := by
  obtain ⟨k, hk⟩ : ∃ k, n + 1 = k + 5 := ⟨n - 4, by omega⟩
  have e1 : n / 10 ≠ 0 := by omega
  have e2 : n / 10 / 10 ≠ 0 := by omega
  have e3 : n / 10 / 10 / 10 ≠ 0 := by omega
  have e4 : n / 10 / 10 / 10 / 10 ≠ 0 := by omega
  have e5 : n / 10 / 10 / 10 / 10 / 10 = 0 := by omega
  have hcore : ∀ f : Nat, Nat.toDigitsCore 10 (f + 5) n [] =
      [Nat.digitChar (n / 10 / 10 / 10 / 10 % 10), Nat.digitChar (n / 10 / 10 / 10 % 10),
       Nat.digitChar (n / 10 / 10 % 10), Nat.digitChar (n / 10 % 10), Nat.digitChar (n % 10)] := by
    intro f
    simp only [Nat.toDigitsCore, e1, e2, e3, e4, e5, if_false, if_true]
  have h : Nat.toDigits 10 n =
      [Nat.digitChar (n / 10 / 10 / 10 / 10 % 10), Nat.digitChar (n / 10 / 10 / 10 % 10),
       Nat.digitChar (n / 10 / 10 % 10), Nat.digitChar (n / 10 % 10), Nat.digitChar (n % 10)] := by
    show Nat.toDigitsCore 10 (n + 1) n [] = _
    rw [hk]
    exact hcore k
  refine ⟨[Nat.digitChar (n / 10 / 10 / 10 / 10 % 10), Nat.digitChar (n / 10 / 10 / 10 % 10),
       Nat.digitChar (n / 10 / 10 % 10), Nat.digitChar (n / 10 % 10), Nat.digitChar (n % 10)],
    ?_, rfl, ?_⟩
  · show Nat.repr n = _
    simp only [Nat.repr, h, List.asString]
  · intro c hc
    simp only [List.mem_cons, List.mem_singleton, List.not_mem_nil, or_false] at hc
    rcases hc with rfl | rfl | rfl | rfl | rfl <;>
      exact isDigitChar_digitChar _ (Nat.mod_lt _ (by norm_num))

namespace DataEntryService

theorem generateControlNumber_five_digits (rand : Nat) (h : rand < 2 ^ 53) :
    ∃ digits : List Char, generateControlNumber rand = ⟨digits⟩ ∧ digits.length = 5 ∧
      ∀ c ∈ digits, isDigitChar c = true := by
  have hq : rand * 90000 / 2 ^ 53 < 90000 := by
    rw [Nat.div_lt_iff_lt_mul (by positivity)]
    nlinarith
  exact toString_five_digits _ (by omega) (by omega)

end DataEntryService

namespace DataEntryService

/-- The request a successful `createRequest` builds and stores. -/
theorem createRequest_success (ds ds1 : DataEntryService) (requestData : RequestData)
    (userSession : UserSession) (now : Nat) (tz : Int) (idHex : String) (rand : Nat)
    (r : Response)
    (h : ds.createRequest requestData userSession now tz idHex rand = Except.ok (r, ds1))
    (hs : r.success = true) :
    ∃ (r1 : StudentRecord) (r2 : DocumentsRecord) (r3 : OtherRecord) (r4 : RemarksRecord)
      (o : OtherDetails) (req : Request),
      _hasCreatePermissions userSession = true ∧
      (validateStudentDetails requestData.studentDetails).sanitizedData = some r1 ∧
      (validateStudentDetails requestData.studentDetails).errors = [] ∧
      (validateRequestedDocuments requestData.requestedDocuments).sanitizedData = some r2 ∧
      (ds.validateOtherDetails requestData.otherDetails now tz).sanitizedData = some r3 ∧
      (validateRemarks requestData.remarks).sanitizedData = some r4 ∧
      requestData.otherDetails = some o ∧ r3.controlNumber = o.controlNumber ∧
      req = { id := "req_" ++ idHex
              trackingCode := generateTrackingCode r1.lastName rand
              status := "Request Received"
              controlNumber := r3.controlNumber
              studentDetails := r1
              requestedDocuments := r2
              otherDetails := r3
              remarks := r4
              createdBy := userSession.email
              createdAt := now
              updatedAt := now
              statusHistory :=
                [{ status := "Request Received", updatedBy := userSession.email,
                   updatedAt := now }] } ∧
      r = { success := true, data := some req } ∧
      ds1 = { requests := mapSet ds.requests req.id req } := by
  by_cases hperm : _hasCreatePermissions userSession = true
  · by_cases herr :
        _collectAllValidationErrors (ds._validateAllRequestSections requestData now tz) = []
    · have herr' := herr
      simp only [_collectAllValidationErrors, _validateAllRequestSections,
        List.append_eq_nil] at herr'
      obtain ⟨⟨⟨h1, h2⟩, h3⟩, h4⟩ := herr'
      obtain ⟨r1, hr1⟩ := validateStudentDetails_sanitized _ h1
      obtain ⟨r2, hr2⟩ := validateRequestedDocuments_sanitized _ h2
      obtain ⟨r3, hr3, o, ho, hcn, -⟩ := validateOtherDetails_sanitized ds _ now tz h3
      obtain ⟨r4, hr4⟩ := validateRemarks_sanitized _ h4
      have hb : _buildNewRequest (ds._validateAllRequestSections requestData now tz)
          userSession now idHex rand = Except.ok
            { id := "req_" ++ idHex
              trackingCode := generateTrackingCode r1.lastName rand
              status := "Request Received"
              controlNumber := r3.controlNumber
              studentDetails := r1
              requestedDocuments := r2
              otherDetails := r3
              remarks := r4
              createdBy := userSession.email
              createdAt := now
              updatedAt := now
              statusHistory :=
                [{ status := "Request Received", updatedBy := userSession.email,
                   updatedAt := now }] } := by
        simp only [_buildNewRequest, _validateAllRequestSections, hr1, hr2, hr3, hr4]
      simp only [createRequest, hperm, herr, Bool.not_true, Bool.false_eq_true, if_false,
        List.length_nil, gt_iff_lt, lt_self_iff_false, hb, Except.ok.injEq, Prod.mk.injEq] at h
      obtain ⟨rfl, rfl⟩ := h
      exact ⟨r1, r2, r3, r4, o, _, hperm, hr1, h1, hr2, hr3, hr4, ho, hcn, rfl, rfl, rfl⟩
    · exfalso
      have hlen : (_collectAllValidationErrors
          (ds._validateAllRequestSections requestData now tz)).length > 0 :=
        List.length_pos.mpr herr
      simp only [createRequest, hperm, Bool.not_true, Bool.false_eq_true, if_false, hlen,
        if_true, Except.ok.injEq, Prod.mk.injEq] at h
      obtain ⟨rfl, -⟩ := h
      simp at hs
  · exfalso
    have hp : _hasCreatePermissions userSession = false := by simpa using hperm
    simp only [createRequest, hp, Bool.not_false, if_true, Except.ok.injEq,
      Prod.mk.injEq] at h
    obtain ⟨rfl, -⟩ := h
    simp [_createErrorResponse] at hs

end DataEntryService

/-- **C32.** Every request returned by a successful `createRequest` has
status `'Request Received'`, a `statusHistory` of exactly one entry with
that status and the caller's e-mail, `createdBy` equal to the caller's e-mail,
`controlNumber` equal to the validated `otherDetails.controlNumber`, and a
`trackingCode` that is the upper-cased sanitized last name, then `'_'`, then
exactly five decimal digits, for every value `rand / 2^53` in `[0, 1)` of the
random source. -/
theorem DataEntryService.createRequest_builds_request (ds ds1 : DataEntryService)
    (requestData : RequestData) (userSession : UserSession) (now : Nat) (tz : Int)
    (idHex : String) (rand : Nat) (r : Response) (hrand : rand < 2 ^ 53)
    (h : ds.createRequest requestData userSession now tz idHex rand = Except.ok (r, ds1))
    (hs : r.success = true) :
    ∃ (req : Request) (student : StudentRecord) (o : OtherDetails) (digits : List Char),
      r.data = some req ∧ mapGet ds1.requests req.id = some req ∧
      req.status = "Request Received" ∧
      req.statusHistory =
        [{ status := "Request Received", updatedBy := userSession.email, updatedAt := now }] ∧
      req.createdBy = userSession.email ∧
      requestData.otherDetails = some o ∧ req.controlNumber = o.controlNumber ∧
      (DataEntryService.validateStudentDetails requestData.studentDetails).sanitizedData
        = some student ∧
      req.trackingCode = jsToUpperCase student.lastName ++ "_" ++ ⟨digits⟩ ∧
      digits.length = 5 ∧ (∀ c ∈ digits, isDigitChar c = true) := by
  obtain ⟨r1, r2, r3, r4, o, req, -, hr1, -, -, -, -, ho, hcn, hreq, hr, hds⟩ :=
    DataEntryService.createRequest_success ds ds1 requestData userSession now tz idHex rand r h hs
  obtain ⟨digits, hd, hlen, hall⟩ := DataEntryService.generateControlNumber_five_digits rand hrand
  refine ⟨req, r1, o, digits, by rw [hr], ?_, by rw [hreq], by rw [hreq], by rw [hreq], ho,
    by rw [hreq]; exact hcn, hr1, ?_, hlen, hall⟩
  · rw [hds]; exact mapGet_mapSet_self _ _ _
  · rw [hreq]
    simp only [DataEntryService.generateTrackingCode, hd]

/-- The request data of the test suite, created by the evaluator. -/
theorem DataEntryService.createRequest_builds_request_witness :
    ∃ (req : Request) (student : StudentRecord) (o : OtherDetails) (digits : List Char),
      (some DataEntryService.sampleRequest : Option Request) = some req ∧
      mapGet DataEntryService.sampleStore.requests req.id = some req ∧
      req.status = "Request Received" ∧
      req.statusHistory =
        [{ status := "Request Received", updatedBy := DataEntryService.evaluatorSession.email,
           updatedAt := 1739577600000 }] ∧
      req.createdBy = DataEntryService.evaluatorSession.email ∧
      DataEntryService.sampleRequestData.otherDetails = some o ∧
      req.controlNumber = o.controlNumber ∧
      (DataEntryService.validateStudentDetails
        DataEntryService.sampleRequestData.studentDetails).sanitizedData = some student ∧
      req.trackingCode = jsToUpperCase student.lastName ++ "_" ++ ⟨digits⟩ ∧
      digits.length = 5 ∧ (∀ c ∈ digits, isDigitChar c = true) :=
  DataEntryService.createRequest_builds_request DataEntryService.fresh
    DataEntryService.sampleStore DataEntryService.sampleRequestData
    DataEntryService.evaluatorSession 1739577600000 28800000 "00ff" 0
    { success := true, data := some DataEntryService.sampleRequest } (by decide) (by decide) rfl

/-! ## Status updates and the status history -/

theorem requestExtends_refl (a : Request) : a.Extends a :=
  ⟨List.prefix_refl _, fun h => h⟩

theorem requestExtends_trans {a b c : Request} (h1 : a.Extends b) (h2 : b.Extends c) :
    a.Extends c :=
  ⟨h1.1.trans h2.1, fun h => h2.2 (h1.2 h)⟩

namespace DataEntryService

theorem updateRequestWithNewStatus_extends (req : Request) (newStatus : String)
    (userSession : UserSession) (now : Nat) :
    req.Extends (_updateRequestWithNewStatus req newStatus userSession now) ∧
    (_updateRequestWithNewStatus req newStatus userSession now).StatusIsLast := by
  have hlast : (_updateRequestWithNewStatus req newStatus userSession now).StatusIsLast := by
    simp [Request.StatusIsLast, _updateRequestWithNewStatus]
  exact ⟨⟨by simp [_updateRequestWithNewStatus], fun _ => hlast⟩, hlast⟩

/-- The three rejections and the acceptance of `updateRequestStatus`. -/
theorem updateRequestStatus_cases (ds : DataEntryService) (requestId newStatus : String)
    (userSession : UserSession) (now : Nat) :
    (_hasUpdateStatusPermissions userSession = false ∧
      ds.updateRequestStatus requestId newStatus userSession now =
        (_createErrorResponse "INSUFFICIENT_PERMISSIONS"
          "You do not have permission to update request status", ds)) ∨
    (_hasUpdateStatusPermissions userSession = true ∧ mapGet ds.requests requestId = none ∧
      ds.updateRequestStatus requestId newStatus userSession now =
        (_createErrorResponse "REQUEST_NOT_FOUND" "Request not found", ds)) ∨
    (∃ req, _hasUpdateStatusPermissions userSession = true ∧
      mapGet ds.requests requestId = some req ∧
      (_validateStatusTransition req.status newStatus).isValid = false ∧
      ds.updateRequestStatus requestId newStatus userSession now =
        ({ success := false,
           errors := some (_validateStatusTransition req.status newStatus).errors }, ds)) ∨
    (∃ req, _hasUpdateStatusPermissions userSession = true ∧
      mapGet ds.requests requestId = some req ∧
      (_validateStatusTransition req.status newStatus).isValid = true ∧
      ds.updateRequestStatus requestId newStatus userSession now =
        ({ success := true,
           data := some (_updateRequestWithNewStatus req newStatus userSession now) },
         { requests := mapSet ds.requests requestId
             (_updateRequestWithNewStatus req newStatus userSession now) })) := by
  by_cases hperm : _hasUpdateStatusPermissions userSession = true
  · cases hget : mapGet ds.requests requestId with
    | none =>
      right; left
      exact ⟨hperm, rfl, by simp [updateRequestStatus, hperm, getRequestById, hget]⟩
    | some req =>
      by_cases hv : (_validateStatusTransition req.status newStatus).isValid = true
      · right; right; right
        exact ⟨req, hperm, rfl, hv, by simp [updateRequestStatus, hperm, getRequestById, hget, hv]⟩
      · have hv' : (_validateStatusTransition req.status newStatus).isValid = false := by
          simpa using hv
        right; right; left
        exact ⟨req, hperm, rfl, hv',
          by simp [updateRequestStatus, hperm, getRequestById, hget, hv']⟩
  · have hp : _hasUpdateStatusPermissions userSession = false := by simpa using hperm
    left
    exact ⟨hp, by simp [updateRequestStatus, hp]⟩

end DataEntryService

/-- Every stored request is still stored under its id after the call, in a
later state, when the id the call generates is unused. -/
theorem DataOp.apply_extends (ds : DataEntryService) (op : DataOp)
    (hfresh : ∀ id, op.newId = some id → mapGet ds.requests id = none) :
    ∀ k a, mapGet ds.requests k = some a →
      ∃ b, mapGet (op.apply ds).requests k = some b ∧ a.Extends b := by
  intro k a hget
  cases op with
  | createRequest c =>
    simp only [DataOp.apply]
    cases h : ds.createRequest c.requestData c.userSession c.now c.tz c.idHex c.rand with
    | error e => exact ⟨a, hget, requestExtends_refl a⟩
    | ok res =>
      obtain ⟨r, ds1⟩ := res
      by_cases hs : r.success = true
      · obtain ⟨r1, r2, r3, r4, o, req, -, -, -, -, -, -, -, -, hreq, -, hds⟩ :=
          DataEntryService.createRequest_success ds ds1 c.requestData c.userSession c.now c.tz
            c.idHex c.rand r h hs
        have hid : req.id = "req_" ++ c.idHex := by rw [hreq]
        have hne : k ≠ req.id := by
          intro hk
          have := hfresh _ rfl
          rw [← hid, ← hk, hget] at this
          simp at this
        refine ⟨a, ?_, requestExtends_refl a⟩
        simp only [hds]
        rw [mapGet_mapSet_ne _ _ _ _ hne]
        exact hget
      · have hperm_or : ds1 = ds := by
          by_cases hperm : DataEntryService._hasCreatePermissions c.userSession = true
          · rcases DataEntryService.createRequest_permitted ds c.requestData c.userSession c.now
                c.tz c.idHex c.rand hperm with ⟨-, hres⟩ | ⟨-, req, o, hres, -⟩
            · rw [hres] at h
              simp only [Except.ok.injEq, Prod.mk.injEq] at h
              exact h.2.symm
            · rw [hres] at h
              simp only [Except.ok.injEq, Prod.mk.injEq] at h
              exact absurd (by rw [← h.1]) hs
          · have hp : DataEntryService._hasCreatePermissions c.userSession = false := by
              simpa using hperm
            simp only [DataEntryService.createRequest, hp, Bool.not_false, if_true,
              Except.ok.injEq, Prod.mk.injEq] at h
            exact h.2.symm
        simp only [hperm_or]
        exact ⟨a, hget, requestExtends_refl a⟩
  | updateRequestStatus requestId newStatus userSession now =>
    simp only [DataOp.apply]
    rcases DataEntryService.updateRequestStatus_cases ds requestId newStatus userSession now with
      ⟨-, h⟩ | ⟨-, -, h⟩ | ⟨req, -, -, -, h⟩ | ⟨req, -, hreq, -, h⟩
    · rw [h]; exact ⟨a, hget, requestExtends_refl a⟩
    · rw [h]; exact ⟨a, hget, requestExtends_refl a⟩
    · rw [h]; exact ⟨a, hget, requestExtends_refl a⟩
    · rw [h]
      by_cases hk : k = requestId
      · subst hk
        rw [hget] at hreq
        simp only [Option.some.injEq] at hreq
        subst hreq
        exact ⟨_, mapGet_mapSet_self _ _ _,
          (DataEntryService.updateRequestWithNewStatus_extends a newStatus userSession now).1⟩
      · refine ⟨a, ?_, requestExtends_refl a⟩
        simp only
        rw [mapGet_mapSet_ne _ _ _ _ hk]
        exact hget

theorem DataOp.run_extends (ops : List DataOp) :
    ∀ ds : DataEntryService, DataOp.FreshIds ds ops →
      ∀ k a, mapGet ds.requests k = some a →
        ∃ b, mapGet (DataOp.run ds ops).requests k = some b ∧ a.Extends b := by
  induction ops with
  | nil => intro ds _ k a hget; exact ⟨a, hget, requestExtends_refl a⟩
  | cons op ops ih =>
    intro ds hfresh k a hget
    obtain ⟨b, hb, hab⟩ := DataOp.apply_extends ds op hfresh.1 k a hget
    obtain ⟨c, hc, hbc⟩ := ih _ hfresh.2 k b hb
    exact ⟨c, hc, requestExtends_trans hab hbc⟩

/-- **C33.** A call of `updateRequestStatus` is accepted exactly when the
caller has `'update_request_status'`, the id is stored and the transition is
legal.  An accepted call appends exactly one entry (the new status, the
caller's e-mail, the clock) to the request's `statusHistory`, keeps the
earlier entries, and sets `status`, `updatedBy` and `updatedAt`; a rejected
call (no `'update_request_status'` permission, id not stored, or illegal
transition) leaves the store unchanged.  The evaluator moving the stored
request of `sampleStore` to `'Processing'` is an accepted call; on a new
service the id `'req_12345'` is not stored and the call is answered
`REQUEST_NOT_FOUND`.  A request built by `createRequest` has its status last
in its history.  Hence over any run of `createRequest` and
`updateRequestStatus` calls the history of a stored request only grows at its
end and its status stays the status of the last entry.  Request ids come from
`crypto.randomBytes`; the generated ids are taken to be unused when they are
generated. -/
theorem DataEntryService.updateRequestStatus_history (ds : DataEntryService)
    (requestId newStatus : String) (userSession : UserSession) (now : Nat) :
    ((ds.updateRequestStatus requestId newStatus userSession now).1.success = true ↔
      DataEntryService._hasUpdateStatusPermissions userSession = true ∧
      ∃ req, mapGet ds.requests requestId = some req ∧
        (DataEntryService._validateStatusTransition req.status newStatus).isValid = true) ∧
    (∃ b, DataEntryService.sampleStore.updateRequestStatus "req_00ff" "Processing"
          DataEntryService.evaluatorSession 1739577700000 =
        ({ success := true, data := some b }, { requests := [("req_00ff", b)] }) ∧
      b.status = "Processing" ∧ b.updatedBy = some "evaluator@xu.edu.ph" ∧
      b.updatedAt = 1739577700000 ∧
      b.statusHistory = DataEntryService.sampleRequest.statusHistory ++
        [{ status := "Processing", updatedBy := "evaluator@xu.edu.ph",
           updatedAt := 1739577700000 }] ∧
      b.statusHistory.length = 2) ∧
    DataEntryService.fresh.updateRequestStatus "req_12345" "Processing"
        DataEntryService.evaluatorSession 1739577700000 =
      (DataEntryService._createErrorResponse "REQUEST_NOT_FOUND" "Request not found",
       DataEntryService.fresh) ∧
    ((ds.updateRequestStatus requestId newStatus userSession now).1.success = true →
      ∃ req, mapGet ds.requests requestId = some req ∧
        ds.updateRequestStatus requestId newStatus userSession now =
          ({ success := true,
             data := some
               { req with
                 status := newStatus
                 updatedBy := some userSession.email
                 updatedAt := now
                 statusHistory := req.statusHistory ++
                   [{ status := newStatus, updatedBy := userSession.email, updatedAt := now }] } },
           { requests := mapSet ds.requests requestId
               { req with
                 status := newStatus
                 updatedBy := some userSession.email
                 updatedAt := now
                 statusHistory := req.statusHistory ++
                   [{ status := newStatus, updatedBy := userSession.email,
                      updatedAt := now }] } })) ∧
    ((ds.updateRequestStatus requestId newStatus userSession now).1.success = false →
      (ds.updateRequestStatus requestId newStatus userSession now).2 = ds) ∧
    ((DataEntryService._hasUpdateStatusPermissions userSession = false ∨
        mapGet ds.requests requestId = none ∨
        ∃ req, mapGet ds.requests requestId = some req ∧
          (DataEntryService._validateStatusTransition req.status newStatus).isValid = false) →
      (ds.updateRequestStatus requestId newStatus userSession now).1.success = false) ∧
    (∀ (c : DataEntryService.CreateCall) (r : Response) (ds1 : DataEntryService) (req : Request),
      ds.createRequest c.requestData c.userSession c.now c.tz c.idHex c.rand
        = Except.ok (r, ds1) →
      r.data = some req → req.StatusIsLast) ∧
    (∀ (ops : List DataOp) (k : String) (a : Request), DataOp.FreshIds ds ops →
      mapGet ds.requests k = some a →
      ∃ b, mapGet (DataOp.run ds ops).requests k = some b ∧
        a.statusHistory <+: b.statusHistory ∧ a.statusHistory.length ≤ b.statusHistory.length ∧
        (a.StatusIsLast → b.StatusIsLast)) := by
  refine ⟨?_, ⟨DataEntryService._updateRequestWithNewStatus DataEntryService.sampleRequest
      "Processing" DataEntryService.evaluatorSession 1739577700000,
      by decide, by decide, by decide, by decide, by decide, by decide⟩, by decide,
    ?_, ?_, ?_, ?_, ?_⟩
  · rcases DataEntryService.updateRequestStatus_cases ds requestId newStatus userSession now with
      ⟨hp, h⟩ | ⟨-, hnone, h⟩ | ⟨req, -, hreq, hv, h⟩ | ⟨req, hperm, hreq, hv, h⟩
    · rw [h, hp]; simp [DataEntryService._createErrorResponse]
    · rw [h, hnone]; simp [DataEntryService._createErrorResponse]
    · rw [h, hreq]; simp [hv]
    · rw [h, hreq]; simp [hperm, hv]
  · intro hs
    rcases DataEntryService.updateRequestStatus_cases ds requestId newStatus userSession now with
      ⟨-, h⟩ | ⟨-, -, h⟩ | ⟨req, -, -, -, h⟩ | ⟨req, -, hreq, -, h⟩
    · rw [h] at hs; simp [DataEntryService._createErrorResponse] at hs
    · rw [h] at hs; simp [DataEntryService._createErrorResponse] at hs
    · rw [h] at hs; simp at hs
    · exact ⟨req, hreq, h⟩
  · intro hs
    rcases DataEntryService.updateRequestStatus_cases ds requestId newStatus userSession now with
      ⟨-, h⟩ | ⟨-, -, h⟩ | ⟨req, -, -, -, h⟩ | ⟨req, -, hreq, -, h⟩
    · rw [h]
    · rw [h]
    · rw [h]
    · rw [h] at hs; simp at hs
  · intro hrej
    rcases DataEntryService.updateRequestStatus_cases ds requestId newStatus userSession now with
      ⟨-, h⟩ | ⟨-, -, h⟩ | ⟨req, -, -, -, h⟩ | ⟨req, hperm, hreq, hv, h⟩
    · rw [h]; rfl
    · rw [h]; rfl
    · rw [h]
    · exfalso
      rcases hrej with hp | hnone | ⟨req1, hreq1, hv1⟩
      · rw [hperm] at hp; simp at hp
      · rw [hreq] at hnone; simp at hnone
      · rw [hreq] at hreq1
        simp only [Option.some.injEq] at hreq1
        subst hreq1
        rw [hv] at hv1
        simp at hv1
  · intro c r ds1 req h hdata
    have hs : r.success = true := by
      by_contra hs
      by_cases hperm : DataEntryService._hasCreatePermissions c.userSession = true
      · rcases DataEntryService.createRequest_permitted ds c.requestData c.userSession c.now
            c.tz c.idHex c.rand hperm with ⟨-, hres⟩ | ⟨-, req1, o, hres, -⟩
        · rw [hres] at h
          simp only [Except.ok.injEq, Prod.mk.injEq] at h
          rw [← h.1] at hdata
          simp at hdata
        · rw [hres] at h
          simp only [Except.ok.injEq, Prod.mk.injEq] at h
          exact hs (by rw [← h.1])
      · have hp : DataEntryService._hasCreatePermissions c.userSession = false := by
          simpa using hperm
        simp only [DataEntryService.createRequest, hp, Bool.not_false, if_true,
          Except.ok.injEq, Prod.mk.injEq] at h
        rw [← h.1] at hdata
        simp [DataEntryService._createErrorResponse] at hdata
    obtain ⟨r1, r2, r3, r4, o, req1, -, -, -, -, -, -, -, -, hreq, hr, -⟩ :=
      DataEntryService.createRequest_success ds ds1 c.requestData c.userSession c.now c.tz
        c.idHex c.rand r h hs
    rw [hr] at hdata
    simp only [Option.some.injEq] at hdata
    rw [← hdata, hreq]
    simp [Request.StatusIsLast]
  · intro ops k a hfresh hget
    obtain ⟨b, hb, hpre, hlast⟩ := DataOp.run_extends ops ds hfresh k a hget
    exact ⟨b, hb, hpre, hpre.length_le, hlast⟩

/-! ## Session creation inside login -/

namespace AuthService

theorem isUserInWhitelist_with_password (e p : String) (u : User)
    (h : isUserInWhitelist (JsValue.string e) = some u) (hp : u.password = some p) :
    u ∈ authorizedUsers ∧ u.email = some e := by
  simp only [isUserInWhitelist] at h
  by_cases he : e = ""
  · simp [he] at h
  · simp only [he, if_false] at h
    cases hfind : authorizedUsers.find? (fun user => user.email == some e) with
    | some x =>
      simp only [hfind, Option.some.injEq] at h
      subst h
      refine ⟨List.mem_of_find?_eq_some hfind, ?_⟩
      have := List.find?_some hfind
      simpa using this
    | none =>
      simp only [hfind] at h
      by_cases hends : jsEndsWith e "@my.xu.edu.ph" = true
      · simp only [hends, if_true, Option.some.injEq] at h
        subst h
        simp at hp
      · simp [hends] at h

theorem createSession_whitelisted (s : AuthService) (u : User) (hu : u ∈ authorizedUsers)
    (now : Nat) (rnd : String) :
    ∃ sess s1, s.createSession (some u) now rnd = Except.ok (some sess, s1) := by
  obtain ⟨e, role, pw, rfl, -, -, -, perms, hperm, hene, hrne, -, hvr⟩ := whitelisted_facts u hu
  simp [createSession, hene, hrne, hperm, hvr]

end AuthService

/-- **C36.** `login` always returns a result, and never one with
`errorCode = 'SESSION_CREATION_FAILED'`.  Whenever it reaches the
session-creation step (input sanitized, account not locked, domain recognized,
user returned by `isUserInWhitelist`, password equal), the user is one of the
five whitelisted users, whose role is legal for the domain of the e-mail, so
`createSession` returns a session and the login succeeds. -/
theorem AuthService.login_never_session_creation_failed (s : AuthService)
    (email password : JsValue) (now later : Nat) (rnd : String) :
    ∃ r s1, s.login email password now later rnd = Except.ok (r, s1) ∧
      r.errorCode ≠ some "SESSION_CREATION_FAILED" ∧
      ∀ e p u, AuthService._sanitizeLoginInput email password = Except.ok (e, p) →
        (s._isAccountLocked e now).1 = false → AuthService.validateEmailDomain e = true →
        AuthService.isUserInWhitelist (JsValue.string e) = some u → u.password = some p →
        u ∈ authorizedUsers ∧
        AuthService.validateRoleForDomain u.email u.role = Except.ok true ∧
        (∃ sess s2, (s._isAccountLocked e now).2.createSession (some u) later rnd
          = Except.ok (some sess, s2)) ∧
        r.success = true := by
  cases hsan : AuthService._sanitizeLoginInput email password with
  | error reason =>
    refine ⟨_, _, by simp only [AuthService.login, hsan]; rfl, by simp, ?_⟩
    intro e p u h
    simp at h
  | ok ep =>
    obtain ⟨e, p⟩ := ep
    cases hlock : s._isAccountLocked e now with
    | mk locked s0 =>
      cases locked with
      | true =>
        refine ⟨_, _, by simp only [AuthService.login, hsan, hlock, if_true]; rfl, by simp, ?_⟩
        intro e1 p1 u h hl
        simp only [Except.ok.injEq, Prod.mk.injEq] at h
        obtain ⟨rfl, rfl⟩ := h
        rw [hlock] at hl
        simp at hl
      | false =>
        by_cases hdom : AuthService.validateEmailDomain e = true
        · cases hwl : AuthService.isUserInWhitelist (JsValue.string e) with
          | none =>
            refine ⟨_, _, by simp only [AuthService.login, hsan, hlock, hdom, hwl,
              Bool.false_eq_true, if_false, Bool.not_true]; rfl, by simp, ?_⟩
            intro e1 p1 u h _ _ hw
            simp only [Except.ok.injEq, Prod.mk.injEq] at h
            obtain ⟨rfl, rfl⟩ := h
            rw [hwl] at hw
            simp at hw
          | some user =>
            by_cases hpw : user.password = some p
            · obtain ⟨hu, hue⟩ := AuthService.isUserInWhitelist_with_password e p user hwl hpw
              obtain ⟨sess, s2, hcs⟩ := AuthService.createSession_whitelisted s0 user hu later rnd
              refine ⟨_, _, by simp only [AuthService.login, hsan, hlock, hdom, hwl, hpw, hcs,
                Bool.false_eq_true, if_false, Bool.not_true, bne_self_eq_false]; rfl, by simp, ?_⟩
              intro e1 p1 u h _ _ hw hp1
              simp only [Except.ok.injEq, Prod.mk.injEq] at h
              obtain ⟨rfl, rfl⟩ := h
              rw [hwl] at hw
              simp only [Option.some.injEq] at hw
              subst hw
              refine ⟨hu, ?_, ⟨sess, s2, by rw [hlock]; exact hcs⟩, rfl⟩
              obtain ⟨e0, role, pw, rfl, -, -, -, perms, -, -, -, -, hvr⟩ :=
                AuthService.whitelisted_facts user hu
              exact hvr
            · have hne : (user.password != some p) = true := by simpa using hpw
              refine ⟨_, _, by simp only [AuthService.login, hsan, hlock, hdom, hwl, hne,
                Bool.false_eq_true, if_false, Bool.not_true, if_true]; rfl, by simp, ?_⟩
              intro e1 p1 u h _ _ hw hp1
              simp only [Except.ok.injEq, Prod.mk.injEq] at h
              obtain ⟨rfl, rfl⟩ := h
              rw [hwl] at hw
              simp only [Option.some.injEq] at hw
              subst hw
              exact absurd hp1 hpw
        · have hdom' : AuthService.validateEmailDomain e = false := by simpa using hdom
          refine ⟨_, _, by simp only [AuthService.login, hsan, hlock, hdom', Bool.false_eq_true,
            if_false, Bool.not_false, if_true]; rfl, by simp, ?_⟩
          intro e1 p1 u h _ hd
          simp only [Except.ok.injEq, Prod.mk.injEq] at h
          obtain ⟨rfl, rfl⟩ := h
          rw [hdom'] at hd
          simp at hd

/-! ## The bounds of the throttle table -/

theorem mem_of_mapGet {α : Type} (m : List (String × α)) (k : String) (a : α)
    (h : mapGet m k = some a) : (k, a) ∈ m := by
  induction m with
  | nil => simp [mapGet] at h
  | cons hd tl ih =>
    obtain ⟨k0, x⟩ := hd
    by_cases hk : k = k0
    · subst hk
      simp only [mapGet, List.lookup, beq_self_eq_true, Option.some.injEq] at h
      subst h
      exact List.mem_cons_self _ _
    · have hb : (k == k0) = false := by simpa using hk
      simp only [mapGet, List.lookup, hb] at h
      exact List.mem_cons_of_mem _ (ih h)

theorem mem_mapSet {α : Type} (m : List (String × α)) (k : String) (v : α)
    (kv : String × α) (h : kv ∈ mapSet m k v) : kv ∈ m ∨ kv.2 = v := by
  induction m with
  | nil =>
    simp only [mapSet, List.mem_singleton] at h
    exact Or.inr (by rw [h])
  | cons hd tl ih =>
    obtain ⟨k0, x⟩ := hd
    by_cases hk : k0 = k
    · simp only [mapSet, hk, if_true, List.mem_cons] at h ⊢
      rcases h with h | h
      · exact Or.inr (by rw [h])
      · exact Or.inl (Or.inr h)
    · simp only [mapSet, hk, if_false, List.mem_cons] at h ⊢
      rcases h with h | h
      · exact Or.inl (Or.inl h)
      · rcases ih h with h1 | h1
        · exact Or.inl (Or.inr h1)
        · exact Or.inr h1

namespace AuthService

theorem throttleBounded_of_eq {s s1 : AuthService} (h : s1.loginAttempts = s.loginAttempts)
    (hinv : s.ThrottleBounded) : s1.ThrottleBounded := by
  intro kv hkv
  rw [h] at hkv
  exact hinv kv hkv

theorem throttleBounded_clear (s : AuthService) (e : String) (hinv : s.ThrottleBounded) :
    (s._clearFailedAttempts e).ThrottleBounded := by
  intro kv hkv
  simp only [_clearFailedAttempts, mapDelete, List.mem_filter] at hkv
  exact hinv kv hkv.1

theorem throttleBounded_isAccountLocked (s : AuthService) (e : String) (now : Nat)
    (hinv : s.ThrottleBounded) : (s._isAccountLocked e now).2.ThrottleBounded := by
  rcases isAccountLocked_cases s e now with ⟨h, -⟩ | ⟨h, -⟩
  · rw [h]; exact throttleBounded_clear s e hinv
  · rw [h]; exact hinv

theorem throttleBounded_getLoginAttempts (s : AuthService) (e : String) (now : Nat)
    (hinv : s.ThrottleBounded) : (s.getLoginAttempts e now).2.ThrottleBounded := by
  unfold getLoginAttempts
  cases hg : mapGet s.loginAttempts e with
  | none => exact hinv
  | some a => exact throttleBounded_isAccountLocked s e now hinv

/-- After a negative lock test the record of the e-mail, if any, is below
the threshold. -/
theorem attemptCount_lt_of_not_locked (s s0 : AuthService) (e : String) (now : Nat)
    (h : s._isAccountLocked e now = (false, s0)) : s0.attemptCount e < 5 := by
  rcases isAccountLocked_cases s e now with ⟨heq, -⟩ | ⟨heq, -⟩
  · rw [heq] at h
    simp only [Prod.mk.injEq, true_and] at h
    subst h
    simp [attemptCount, _clearFailedAttempts, mapGet_mapDelete_self]
  · rw [heq] at h
    simp only [Prod.mk.injEq, decide_eq_false_iff_not, not_le, MAX_LOGIN_ATTEMPTS] at h
    obtain ⟨hc, rfl⟩ := h
    exact hc

theorem throttleBounded_record (s : AuthService) (e reason : String)
    (ci : Option ClientInfo) (now : Nat) (hinv : s.ThrottleBounded)
    (hlt : s.attemptCount e < 5) : (s._recordFailedAttempt e reason ci now).ThrottleBounded := by
  obtain ⟨-, -, -, a, hget, hcount, h5, hbelow⟩ := recordFailedAttempt_facts s e reason ci now
  intro kv hkv
  have hkv' : kv ∈ mapSet s.loginAttempts e a := by
    have hrec : (s._recordFailedAttempt e reason ci now).loginAttempts =
        mapSet s.loginAttempts e a := by
      have h1 : mapGet (s._recordFailedAttempt e reason ci now).loginAttempts e = some a := hget
      simp only [_recordFailedAttempt, mapGet_mapSet_self, Option.some.injEq] at h1
      simp only [_recordFailedAttempt, h1]
    rw [hrec] at hkv
    exact hkv
  rcases mem_mapSet _ _ _ _ hkv' with hold | hnew
  · exact hinv kv hold
  · rw [hnew]
    refine ⟨by omega, by omega, ?_⟩
    by_cases hc : a.failedAttempts ≥ MAX_LOGIN_ATTEMPTS
    · have h5' : a.failedAttempts = 5 := by simp only [MAX_LOGIN_ATTEMPTS] at hc; omega
      simp [h5 hc, h5']
    · have hlt' : a.failedAttempts < MAX_LOGIN_ATTEMPTS := by omega
      have hne : a.failedAttempts ≠ 5 := by simp only [MAX_LOGIN_ATTEMPTS] at hlt'; omega
      rw [hbelow hlt']
      cases hg : mapGet s.loginAttempts e with
      | none => simp [hne]
      | some a0 =>
        have hmem := hinv (e, a0) (mem_of_mapGet _ _ _ hg)
        have hc0 : a0.failedAttempts < 5 := by simpa [attemptCount, hg] using hlt
        have hnone : a0.lockedUntil = none := by
          by_contra hcon
          have h5a : a0.failedAttempts = 5 := hmem.2.2.mp hcon
          omega
        simp [hnone, hne]

/-- The throttle table after `login`. -/
theorem login_throttle {s s1 : AuthService} {email password : JsValue} {now later : Nat}
    {rnd : String} {r : LoginResult}
    (h : s.login email password now later rnd = Except.ok (r, s1))
    (hinv : s.ThrottleBounded) :
    s1.ThrottleBounded ∧ (r.errorCode = some "ACCOUNT_LOCKED" → s1.loginAttempts = s.loginAttempts) := by
  cases hsan : _sanitizeLoginInput email password with
  | error reason =>
    simp only [login, hsan, Except.ok.injEq, Prod.mk.injEq] at h
    obtain ⟨rfl, rfl⟩ := h
    exact ⟨throttleBounded_of_eq rfl hinv, fun _ => rfl⟩
  | ok ep =>
    obtain ⟨e, p⟩ := ep
    have hinv0 := throttleBounded_isAccountLocked s e now hinv
    cases hlock : s._isAccountLocked e now with
    | mk locked s0 =>
      rw [hlock] at hinv0
      simp only at hinv0
      cases locked with
      | true =>
        obtain ⟨rfl, hgetl⟩ := isAccountLocked_true_facts s s0 e now hlock
        obtain ⟨info, hinfo⟩ : ∃ info, s0.getLoginAttempts e now = (info, s0) :=
          ⟨(s0.getLoginAttempts e now).1, Prod.ext rfl hgetl⟩
        simp only [login, hsan, hlock, hinfo, if_true, Except.ok.injEq, Prod.mk.injEq] at h
        obtain ⟨rfl, rfl⟩ := h
        exact ⟨throttleBounded_of_eq rfl hinv, fun _ => rfl⟩
      | false =>
        have hlt := attemptCount_lt_of_not_locked s s0 e now hlock
        by_cases hdom : validateEmailDomain e = true
        · cases hwl : isUserInWhitelist (JsValue.string e) with
          | none =>
            simp only [login, hsan, hlock, hdom, hwl, Bool.false_eq_true, if_false,
              Bool.not_true, Except.ok.injEq, Prod.mk.injEq] at h
            obtain ⟨rfl, rfl⟩ := h
            refine ⟨throttleBounded_of_eq rfl (throttleBounded_record s0 e _ _ now hinv0 hlt), ?_⟩
            intro hc; simp at hc
          | some user =>
            by_cases hpw : user.password = some p
            · cases hcs : s0.createSession (some user) later rnd with
              | error err => simp [login, hsan, hlock, hdom, hwl, hpw, hcs] at h
              | ok res =>
                obtain ⟨x, s2⟩ := res
                have hla := createSession_loginAttempts hcs
                cases x with
                | none =>
                  simp only [login, hsan, hlock, hdom, hwl, hpw, hcs, Bool.false_eq_true,
                    if_false, Bool.not_true, bne_self_eq_false, Except.ok.injEq,
                    Prod.mk.injEq] at h
                  obtain ⟨rfl, rfl⟩ := h
                  refine ⟨throttleBounded_of_eq (by simpa [_logSecurityEvent] using hla) hinv0, ?_⟩
                  intro hc; simp at hc
                | some sess =>
                  simp only [login, hsan, hlock, hdom, hwl, hpw, hcs, Bool.false_eq_true,
                    if_false, Bool.not_true, bne_self_eq_false, Except.ok.injEq,
                    Prod.mk.injEq] at h
                  obtain ⟨rfl, rfl⟩ := h
                  refine ⟨?_, ?_⟩
                  · have h2 := throttleBounded_clear s2 e (throttleBounded_of_eq hla hinv0)
                    exact throttleBounded_of_eq rfl h2
                  · intro hc; simp at hc
            · have hne : (user.password != some p) = true := by simpa using hpw
              have hrec := throttleBounded_record s0 e "INVALID_PASSWORD"
                (some (_generateClientInfo now)) later hinv0 hlt
              have hg := throttleBounded_getLoginAttempts _ e later hrec
              cases hinfo : (s0._recordFailedAttempt e "INVALID_PASSWORD"
                  (some (_generateClientInfo now)) later).getLoginAttempts e later with
              | mk info s3 =>
                rw [hinfo] at hg
                simp only [login, hsan, hlock, hdom, hwl, hne, hinfo, Bool.false_eq_true,
                  if_false, Bool.not_true, if_true, Except.ok.injEq, Prod.mk.injEq] at h
                obtain ⟨rfl, rfl⟩ := h
                refine ⟨throttleBounded_of_eq rfl hg, ?_⟩
                intro hc; simp at hc
        · have hdom' : validateEmailDomain e = false := by simpa using hdom
          simp only [login, hsan, hlock, hdom', Bool.false_eq_true, if_false, Bool.not_false,
            if_true, Except.ok.injEq, Prod.mk.injEq] at h
          obtain ⟨rfl, rfl⟩ := h
          refine ⟨throttleBounded_of_eq rfl (throttleBounded_record s0 e _ _ now hinv0 hlt), ?_⟩
          intro hc; simp at hc

theorem expireSession_loginAttempts (s : AuthService) (id : String) (now : Nat) :
    (s._expireSession id now).loginAttempts = s.loginAttempts := by
  unfold _expireSession
  split
  · split <;> rfl
  · rfl

theorem validateSession_loginAttempts (s : AuthService) (token : JsValue) (now : Nat) :
    (s.validateSession token now).2.loginAttempts = s.loginAttempts := by
  unfold validateSession
  split
  · rfl
  · split
    · split
      · rfl
      · split
        · rfl
        · split
          · rfl
          · split
            · exact expireSession_loginAttempts s _ now
            · rfl
    · rfl

theorem hasPermission_loginAttempts (s : AuthService) (sessionId permission : String)
    (now : Nat) : (s.hasPermission sessionId permission now).2.loginAttempts = s.loginAttempts := by
  unfold hasPermission
  split
  · rfl
  · split
    · rfl
    · split
      · exact expireSession_loginAttempts s _ now
      · rfl

theorem getSessionStatus_loginAttempts (s : AuthService) (sessionId : JsValue) (now : Nat) :
    (s.getSessionStatus sessionId now).2.loginAttempts = s.loginAttempts := by
  unfold getSessionStatus
  split
  · split
    · rfl
    · split
      · rfl
      · split
        · exact expireSession_loginAttempts s _ now
        · rfl
  · rfl

theorem logout_loginAttempts (s : AuthService) (sessionId : JsValue) (now : Nat) :
    (s.logout sessionId now).2.loginAttempts = s.loginAttempts := by
  unfold logout
  split
  · rfl
  · split
    · split
      · rfl
      · split
        · rfl
        · split <;> rfl
    · rfl

theorem cleanupLoop_loginAttempts (now : Nat) (l : List (String × Session)) :
    ∀ (s : AuthService) (n : Nat),
      (cleanupLoop now l s n).1.loginAttempts = s.loginAttempts := by
  induction l with
  | nil => intro s n; rfl
  | cons hd tl ih =>
    intro s n
    obtain ⟨id, sess⟩ := hd
    simp only [cleanupLoop]
    split
    · rw [ih, expireSession_loginAttempts]
    · exact ih _ _

theorem cleanup_loginAttempts (s : AuthService) (now : Nat) :
    (s.cleanupExpiredSessions now).2.loginAttempts = s.loginAttempts := by
  simp only [cleanupExpiredSessions]
  exact cleanupLoop_loginAttempts now s.activeSessions s 0

end AuthService

theorem AuthOp.apply_throttleBounded (s : AuthService) (op : AuthOp)
    (hinv : s.ThrottleBounded) : (op.apply s).ThrottleBounded := by
  cases op with
  | login email password now later rnd =>
    simp only [AuthOp.apply]
    cases h : s.login email password now later rnd with
    | error e => exact hinv
    | ok res =>
      obtain ⟨r, s1⟩ := res
      exact (AuthService.login_throttle h hinv).1
  | createSession user now rnd =>
    simp only [AuthOp.apply]
    cases h : s.createSession user now rnd with
    | error e => exact hinv
    | ok res =>
      obtain ⟨x, s1⟩ := res
      exact AuthService.throttleBounded_of_eq (AuthService.createSession_loginAttempts h) hinv
  | validateSession token now =>
    exact AuthService.throttleBounded_of_eq
      (AuthService.validateSession_loginAttempts s token now) hinv
  | hasPermission sessionId permission now =>
    exact AuthService.throttleBounded_of_eq
      (AuthService.hasPermission_loginAttempts s sessionId permission now) hinv
  | getSessionStatus sessionId now =>
    exact AuthService.throttleBounded_of_eq
      (AuthService.getSessionStatus_loginAttempts s sessionId now) hinv
  | logout sessionId now =>
    exact AuthService.throttleBounded_of_eq (AuthService.logout_loginAttempts s sessionId now) hinv
  | cleanupExpiredSessions now =>
    exact AuthService.throttleBounded_of_eq (AuthService.cleanup_loginAttempts s now) hinv
  | getLoginAttempts email now =>
    exact AuthService.throttleBounded_getLoginAttempts s email now hinv

theorem AuthOp.run_throttleBounded (ops : List AuthOp) :
    ∀ s : AuthService, s.ThrottleBounded → (AuthOp.run s ops).ThrottleBounded := by
  induction ops with
  | nil => intro s h; exact h
  | cons op ops ih => intro s h; exact ih _ (AuthOp.apply_throttleBounded s op h)

/-- **C37.** In every sequential run of `login`, `createSession`,
`validateSession`, `hasPermission`, `getSessionStatus`, `logout`,
`cleanupExpiredSessions` and `getLoginAttempts` calls on a fresh service,
every record of the `loginAttempts` table has `1 ≤ failedAttempts ≤ 5`, and
its `lockedUntil` is non-null exactly when `failedAttempts = 5`.  A login that
is answered `ACCOUNT_LOCKED` leaves the table as it was: it neither raises the
counter nor extends `lockedUntil`. -/
theorem AuthService.throttle_bounds (ops : List AuthOp) :
    (∀ kv ∈ (AuthOp.run AuthService.fresh ops).loginAttempts,
      1 ≤ kv.2.failedAttempts ∧ kv.2.failedAttempts ≤ 5 ∧
        (kv.2.lockedUntil ≠ none ↔ kv.2.failedAttempts = 5)) ∧
    (∀ e a, mapGet (AuthOp.run AuthService.fresh ops).loginAttempts e = some a →
      1 ≤ a.failedAttempts ∧ a.failedAttempts ≤ 5 ∧
        (a.lockedUntil ≠ none ↔ a.failedAttempts = 5)) ∧
    (∀ (email password : JsValue) (now later : Nat) (rnd : String)
        (r : AuthService.LoginResult) (s1 : AuthService),
      (AuthOp.run AuthService.fresh ops).login email password now later rnd
        = Except.ok (r, s1) →
      r.errorCode = some "ACCOUNT_LOCKED" →
      s1.loginAttempts = (AuthOp.run AuthService.fresh ops).loginAttempts) := by
  have hfresh : AuthService.fresh.ThrottleBounded := by
    intro kv hkv
    simp [AuthService.fresh] at hkv
  have hrun := AuthOp.run_throttleBounded ops AuthService.fresh hfresh
  refine ⟨hrun, ?_, ?_⟩
  · intro e a hget
    exact hrun (e, a) (mem_of_mapGet _ _ _ hget)
  · intro email password now later rnd r s1 h hc
    exact (AuthService.login_throttle h hrun).2 hc

/-! ## Unlisted student addresses -/

/-- **C38 (counterexample).** For the unlisted `random@my.xu.edu.ph` a
blank password is answered `MISSING_CREDENTIALS`, neither `INVALID_PASSWORD`
nor `ACCOUNT_LOCKED`, and no failed attempt is counted.  The address
`INTERN@my.xu.edu.ph` ends in `@my.xu.edu.ph` and is not an entry of the
static whitelist (`isUserInWhitelist` provisions it), yet `login` lower-cases
it and succeeds with the intern's password. -/
theorem AuthService.login_unlisted_student_exceptions :
    (∃ s1, AuthService.fresh.login (JsValue.string "random@my.xu.edu.ph")
        (JsValue.string "   ") 1000 1100 "a" =
      Except.ok ({ success := false, message := "Email and password are required",
                   errorCode := some "MISSING_CREDENTIALS" }, s1) ∧
      s1.loginAttempts = []) ∧
    (∀ u ∈ authorizedUsers, u.email ≠ some "random@my.xu.edu.ph" ∧
      u.email ≠ some "INTERN@my.xu.edu.ph") ∧
    jsEndsWith "INTERN@my.xu.edu.ph" "@my.xu.edu.ph" = true ∧
    AuthService.isUserInWhitelist (JsValue.string "INTERN@my.xu.edu.ph") =
      some { email := some "INTERN@my.xu.edu.ph", role := some "StudentAssistant",
             password := none } ∧
    (∃ r s1, AuthService.fresh.login (JsValue.string "INTERN@my.xu.edu.ph")
        (JsValue.string "Intern111!") 1000 1100 "a" = Except.ok (r, s1) ∧
      r.success = true ∧
      r.user = some { email := "intern@my.xu.edu.ph", role := "Intern",
                      permissions := ["read_assigned_requests", "verify_request_data",
                        "view_limited_audit_logs"] }) := by
  refine ⟨⟨_, rfl, rfl⟩, by decide, by decide, by decide, _, _, rfl, by decide, by decide⟩

/-- **C38 (amended).** Take an e-mail whose trimmed, lower-cased form is a
well-formed address that ends in `@my.xu.edu.ph` and is not in the static
whitelist, on a throttle table that records locks only at the threshold.
Then `login` never succeeds, whatever the password.  When the password is not
a non-blank string the answer is `MISSING_CREDENTIALS` and nothing is counted.
Otherwise the provisioned user has a `null` password, which the sanitized
password never equals: the answer is `ACCOUNT_LOCKED` when the account is
locked (which needs five recorded failures) and the table stays as it was, and
`INVALID_PASSWORD` when it is not, and that attempt is counted as one more
failed attempt. -/
theorem AuthService.login_unlisted_student (s : AuthService) (x : String) (password : JsValue)
    (now later : Nat) (rnd : String) (hinv : s.LocksAtThreshold)
    (hwf : emailPatternTest (jsToLowerCase (jsTrim x)) = true)
    (hends : jsEndsWith (jsToLowerCase (jsTrim x)) "@my.xu.edu.ph" = true)
    (hnot : ∀ u ∈ authorizedUsers, u.email ≠ some (jsToLowerCase (jsTrim x))) :
    ∃ r s1, s.login (JsValue.string x) password now later rnd = Except.ok (r, s1) ∧
      r.success = false ∧
      AuthService.isUserInWhitelist (JsValue.string (jsToLowerCase (jsTrim x))) =
        some { email := some (jsToLowerCase (jsTrim x)), role := some "StudentAssistant",
               password := none } ∧
      ((∀ p, password = JsValue.string p → jsTrim p = "") →
        r.errorCode = some "MISSING_CREDENTIALS" ∧ s1.loginAttempts = s.loginAttempts) ∧
      (∀ p, password = JsValue.string p → jsTrim p ≠ "" →
        ((s._isAccountLocked (jsToLowerCase (jsTrim x)) now).1 = true →
          r.errorCode = some "ACCOUNT_LOCKED" ∧ s1.loginAttempts = s.loginAttempts ∧
          s.attemptCount (jsToLowerCase (jsTrim x)) ≥ 5) ∧
        ((s._isAccountLocked (jsToLowerCase (jsTrim x)) now).1 = false →
          r.errorCode = some "INVALID_PASSWORD" ∧
          s1.attemptCount (jsToLowerCase (jsTrim x)) =
            (s._isAccountLocked (jsToLowerCase (jsTrim x)) now).2.attemptCount
              (jsToLowerCase (jsTrim x)) + 1)) := by
  have hdom := AuthService.validateEmailDomain_of_endsWith (jsTrim x) "@my.xu.edu.ph"
    hwf (by decide) hends
  have hwl := (AuthService.isUserInWhitelist_unlisted _ hnot).1 hends
  cases hsan : AuthService._sanitizeLoginInput (JsValue.string x) password with
  | error reason =>
    refine ⟨_, _, by simp only [AuthService.login, hsan]; rfl, rfl, hwl, ?_, ?_⟩
    · intro _
      exact ⟨rfl, rfl⟩
    · intro p hp hne
      subst hp
      rw [AuthService.sanitize_ok x p hwf hne] at hsan
      simp at hsan
  | ok ep =>
    obtain ⟨e, p0⟩ := ep
    have hpw : ∃ p, password = JsValue.string p ∧ jsTrim p ≠ "" ∧ e = jsToLowerCase (jsTrim x) ∧
        p0 = jsTrim p := by
      cases password with
      | string p =>
        by_cases hb : jsTrim p = ""
        · exfalso
          by_cases hp0 : p = ""
          · subst hp0
            simp [AuthService._sanitizeLoginInput, JsValue.truthy] at hsan
          · by_cases hx0 : x = ""
            · subst hx0
              simp [AuthService._sanitizeLoginInput, JsValue.truthy] at hsan
            · simp [AuthService._sanitizeLoginInput, JsValue.truthy, hp0, hx0, hb] at hsan
        · rw [AuthService.sanitize_ok x p hwf hb] at hsan
          simp only [Except.ok.injEq, Prod.mk.injEq] at hsan
          exact ⟨p, rfl, hb, hsan.1.symm, hsan.2.symm⟩
      | undefined => simp [AuthService._sanitizeLoginInput, JsValue.truthy] at hsan
      | null => simp [AuthService._sanitizeLoginInput, JsValue.truthy] at hsan
      | bool b =>
        cases b
        · simp [AuthService._sanitizeLoginInput, JsValue.truthy] at hsan
        · simp only [AuthService._sanitizeLoginInput, JsValue.truthy] at hsan
          split at hsan <;> simp at hsan
      | number n =>
        simp only [AuthService._sanitizeLoginInput, JsValue.truthy] at hsan
        split at hsan <;> simp at hsan
      | object =>
        simp only [AuthService._sanitizeLoginInput, JsValue.truthy] at hsan
        split at hsan <;> simp at hsan
    obtain ⟨p, rfl, hpne, rfl, rfl⟩ := hpw
    cases hlock : s._isAccountLocked (jsToLowerCase (jsTrim x)) now with
    | mk locked s0 =>
      cases locked with
      | true =>
        obtain ⟨rfl, hgetl⟩ := AuthService.isAccountLocked_true_facts s s0 _ now hlock
        obtain ⟨info, hinfo⟩ : ∃ info,
            s0.getLoginAttempts (jsToLowerCase (jsTrim x)) now = (info, s0) :=
          ⟨(s0.getLoginAttempts _ now).1, Prod.ext rfl hgetl⟩
        refine ⟨_, _, by simp only [AuthService.login, hsan, hlock, hinfo, if_true]; rfl,
          rfl, hwl, ?_, ?_⟩
        · intro hall
          exact absurd (hall p rfl) hpne
        · intro p1 hp1 _
          refine ⟨fun _ => ⟨rfl, rfl, ?_⟩, fun hc => by simp at hc⟩
          rcases AuthService.isAccountLocked_cases s0 (jsToLowerCase (jsTrim x)) now with
            ⟨heq, -⟩ | ⟨heq, -⟩
          · rw [heq] at hlock; simp at hlock
          · rw [heq] at hlock
            simp only [Prod.mk.injEq, decide_eq_true_eq, and_true, MAX_LOGIN_ATTEMPTS] at hlock
            exact hlock
      | false =>
        obtain ⟨-, -, -, hrec⟩ :=
          AuthService.isAccountLocked_false_facts s s0 _ now hinv hlock
        have hkeep := AuthService.getLoginAttempts_after_record s0 (jsToLowerCase (jsTrim x))
          "INVALID_PASSWORD" (some (AuthService._generateClientInfo now)) later hrec
        obtain ⟨info, hinfo⟩ : ∃ info,
            (s0._recordFailedAttempt (jsToLowerCase (jsTrim x)) "INVALID_PASSWORD"
              (some (AuthService._generateClientInfo now)) later).getLoginAttempts
                (jsToLowerCase (jsTrim x)) later =
            (info, s0._recordFailedAttempt (jsToLowerCase (jsTrim x)) "INVALID_PASSWORD"
              (some (AuthService._generateClientInfo now)) later) :=
          ⟨_, Prod.ext rfl hkeep⟩
        have hne : ((none : Option String) != some (jsTrim p)) = true := by simp
        refine ⟨_, _, by simp only [AuthService.login, hsan, hlock, hdom, hwl, hne, hinfo,
          Bool.false_eq_true, if_false, Bool.not_true, if_true]; rfl, rfl, hwl, ?_, ?_⟩
        · intro hall
          exact absurd (hall p rfl) hpne
        · intro p1 hp1 _
          refine ⟨fun hc => by simp at hc, fun _ => ⟨rfl, ?_⟩⟩
          obtain ⟨-, -, -, a, hga, hca, -, -⟩ :=
            AuthService.recordFailedAttempt_facts s0 (jsToLowerCase (jsTrim x))
              "INVALID_PASSWORD" (some (AuthService._generateClientInfo now)) later
          simp only [AuthService._logSecurityEvent, AuthService.attemptCount, hga]
          simpa [AuthService.attemptCount] using hca

/-- The unlisted `random@my.xu.edu.ph` with the password `'guess'` on a fresh
service. -/
theorem AuthService.login_unlisted_student_witness :
    AuthService.fresh.LocksAtThreshold ∧
    emailPatternTest (jsToLowerCase (jsTrim "random@my.xu.edu.ph")) = true ∧
    jsEndsWith (jsToLowerCase (jsTrim "random@my.xu.edu.ph")) "@my.xu.edu.ph" = true ∧
    ∃ r s1, AuthService.fresh.login (JsValue.string "random@my.xu.edu.ph")
        (JsValue.string "guess") 1000 1100 "a" = Except.ok (r, s1) ∧
      r.success = false ∧ r.errorCode = some "INVALID_PASSWORD" ∧
      s1.attemptCount "random@my.xu.edu.ph" = 1 := by
  refine ⟨fun _ _ hget => by simp [AuthService.fresh, mapGet] at hget, by decide, by decide, ?_⟩
  obtain ⟨r, s1, h, hs, -, -, hp⟩ :=
    AuthService.login_unlisted_student AuthService.fresh "random@my.xu.edu.ph"
      (JsValue.string "guess") 1000 1100 "a"
      (fun _ _ hget => by simp [AuthService.fresh, mapGet] at hget)
      (by decide) (by decide) (by decide)
  have h2 := (hp "guess" rfl (by decide)).2 (by decide)
  refine ⟨r, s1, h, hs, h2.1, ?_⟩
  have e1 : jsToLowerCase (jsTrim "random@my.xu.edu.ph") = "random@my.xu.edu.ph" := by decide
  rw [e1] at h2
  rw [h2.2]
  decide

/-! ## The two permission tables -/

theorem accessControl_hasPermission_iff (role perm : String) :
    AccessControlService.hasPermission (JsValue.string role) (JsValue.string perm) = true ↔
      ∃ perms, AuthService.getRolePermissions role = Lookup.own perms ∧ perm ∈ perms := by
  have htable : AccessControlService.rolesPermissions = rolesPermissions := by decide
  have hvalid : ∀ kv ∈ rolesPermissions,
      AccessControlService._isValidStringInput (JsValue.string kv.1) = true ∧
      ∀ p ∈ kv.2, AccessControlService._isValidStringInput (JsValue.string p) = true := by
    decide
  cases hl : rolesPermissions.lookup role with
  | some perms =>
    have hmem : (role, perms) ∈ rolesPermissions := mem_of_mapGet _ _ _ hl
    obtain ⟨hr, hp⟩ := hvalid _ hmem
    have hget : AuthService.getRolePermissions role = Lookup.own perms := by
      simp [AuthService.getRolePermissions, lookupProp, hl]
    simp only [hget, Lookup.own.injEq, exists_eq_left']
    constructor
    · intro h
      simp only [AccessControlService.hasPermission, htable, lookupProp, hl, hr] at h
      by_cases hv : AccessControlService._isValidStringInput (JsValue.string perm) = true
      · simpa [hv] using h
      · simp [hv] at h
    · intro h
      have hv := hp perm h
      simp [AccessControlService.hasPermission, htable, lookupProp, hl, hr, hv, h]
  | none =>
    by_cases hk : objectPrototypeKeys.contains role = true
    · have hacc : AccessControlService.hasPermission (JsValue.string role)
          (JsValue.string perm) = false := by
        simp only [AccessControlService.hasPermission, htable, lookupProp, hl, hk, if_true]
        split <;> rfl
      have hget : AuthService.getRolePermissions role = Lookup.inherited := by
        simp only [AuthService.getRolePermissions, lookupProp, hl, hk, if_true]
      rw [hacc, hget]
      simp
    · have hacc : AccessControlService.hasPermission (JsValue.string role)
          (JsValue.string perm) = false := by
        simp only [AccessControlService.hasPermission, htable, lookupProp, hl, hk, if_false]
        split <;> rfl
      have hget : AuthService.getRolePermissions role = Lookup.own [] := by
        simp only [AuthService.getRolePermissions, lookupProp, hl, hk, if_false,
          Bool.false_eq_true]
      rw [hacc, hget]
      simp

/-- **C39.** The role-to-permission table of `AccessControlService` is the
table of `AuthService`, and for every role string and permission string
`AccessControlService.hasPermission(role, permission)` is true exactly when
the permission is a member of `AuthService.getRolePermissions(role)`.  So for
a session stored by `createSession`, the permission check of
`DataEntryService` on the session's role agrees with the permission list kept
in the session. -/
theorem AccessControlService.hasPermission_refines (role perm : String) :
    AccessControlService.rolesPermissions = rolesPermissions ∧
    (AccessControlService.hasPermission (JsValue.string role) (JsValue.string perm) = true ↔
      ∃ perms, AuthService.getRolePermissions role = Lookup.own perms ∧ perm ∈ perms) ∧
    (∀ (s s1 : AuthService) (user : Option User) (now : Nat) (rnd : String) (sess : Session),
      s.createSession user now rnd = Except.ok (some sess, s1) →
      (AccessControlService.hasPermission (JsValue.string sess.role) (JsValue.string perm)
          = true ↔ perm ∈ sess.permissions) ∧
      (DataEntryService._hasCreatePermissions
          { email := sess.email, role := JsValue.string sess.role } = true ↔
        "create_requests" ∈ sess.permissions) ∧
      (DataEntryService._hasUpdateStatusPermissions
          { email := sess.email, role := JsValue.string sess.role } = true ↔
        "update_request_status" ∈ sess.permissions)) := by
  refine ⟨by decide, accessControl_hasPermission_iff role perm, ?_⟩
  intro s s1 user now rnd sess h
  obtain ⟨email, r, pw, perms, -, hperm, -, hsess, -⟩ := AuthService.createSession_some h
  have hrole : sess.role = r := by rw [hsess]
  have hperms : sess.permissions = perms := by rw [hsess]
  have hget : AuthService.getRolePermissions r = Lookup.own perms := by
    simp [AuthService.getRolePermissions, hperm]
  have key : ∀ p : String,
      AccessControlService.hasPermission (JsValue.string sess.role) (JsValue.string p) = true ↔
        p ∈ sess.permissions := by
    intro p
    rw [accessControl_hasPermission_iff, hrole, hperms, hget]
    simp
  exact ⟨key perm, key "create_requests", key "update_request_status"⟩

/-! ## Splitting a tracking code -/

theorem splitChar_ne_nil (sep : Char) (l : List Char) : splitChar sep l ≠ [] := by
  cases l with
  | nil => simp [splitChar]
  | cons c rest =>
    simp only [splitChar]
    split
    · simp
    · split <;> simp

theorem splitChar_no_sep (sep : Char) : ∀ l : List Char, sep ∉ l → splitChar sep l = [l] := by
  intro l
  induction l with
  | nil => intro _; rfl
  | cons c rest ih =>
    intro h
    simp only [List.mem_cons, not_or] at h
    have hc : ¬ c = sep := fun hc => h.1 hc.symm
    simp only [splitChar, hc, if_false, ih h.2]

theorem splitChar_append (sep : Char) (b : List Char) :
    ∀ a : List Char, sep ∉ a → splitChar sep (a ++ sep :: b) = a :: splitChar sep b := by
  intro a
  induction a with
  | nil => intro _; simp [splitChar]
  | cons c rest ih =>
    intro h
    simp only [List.mem_cons, not_or] at h
    have hc : ¬ c = sep := fun hc => h.1 hc.symm
    have e := ih h.2
    show splitChar sep (c :: (rest ++ sep :: b)) = _
    rw [splitChar, if_neg hc, e]

theorem splitChar_singleton (sep : Char) :
    ∀ l b : List Char, splitChar sep l = [b] → l = b ∧ sep ∉ b := by
  intro l
  induction l with
  | nil =>
    intro b h
    simp only [splitChar, List.cons.injEq, and_true] at h
    subst h
    simp
  | cons c rest ih =>
    intro b h
    by_cases hc : c = sep
    · simp only [splitChar, hc, if_true, List.cons.injEq] at h
      exact absurd h.2 (splitChar_ne_nil sep rest)
    · simp only [splitChar, hc, if_false] at h
      cases hs : splitChar sep rest with
      | nil => exact absurd hs (splitChar_ne_nil sep rest)
      | cons hd tl =>
        simp only [hs, List.cons.injEq] at h
        obtain ⟨hb, htl⟩ := h
        subst htl
        obtain ⟨h1, h2⟩ := ih hd hs
        subst hb
        refine ⟨by rw [h1], ?_⟩
        simp only [List.mem_cons, not_or]
        exact ⟨fun hh => hc hh.symm, h2⟩

theorem splitChar_pair (sep : Char) :
    ∀ l a b : List Char, splitChar sep l = [a, b] → l = a ++ sep :: b ∧ sep ∉ a ∧ sep ∉ b := by
  intro l
  induction l with
  | nil =>
    intro a b h
    simp [splitChar] at h
  | cons c rest ih =>
    intro a b h
    by_cases hc : c = sep
    · simp only [splitChar, hc, if_true, List.cons.injEq] at h
      obtain ⟨ha, hrest⟩ := h
      obtain ⟨h1, h2⟩ := splitChar_singleton sep rest b hrest
      subst ha
      subst hc
      exact ⟨by simp [h1], by simp, h2⟩
    · simp only [splitChar, hc, if_false] at h
      cases hs : splitChar sep rest with
      | nil => exact absurd hs (splitChar_ne_nil sep rest)
      | cons hd tl =>
        simp only [hs, List.cons.injEq] at h
        obtain ⟨ha, htl⟩ := h
        subst htl
        obtain ⟨h1, h2, h3⟩ := ih hd b hs
        subst ha
        refine ⟨by simp [h1], ?_, h3⟩
        simp only [List.mem_cons, not_or]
        exact ⟨fun hh => hc hh.symm, h2⟩

theorem alpha_cases (c : Char) (h : c.isAlpha = true) :
    ∃ n, ((65 ≤ n ∧ n ≤ 90) ∨ (97 ≤ n ∧ n ≤ 122)) ∧ c = Char.ofNat n := by
  refine ⟨c.toNat, ?_, (Char.ofNat_toNat c).symm⟩
  simp only [Char.isAlpha, Char.isUpper, Char.isLower, Bool.or_eq_true, Bool.and_eq_true,
    decide_eq_true_eq] at h
  rcases h with ⟨h1, h2⟩ | ⟨h1, h2⟩
  · left
    constructor
    · have := h1; rw [ge_iff_le, UInt32.le_def] at this; simpa using this
    · have := h2; rw [UInt32.le_def] at this; simpa using this
  · right
    constructor
    · have := h1; rw [ge_iff_le, UInt32.le_def] at this; simpa using this
    · have := h2; rw [UInt32.le_def] at this; simpa using this

/-- What an ASCII letter is not. -/
theorem alpha_facts (c : Char) (h : c.isAlpha = true) :
    c ≠ '_' ∧ isDigitChar c = false ∧ isJsSpace c = false ∧ ¬ c.val > 0xFFFF := by
  obtain ⟨n, hn, rfl⟩ := alpha_cases c h
  rcases hn with ⟨h1, h2⟩ | ⟨h1, h2⟩ <;> interval_cases n <;> decide

theorem digit_facts2 (c : Char) (h : isDigitChar c = true) :
    c ≠ '_' ∧ c.isAlpha = false ∧ ¬ c.val > 0xFFFF := by
  have := digit_cases c h
  simp only [List.mem_cons, List.mem_singleton, List.not_mem_nil, or_false] at this
  rcases this with rfl | rfl | rfl | rfl | rfl | rfl | rfl | rfl | rfl | rfl <;> decide

theorem jsLength_eq_length (l : List Char) (h : ∀ c ∈ l, ¬ c.val > 0xFFFF) :
    jsLength ⟨l⟩ = l.length := by
  simp only [jsLength]
  induction l with
  | nil => rfl
  | cons c rest ih =>
    have hc := h c (List.mem_cons_self _ _)
    simp only [List.map_cons, List.sum_cons, hc, if_false, List.length_cons,
      ih (fun x hx => h x (List.mem_cons_of_mem _ hx))]
    omega

theorem length_le_jsLength (l : List Char) : l.length ≤ jsLength ⟨l⟩ := by
  simp only [jsLength]
  induction l with
  | nil => simp
  | cons c rest ih =>
    simp only [List.map_cons, List.sum_cons, List.length_cons]
    split <;> omega

namespace SearchService

/-- The shape `isValidFormat` accepts: at least two ASCII letters, one
underscore, at least two decimal digits. -/
theorem isValidFormat_iff (c : String) :
    isValidFormat (JsValue.string c) = true ↔
      ∃ letters digits : List Char,
        (jsTrim c).data = letters ++ '_' :: digits ∧
        2 ≤ letters.length ∧ (∀ x ∈ letters, x.isAlpha = true) ∧
        2 ≤ digits.length ∧ (∀ x ∈ digits, isDigitChar x = true) := by
  constructor
  · intro h
    simp only [isValidFormat] at h
    split at h
    · exact absurd h (by simp)
    · split at h
      · exact absurd h (by simp)
      · split at h
        · rename_i surname controlNumber heq
          obtain ⟨hd, -, -⟩ := splitChar_pair '_' _ _ _ heq
          split at h
          · exact absurd h (by simp)
          · rename_i hs1
            split at h
            · exact absurd h (by simp)
            · rename_i hs2
              split at h
              · exact absurd h (by simp)
              · rename_i hc1
                split at h
                · exact absurd h (by simp)
                · rename_i hc2
                  simp only [Bool.or_eq_true, decide_eq_true_eq, not_or, not_lt] at hs1 hc1
                  simp only [Bool.not_eq_true', Bool.not_eq_false, List.all_eq_true] at hs2 hc2
                  refine ⟨surname, controlNumber, hd, ?_, hs2, ?_, hc2⟩
                  · rw [← jsLength_eq_length surname (fun x hx => (alpha_facts x (hs2 x hx)).2.2.2)]
                    exact hs1.2
                  · rw [← jsLength_eq_length controlNumber
                      (fun x hx => (digit_facts2 x (hc2 x hx)).2.2)]
                    exact hc1.2
        · exact absurd h (by simp)
  · rintro ⟨letters, digits, hd, hl, hla, hdl, hda⟩
    have hnl : '_' ∉ letters := fun hm => (alpha_facts _ (hla _ hm)).1 rfl
    have hnd : '_' ∉ digits := fun hm => (digit_facts2 _ (hda _ hm)).1 rfl
    have hne : jsTrim c ≠ "" := by
      intro he
      rw [he] at hd
      cases letters <;> simp at hd
    have hfl : letters.filter (fun ch => ch == '_') = [] := by
      rw [List.filter_eq_nil_iff]
      intro x hx
      simp only [beq_iff_eq]
      exact (alpha_facts x (hla x hx)).1
    have hfd : digits.filter (fun ch => ch == '_') = [] := by
      rw [List.filter_eq_nil_iff]
      intro x hx
      simp only [beq_iff_eq]
      exact (digit_facts2 x (hda x hx)).1
    have hcount : ((jsTrim c).data.filter (fun ch => ch == '_')).length = 1 := by
      rw [hd, List.filter_append, hfl]
      simp [List.filter_cons, hfd]
    have hsplit : splitChar '_' (jsTrim c).data = [letters, digits] := by
      rw [hd, splitChar_append '_' digits letters hnl, splitChar_no_sep '_' digits hnd]
    have hjl : jsLength ⟨letters⟩ = letters.length :=
      jsLength_eq_length letters (fun x hx => (alpha_facts x (hla x hx)).2.2.2)
    have hjd : jsLength ⟨digits⟩ = digits.length :=
      jsLength_eq_length digits (fun x hx => (digit_facts2 x (hda x hx)).2.2)
    have hle : letters.isEmpty = false := by cases letters <;> simp at hl ⊢
    have hde : digits.isEmpty = false := by cases digits <;> simp at hdl ⊢
    have hla2 : letters.all Char.isAlpha = true := by simpa [List.all_eq_true] using hla
    have hda2 : digits.all isDigitChar = true := by simpa [List.all_eq_true] using hda
    have h1 : ¬ jsLength ⟨letters⟩ < 2 := by omega
    have h2 : ¬ jsLength ⟨digits⟩ < 2 := by omega
    simp only [isValidFormat, hne, if_false, hcount, ne_eq, not_true_eq_false, hsplit, hle, hde,
      hla2, hda2, h1, h2, decide_False, Bool.or_self, Bool.not_true, Bool.false_eq_true]

/-- A value that is not a string does not have the format. -/
theorem isValidFormat_non_string (v : JsValue) (h : ∀ s, v ≠ JsValue.string s) :
    isValidFormat v = false := by
  cases v with
  | string s => exact absurd rfl (h s)
  | _ => rfl

end SearchService

namespace SearchService

theorem isValidFormat_jsTrim (t : String) :
    isValidFormat (JsValue.string (jsTrim t)) = isValidFormat (JsValue.string t) := by
  simp only [isValidFormat, jsTrim_idem]

/-- **C34.** The function `isValidFormat` is true exactly when the trimmed code
is at least two ASCII letters, then one underscore, then at least two decimal
digits (and it is false for a value that is not a string). The function
`searchTrackingCode` answers `'Invalid tracking code format'` for a value that
is not a string, for empty or white-space-only input, and for every input that
`isValidFormat` rejects and that `hasMultipleValidCodes` does not take for
several codes; the rejected inputs of the input-format tests are instances. -/
theorem searchTrackingCode_format :
    (∀ c : String, isValidFormat (JsValue.string c) = true ↔
      ∃ letters digits : List Char,
        (jsTrim c).data = letters ++ '_' :: digits ∧
        2 ≤ letters.length ∧ (∀ x ∈ letters, x.isAlpha = true) ∧
        2 ≤ digits.length ∧ (∀ x ∈ digits, isDigitChar x = true)) ∧
    (∀ v : JsValue, (∀ s, v ≠ JsValue.string s) →
      isValidFormat v = false ∧
      (searchTrackingCode v).success = false ∧
      (searchTrackingCode v).error = some "Invalid tracking code format") ∧
    (∀ t : String, jsTrim t = "" →
      (searchTrackingCode (JsValue.string t)).success = false ∧
      (searchTrackingCode (JsValue.string t)).error = some "Invalid tracking code format" ∧
      (searchTrackingCode (JsValue.string t)).data = Lookup.absent) ∧
    (∀ t : String, isValidFormat (JsValue.string t) = false →
      hasMultipleValidCodes (jsTrim t) = false →
      (searchTrackingCode (JsValue.string t)).success = false ∧
      (searchTrackingCode (JsValue.string t)).error = some "Invalid tracking code format" ∧
      (searchTrackingCode (JsValue.string t)).data = Lookup.absent) ∧
    (∀ t ∈ ["", "   ", "\t", "\n", "  \t\n  ",
        "_12345", "ERASMO_", "ERASMO12345", "_",
        "ERAS123_12345", "123SANTOS_67890", "ERAS-MO_12345", "SANT@S_67890",
        "GARC.IA_98765", "ERAS MO_12345", "ERAS#MO_12345",
        "ERASMO_123ABC", "SANTOS_ABC123", "GARCIA_12-45", "LOPEZ_12@45",
        "SMITH_12 45", "BROWN_12.45",
        "ERASMO-12345", "SANTOS.67890", "GARCIA:98765", "LOPEZ|11111",
        "SMITH 12345", "BROWN+12345",
        "ERASMO__12345", "SANTOS_678_90", "GAR_CIA_98765", "_ERASMO_12345",
        "ERASMO_12345_",
        "A_1", "A_12345", "AB_1",
        "12345", "67890", "ERASMO", "SANTOS", "ABC", "123",
        "ERASMO_12345!", "SANTOS_67890?", "GARCIA_98765#", "LOPEZ_11111@",
        "SMITH_22222$", "BROWN_33333%", "JONES_44444*", "DAVIS_55555+",
        "WILSON_66666="],
      (searchTrackingCode (JsValue.string t)).success = false ∧
      (searchTrackingCode (JsValue.string t)).error = some "Invalid tracking code format") ∧
    isValidFormat (JsValue.string "  Erasmo_12345 ") = true ∧
    isValidFormat (JsValue.string "AB_12") = true := by
  refine ⟨isValidFormat_iff, ?_, ?_, ?_, by decide, by decide, by decide⟩
  · intro v hv
    refine ⟨isValidFormat_non_string v hv, ?_⟩
    cases v with
    | string s => exact absurd rfl (hv s)
    | _ => exact ⟨rfl, rfl⟩
  · intro t ht
    simp only [searchTrackingCode, ht, Bool.or_true, if_true, decide_True, and_self]
  · intro t hf hm
    by_cases hb : (t = "" || jsTrim t = "") = true
    · simp only [searchTrackingCode, hb, if_true, and_self]
    · simp only [searchTrackingCode, hb, if_false, hm, isValidFormat_jsTrim, hf, Bool.not_false,
        if_true, Bool.false_eq_true, and_self]

end SearchService

/-! ## Upper-casing a tracking code -/

theorem char_toUpper_eq_iff (sep c : Char) (hsep : sep.isAlpha = false) :
    c.toUpper = sep ↔ c = sep := by
  rcases char_toUpper_cases c with ⟨h, -⟩ | ⟨n, ha, hb, rfl, h⟩
  · rw [h]
  · have h1 : (Char.ofNat n).isAlpha = true := by interval_cases n <;> rfl
    have h2 : (Char.ofNat (n - 32)).isAlpha = true := by interval_cases n <;> rfl
    rw [h]
    constructor
    · intro he
      rw [he, hsep] at h2
      exact absurd h2 (by simp)
    · intro he
      rw [he, hsep] at h1
      exact absurd h1 (by simp)

theorem isAlpha_toUpper (c : Char) : c.toUpper.isAlpha = c.isAlpha := by
  rcases char_toUpper_cases c with ⟨h, -⟩ | ⟨n, ha, hb, rfl, h⟩
  · rw [h]
  · rw [h]; interval_cases n <;> rfl

theorem isDigitChar_toUpper (c : Char) : isDigitChar c.toUpper = isDigitChar c := by
  rcases char_toUpper_cases c with ⟨h, -⟩ | ⟨n, ha, hb, rfl, h⟩
  · rw [h]
  · rw [h]; interval_cases n <;> rfl

theorem splitChar_map_toUpper (sep : Char) (hsep : sep.isAlpha = false) :
    ∀ l : List Char,
      splitChar sep (l.map Char.toUpper) = (splitChar sep l).map (List.map Char.toUpper) := by
  intro l
  induction l with
  | nil => rfl
  | cons c rest ih =>
    by_cases hc : c = sep
    · have hc2 : c.toUpper = sep := (char_toUpper_eq_iff sep c hsep).mpr hc
      subst hc
      simp only [List.map_cons, splitChar, hc2, if_true, ih, List.map_nil]
    · have hc2 : ¬ c.toUpper = sep := fun h => hc ((char_toUpper_eq_iff sep c hsep).mp h)
      simp only [List.map_cons, splitChar, hc, hc2, if_false, ih]
      cases hs : splitChar sep rest with
      | nil => exact absurd hs (splitChar_ne_nil sep rest)
      | cons hd tl => simp

theorem splitSpaces_nil : splitSpaces [] = [[]] := rfl

theorem splitSpaces_cons (c : Char) (rest : List Char) :
    splitSpaces (c :: rest) =
      if isJsSpace c then
        match rest with
        | d :: _ => if isJsSpace d then splitSpaces rest else [] :: splitSpaces rest
        | [] => [] :: splitSpaces rest
      else
        match splitSpaces rest with
        | hd :: tl => (c :: hd) :: tl
        | [] => [[c]] := by
  cases rest <;> rfl

theorem splitSpaces_ne_nil : ∀ l : List Char, splitSpaces l ≠ [] := by
  intro l
  induction l with
  | nil => rw [splitSpaces_nil]; simp
  | cons c rest ih =>
    rw [splitSpaces_cons]
    by_cases hc : isJsSpace c = true
    · rw [if_pos hc]
      cases rest with
      | nil => simp
      | cons d rest2 =>
        by_cases hd : isJsSpace d = true
        · simp only [hd, if_true]
          exact ih
        · simp [hd]
    · rw [if_neg hc]
      cases hs : splitSpaces rest with
      | nil => exact absurd hs ih
      | cons hd tl => simp

theorem splitSpaces_map_toUpper :
    ∀ l : List Char,
      splitSpaces (l.map Char.toUpper) = (splitSpaces l).map (List.map Char.toUpper) := by
  intro l
  induction l with
  | nil => rfl
  | cons c rest ih =>
    rw [List.map_cons, splitSpaces_cons, splitSpaces_cons, isJsSpace_toUpper, ih]
    by_cases hc : isJsSpace c = true
    · rw [if_pos hc, if_pos hc]
      cases rest with
      | nil => rfl
      | cons d rest2 =>
        rw [← ih]
        simp only [List.map_cons, isJsSpace_toUpper]
        rw [List.map_cons] at ih
        by_cases hd : isJsSpace d = true
        · simp only [hd, if_true]
          exact ih
        · simp only [hd, if_false, List.map_cons, List.map_nil, Bool.false_eq_true]
          rw [ih]
    · rw [if_neg hc, if_neg hc]
      cases hs : splitSpaces rest with
      | nil => exact absurd hs (splitSpaces_ne_nil rest)
      | cons hd tl => simp

theorem validCodePatternTest_toUpper (part : List Char) :
    validCodePatternTest (part.map Char.toUpper) = validCodePatternTest part := by
  have hcomp : (isDigitChar ∘ Char.toUpper) = isDigitChar := funext isDigitChar_toUpper
  simp only [validCodePatternTest, ← List.map_reverse, List.takeWhile_map, List.dropWhile_map,
    hcomp]
  cases hdw : List.dropWhile isDigitChar part.reverse with
  | nil => rfl
  | cons d before =>
    by_cases hd : d = '_'
    · subst hd
      have hu : '_'.toUpper = '_' := rfl
      simp only [List.map_cons, hu, List.isEmpty_eq_true, List.map_eq_nil_iff, List.all_map]
      have hfun : ((fun c : Char => c.isAlpha || c == '_') ∘ Char.toUpper) =
          (fun c : Char => c.isAlpha || c == '_') := by
        funext c
        have := char_toUpper_eq_iff '_' c rfl
        simp only [Function.comp, isAlpha_toUpper]
        congr 1
        rw [Bool.eq_iff_iff]
        simpa using this
      have hemp : ∀ l : List Char, (l.map Char.toUpper).isEmpty = l.isEmpty := by
        intro l; cases l <;> rfl
      rw [hfun, hemp, hemp]
    · have hd2 : ¬ d.toUpper = '_' := fun h => hd ((char_toUpper_eq_iff '_' d rfl).mp h)
      simp only [List.map_cons]
      split
      · rename_i heq
        simp only [List.cons.injEq] at heq
        exact absurd heq.1 hd2
      · split
        · rename_i heq
          simp only [List.cons.injEq] at heq
          exact absurd heq.1 hd
        · rfl

theorem contains_map_toUpper (sep : Char) (hsep : sep.isAlpha = false) :
    ∀ l : List Char, (l.map Char.toUpper).contains sep = l.contains sep := by
  intro l
  induction l with
  | nil => rfl
  | cons c rest ih =>
    have h : (sep == c.toUpper) = (sep == c) := by
      rw [Bool.eq_iff_iff, beq_iff_eq, beq_iff_eq, eq_comm, char_toUpper_eq_iff sep c hsep,
        eq_comm]
    simp only [List.map_cons, List.contains_cons, ih, h]

theorem filter_validCode_map (parts : List (List Char)) :
    ((parts.map (List.map Char.toUpper)).filter validCodePatternTest).length =
      (parts.filter validCodePatternTest).length := by
  have h : (validCodePatternTest ∘ List.map Char.toUpper) = validCodePatternTest :=
    funext validCodePatternTest_toUpper
  rw [List.filter_map, h, List.length_map]

theorem filter_nonempty_map (parts : List (List Char)) :
    (parts.map (List.map Char.toUpper)).filter (fun part => decide (part.length > 0)) =
      (parts.filter (fun part => decide (part.length > 0))).map (List.map Char.toUpper) := by
  have h : ((fun part : List Char => decide (part.length > 0)) ∘ List.map Char.toUpper) =
      (fun part : List Char => decide (part.length > 0)) := by
    funext part
    simp only [Function.comp, List.length_map]
  rw [List.filter_map, h]

namespace SearchService

theorem separatedParts_toUpper (sep : Char) (hsep : sep.isAlpha = false) (t : String) :
    separatedParts sep (jsToUpperCase t) =
      (separatedParts sep t).map (List.map Char.toUpper) := by
  have h : ∀ parts : List (List Char),
      (parts.map (List.map Char.toUpper)).map trimChars =
        (parts.map trimChars).map (List.map Char.toUpper) := by
    intro parts
    simp only [List.map_map]
    apply List.map_congr_left
    intro part _
    exact trimChars_map _ isJsSpace_toUpper part
  simp only [separatedParts, jsToUpperCase, splitChar_map_toUpper sep hsep, h,
    filter_nonempty_map]

theorem multipleWithSeparator_toUpper (sep : Char) (hsep : sep.isAlpha = false) (t : String) :
    multipleWithSeparator (jsToUpperCase t) sep = multipleWithSeparator t sep := by
  simp only [multipleWithSeparator, separatedParts_toUpper sep hsep, filter_validCode_map,
    List.length_map]
  simp only [jsToUpperCase, contains_map_toUpper sep hsep]

theorem hasMultipleValidCodes_toUpper (t : String) :
    hasMultipleValidCodes (jsToUpperCase t) = hasMultipleValidCodes t := by
  simp only [hasMultipleValidCodes, List.any_cons, List.any_nil,
    multipleWithSeparator_toUpper ',' rfl, multipleWithSeparator_toUpper ';' rfl,
    multipleWithSeparator_toUpper '\n' rfl, multipleWithSeparator_toUpper '|' rfl,
    multipleWithSeparator_toUpper '&' rfl]
  simp only [jsToUpperCase, splitSpaces_map_toUpper, filter_nonempty_map, filter_validCode_map,
    List.length_map]

theorem isValidFormat_toUpper (t : String) :
    isValidFormat (JsValue.string (jsToUpperCase t)) = isValidFormat (JsValue.string t) := by
  rw [Bool.eq_iff_iff, isValidFormat_iff, isValidFormat_iff, jsTrim_toUpper]
  constructor
  · rintro ⟨letters, digits, hd, hl, hla, hdl, hda⟩
    simp only [jsToUpperCase] at hd
    obtain ⟨l1, l2, hsplit, h1, h2⟩ := List.map_eq_append_iff.mp hd
    obtain ⟨c, l3, hl2, hc, h3⟩ := List.map_eq_cons_iff.mp h2
    have hc2 : c = '_' := (char_toUpper_eq_iff '_' c rfl).mp hc
    refine ⟨l1, l3, by rw [hsplit, hl2, hc2], ?_, ?_, ?_, ?_⟩
    · rw [← h1, List.length_map] at hl; exact hl
    · intro x hx
      rw [← isAlpha_toUpper]
      exact hla _ (by rw [← h1]; exact List.mem_map_of_mem _ hx)
    · rw [← h3, List.length_map] at hdl; exact hdl
    · intro x hx
      rw [← isDigitChar_toUpper]
      exact hda _ (by rw [← h3]; exact List.mem_map_of_mem _ hx)
  · rintro ⟨letters, digits, hd, hl, hla, hdl, hda⟩
    refine ⟨letters.map Char.toUpper, digits.map Char.toUpper, ?_, ?_, ?_, ?_, ?_⟩
    · simp only [jsToUpperCase, hd, List.map_append, List.map_cons]
      rfl
    · rw [List.length_map]; exact hl
    · intro x hx
      obtain ⟨y, hy, rfl⟩ := List.mem_map.mp hx
      rw [isAlpha_toUpper]; exact hla y hy
    · rw [List.length_map]; exact hdl
    · intro x hx
      obtain ⟨y, hy, rfl⟩ := List.mem_map.mp hx
      rw [isDigitChar_toUpper]; exact hda y hy

/-- Every stored record is filed under its own tracking code, which is its
surname, an underscore and its control number. -/
theorem sampleData_lookup (k : String) (v : TrackingRecord)
    (h : SAMPLE_DATA.lookup k = some v) :
    v.trackingCode = k ∧ v.trackingCode = v.surname ++ "_" ++ v.controlNumber := by
  simp only [SAMPLE_DATA, List.lookup] at h
  split at h
  · rename_i hk
    simp only [Option.some.injEq] at h
    subst h
    exact ⟨(beq_iff_eq.mp hk).symm, by decide⟩
  · split at h
    · rename_i hk
      simp only [Option.some.injEq] at h
      subst h
      exact ⟨(beq_iff_eq.mp hk).symm, by decide⟩
    · split at h
      · rename_i hk
        simp only [Option.some.injEq] at h
        subst h
        exact ⟨(beq_iff_eq.mp hk).symm, by decide⟩
      · exact absurd h (by simp)

/-- A code of the valid format is not the name of a property that every
object inherits: it holds a digit. -/
theorem validFormat_not_inherited (t : String)
    (h : isValidFormat (JsValue.string t) = true) :
    objectPrototypeKeys.contains (jsToUpperCase (jsTrim t)) = false := by
  obtain ⟨letters, digits, hd, hl, hla, hdl, hda⟩ := (isValidFormat_iff t).mp h
  have hany : (jsToUpperCase (jsTrim t)).data.any isDigitChar = true := by
    simp only [jsToUpperCase, hd, List.map_append, List.map_cons, List.any_append, List.any_cons,
      List.any_map]
    cases digits with
    | nil => simp at hdl
    | cons d ds =>
      have := hda d (List.mem_cons_self _ _)
      simp [Function.comp, isDigitChar_toUpper, this]
  cases hcon : objectPrototypeKeys.contains (jsToUpperCase (jsTrim t)) with
  | false => rfl
  | true =>
    have hmem : jsToUpperCase (jsTrim t) ∈ objectPrototypeKeys := by
      simpa using hcon
    have hall : ∀ k ∈ objectPrototypeKeys, k.data.any isDigitChar = false := by decide
    rw [hall _ hmem] at hany
    exact absurd hany (by simp)

end SearchService

namespace SearchService

/-- Two inputs that pass the checks and have the same upper-cased trimmed
code get the same outcome, up to the message. -/
theorem searchTrackingCode_of_same_code (t u : String)
    (hbt : (t = "" || jsTrim t = "") = false) (hbu : (u = "" || jsTrim u = "") = false)
    (hmt : hasMultipleValidCodes (jsTrim t) = false)
    (hmu : hasMultipleValidCodes (jsTrim u) = false)
    (hft : isValidFormat (JsValue.string (jsTrim t)) = true)
    (hfu : isValidFormat (JsValue.string (jsTrim u)) = true)
    (heq : jsToUpperCase (jsTrim u) = jsToUpperCase (jsTrim t)) :
    (searchTrackingCode (JsValue.string t)).success =
        (searchTrackingCode (JsValue.string u)).success ∧
      (searchTrackingCode (JsValue.string t)).error =
        (searchTrackingCode (JsValue.string u)).error ∧
      (searchTrackingCode (JsValue.string t)).data =
        (searchTrackingCode (JsValue.string u)).data := by
  simp only [searchTrackingCode, hbt, hbu, hmt, hmu, hft, hfu, heq, Bool.false_eq_true,
    if_false, Bool.not_true]
  split
  · exact ⟨rfl, rfl, rfl⟩
  · split <;> exact ⟨rfl, rfl, rfl⟩

/-- A successful search returns the stored record filed under the upper-cased
trimmed input. -/
theorem searchTrackingCode_success (t : String)
    (h : (searchTrackingCode (JsValue.string t)).success = true) :
    ∃ r : TrackingRecord,
      (searchTrackingCode (JsValue.string t)).data = Lookup.own r ∧
      SAMPLE_DATA.lookup (jsToUpperCase (jsTrim t)) = some r ∧
      isValidFormat (JsValue.string t) = true := by
  by_cases hb : (t = "" || jsTrim t = "") = true
  · simp only [searchTrackingCode, hb, if_true] at h
    exact absurd h (by simp)
  · by_cases hm : hasMultipleValidCodes (jsTrim t) = true
    · simp only [searchTrackingCode, hb, hm, if_true, if_false] at h
      exact absurd h (by simp)
    · by_cases hf : isValidFormat (JsValue.string (jsTrim t)) = true
      · have hni := validFormat_not_inherited t (by rw [← isValidFormat_jsTrim]; exact hf)
        cases hl : SAMPLE_DATA.lookup (jsToUpperCase (jsTrim t)) with
        | none =>
          have hlp : lookupProp SAMPLE_DATA (jsToUpperCase (jsTrim t)) = Lookup.absent := by
            simp only [lookupProp, hl, hni, Bool.false_eq_true, if_false]
          simp only [searchTrackingCode, hb, hm, hf, if_false, Bool.not_true, Bool.false_eq_true,
            hlp] at h
          split at h <;> exact absurd h (by simp)
        | some r =>
          have hlp : lookupProp SAMPLE_DATA (jsToUpperCase (jsTrim t)) = Lookup.own r := by
            simp only [lookupProp, hl]
          refine ⟨r, ?_, rfl, by rw [← isValidFormat_jsTrim]; exact hf⟩
          simp only [searchTrackingCode, hb, hm, hf, if_false, Bool.not_true, Bool.false_eq_true,
            hlp] at h ⊢
          split
          · rename_i hmis
            simp only [hmis, if_true] at h
            exact absurd h (by simp)
          · rfl
      · simp only [searchTrackingCode, hb, hm, hf, if_false, Bool.not_false, if_true] at h
        exact absurd h (by simp)

/-- **C35 (counterexample).** The input `'eraſmo_12345'` (with the long s,
U+017F) is answered `'Invalid tracking code format'`, because `/^[A-Z]+$/i`
without the `u` flag matches ASCII letters only; its `toUpperCase()` is
`'ERASMO_12345'` (the long s upper-cases to `S`), which is found. Likewise
`'ß_12345'` is answered `'Invalid tracking code format'` while its
`toUpperCase()`, `'SS_12345'`, is answered `'Surname mismatch'`. -/
theorem searchTrackingCode_not_unicode_case_insensitive :
    (searchTrackingCode (JsValue.string "eraſmo_12345")).success = false ∧
    (searchTrackingCode (JsValue.string "eraſmo_12345")).error =
      some "Invalid tracking code format" ∧
    (searchTrackingCode (JsValue.string "ERASMO_12345")).success = true ∧
    (searchTrackingCode (JsValue.string "ERASMO_12345")).error = none ∧
    (searchTrackingCode (JsValue.string "ß_12345")).error =
      some "Invalid tracking code format" ∧
    (searchTrackingCode (JsValue.string "SS_12345")).error = some "Surname mismatch" := by
  decide

/-- **C35 (amended).** For every input string, the search of the input and the
search of the input with its letters `a` to `z` upper-cased (which is
`x.toUpperCase()` for every input without a cased character outside ASCII)
have the same success flag, the same error and the same data; when they
succeed the data is a stored record whose tracking code is the upper-cased
trimmed input and is the record's surname, an underscore and its control
number. The three spellings of the test are instances. -/
theorem searchTrackingCode_ascii_case_insensitive :
    (∀ x : String,
      (searchTrackingCode (JsValue.string x)).success =
        (searchTrackingCode (JsValue.string (jsToUpperCase x))).success ∧
      (searchTrackingCode (JsValue.string x)).error =
        (searchTrackingCode (JsValue.string (jsToUpperCase x))).error ∧
      (searchTrackingCode (JsValue.string x)).data =
        (searchTrackingCode (JsValue.string (jsToUpperCase x))).data ∧
      ((searchTrackingCode (JsValue.string x)).success = true →
        ∃ r : TrackingRecord,
          (searchTrackingCode (JsValue.string x)).data = Lookup.own r ∧
          r.trackingCode = jsToUpperCase (jsTrim x) ∧
          r.trackingCode = r.surname ++ "_" ++ r.controlNumber)) ∧
    (∀ x ∈ ["erasmo_12345", "Erasmo_12345", "eRaSmO_12345"],
      jsToUpperCase x = "ERASMO_12345" ∧
      (searchTrackingCode (JsValue.string x)).success = true ∧
      (searchTrackingCode (JsValue.string x)).data =
        lookupProp SAMPLE_DATA "ERASMO_12345") := by
  refine ⟨?_, by decide⟩
  intro x
  have hsucc : (searchTrackingCode (JsValue.string x)).success = true →
      ∃ r : TrackingRecord,
        (searchTrackingCode (JsValue.string x)).data = Lookup.own r ∧
        r.trackingCode = jsToUpperCase (jsTrim x) ∧
        r.trackingCode = r.surname ++ "_" ++ r.controlNumber := by
    intro h
    obtain ⟨r, hr, hl, -⟩ := searchTrackingCode_success x h
    exact ⟨r, hr, (sampleData_lookup _ r hl).1, (sampleData_lookup _ r hl).2⟩
  have hempty : (jsToUpperCase x = "" || jsTrim (jsToUpperCase x) = "") =
      (x = "" || jsTrim x = "") := by
    simp only [jsTrim_toUpper, jsToUpperCase_eq_empty]
  by_cases hb : (x = "" || jsTrim x = "") = true
  · have hb2 := hempty.trans hb
    refine ⟨?_, ?_, ?_, hsucc⟩ <;> simp only [searchTrackingCode, hb, hb2, if_true]
  · simp only [Bool.not_eq_true] at hb
    have hb2 := hempty.trans hb
    by_cases hm : hasMultipleValidCodes (jsTrim x) = true
    · have hm2 : hasMultipleValidCodes (jsTrim (jsToUpperCase x)) = true := by
        rw [jsTrim_toUpper, hasMultipleValidCodes_toUpper]; exact hm
      refine ⟨?_, ?_, ?_, hsucc⟩ <;>
        simp only [searchTrackingCode, hb, hb2, hm, hm2, if_true, if_false, Bool.false_eq_true]
    · simp only [Bool.not_eq_true] at hm
      have hm2 : hasMultipleValidCodes (jsTrim (jsToUpperCase x)) = false := by
        rw [jsTrim_toUpper, hasMultipleValidCodes_toUpper]; exact hm
      by_cases hf : isValidFormat (JsValue.string (jsTrim x)) = true
      · have hf2 : isValidFormat (JsValue.string (jsTrim (jsToUpperCase x))) = true := by
          rw [jsTrim_toUpper, isValidFormat_toUpper]; exact hf
        have heq : jsToUpperCase (jsTrim (jsToUpperCase x)) = jsToUpperCase (jsTrim x) := by
          rw [jsTrim_toUpper, jsToUpperCase_idem]
        obtain ⟨h1, h2, h3⟩ :=
          searchTrackingCode_of_same_code x (jsToUpperCase x) hb hb2 hm hm2 hf hf2 heq
        exact ⟨h1, h2, h3, hsucc⟩
      · simp only [Bool.not_eq_true] at hf
        have hf2 : isValidFormat (JsValue.string (jsTrim (jsToUpperCase x))) = false := by
          rw [jsTrim_toUpper, isValidFormat_toUpper]; exact hf
        refine ⟨?_, ?_, ?_, hsucc⟩ <;>
          simp only [searchTrackingCode, hb, hb2, hm, hm2, hf, hf2, if_true, if_false,
            Bool.false_eq_true, Bool.not_false]

end SearchService

/-! ## Tracking codes of created requests and the tracking search -/

theorem dropWhile_append_singleton (p : Char → Bool) (h : Char) (hp : p h = false) :
    ∀ a : List Char, (a ++ [h]).dropWhile p = a.dropWhile p ++ [h] := by
  intro a
  induction a with
  | nil => simp [List.dropWhile, hp]
  | cons c rest ih =>
    by_cases hc : p c = true
    · simp only [List.cons_append, List.dropWhile_cons, hc, if_true, ih]
    · simp only [List.cons_append, List.dropWhile_cons, hc, if_false, Bool.false_eq_true]

/-- A trimmed text does not start with white space. -/
theorem trimChars_head (l : List Char) (c : Char) (rest : List Char)
    (h : trimChars l = c :: rest) : isJsSpace c = false := by
  simp only [trimChars] at h
  cases hm : l.dropWhile isJsSpace with
  | nil => simp [hm] at h
  | cons x t =>
    have hx : isJsSpace x = false := by
      have := List.head_dropWhile_not isJsSpace l (by rw [hm]; simp)
      simpa [hm] using this
    rw [hm, List.reverse_cons, dropWhile_append_singleton isJsSpace x hx, List.reverse_append] at h
    simp only [List.reverse_cons, List.reverse_nil, List.nil_append, List.singleton_append,
      List.cons.injEq] at h
    rw [← h.1]
    exact hx

/-- A text that neither starts nor ends with white space is its own trim. -/
theorem trimChars_code (name digits : List Char)
    (hname : ∀ c rest, name = c :: rest → isJsSpace c = false)
    (hdigits : ∀ c ∈ digits, isDigitChar c = true) :
    trimChars (name ++ '_' :: digits) = name ++ '_' :: digits := by
  have h1 : (name ++ '_' :: digits).dropWhile isJsSpace = name ++ '_' :: digits := by
    cases name with
    | nil => rfl
    | cons c rest =>
      have := hname c rest rfl
      simp only [List.cons_append, List.dropWhile_cons, this, Bool.false_eq_true, if_false]
  have h2 : (name ++ '_' :: digits).reverse.dropWhile isJsSpace =
      (name ++ '_' :: digits).reverse := by
    rw [List.reverse_append, List.reverse_cons]
    cases hr : digits.reverse with
    | nil => rfl
    | cons d ds =>
      have hd : d ∈ digits := List.mem_reverse.mp (by rw [hr]; exact List.mem_cons_self _ _)
      have := (digit_facts d (hdigits d hd)).1
      simp only [List.cons_append, List.dropWhile_cons, this, Bool.false_eq_true, if_false]
  simp only [trimChars, h1, h2, List.reverse_reverse]

namespace DataEntryService

/-- The tracking code of a created request passes `isValidFormat` exactly when
the sanitized last name is at least two letters. -/
theorem createRequest_trackingCode_format (ds ds1 : DataEntryService)
    (requestData : RequestData) (userSession : UserSession) (now : Nat) (tz : Int)
    (idHex : String) (rand : Nat) (r : Response) (hrand : rand < 2 ^ 53)
    (h : ds.createRequest requestData userSession now tz idHex rand = Except.ok (r, ds1))
    (hs : r.success = true) :
    ∃ (req : Request) (student : StudentRecord),
      r.data = some req ∧
      (validateStudentDetails requestData.studentDetails).sanitizedData = some student ∧
      (SearchService.isValidFormat (JsValue.string req.trackingCode) = true ↔
        2 ≤ student.lastName.data.length ∧ ∀ c ∈ student.lastName.data, c.isAlpha = true) := by
  obtain ⟨r1, r2, r3, r4, o, req, -, hr1, -, -, -, -, ho, hcn, hreq, hr, hds⟩ :=
    createRequest_success ds ds1 requestData userSession now tz idHex rand r h hs
  obtain ⟨digits, hd, hlen, hall⟩ := generateControlNumber_five_digits rand hrand
  refine ⟨req, r1, by rw [hr], hr1, ?_⟩
  -- the sanitized last name is an upper-cased trimmed text
  have hname : ∃ raw : List Char, r1.lastName.data = (trimChars raw).map Char.toUpper := by
    cases hsd : requestData.studentDetails with
    | none => rw [hsd] at hr1; simp [validateStudentDetails] at hr1
    | some d =>
      rw [hsd, validateStudentDetails_some] at hr1
      simp only at hr1
      split at hr1
      · simp only [Option.some.injEq] at hr1
        rw [← hr1]
        simp only [_sanitizeStudentData, _trimStudentData, jsToUpperCase]
        cases hln : d.lastName with
        | none => exact ⟨[], rfl⟩
        | some s =>
          by_cases hse : s = ""
          · exact ⟨[], by simp [trimOrEmpty, hse, trimChars]⟩
          · exact ⟨s.data, by simp [trimOrEmpty, hse, jsTrim]⟩
      · exact absurd hr1 (by simp)
  obtain ⟨raw, hraw⟩ := hname
  have hup : jsToUpperCase r1.lastName = r1.lastName := by
    have : (jsToUpperCase r1.lastName).data = r1.lastName.data := by
      simp only [jsToUpperCase, hraw, List.map_map]
      apply List.map_congr_left
      intro c _
      exact char_toUpper_idem c
    exact String.ext this
  have hhead : ∀ c rest, r1.lastName.data = c :: rest → isJsSpace c = false := by
    intro c rest hc
    rw [hraw] at hc
    obtain ⟨c0, rest0, h0, hc0, -⟩ := List.map_eq_cons_iff.mp hc
    rw [← hc0, isJsSpace_toUpper]
    exact trimChars_head raw c0 rest0 h0
  have hcode : req.trackingCode.data = r1.lastName.data ++ '_' :: digits := by
    rw [hreq]
    simp only [generateTrackingCode, hup, hd, String.data_append]
    simp
  have htrim : (jsTrim req.trackingCode).data = r1.lastName.data ++ '_' :: digits := by
    simp only [jsTrim, hcode]
    exact trimChars_code _ _ hhead hall
  rw [SearchService.isValidFormat_iff, htrim]
  constructor
  · rintro ⟨letters, digits2, heq, hl, hla, -, hda⟩
    have hnl : '_' ∉ letters := fun hm => (alpha_facts _ (hla _ hm)).1 rfl
    have hnd2 : '_' ∉ digits2 := fun hm => (digit_facts2 _ (hda _ hm)).1 rfl
    have hnd : '_' ∉ digits := fun hm => (digit_facts2 _ (hall _ hm)).1 rfl
    have hcount := congrArg (fun l : List Char => (l.filter (fun ch => ch == '_')).length) heq
    have hf1 : letters.filter (fun ch => ch == '_') = [] := by
      rw [List.filter_eq_nil_iff]; intro x hx; simp only [beq_iff_eq]
      exact fun hxe => hnl (hxe ▸ hx)
    have hf2 : digits2.filter (fun ch => ch == '_') = [] := by
      rw [List.filter_eq_nil_iff]; intro x hx; simp only [beq_iff_eq]
      exact fun hxe => hnd2 (hxe ▸ hx)
    have hf3 : digits.filter (fun ch => ch == '_') = [] := by
      rw [List.filter_eq_nil_iff]; intro x hx; simp only [beq_iff_eq]
      exact fun hxe => hnd (hxe ▸ hx)
    simp only [List.filter_append, List.filter_cons, beq_self_eq_true, if_true, hf1, hf2, hf3,
      List.length_append, List.length_cons, List.length_nil] at hcount
    have hnn : '_' ∉ r1.lastName.data := by
      intro hm
      have : (r1.lastName.data.filter (fun ch => ch == '_')) ≠ [] := by
        rw [Ne, List.filter_eq_nil_iff]
        intro hall2
        exact hall2 _ hm (by simp)
      have : 0 < (r1.lastName.data.filter (fun ch => ch == '_')).length :=
        List.length_pos.mpr this
      omega
    have hs1 := splitChar_append '_' digits r1.lastName.data hnn
    have hs2 := splitChar_append '_' digits2 letters hnl
    rw [splitChar_no_sep '_' digits hnd] at hs1
    rw [splitChar_no_sep '_' digits2 hnd2, ← heq, hs1] at hs2
    simp only [List.cons.injEq, and_true] at hs2
    rw [hs2.1]
    exact ⟨hl, hla⟩
  · rintro ⟨hl, hla⟩
    exact ⟨r1.lastName.data, digits, rfl, hl, hla, by omega, hall⟩

end DataEntryService

/-- **C40 (failing input).** The last names `'Dela Cruz'`, `'Santos-Reyes'` and
`'A'` pass `validateStudentDetails`, and the requests created from them get the
tracking codes `'DELA CRUZ_10000'`, `'SANTOS-REYES_10000'` and `'A_10000'`,
which `isValidFormat` of the tracking search rejects, so `searchTrackingCode`
answers `'Invalid tracking code format'` for them; the code `'SANTOS_10000'`
created for `'Santos'` is accepted. In general the tracking code of a created
request passes `isValidFormat` exactly when the sanitized last name is at
least two letters. -/
theorem DataEntryService.createRequest_trackingCode_not_searchable :
    DataEntryService.createdTrackingCode "Dela Cruz" 0 = some "DELA CRUZ_10000" ∧
    SearchService.isValidFormat (JsValue.string "DELA CRUZ_10000") = false ∧
    (SearchService.searchTrackingCode (JsValue.string "DELA CRUZ_10000")).error =
      some "Invalid tracking code format" ∧
    DataEntryService.createdTrackingCode "Santos-Reyes" 0 = some "SANTOS-REYES_10000" ∧
    SearchService.isValidFormat (JsValue.string "SANTOS-REYES_10000") = false ∧
    (SearchService.searchTrackingCode (JsValue.string "SANTOS-REYES_10000")).error =
      some "Invalid tracking code format" ∧
    DataEntryService.createdTrackingCode "A" 0 = some "A_10000" ∧
    SearchService.isValidFormat (JsValue.string "A_10000") = false ∧
    (SearchService.searchTrackingCode (JsValue.string "A_10000")).error =
      some "Invalid tracking code format" ∧
    DataEntryService.createdTrackingCode "Santos" 0 = some "SANTOS_10000" ∧
    SearchService.isValidFormat (JsValue.string "SANTOS_10000") = true ∧
    (∀ (ds ds1 : DataEntryService) (requestData : RequestData) (userSession : UserSession)
      (now : Nat) (tz : Int) (idHex : String) (rand : Nat) (r : Response),
      rand < 2 ^ 53 →
      ds.createRequest requestData userSession now tz idHex rand = Except.ok (r, ds1) →
      r.success = true →
      ∃ (req : Request) (student : StudentRecord),
        r.data = some req ∧
        (DataEntryService.validateStudentDetails requestData.studentDetails).sanitizedData =
          some student ∧
        (SearchService.isValidFormat (JsValue.string req.trackingCode) = true ↔
          2 ≤ student.lastName.data.length ∧
            ∀ c ∈ student.lastName.data, c.isAlpha = true)) := by
  refine ⟨by decide, by decide, by decide, by decide, by decide, by decide, by decide,
    by decide, by decide, by decide, by decide, ?_⟩
  intro ds ds1 requestData userSession now tz idHex rand r hrand h hs
  exact DataEntryService.createRequest_trackingCode_format ds ds1 requestData userSession now tz
    idHex rand r hrand h hs
